import Mathlib

/-! Enclave lifecycle manager of the Docker Kurtosis backend.

A shallow embedding of `docker_kurtosis_backend_enclave_functions.go`.

* Go maps are association lists (`GoMap`); assigning to a present key replaces its value in
  place, assigning to an absent key appends, and `range` walks the list in order.
* The Docker engine is an explicit state (`Docker`) threaded through every call.  Every call to
  the driver appends an `Event` to `Docker.log`, so what a verb issued can be read off the log.
* Whether a driver call fails is decided by a fault plan `Env.fails`, a function of the context
  and of the call.  Within one verb no call is issued twice with the same arguments, so every
  run of the real driver is the run of some fault plan.
* Go `error` values are `GoError`; `stacktrace.Propagate` keeps its cause.
-/

namespace Kurtosis

/-! ## Go maps -/

/-- A Go map as an association list in insertion order. -/
abbrev GoMap (K V : Type) := List (K × V)

namespace GoMap

variable {K V : Type} [DecidableEq K]

/-- The value stored under `k`, as in `v, found := m[k]`. -/
def get? : GoMap K V → K → Option V
  | [], _ => none
  | (k', v) :: m, k => if k' = k then some v else get? m k

/-- Assignment `m[k] = v`. -/
def set : GoMap K V → K → V → GoMap K V
  | [], k, v => [(k, v)]
  | (k', v') :: m, k, v => if k' = k then (k, v) :: m else (k', v') :: set m k v

/-- The keys of the map, in iteration order. -/
def keys (m : GoMap K V) : List K := m.map Prod.fst

end GoMap

/-! ## Errors -/

/-- Go error values: an error returned by the Docker driver (or the standard library), and the
two constructors of the stacktrace library. -/
inductive GoError where
  | driver (msg : String)
  | NewError (msg : String)
  | Propagate (cause : GoError) (msg : String)
  deriving DecidableEq, Repr

/-- The method `Error()`: the message, followed by the chain of causes.  The line
` --- at file:line (function) ---` the stacktrace library prints after the message of every
layer is left out: the text is the messages and their order. -/
def GoError.Error : GoError → String
  | .driver m => m
  | .NewError m => m
  | .Propagate c m => m ++ "\nCaused by: " ++ c.Error

/-- The error a `Propagate` wraps, if any. -/
def GoError.cause : GoError → Option GoError
  | .Propagate c _ => some c
  | _ => none

/-- The `strings.Join` function of the Go standard library. -/
def stringsJoin : List String → String → String
  | [], _ => ""
  | [s], _ => s
  | s :: t :: rest, sep => s ++ sep ++ stringsJoin (t :: rest) sep

/-! ## Data model -/

abbrev EnclaveUUID := String

/-- Docker labels, a `map[string]string`. -/
abbrev Labels := GoMap String String

/-- Modelled from the spec: the label keys and values of `label_key_consts` and
`label_value_consts`, given in the spec as the stable wire format `app-id`, `enclave-uuid`,
`enclave-name`, `creation-time`, `volume-type`, with `app-id=kurtosis` and
`volume-type=enclave-data`. -/
def AppIDDockerLabelKey : String := "app-id"

/-- Modelled from the spec: see `AppIDDockerLabelKey`. -/
def AppIDDockerLabelValue : String := "kurtosis"

/-- Modelled from the spec: see `AppIDDockerLabelKey`. -/
def EnclaveUUIDDockerLabelKey : String := "enclave-uuid"

/-- Modelled from the spec: see `AppIDDockerLabelKey`. -/
def EnclaveNameDockerLabelKey : String := "enclave-name"

/-- Modelled from the spec: see `AppIDDockerLabelKey`. -/
def EnclaveCreationTimeLabelKey : String := "creation-time"

/-- Modelled from the spec: see `AppIDDockerLabelKey`. -/
def VolumeTypeDockerLabelKey : String := "volume-type"

/-- Modelled from the spec: see `AppIDDockerLabelKey`. -/
def EnclaveDataVolumeTypeDockerLabelValue : String := "enclave-data"

/-- An instant: seconds since the Unix epoch and nanoseconds within the second. -/
structure Time where
  sec : Int
  nsec : Nat
  deriving DecidableEq, Repr

/-- The instant cut to whole seconds, the precision of an RFC3339 string. -/
def Time.truncSec (t : Time) : Time := { t with nsec := 0 }

/-- The states Docker reports for a container (`types.ContainerStatus`). -/
inductive ContainerStatus where
  | Paused | Restarting | Running | Removing | Dead | Created | Exited
  deriving DecidableEq, Repr

structure Network where
  id : String
  name : String
  labels : Labels
  deriving DecidableEq, Repr

structure Volume where
  Name : String
  labels : Labels
  deriving DecidableEq, Repr

structure Container where
  id : String
  name : String
  labels : Labels
  status : ContainerStatus
  deriving DecidableEq, Repr

inductive EnclaveStatus where
  | Empty | Running | Stopped
  deriving DecidableEq, Repr

/-- The value built by `enclave.NewEnclave`; a nil creation time is `none`. -/
structure Enclave where
  uuid : EnclaveUUID
  name : String
  status : EnclaveStatus
  creationTime : Option Time
  deriving DecidableEq, Repr

/-- The two sets of `enclave.EnclaveFilters`; a nil map is the empty list. -/
structure EnclaveFilters where
  UUIDs : GoMap EnclaveUUID Bool
  Statuses : GoMap EnclaveStatus Bool
  deriving DecidableEq, Repr

structure matchingNetworkInformation where
  enclaveUuid : EnclaveUUID
  enclaveStatus : EnclaveStatus
  dockerNetwork : Network
  containers : List Container
  deriving DecidableEq, Repr

/-! ## The Docker driver -/

/-- A context: `context.Background()` or one derived by a caller, which may be cancelled. -/
inductive Ctx where
  | background
  | request (n : Nat)
  deriving DecidableEq, Repr

/-- The driver calls the lifecycle verbs issue, with their arguments. -/
inductive Call where
  | GetNetworksByLabels (labels : Labels)
  | GetVolumesByLabels (labels : Labels)
  | GetContainersByLabels (labels : Labels) (shouldShowStoppedContainers : Bool)
  | CreateNewNetwork (name : String) (labels : Labels)
  | CreateVolume (name : String) (labels : Labels)
  | RemoveNetwork (networkId : String)
  | RemoveVolume (volumeName : String)
  | RemoveContainer (containerId : String)
  | KillContainer (containerId : String)
  deriving DecidableEq, Repr

/-- One issued driver call: its context, the call, and the error it returned if it failed. -/
structure Event where
  ctx : Ctx
  call : Call
  err : Option String
  deriving DecidableEq, Repr

/-- The state of the Docker engine, with the log of the calls issued so far. -/
structure Docker where
  networks : List Network
  volumes : List Volume
  containers : List Container
  log : List Event
  deriving DecidableEq, Repr

/-- What the code takes from outside this file: the fault plan of the driver, the id Docker gives
a new network, the clock, the is-running table of package `consts`, and `time.Parse` with the
RFC3339 layout. -/
structure Env where
  fails : Ctx → Call → Option String
  newNetworkId : String → String
  now : Time
  IsContainerRunningDeterminer : ContainerStatus → Option Bool
  timeParseRFC3339 : String → Except String Time

/-- Whether an object carrying `labels` has every label of `search`. -/
def hasLabels (search labels : Labels) : Bool :=
  search.all (fun kv => decide (labels.get? kv.1 = some kv.2))

/-- Append an event to the log. -/
def Docker.emit (d : Docker) (ctx : Ctx) (call : Call) (err : Option String) : Docker :=
  { d with log := d.log ++ [⟨ctx, call, err⟩] }

namespace DockerManager

/-- Modelled from the spec: `networks_by_labels(ctx, labels)` of the substrate driver, absent
from the sources. -/
def GetNetworksByLabels (E : Env) (ctx : Ctx) (labels : Labels) (d : Docker) :
    Except GoError (List Network) × Docker :=
  match E.fails ctx (.GetNetworksByLabels labels) with
  | some msg => (.error (.driver msg), d.emit ctx (.GetNetworksByLabels labels) (some msg))
  | none => (.ok (d.networks.filter (fun n => hasLabels labels n.labels)),
      d.emit ctx (.GetNetworksByLabels labels) none)

/-- Modelled from the spec: `volumes_by_labels(ctx, labels)` of the substrate driver. -/
def GetVolumesByLabels (E : Env) (ctx : Ctx) (labels : Labels) (d : Docker) :
    Except GoError (List Volume) × Docker :=
  match E.fails ctx (.GetVolumesByLabels labels) with
  | some msg => (.error (.driver msg), d.emit ctx (.GetVolumesByLabels labels) (some msg))
  | none => (.ok (d.volumes.filter (fun v => hasLabels labels v.labels)),
      d.emit ctx (.GetVolumesByLabels labels) none)

/-- Modelled from the spec: `containers_by_labels(ctx, labels, include_stopped)` of the substrate
driver; without `include_stopped` only the containers Docker reports as running are listed. -/
def GetContainersByLabels (E : Env) (ctx : Ctx) (labels : Labels)
    (shouldShowStoppedContainers : Bool) (d : Docker) :
    Except GoError (List Container) × Docker :=
  match E.fails ctx (.GetContainersByLabels labels shouldShowStoppedContainers) with
  | some msg => (.error (.driver msg),
      d.emit ctx (.GetContainersByLabels labels shouldShowStoppedContainers) (some msg))
  | none => (.ok (d.containers.filter (fun c => hasLabels labels c.labels &&
        (shouldShowStoppedContainers || decide (c.status = .Running)))),
      d.emit ctx (.GetContainersByLabels labels shouldShowStoppedContainers) none)

/-- Modelled from the spec: `create_network(ctx, name, labels) → network_id`, reached through
`dockerNetworkAllocator.CreateNewNetwork`. -/
def CreateNewNetwork (E : Env) (ctx : Ctx) (name : String) (labels : Labels) (d : Docker) :
    Except GoError String × Docker :=
  match E.fails ctx (.CreateNewNetwork name labels) with
  | some msg => (.error (.driver msg), d.emit ctx (.CreateNewNetwork name labels) (some msg))
  | none => (.ok (E.newNetworkId name),
      { d.emit ctx (.CreateNewNetwork name labels) none with
        networks := d.networks ++ [⟨E.newNetworkId name, name, labels⟩] })

/-- Modelled from the spec: `create_volume(ctx, name, labels)`. -/
def CreateVolume (E : Env) (ctx : Ctx) (name : String) (labels : Labels) (d : Docker) :
    Option GoError × Docker :=
  match E.fails ctx (.CreateVolume name labels) with
  | some msg => (some (.driver msg), d.emit ctx (.CreateVolume name labels) (some msg))
  | none => (none,
      { d.emit ctx (.CreateVolume name labels) none with volumes := d.volumes ++ [⟨name, labels⟩] })

/-- Modelled from the spec: `remove_network(ctx, id)`. -/
def RemoveNetwork (E : Env) (ctx : Ctx) (networkId : String) (d : Docker) :
    Option GoError × Docker :=
  match E.fails ctx (.RemoveNetwork networkId) with
  | some msg => (some (.driver msg), d.emit ctx (.RemoveNetwork networkId) (some msg))
  | none => (none,
      { d.emit ctx (.RemoveNetwork networkId) none with
        networks := d.networks.filter (fun n => decide (n.id ≠ networkId)) })

/-- Modelled from the spec: `remove_volume(ctx, id)`. -/
def RemoveVolume (E : Env) (ctx : Ctx) (volumeName : String) (d : Docker) :
    Option GoError × Docker :=
  match E.fails ctx (.RemoveVolume volumeName) with
  | some msg => (some (.driver msg), d.emit ctx (.RemoveVolume volumeName) (some msg))
  | none => (none,
      { d.emit ctx (.RemoveVolume volumeName) none with
        volumes := d.volumes.filter (fun v => decide (v.Name ≠ volumeName)) })

/-- Modelled from the spec: `remove_container(ctx, id)`. -/
def RemoveContainer (E : Env) (ctx : Ctx) (containerId : String) (d : Docker) :
    Option GoError × Docker :=
  match E.fails ctx (.RemoveContainer containerId) with
  | some msg => (some (.driver msg), d.emit ctx (.RemoveContainer containerId) (some msg))
  | none => (none,
      { d.emit ctx (.RemoveContainer containerId) none with
        containers := d.containers.filter (fun c => decide (c.id ≠ containerId)) })

/-- Modelled from the spec: `kill_container(ctx, id)`; a killed container is reported exited. -/
def KillContainer (E : Env) (ctx : Ctx) (containerId : String) (d : Docker) :
    Option GoError × Docker :=
  match E.fails ctx (.KillContainer containerId) with
  | some msg => (some (.driver msg), d.emit ctx (.KillContainer containerId) (some msg))
  | none => (none,
      { d.emit ctx (.KillContainer containerId) none with
        containers := d.containers.map
          (fun c => if c.id = containerId then { c with status := .Exited } else c) })

end DockerManager

/-- A `DockerOperation`: run on one object id, it returns an error or nil. -/
abbrev DockerOperation := Ctx → String → Docker → Option GoError × Docker

/-- The fan-out of `RunDockerOperationInParallel` over the remaining ids, one after another. -/
def runOperations (ctx : Ctx) (operation : DockerOperation) :
    List (String × Bool) → GoMap String Bool → GoMap String GoError → Docker →
    (GoMap String Bool × GoMap String GoError) × Docker
  | [], successful, errored, d => ((successful, errored), d)
  | (dockerObjectId, _) :: rest, successful, errored, d =>
    match operation ctx dockerObjectId d with
    | (none, d') => runOperations ctx operation rest (successful.set dockerObjectId true) errored d'
    | (some err, d') => runOperations ctx operation rest successful (errored.set dockerObjectId err) d'

/-- Modelled from the spec: `run_in_parallel(ctx, id_set, op) → (successful_ids,
errored_ids_to_error)` of package `docker_operation_parallelizer`, absent from the sources: the
operation runs once on every id of the set, and each id lands in exactly one of the two
results.  The runs are taken in the order of the set. -/
def RunDockerOperationInParallel (ctx : Ctx) (dockerObjectIds : GoMap String Bool)
    (operation : DockerOperation) (d : Docker) :
    (GoMap String Bool × GoMap String GoError) × Docker :=
  runOperations ctx operation dockerObjectIds [] [] d

/-! ## Rendering of `%+v` arguments in messages -/

/-- The text `fmt` prints for a `map[string]string`. -/
def fmtLabels (labels : Labels) : String :=
  "map[" ++ stringsJoin (labels.map (fun kv => kv.1 ++ ":" ++ kv.2)) " " ++ "]"

/-- The text `fmt` prints for a set of enclave UUIDs.  The keys are printed in the order of
the list, where `fmt` prints the keys of a map sorted. -/
def fmtUuidSet (uuids : GoMap EnclaveUUID Bool) : String :=
  "map[" ++ stringsJoin (uuids.map (fun kv => kv.1 ++ ":" ++ toString kv.2)) " " ++ "]"

/-- The text `fmt` prints for an enclave status. -/
def fmtStatus : EnclaveStatus → String
  | .Empty => "EMPTY"
  | .Running => "RUNNING"
  | .Stopped => "STOPPED"

/-- The text `fmt` prints for the filters. -/
def fmtFilters (filters : EnclaveFilters) : String :=
  "&\x7bUUIDs:" ++ fmtUuidSet filters.UUIDs ++ " Statuses:map[" ++
    stringsJoin (filters.Statuses.map (fun kv => fmtStatus kv.1 ++ ":" ++ toString kv.2)) " " ++ "]\x7d"

/-- The text `fmt` prints for a network. -/
def fmtNetwork (network : Network) : String :=
  "&\x7bname:" ++ network.name ++ " id:" ++ network.id ++ " labels:" ++ fmtLabels network.labels ++ "\x7d"

/-- The method `String()` of a container status. -/
def ContainerStatus.String : ContainerStatus → String
  | .Paused => "PAUSED"
  | .Restarting => "RESTARTING"
  | .Running => "RUNNING"
  | .Removing => "REMOVING"
  | .Dead => "DEAD"
  | .Created => "CREATED"
  | .Exited => "EXITED"

/-! ## The backend -/

/-- The name and labels an attributes provider gives a Docker object. -/
structure DockerObjectAttributes where
  name : String
  labels : Labels

/-- The provider `ForEnclave` returns (package `object_attributes_provider`, absent from the
sources); each method may fail. -/
structure DockerEnclaveObjectAttributesProvider where
  ForEnclaveNetwork : String → Time → Bool → Except GoError DockerObjectAttributes
  ForEnclaveDataVolume : Except GoError DockerObjectAttributes

structure DockerObjectAttributesProvider where
  ForEnclave : EnclaveUUID → Except GoError DockerEnclaveObjectAttributesProvider

/-- The fields of `DockerKurtosisBackend` the enclave functions read.  The two tenant maps are
only tested for the presence of a key. -/
structure DockerKurtosisBackend where
  objAttrsProvider : DockerObjectAttributesProvider
  enclaveFreeIpProviders : GoMap EnclaveUUID Unit
  serviceRegistrations : GoMap EnclaveUUID (List String)

def shouldFetchStoppedContainersWhenGettingEnclaveStatus : Bool := true

/-- The loops that copy an attribute's labels into a fresh `map[string]string`. -/
def labelStrings (labels : Labels) : Labels :=
  labels.foldl (fun acc kv => acc.set kv.1 kv.2) []

/-- The deferred removal of the created network: it runs when `CreateEnclave` returns, removes
the network only while `shouldDeleteNetwork` holds, and only logs a failure of the removal. -/
def CreateEnclave.deferredRemoveNetwork (E : Env) (teardownCtx : Ctx) (shouldDeleteNetwork : Bool)
    (networkId : String) (d : Docker) : Docker :=
  if shouldDeleteNetwork then (DockerManager.RemoveNetwork E teardownCtx networkId d).2 else d

/-- The deferred removal of the created data volume, guarded by `shouldDeleteVolume`. -/
def CreateEnclave.deferredRemoveVolume (E : Env) (teardownCtx : Ctx) (shouldDeleteVolume : Bool)
    (enclaveDataVolumeNameStr : String) (d : Docker) : Docker :=
  if shouldDeleteVolume then
    (DockerManager.RemoveVolume E teardownCtx enclaveDataVolumeNameStr d).2
  else d

def CreateEnclave (E : Env) (backend : DockerKurtosisBackend) (ctx : Ctx)
    (enclaveUuid : EnclaveUUID) (enclaveName : String) (isPartitioningEnabled : Bool)
    (d : Docker) : Except GoError Enclave × Docker :=
  let teardownCtx := Ctx.background
  let searchNetworkLabels : Labels :=
    [(AppIDDockerLabelKey, AppIDDockerLabelValue), (EnclaveUUIDDockerLabelKey, enclaveUuid)]
  match DockerManager.GetNetworksByLabels E ctx searchNetworkLabels d with
  | (.error err, d) =>
    (.error (.Propagate err ("An error occurred getting networks using labels '" ++
      fmtLabels searchNetworkLabels ++
      "', which is necessary to ensure that our enclave doesn't exist yet")), d)
  | (.ok networks, d) =>
  if networks.length > 0 then
    (.error (.NewError ("Cannot create enclave with ID '" ++ enclaveUuid ++
      "' because an enclave with ID '" ++ enclaveUuid ++ "' already exists")), d)
  else
  let volumeSearchLabels : Labels :=
    [(AppIDDockerLabelKey, AppIDDockerLabelValue), (EnclaveUUIDDockerLabelKey, enclaveUuid),
     (VolumeTypeDockerLabelKey, EnclaveDataVolumeTypeDockerLabelValue)]
  match DockerManager.GetVolumesByLabels E ctx volumeSearchLabels d with
  | (.error err, d) =>
    (.error (.Propagate err ("An error occurred getting enclave data volumes matching labels '" ++
      fmtLabels volumeSearchLabels ++ "'")), d)
  | (.ok foundVolumes, d) =>
  if foundVolumes.length > 0 then
    (.error (.NewError ("Cannot create enclave with ID '" ++ enclaveUuid ++
      "' because one or more enclave data volume for that enclave already exists")), d)
  else
  match backend.objAttrsProvider.ForEnclave enclaveUuid with
  | .error err =>
    (.error (.Propagate err ("An error occurred while trying to generate an object attributes " ++
      "provider for the enclave with ID '" ++ enclaveUuid ++ "'")), d)
  | .ok enclaveObjAttrsProvider =>
  let creationTime := E.now
  match enclaveObjAttrsProvider.ForEnclaveNetwork enclaveName creationTime isPartitioningEnabled with
  | .error err =>
    (.error (.Propagate err ("An error occurred while trying to get the enclave network " ++
      "attributes for the enclave with ID '" ++ enclaveUuid ++ "'")), d)
  | .ok enclaveNetworkAttrs =>
  match enclaveObjAttrsProvider.ForEnclaveDataVolume with
  | .error err =>
    (.error (.Propagate err ("An error occurred while trying to get the enclave data volume " ++
      "attributes for the enclave with ID '" ++ enclaveUuid ++ "'")), d)
  | .ok enclaveDataVolumeAttrs =>
  let enclaveNetworkName := enclaveNetworkAttrs.name
  let enclaveNetworkLabels := labelStrings enclaveNetworkAttrs.labels
  match DockerManager.CreateNewNetwork E ctx enclaveNetworkName enclaveNetworkLabels d with
  | (.error err, d) =>
    (.error (.Propagate err ("An error occurred allocating a new network for enclave '" ++
      enclaveUuid ++ "'")), d)
  | (.ok networkId, d) =>
  -- shouldDeleteNetwork := true; the first deferred function is registered
  let enclaveDataVolumeNameStr := enclaveDataVolumeAttrs.name
  let enclaveDataVolumeLabelStrs := labelStrings enclaveDataVolumeAttrs.labels
  match DockerManager.CreateVolume E ctx enclaveDataVolumeNameStr enclaveDataVolumeLabelStrs d with
  | (some err, d) =>
    (.error (.Propagate err ("An error occurred creating enclave data volume with name '" ++
      enclaveDataVolumeNameStr ++ "' and labels '" ++ fmtLabels enclaveDataVolumeLabelStrs ++ "'")),
     CreateEnclave.deferredRemoveNetwork E teardownCtx true networkId d)
  | (none, d) =>
  -- shouldDeleteVolume := true; the second deferred function is registered
  let newEnclave : Enclave := ⟨enclaveUuid, enclaveName, .Empty, some creationTime⟩
  -- shouldDeleteNetwork = false; shouldDeleteVolume = false; the deferred functions run in
  -- reverse order of registration
  (.ok newEnclave,
   CreateEnclave.deferredRemoveNetwork E teardownCtx false networkId
     (CreateEnclave.deferredRemoveVolume E teardownCtx false enclaveDataVolumeNameStr d))

/-! ## The matcher and the status classifier -/

def getEnclaveUuidFromNetwork (network : Network) : Except GoError EnclaveUUID :=
  match network.labels.get? EnclaveUUIDDockerLabelKey with
  | none => .error (.NewError ("Expected to find network's label with key '" ++
      EnclaveUUIDDockerLabelKey ++ "' but none was found"))
  | some enclaveUuidLabelValue => .ok enclaveUuidLabelValue

def getEnclaveCreationTimeFromNetwork (E : Env) (network : Network) :
    Except GoError (Option Time) :=
  match network.labels.get? EnclaveCreationTimeLabelKey with
  | none => .ok none
  | some enclaveCreationTimeStr =>
    match E.timeParseRFC3339 enclaveCreationTimeStr with
    | .error err => .error (.Propagate (.driver err)
        ("An error occurred parsing enclave creation time '" ++ enclaveCreationTimeStr ++
          "' using this format '2006-01-02T15:04:05Z07:00'"))
    | .ok enclaveCreationTime => .ok (some enclaveCreationTime)

def getEnclaveNameFromNetwork (network : Network) : String :=
  match network.labels.get? EnclaveNameDockerLabelKey with
  | none => ""
  | some enclaveNameStr => enclaveNameStr

def getAllEnclaveContainers (E : Env) (ctx : Ctx) (enclaveUuid : EnclaveUUID) (d : Docker) :
    Except GoError (List Container) × Docker :=
  let searchLabels : Labels :=
    [(AppIDDockerLabelKey, AppIDDockerLabelValue), (EnclaveUUIDDockerLabelKey, enclaveUuid)]
  match DockerManager.GetContainersByLabels E ctx searchLabels
      shouldFetchStoppedContainersWhenGettingEnclaveStatus d with
  | (.error err, d) =>
    (.error (.Propagate err ("An error occurred getting the containers for enclave '" ++
      enclaveUuid ++ "' by labels '" ++ fmtLabels searchLabels ++ "'")), d)
  | (.ok containers, d) => (.ok containers, d)

def getAllEnclaveVolumes (E : Env) (ctx : Ctx) (enclaveUuid : EnclaveUUID) (d : Docker) :
    Except GoError (List Volume) × Docker :=
  let searchLabels : Labels :=
    [(AppIDDockerLabelKey, AppIDDockerLabelValue), (EnclaveUUIDDockerLabelKey, enclaveUuid)]
  match DockerManager.GetVolumesByLabels E ctx searchLabels d with
  | (.error err, d) =>
    (.error (.Propagate err ("An error occurred getting the volumes for enclave '" ++
      enclaveUuid ++ "' by labels '" ++ fmtLabels searchLabels ++ "'")), d)
  | (.ok volumes, d) => (.ok volumes, d)

/-- The loop of `getEnclaveStatusAndContainers` over the containers, starting from
`resultEnclaveStatus = Stopped`: it stops at the first running container. -/
def getEnclaveStatusAndContainers.loop (E : Env) : List Container → Except GoError EnclaveStatus
  | [] => .ok .Stopped
  | enclaveContainer :: rest =>
    match E.IsContainerRunningDeterminer enclaveContainer.status with
    | none => .error (.NewError ("No is-running designation found for enclave container status '" ++
        enclaveContainer.status.String ++ "'; this is a bug in Kurtosis!"))
    | some true => .ok .Running
    | some false => getEnclaveStatusAndContainers.loop E rest

def getEnclaveStatusAndContainers (E : Env) (ctx : Ctx) (enclaveUuid : EnclaveUUID) (d : Docker) :
    Except GoError (EnclaveStatus × List Container) × Docker :=
  match getAllEnclaveContainers E ctx enclaveUuid d with
  | (.error err, d) =>
    (.error (.Propagate err ("An error occurred getting the containers for enclave '" ++
      enclaveUuid ++ "'")), d)
  | (.ok allEnclaveContainers, d) =>
    if allEnclaveContainers.length = 0 then (.ok (.Empty, []), d)
    else
      match getEnclaveStatusAndContainers.loop E allEnclaveContainers with
      | .error err => (.error err, d)
      | .ok resultEnclaveStatus => (.ok (resultEnclaveStatus, allEnclaveContainers), d)

/-- The first loop of the matcher: filter the networks by enclave UUID. -/
def getMatchingEnclaveNetworkInfo.uuidLoop (filters : EnclaveFilters) :
    List Network → GoMap EnclaveUUID Network → Except GoError (GoMap EnclaveUUID Network)
  | [], matching => .ok matching
  | kurtosisNetwork :: rest, matching =>
    match getEnclaveUuidFromNetwork kurtosisNetwork with
    | .error err => .error (.Propagate err ("An error occurred getting enclave ID from network '" ++
        fmtNetwork kurtosisNetwork ++ "'; this is a bug in Kurtosis"))
    | .ok enclaveUuid =>
      if filters.UUIDs.length > 0 ∧ (filters.UUIDs.get? enclaveUuid).isNone then
        getMatchingEnclaveNetworkInfo.uuidLoop filters rest matching
      else
        getMatchingEnclaveNetworkInfo.uuidLoop filters rest (matching.set enclaveUuid kurtosisNetwork)

/-- The second loop of the matcher: classify each enclave and filter by status. -/
def getMatchingEnclaveNetworkInfo.statusLoop (E : Env) (ctx : Ctx) (filters : EnclaveFilters) :
    List (EnclaveUUID × Network) → GoMap EnclaveUUID matchingNetworkInformation → Docker →
    Except GoError (GoMap EnclaveUUID matchingNetworkInformation) × Docker
  | [], result, d => (.ok result, d)
  | (enclaveUuid, kurtosisNetwork) :: rest, result, d =>
    match getEnclaveStatusAndContainers E ctx enclaveUuid d with
    | (.error err, d) =>
      (.error (.Propagate err ("An error occurred getting enclave status and containers from " ++
        "network for enclave '" ++ enclaveUuid ++ "'")), d)
    | (.ok (status, containers), d) =>
      if filters.Statuses.length > 0 ∧ (filters.Statuses.get? status).isNone then
        getMatchingEnclaveNetworkInfo.statusLoop E ctx filters rest result d
      else
        getMatchingEnclaveNetworkInfo.statusLoop E ctx filters rest
          (result.set enclaveUuid ⟨enclaveUuid, status, kurtosisNetwork, containers⟩) d

def getMatchingEnclaveNetworkInfo (E : Env) (ctx : Ctx) (filters : EnclaveFilters) (d : Docker) :
    Except GoError (GoMap EnclaveUUID matchingNetworkInformation) × Docker :=
  let kurtosisNetworkLabels : Labels := [(AppIDDockerLabelKey, AppIDDockerLabelValue)]
  match DockerManager.GetNetworksByLabels E ctx kurtosisNetworkLabels d with
  | (.error err, d) => (.error (.Propagate err "An error occurred getting Kurtosis networks"), d)
  | (.ok allKurtosisNetworks, d) =>
    match getMatchingEnclaveNetworkInfo.uuidLoop filters allKurtosisNetworks [] with
    | .error err => (.error err, d)
    | .ok matchingKurtosisEnclaveUuidsByNetworkId =>
      getMatchingEnclaveNetworkInfo.statusLoop E ctx filters
        matchingKurtosisEnclaveUuidsByNetworkId [] d

/-- The loop of `GetEnclaves` over the matched enclaves. -/
def GetEnclaves.loop (E : Env) :
    List (EnclaveUUID × matchingNetworkInformation) → GoMap EnclaveUUID Enclave →
    Except GoError (GoMap EnclaveUUID Enclave)
  | [], result => .ok result
  | (enclaveUuid, matchingNetworkInfo) :: rest, result =>
    match getEnclaveCreationTimeFromNetwork E matchingNetworkInfo.dockerNetwork with
    | .error err => .error (.Propagate err ("An error occurred getting the enclave's creation " ++
        "time value from enclave's Docker network '" ++
        fmtNetwork matchingNetworkInfo.dockerNetwork ++ "'"))
    | .ok creationTime =>
      let enclaveName := getEnclaveNameFromNetwork matchingNetworkInfo.dockerNetwork
      GetEnclaves.loop E rest
        (result.set enclaveUuid
          ⟨enclaveUuid, enclaveName, matchingNetworkInfo.enclaveStatus, creationTime⟩)

def GetEnclaves (E : Env) (ctx : Ctx) (filters : EnclaveFilters) (d : Docker) :
    Except GoError (GoMap EnclaveUUID Enclave) × Docker :=
  match getMatchingEnclaveNetworkInfo E ctx filters d with
  | (.error err, d) =>
    (.error (.Propagate err ("An error occurred getting enclave networks matching filters '" ++
      fmtFilters filters ++ "'")), d)
  | (.ok allMatchingNetworkInfo, d) => (GetEnclaves.loop E allMatchingNetworkInfo [], d)

/-! ## Destroying enclaves -/

/-- The loop that groups the error strings of the failed object operations by enclave
(`containerRemovalErrorStrsByEnclave`, `volumeRemovalErrorStrsByEnclave`); it stops with an error
at an object id no enclave was recorded for. -/
def groupErrorStrsByEnclave (enclaveUuidsForIds : GoMap String EnclaveUUID)
    (notRequested : String → String) :
    List (String × GoError) → GoMap EnclaveUUID (List String) →
    Except GoError (GoMap EnclaveUUID (List String))
  | [], errorStrsByEnclave => .ok errorStrsByEnclave
  | (erroredId, removeErr) :: rest, errorStrsByEnclave =>
    match enclaveUuidsForIds.get? erroredId with
    | none => .error (.NewError (notRequested erroredId))
    | some enclaveUuid =>
      let existingEnclaveErrors :=
        match errorStrsByEnclave.get? enclaveUuid with
        | none => []
        | some existing => existing
      groupErrorStrsByEnclave enclaveUuidsForIds notRequested rest
        (errorStrsByEnclave.set enclaveUuid (existingEnclaveErrors ++ [removeErr.Error]))

/-- The loop that sorts the enclaves into successful and errored: an enclave without recorded
error strings is successful, any other gets one error joining its strings. -/
def splitEnclavesByErrors (errorStrsByEnclave : GoMap EnclaveUUID (List String))
    (heading : EnclaveUUID → String) :
    List EnclaveUUID → GoMap EnclaveUUID Bool × GoMap EnclaveUUID GoError →
    GoMap EnclaveUUID Bool × GoMap EnclaveUUID GoError
  | [], acc => acc
  | enclaveUuid :: rest, (successfulEnclaveUuids, erroredEnclaveUuids) =>
    match errorStrsByEnclave.get? enclaveUuid with
    | none =>
      splitEnclavesByErrors errorStrsByEnclave heading rest
        (successfulEnclaveUuids.set enclaveUuid true, erroredEnclaveUuids)
    | some removalErrorStrs =>
      if removalErrorStrs.length = 0 then
        splitEnclavesByErrors errorStrsByEnclave heading rest
          (successfulEnclaveUuids.set enclaveUuid true, erroredEnclaveUuids)
      else
        let errorStr := stringsJoin removalErrorStrs "\n\n"
        splitEnclavesByErrors errorStrsByEnclave heading rest
          (successfulEnclaveUuids,
           erroredEnclaveUuids.set enclaveUuid (.NewError (heading enclaveUuid ++ errorStr)))

def removeEnclaveContainerOperation (E : Env) : DockerOperation :=
  fun ctx dockerObjectId d =>
    match DockerManager.RemoveContainer E ctx dockerObjectId d with
    | (some err, d) =>
      (some (.Propagate err ("An error occurred removing enclave container with ID '" ++
        dockerObjectId ++ "'")), d)
    | (none, d) => (none, d)

def removeEnclaveVolumeOperation (E : Env) : DockerOperation :=
  fun ctx dockerObjectId d =>
    match DockerManager.RemoveVolume E ctx dockerObjectId d with
    | (some err, d) =>
      (some (.Propagate err ("An error occurred removing enclave volume with ID '" ++
        dockerObjectId ++ "'")), d)
    | (none, d) => (none, d)

def removeNetworkOperation (E : Env) : DockerOperation :=
  fun ctx dockerObjectId d =>
    match DockerManager.RemoveNetwork E ctx dockerObjectId d with
    | (some err, d) =>
      (some (.Propagate err ("An error occurred removing enclave network with ID '" ++
        dockerObjectId ++ "'")), d)
    | (none, d) => (none, d)

/-- The first loop of `destroyContainersInEnclaves`: record every container id of every enclave in
`enclaveUuidsForContainerIdsToRemove` and in `containerIdsToRemove`. -/
def destroyContainersInEnclaves.gather
    (enclaves : GoMap EnclaveUUID matchingNetworkInformation) :
    GoMap String EnclaveUUID × GoMap String Bool :=
  enclaves.foldl
    (fun acc e => e.2.containers.foldl
      (fun acc container => (acc.1.set container.id e.1, acc.2.set container.id true)) acc)
    ([], [])

def destroyContainersInEnclaves (E : Env) (ctx : Ctx)
    (enclaves : GoMap EnclaveUUID matchingNetworkInformation) (d : Docker) :
    Except GoError (GoMap EnclaveUUID Bool × GoMap EnclaveUUID GoError) × Docker :=
  let enclaveUuidsForContainerIdsToRemove := (destroyContainersInEnclaves.gather enclaves).1
  let containerIdsToRemove := (destroyContainersInEnclaves.gather enclaves).2
  match RunDockerOperationInParallel ctx containerIdsToRemove
      (removeEnclaveContainerOperation E) d with
  | ((_, erroredContainerIds), d) =>
    match groupErrorStrsByEnclave enclaveUuidsForContainerIdsToRemove
        (fun erroredContainerId => "An error occurred destroying container '" ++
          erroredContainerId ++ "' in an enclave we didn't request")
        erroredContainerIds [] with
    | .error err => (.error err, d)
    | .ok containerRemovalErrorStrsByEnclave =>
      (.ok (splitEnclavesByErrors containerRemovalErrorStrsByEnclave
        (fun enclaveUuid => "One or more errors occurred removing the containers in enclave '" ++
          enclaveUuid ++ "':\n")
        enclaves.keys ([], [])), d)

/-- The first loop of `destroyVolumesInEnclaves`: list the volumes of every enclave and record
their names; a failed listing ends the function with an error. -/
def destroyVolumesInEnclaves.gather (E : Env) (ctx : Ctx) :
    List (EnclaveUUID × Bool) → GoMap String EnclaveUUID × GoMap String Bool → Docker →
    Except GoError (GoMap String EnclaveUUID × GoMap String Bool) × Docker
  | [], acc, d => (.ok acc, d)
  | (enclaveUuid, _) :: rest, acc, d =>
    match getAllEnclaveVolumes E ctx enclaveUuid d with
    | (.error err, d) =>
      (.error (.Propagate err ("An error occurred getting the volumes for enclave '" ++
        enclaveUuid ++ "'")), d)
    | (.ok enclaveVolumeIds, d) =>
      destroyVolumesInEnclaves.gather E ctx rest
        (enclaveVolumeIds.foldl
          (fun acc volume => (acc.1.set volume.Name enclaveUuid, acc.2.set volume.Name true)) acc)
        d

def destroyVolumesInEnclaves (E : Env) (ctx : Ctx) (enclaves : GoMap EnclaveUUID Bool)
    (d : Docker) : Except GoError (GoMap EnclaveUUID Bool × GoMap EnclaveUUID GoError) × Docker :=
  match destroyVolumesInEnclaves.gather E ctx enclaves ([], []) d with
  | (.error err, d) => (.error err, d)
  | (.ok (enclaveUuidsForVolumeIdsToRemove, volumeIdsToRemove), d) =>
    match RunDockerOperationInParallel ctx volumeIdsToRemove (removeEnclaveVolumeOperation E) d with
    | ((_, erroredVolumeIds), d) =>
      match groupErrorStrsByEnclave enclaveUuidsForVolumeIdsToRemove
          (fun erroredVolumeId => "An error occurred removing volume '" ++ erroredVolumeId ++
            "' in an enclave we didn't request")
          erroredVolumeIds [] with
      | .error err => (.error err, d)
      | .ok volumeRemovalErrorStrsByEnclave =>
        (.ok (splitEnclavesByErrors volumeRemovalErrorStrsByEnclave
          (fun enclaveUuid => "One or more errors occurred removing the volumes in enclave '" ++
            enclaveUuid ++ "':\n")
          enclaves.keys ([], [])), d)

/-- The loop of `destroyEnclaveNetworks` over the removed network ids. -/
def destroyEnclaveNetworks.successfulLoop (enclaveUuidsForNetworkIds : GoMap String EnclaveUUID) :
    List (String × Bool) → GoMap EnclaveUUID Bool → Except GoError (GoMap EnclaveUUID Bool)
  | [], successfulEnclaveUuids => .ok successfulEnclaveUuids
  | (networkId, _) :: rest, successfulEnclaveUuids =>
    match enclaveUuidsForNetworkIds.get? networkId with
    | none => .error (.NewError ("Docker network '" ++ networkId ++
        "' was successfully deleted, but wasn't requested to be deleted"))
    | some enclaveUuid =>
      destroyEnclaveNetworks.successfulLoop enclaveUuidsForNetworkIds rest
        (successfulEnclaveUuids.set enclaveUuid true)

/-- The loop of `destroyEnclaveNetworks` over the network ids whose removal failed. -/
def destroyEnclaveNetworks.erroredLoop (enclaveUuidsForNetworkIds : GoMap String EnclaveUUID) :
    List (String × GoError) → GoMap EnclaveUUID GoError → Except GoError (GoMap EnclaveUUID GoError)
  | [], erroredEnclaveUuids => .ok erroredEnclaveUuids
  | (networkId, networkRemovalErr) :: rest, erroredEnclaveUuids =>
    match enclaveUuidsForNetworkIds.get? networkId with
    | none => .error (.NewError ("Docker network '" ++ networkId ++
        "' had the following error during deletion, but wasn't requested to be deleted:\n" ++
        networkRemovalErr.Error))
    | some enclaveUuid =>
      destroyEnclaveNetworks.erroredLoop enclaveUuidsForNetworkIds rest
        (erroredEnclaveUuids.set enclaveUuid networkRemovalErr)

def destroyEnclaveNetworks (E : Env) (ctx : Ctx) (enclaveNetworkIds : GoMap EnclaveUUID String)
    (d : Docker) : Except GoError (GoMap EnclaveUUID Bool × GoMap EnclaveUUID GoError) × Docker :=
  let networkIdsToRemove : GoMap String Bool :=
    enclaveNetworkIds.foldl (fun acc e => acc.set e.2 true) []
  let enclaveUuidsForNetworkIds : GoMap String EnclaveUUID :=
    enclaveNetworkIds.foldl (fun acc e => acc.set e.2 e.1) []
  match RunDockerOperationInParallel ctx networkIdsToRemove (removeNetworkOperation E) d with
  | ((successfulNetworkIds, erroredNetworkIds), d) =>
    match destroyEnclaveNetworks.successfulLoop enclaveUuidsForNetworkIds successfulNetworkIds [] with
    | .error err => (.error err, d)
    | .ok successfulEnclaveUuids =>
      match destroyEnclaveNetworks.erroredLoop enclaveUuidsForNetworkIds erroredNetworkIds [] with
      | .error err => (.error err, d)
      | .ok erroredEnclaveUuids => (.ok (successfulEnclaveUuids, erroredEnclaveUuids), d)

/-- The loop of `DestroyEnclaves` that refuses an enclave with tenant-local state. -/
def DestroyEnclaves.tenantCheck (backend : DockerKurtosisBackend) :
    List (EnclaveUUID × matchingNetworkInformation) → Option GoError
  | [] => none
  | (enclaveUuid, _) :: rest =>
    match backend.enclaveFreeIpProviders.get? enclaveUuid with
    | some _ => some (.NewError ("Received a request to destroy enclave '" ++ enclaveUuid ++
        "' for which a free IP address tracker is registered; this likely " ++
        "means that destroy enclave is being called where it shouldn't be (i.e. inside the API " ++
        "container)"))
    | none =>
      match backend.serviceRegistrations.get? enclaveUuid with
      | some _ => some (.NewError ("Received a request to destroy enclave '" ++ enclaveUuid ++
          "' for which services are being tracked; this likely " ++
          "means that destroy enclave is being called where it shouldn't be (i.e. inside the " ++
          "API container)"))
      | none => DestroyEnclaves.tenantCheck backend rest

/-- The loop of `DestroyEnclaves` that collects the network id of every enclave whose volumes
were removed. -/
def DestroyEnclaves.networksLoop
    (matchingNetworkInfo : GoMap EnclaveUUID matchingNetworkInformation) :
    List (EnclaveUUID × Bool) → GoMap EnclaveUUID String → Except GoError (GoMap EnclaveUUID String)
  | [], networksToDestroy => .ok networksToDestroy
  | (enclaveUuid, _) :: rest, networksToDestroy =>
    match matchingNetworkInfo.get? enclaveUuid with
    | none => .error (.NewError ("Would have attempted to destroy enclave '" ++ enclaveUuid ++
        "' that didn't match the filters"))
    | some networkInfo =>
      DestroyEnclaves.networksLoop matchingNetworkInfo rest
        (networksToDestroy.set enclaveUuid networkInfo.dockerNetwork.id)

/-- The loops `for enclaveUuid, err := range errored { erroredEnclaveUuids[enclaveUuid] = err }`. -/
def DestroyEnclaves.addErrors (erroredEnclaveUuids newErrors : GoMap EnclaveUUID GoError) :
    GoMap EnclaveUUID GoError :=
  newErrors.foldl (fun acc e => acc.set e.1 e.2) erroredEnclaveUuids

def DestroyEnclaves (E : Env) (backend : DockerKurtosisBackend) (ctx : Ctx)
    (filters : EnclaveFilters) (d : Docker) :
    Except GoError (GoMap EnclaveUUID Bool × GoMap EnclaveUUID GoError) × Docker :=
  match getMatchingEnclaveNetworkInfo E ctx filters d with
  | (.error err, d) =>
    (.error (.Propagate err ("An error occurred getting enclave network info using filters '" ++
      fmtFilters filters ++ "'")), d)
  | (.ok matchingNetworkInfo, d) =>
  match DestroyEnclaves.tenantCheck backend matchingNetworkInfo with
  | some err => (.error err, d)
  | none =>
  let erroredEnclaveUuids : GoMap EnclaveUUID GoError := []
  match destroyContainersInEnclaves E ctx matchingNetworkInfo d with
  | (.error err, d) =>
    (.error (.Propagate err ("An error occurred destroying containers in enclaves matching " ++
      "filters '" ++ fmtFilters filters ++ "'")), d)
  | (.ok (successfulContainerRemovalEnclaveUuids, erroredContainerRemovalEnclaveUuids), d) =>
  let erroredEnclaveUuids :=
    DestroyEnclaves.addErrors erroredEnclaveUuids erroredContainerRemovalEnclaveUuids
  match destroyVolumesInEnclaves E ctx successfulContainerRemovalEnclaveUuids d with
  | (.error err, d) =>
    (.error (.Propagate err ("An error occurred destroying volumes in enclaves for which " ++
      "containers were successfully destroyed: " ++
      fmtUuidSet successfulContainerRemovalEnclaveUuids)), d)
  | (.ok (successfulVolumeRemovalEnclaveUuids, erroredVolumeRemovalEnclaveUuids), d) =>
  let erroredEnclaveUuids :=
    DestroyEnclaves.addErrors erroredEnclaveUuids erroredVolumeRemovalEnclaveUuids
  match DestroyEnclaves.networksLoop matchingNetworkInfo successfulVolumeRemovalEnclaveUuids [] with
  | .error err => (.error err, d)
  | .ok networksToDestroy =>
  match destroyEnclaveNetworks E ctx networksToDestroy d with
  | (.error err, d) =>
    (.error (.Propagate err ("An error occurred destroying the networks for enclaves whose " ++
      "volumes were successfully destroyed: " ++
      fmtUuidSet successfulVolumeRemovalEnclaveUuids)), d)
  | (.ok (successfulNetworkRemovalEnclaveUuids, erroredNetworkRemovalEnclaveUuids), d) =>
  let erroredEnclaveUuids :=
    DestroyEnclaves.addErrors erroredEnclaveUuids erroredNetworkRemovalEnclaveUuids
  (.ok (successfulNetworkRemovalEnclaveUuids, erroredEnclaveUuids), d)

/-! ## Sample states -/

/-- A fault plan without faults, with a clock and an is-running table. -/
def sampleEnv : Env where
  fails := fun _ _ => none
  newNetworkId := fun name => "id-" ++ name
  now := ⟨1700000000, 5⟩
  IsContainerRunningDeterminer := fun s =>
    match s with
    | .Running => some true
    | .Restarting => some true
    | _ => some false
  timeParseRFC3339 := fun s =>
    if s = "2023-11-14T22:13:20Z" then .ok ⟨1700000000, 0⟩ else .error "parsing time"

/-- The labels of an object of enclave `u`. -/
def enclaveLabels (u : EnclaveUUID) : Labels :=
  [(AppIDDockerLabelKey, AppIDDockerLabelValue), (EnclaveUUIDDockerLabelKey, u)]

/-- Two enclaves `a` and `b`, each with a network, a data volume and containers. -/
def sampleDocker : Docker where
  networks := [⟨"na", "net-a", enclaveLabels "a"⟩, ⟨"nb", "net-b", enclaveLabels "b"⟩]
  volumes := [⟨"va", enclaveLabels "a" ++ [(VolumeTypeDockerLabelKey, "enclave-data")]⟩,
              ⟨"vb", enclaveLabels "b" ++ [(VolumeTypeDockerLabelKey, "enclave-data")]⟩]
  containers := [⟨"ca1", "api", enclaveLabels "a", .Running⟩,
                 ⟨"ca2", "web", enclaveLabels "a", .Exited⟩,
                 ⟨"cb1", "api", enclaveLabels "b", .Running⟩]
  log := []

/-- A backend without tenant-local state whose provider fails. -/
def sampleBackend : DockerKurtosisBackend where
  objAttrsProvider := ⟨fun _ => .error (.NewError "no provider")⟩
  enclaveFreeIpProviders := []
  serviceRegistrations := []

/-! ## Proof helpers -/

/-- The events a state `d'` has beyond those of the earlier state `d`. -/
def issued (d d' : Docker) : List Event := d'.log.drop d.log.length

/-- Docker keeps network ids, volume names and container ids unique. -/
structure Docker.WellFormed (d : Docker) : Prop where
  networkIds : (d.networks.map (fun n => n.id)).Nodup
  volumeNames : (d.volumes.map (fun v => v.Name)).Nodup
  containerIds : (d.containers.map (fun c => c.id)).Nodup

/-- Assign every pair of a list to a map, in order. -/
def GoMap.setAll {K V : Type} [DecidableEq K] (init : GoMap K V) (l : List (K × V)) : GoMap K V :=
  l.foldl (fun acc p => acc.set p.1 p.2) init

/-- The error strings recorded for an enclave, none recorded being the empty list. -/
def errorStrsOf (m : GoMap EnclaveUUID (List String)) (u : EnclaveUUID) : List String :=
  match m.get? u with
  | none => []
  | some l => l

/-- The pairs of a container id and the enclave it was listed for, in the order of the loop. -/
def containerPairs (m : GoMap EnclaveUUID matchingNetworkInformation) :
    List (String × EnclaveUUID) :=
  m.flatMap (fun e => e.2.containers.map (fun c => (c.id, e.1)))

/-- The errors of the parallel executor for the ids `ids`, when the outcome on an id is `res`. -/
def erroredOf (res : String → Option GoError) (ids : GoMap String Bool) : GoMap String GoError :=
  GoMap.setAll [] (ids.filterMap (fun p => (res p.1).map (fun e => (p.1, e))))

/-- The ids the parallel executor reports successful. -/
def successfulOf (res : String → Option GoError) (ids : GoMap String Bool) : GoMap String Bool :=
  GoMap.setAll [] ((ids.filter (fun p => (res p.1).isNone)).map (fun p => (p.1, true)))

/-- The set of ids gathered from pairs of an id and its enclave. -/
def idSetOf (pairs : List (String × EnclaveUUID)) : GoMap String Bool :=
  GoMap.setAll [] (pairs.map (fun p => (p.1, true)))

/-- The outcome of removing a container. -/
def containerResult (E : Env) (ctx : Ctx) (id : String) : Option GoError :=
  (E.fails ctx (.RemoveContainer id)).map (fun m => GoError.Propagate (.driver m)
    ("An error occurred removing enclave container with ID '" ++ id ++ "'"))

/-- The outcome of removing a volume. -/
def volumeResult (E : Env) (ctx : Ctx) (id : String) : Option GoError :=
  (E.fails ctx (.RemoveVolume id)).map (fun m => GoError.Propagate (.driver m)
    ("An error occurred removing enclave volume with ID '" ++ id ++ "'"))

/-- The outcome of removing a network. -/
def networkResult (E : Env) (ctx : Ctx) (id : String) : Option GoError :=
  (E.fails ctx (.RemoveNetwork id)).map (fun m => GoError.Propagate (.driver m)
    ("An error occurred removing enclave network with ID '" ++ id ++ "'"))

/-- The state the container phase leaves: the containers whose removal succeeded are gone and
one removal event per gathered id is logged. -/
def afterContainers (E : Env) (ctx : Ctx) (m : GoMap EnclaveUUID matchingNetworkInformation)
    (d : Docker) : Docker :=
  { networks := d.networks
    volumes := d.volumes
    containers := d.containers.filter (fun c =>
      !((idSetOf (containerPairs m)).any
        (fun p => decide (p.1 = c.id) && (E.fails ctx (.RemoveContainer p.1)).isNone)))
    log := d.log ++ (idSetOf (containerPairs m)).map (fun p =>
      ⟨ctx, .RemoveContainer p.1, E.fails ctx (.RemoveContainer p.1)⟩) }

/-- Whether an event is a listing call, which changes nothing in the engine. -/
def Event.isListing (e : Event) : Bool :=
  match e.call with
  | .GetNetworksByLabels _ => true
  | .GetVolumesByLabels _ => true
  | .GetContainersByLabels _ _ => true
  | _ => false

/-- The state `d'` differs from `d` only by listing events appended to the log. -/
def Docker.listingOnly (d d' : Docker) : Prop :=
  ∃ evs, d' = { networks := d.networks, volumes := d.volumes, containers := d.containers,
                log := d.log ++ evs } ∧ ∀ e ∈ evs, e.isListing = true

/-- The containers of the engine tagged with the enclave `u`. -/
def containersOf (d : Docker) (u : EnclaveUUID) : List Container :=
  d.containers.filter (fun c => hasLabels
    [(AppIDDockerLabelKey, AppIDDockerLabelValue), (EnclaveUUIDDockerLabelKey, u)] c.labels)

/-- The volumes of the engine tagged with the enclave `u`. -/
def volumesOf (d : Docker) (u : EnclaveUUID) : List Volume :=
  d.volumes.filter (fun v => hasLabels
    [(AppIDDockerLabelKey, AppIDDockerLabelValue), (EnclaveUUIDDockerLabelKey, u)] v.labels)

/-- The status the classifier gives a list of containers. -/
def classify (E : Env) (cs : List Container) : Except GoError EnclaveStatus :=
  if cs.length = 0 then .ok .Empty else getEnclaveStatusAndContainers.loop E cs

/-- Whether the UUID filter lets `u` through. -/
def uuidPasses (filters : EnclaveFilters) (u : EnclaveUUID) : Bool :=
  !(decide (filters.UUIDs.length > 0) && (filters.UUIDs.get? u).isNone)

/-- Whether the status filter lets `s` through. -/
def statusPasses (filters : EnclaveFilters) (s : EnclaveStatus) : Bool :=
  !(decide (filters.Statuses.length > 0) && (filters.Statuses.get? s).isNone)

/-- The pairs the first loop of the matcher assigns, in order. -/
def uuidPairs (filters : EnclaveFilters) (l : List Network) : List (EnclaveUUID × Network) :=
  l.filterMap (fun n =>
    match n.labels.get? EnclaveUUIDDockerLabelKey with
    | some u => if uuidPasses filters u then some (u, n) else none
    | none => none)

/-- What the matcher guarantees of the entry `info` stored under `u`, in the engine state `d`. -/
def MatchedBy (d : Docker) (u : EnclaveUUID) (info : matchingNetworkInformation) : Prop :=
  info.enclaveUuid = u ∧ info.dockerNetwork ∈ d.networks ∧
  info.dockerNetwork.labels.get? AppIDDockerLabelKey = some AppIDDockerLabelValue ∧
  info.dockerNetwork.labels.get? EnclaveUUIDDockerLabelKey = some u ∧
  info.containers = containersOf d u

/-- The entries the second loop of the matcher assigns, in order, when it completes. -/
def statusPairs (E : Env) (filters : EnclaveFilters) (d : Docker)
    (l : List (EnclaveUUID × Network)) : List (EnclaveUUID × matchingNetworkInformation) :=
  l.filterMap (fun p =>
    match classify E (containersOf d p.1) with
    | .ok st => if statusPasses filters st then some (p.1, ⟨p.1, st, p.2, containersOf d p.1⟩) else none
    | .error _ => none)

/-- The labels the verbs search an enclave's objects by. -/
def searchLabelsOf (u : EnclaveUUID) : Labels :=
  [(AppIDDockerLabelKey, AppIDDockerLabelValue), (EnclaveUUIDDockerLabelKey, u)]

/-- The pairs of a volume name and the enclave it was listed for, in the order of the loop. -/
def volumePairs (d : Docker) (enclaves : GoMap EnclaveUUID Bool) : List (String × EnclaveUUID) :=
  enclaves.flatMap (fun e => (volumesOf d e.1).map (fun v => (v.Name, e.1)))

/-- The state the removal of the volumes `pairs` leaves. -/
def afterVolumes (E : Env) (ctx : Ctx) (pairs : List (String × EnclaveUUID)) (d : Docker) :
    Docker :=
  { networks := d.networks
    volumes := d.volumes.filter (fun v =>
      !((idSetOf pairs).any
        (fun p => decide (p.1 = v.Name) && (E.fails ctx (.RemoveVolume p.1)).isNone)))
    containers := d.containers
    log := d.log ++ (idSetOf pairs).map (fun p =>
      ⟨ctx, .RemoveVolume p.1, E.fails ctx (.RemoveVolume p.1)⟩) }

/-- The state the removal of the networks `ids` leaves. -/
def afterNetworks (E : Env) (ctx : Ctx) (ids : GoMap String Bool) (d : Docker) : Docker :=
  { networks := d.networks.filter (fun n =>
      !(ids.any (fun p => decide (p.1 = n.id) && (E.fails ctx (.RemoveNetwork p.1)).isNone)))
    volumes := d.volumes
    containers := d.containers
    log := d.log ++ ids.map (fun p =>
      ⟨ctx, .RemoveNetwork p.1, E.fails ctx (.RemoveNetwork p.1)⟩) }

/-- The pairs of an enclave and the id of its network the loop over the enclaves with removed
volumes assigns, in order. -/
def networkPairs (m : GoMap EnclaveUUID matchingNetworkInformation)
    (l : GoMap EnclaveUUID Bool) : List (EnclaveUUID × String) :=
  l.filterMap (fun p => (m.get? p.1).map (fun info => (p.1, info.dockerNetwork.id)))

/-- Every removal of a container of the matched enclave `u` succeeds under the fault plan. -/
def ContainersOk (E : Env) (ctx : Ctx) (m : GoMap EnclaveUUID matchingNetworkInformation)
    (u : EnclaveUUID) : Prop :=
  ∀ info, (u, info) ∈ m → ∀ c ∈ info.containers, E.fails ctx (.RemoveContainer c.id) = none

/-- Every removal of a volume tagged with the enclave `u` succeeds under the fault plan. -/
def VolumesOk (E : Env) (ctx : Ctx) (d : Docker) (u : EnclaveUUID) : Prop :=
  ∀ v ∈ volumesOf d u, E.fails ctx (.RemoveVolume v.Name) = none

/-- The removal of the network of the matched enclave `u` succeeds under the fault plan. -/
def NetworkOk (E : Env) (ctx : Ctx) (m : GoMap EnclaveUUID matchingNetworkInformation)
    (u : EnclaveUUID) : Prop :=
  ∀ info, (u, info) ∈ m → E.fails ctx (.RemoveNetwork info.dockerNetwork.id) = none

/-- No matched enclave is a key of one of the two tenant maps of the backend. -/
def NoTenantState (backend : DockerKurtosisBackend)
    (m : GoMap EnclaveUUID matchingNetworkInformation) : Prop :=
  ∀ u ∈ m.keys, backend.enclaveFreeIpProviders.get? u = none ∧
    backend.serviceRegistrations.get? u = none

/-- The events of one removal call per id of `ids`, with the outcome the fault plan gives. -/
def eventsOf (E : Env) (ctx : Ctx) (mk : String → Call) (ids : GoMap String Bool) : List Event :=
  ids.map (fun p => ⟨ctx, mk p.1, E.fails ctx (mk p.1)⟩)

/-- The fault plan in which only the removal of the container `ca2` fails. -/
def sampleFailingEnv : Env :=
  { sampleEnv with
    fails := fun _ c => if c = .RemoveContainer "ca2" then some "boom" else none }

/-- The entry the matcher returns for the enclave `a` of `sampleDocker`. -/
def sampleInfoA : matchingNetworkInformation :=
  ⟨"a", .Running, ⟨"na", "net-a", enclaveLabels "a"⟩,
    [⟨"ca1", "api", enclaveLabels "a", .Running⟩, ⟨"ca2", "web", enclaveLabels "a", .Exited⟩]⟩

/-- The entry the matcher returns for the enclave `b` of `sampleDocker`. -/
def sampleInfoB : matchingNetworkInformation :=
  ⟨"b", .Running, ⟨"nb", "net-b", enclaveLabels "b"⟩,
    [⟨"cb1", "api", enclaveLabels "b", .Running⟩]⟩

/-- The state of `sampleDocker` after the matcher ran with the empty filter. -/
def sampleDockerMatched : Docker :=
  { sampleDocker with
    log := [⟨.request 1, .GetNetworksByLabels [(AppIDDockerLabelKey, AppIDDockerLabelValue)], none⟩,
            ⟨.request 1, .GetContainersByLabels (enclaveLabels "a") true, none⟩,
            ⟨.request 1, .GetContainersByLabels (enclaveLabels "b") true, none⟩] }

/-- A backend that tracks a service of the enclave `a`. -/
def sampleTenantBackend : DockerKurtosisBackend :=
  { sampleBackend with serviceRegistrations := [("a", ["svc"])] }

/-- The networks tagged `app-id=kurtosis`, as the matcher lists them. -/
def kurtosisNetworks (d : Docker) : List Network :=
  d.networks.filter (fun n => hasLabels [(AppIDDockerLabelKey, AppIDDockerLabelValue)] n.labels)

/-- The state of `sampleDocker` after the matcher ran with the UUID filter holding `a`. -/
def sampleDockerMatchedA : Docker :=
  { sampleDocker with
    log := [⟨.request 1, .GetNetworksByLabels [(AppIDDockerLabelKey, AppIDDockerLabelValue)], none⟩,
            ⟨.request 1, .GetContainersByLabels (enclaveLabels "a") true, none⟩] }

/-- The fault plan in which only the listing of the volumes of the enclave `a` fails. -/
def sampleListingFailsEnv : Env :=
  { sampleEnv with
    fails := fun _ c =>
      if c = .GetVolumesByLabels (enclaveLabels "a") then some "listing failed" else none }

/-- The labels `CreateEnclave` searches the data volume of an enclave by. -/
def dataVolumeLabelsOf (u : EnclaveUUID) : Labels :=
  [(AppIDDockerLabelKey, AppIDDockerLabelValue), (EnclaveUUIDDockerLabelKey, u),
   (VolumeTypeDockerLabelKey, EnclaveDataVolumeTypeDockerLabelValue)]

/-- What a run of `CreateEnclave` has established when it reaches the creation of the network:
both listings succeeded and found nothing, and the attributes provider returned the attributes
`na` of the network and `va` of the data volume. -/
structure CreateEnclave.Reached (E : Env) (backend : DockerKurtosisBackend) (ctx : Ctx)
    (u : EnclaveUUID) (n : String) (p : Bool) (d : Docker)
    (na va : DockerObjectAttributes) : Prop where
  listNetworks : E.fails ctx (.GetNetworksByLabels (searchLabelsOf u)) = none
  noNetwork : ∀ x ∈ d.networks, hasLabels (searchLabelsOf u) x.labels = false
  listVolumes : E.fails ctx (.GetVolumesByLabels (dataVolumeLabelsOf u)) = none
  noVolume : ∀ v ∈ d.volumes, hasLabels (dataVolumeLabelsOf u) v.labels = false
  provider : ∃ prov, backend.objAttrsProvider.ForEnclave u = .ok prov ∧
    prov.ForEnclaveNetwork n E.now p = .ok na ∧ prov.ForEnclaveDataVolume = .ok va

/-- The network `CreateEnclave` creates from the attributes `na`. -/
def CreateEnclave.network (E : Env) (na : DockerObjectAttributes) : Network :=
  ⟨E.newNetworkId na.name, na.name, labelStrings na.labels⟩

/-- The two listing events of the uniqueness check. -/
def CreateEnclave.checkEvents (ctx : Ctx) (u : EnclaveUUID) : List Event :=
  [⟨ctx, .GetNetworksByLabels (searchLabelsOf u), none⟩,
   ⟨ctx, .GetVolumesByLabels (dataVolumeLabelsOf u), none⟩]

/-- The state a run leaves in which the creation of the network fails with `msg`. -/
def CreateEnclave.networkFailed (ctx : Ctx) (u : EnclaveUUID) (na : DockerObjectAttributes)
    (msg : String) (d : Docker) : Docker :=
  { networks := d.networks, volumes := d.volumes, containers := d.containers
    log := d.log ++ (CreateEnclave.checkEvents ctx u ++
      [⟨ctx, .CreateNewNetwork na.name (labelStrings na.labels), some msg⟩]) }

/-- The state a run leaves in which the network is created and the creation of the data volume
fails with `msg`: the deferred function has issued the removal of the network under
`context.Background()`. -/
def CreateEnclave.rolledBack (E : Env) (ctx : Ctx) (u : EnclaveUUID)
    (na va : DockerObjectAttributes) (msg : String) (d : Docker) : Docker :=
  { networks :=
      if E.fails .background (.RemoveNetwork (E.newNetworkId na.name)) = none then
        (d.networks ++ [CreateEnclave.network E na]).filter
          (fun x => decide (x.id ≠ E.newNetworkId na.name))
      else d.networks ++ [CreateEnclave.network E na]
    volumes := d.volumes, containers := d.containers
    log := d.log ++ (CreateEnclave.checkEvents ctx u ++
      [⟨ctx, .CreateNewNetwork na.name (labelStrings na.labels), none⟩,
       ⟨ctx, .CreateVolume va.name (labelStrings va.labels), some msg⟩,
       ⟨.background, .RemoveNetwork (E.newNetworkId na.name),
         E.fails .background (.RemoveNetwork (E.newNetworkId na.name))⟩]) }

/-- The state a successful run leaves. -/
def CreateEnclave.created (E : Env) (ctx : Ctx) (u : EnclaveUUID)
    (na va : DockerObjectAttributes) (d : Docker) : Docker :=
  { networks := d.networks ++ [CreateEnclave.network E na]
    volumes := d.volumes ++ [⟨va.name, labelStrings va.labels⟩]
    containers := d.containers
    log := d.log ++ (CreateEnclave.checkEvents ctx u ++
      [⟨ctx, .CreateNewNetwork na.name (labelStrings na.labels), none⟩,
       ⟨ctx, .CreateVolume va.name (labelStrings va.labels), none⟩]) }

/-- A rendering of the sample instant for the sample states. -/
def sampleFormatRFC3339 (t : Time) : String :=
  if t.sec = 1700000000 then "2023-11-14T22:13:20Z" else "1970-01-01T00:00:00Z"

/-- An attributes provider that tags the objects of an enclave as the data model of the spec
describes: every object with the app id and the enclave UUID, the network also with the enclave
name and the creation time, the data volume also with its volume type. -/
def sampleAttributesProvider : DockerObjectAttributesProvider :=
  ⟨fun u => .ok
    { ForEnclaveNetwork := fun name t _ => .ok
        ⟨"kt-" ++ name,
         [(AppIDDockerLabelKey, AppIDDockerLabelValue), (EnclaveUUIDDockerLabelKey, u),
          (EnclaveNameDockerLabelKey, name),
          (EnclaveCreationTimeLabelKey, sampleFormatRFC3339 t)]⟩
      ForEnclaveDataVolume := .ok
        ⟨u ++ "--enclave-data",
         [(AppIDDockerLabelKey, AppIDDockerLabelValue), (EnclaveUUIDDockerLabelKey, u),
          (VolumeTypeDockerLabelKey, EnclaveDataVolumeTypeDockerLabelValue)]⟩ }⟩

/-- A backend without tenant-local state, with the sample attributes provider. -/
def sampleCreateBackend : DockerKurtosisBackend where
  objAttrsProvider := sampleAttributesProvider
  enclaveFreeIpProviders := []
  serviceRegistrations := []

/-- The empty engine. -/
def emptyDocker : Docker := ⟨[], [], [], []⟩

/-- The engine after the enclave `e1` named `web-test` was created in the empty engine. -/
def sampleCreated : Docker :=
  (CreateEnclave sampleEnv sampleCreateBackend (.request 1) "e1" "web-test" false emptyDocker).2

/-- The fault plan in which only the creation of a volume fails. -/
def sampleVolumeFailsEnv : Env :=
  { sampleEnv with
    fails := fun _ c =>
      match c with
      | .CreateVolume _ _ => some "no space left"
      | _ => none }


/-! ## Stopping enclaves -/

/-- The first loop of `StopEnclaves`: record every container id of every matched enclave in
`enclaveUuidsForContainerIdsToStop` and in `containerIdsToStop`. -/
def StopEnclaves.gather
    (matchingNetworkInfo : GoMap EnclaveUUID matchingNetworkInformation) :
    GoMap String EnclaveUUID × GoMap String Bool :=
  matchingNetworkInfo.foldl
    (fun acc e => e.2.containers.foldl
      (fun acc container => (acc.1.set container.id e.1, acc.2.set container.id true)) acc)
    ([], [])

def stopEnclaveContainerOperation (E : Env) : DockerOperation :=
  fun ctx dockerObjectId d =>
    match DockerManager.KillContainer E ctx dockerObjectId d with
    | (some err, d) =>
      (some (.Propagate err ("An error occurred killing enclave container with ID '" ++
        dockerObjectId ++ "'")), d)
    | (none, d) => (none, d)

def StopEnclaves (E : Env) (ctx : Ctx) (filters : EnclaveFilters) (d : Docker) :
    Except GoError (GoMap EnclaveUUID Bool × GoMap EnclaveUUID GoError) × Docker :=
  match getMatchingEnclaveNetworkInfo E ctx filters d with
  | (.error err, d) =>
    (.error (.Propagate err ("An error occurred getting enclave network info using filters '" ++
      fmtFilters filters ++ "'")), d)
  | (.ok matchingNetworkInfo, d) =>
    let enclaveUuidsForContainerIdsToStop := (StopEnclaves.gather matchingNetworkInfo).1
    let containerIdsToStop := (StopEnclaves.gather matchingNetworkInfo).2
    match RunDockerOperationInParallel ctx containerIdsToStop
        (stopEnclaveContainerOperation E) d with
    | ((_, erroredContainerIds), d) =>
      match groupErrorStrsByEnclave enclaveUuidsForContainerIdsToStop
          (fun erroredContainerId => "An error occurred stopping container '" ++
            erroredContainerId ++ "' in an enclave we didn't request")
          erroredContainerIds [] with
      | .error err => (.error err, d)
      | .ok containerKillErrorStrsByEnclave =>
        (.ok (splitEnclavesByErrors containerKillErrorStrsByEnclave
          (fun enclaveUuid => "One or more errors occurred killing the containers in enclave '" ++
            enclaveUuid ++ "':\n")
          matchingNetworkInfo.keys ([], [])), d)

/-! ## Proof helpers for the classifier, the matcher and `StopEnclaves` -/

/-- The outcome of killing a container. -/
def killResult (E : Env) (ctx : Ctx) (id : String) : Option GoError :=
  (E.fails ctx (.KillContainer id)).map (fun m => GoError.Propagate (.driver m)
    ("An error occurred killing enclave container with ID '" ++ id ++ "'"))

/-- The containers after the kills of the ids `ids`: a container whose kill succeeded is
reported exited, every other container is as before. -/
def killedContainers (E : Env) (ctx : Ctx) (ids : GoMap String Bool) (cs : List Container) :
    List Container :=
  cs.map (fun c =>
    if ids.any (fun p => decide (p.1 = c.id) && (E.fails ctx (.KillContainer p.1)).isNone)
    then { c with status := .Exited } else c)

/-- The state the kills of `StopEnclaves` leave after the matcher's state `d`: one kill event
per gathered container id is logged. -/
def afterKills (E : Env) (ctx : Ctx) (m : GoMap EnclaveUUID matchingNetworkInformation)
    (d : Docker) : Docker :=
  { networks := d.networks
    volumes := d.volumes
    containers := killedContainers E ctx (idSetOf (containerPairs m)) d.containers
    log := d.log ++ eventsOf E ctx .KillContainer (idSetOf (containerPairs m)) }

/-- The enclaves `GetEnclaves` builds from the matched entries whose creation time reads. -/
def enclavePairs (E : Env) (m : List (EnclaveUUID × matchingNetworkInformation)) :
    List (EnclaveUUID × Enclave) :=
  m.filterMap (fun p =>
    match getEnclaveCreationTimeFromNetwork E p.2.dockerNetwork with
    | .ok t => some (p.1, ⟨p.1, getEnclaveNameFromNetwork p.2.dockerNetwork, p.2.enclaveStatus, t⟩)
    | .error _ => none)

/-- No two enclave networks of the engine carry the same `enclave-name` label. -/
def NamesUnique (d : Docker) : Prop :=
  (kurtosisNetworks d).Pairwise (fun x y =>
    x.labels.get? EnclaveNameDockerLabelKey = none ∨
    x.labels.get? EnclaveNameDockerLabelKey ≠ y.labels.get? EnclaveNameDockerLabelKey)

/-- An attributes provider that tags like `sampleAttributesProvider` and names the network of
an enclave after its UUID. -/
def sampleUuidNamedProvider : DockerObjectAttributesProvider :=
  ⟨fun u => .ok
    { ForEnclaveNetwork := fun name t _ => .ok
        ⟨"kt-" ++ u,
         [(AppIDDockerLabelKey, AppIDDockerLabelValue), (EnclaveUUIDDockerLabelKey, u),
          (EnclaveNameDockerLabelKey, name),
          (EnclaveCreationTimeLabelKey, sampleFormatRFC3339 t)]⟩
      ForEnclaveDataVolume := .ok
        ⟨u ++ "--enclave-data",
         [(AppIDDockerLabelKey, AppIDDockerLabelValue), (EnclaveUUIDDockerLabelKey, u),
          (VolumeTypeDockerLabelKey, EnclaveDataVolumeTypeDockerLabelValue)]⟩ }⟩

/-- A backend without tenant-local state, with the provider naming networks after UUIDs. -/
def sampleUuidNamedBackend : DockerKurtosisBackend where
  objAttrsProvider := sampleUuidNamedProvider
  enclaveFreeIpProviders := []
  serviceRegistrations := []

/-- The engine after the enclave `e1` named `web-test` was created in the empty engine. -/
def sampleNamed : Docker :=
  (CreateEnclave sampleEnv sampleUuidNamedBackend (.request 1) "e1" "web-test" false
    emptyDocker).2

/-- An is-running table with entries for `Running` and `Exited` only. -/
def samplePartialEnv : Env :=
  { sampleEnv with
    IsContainerRunningDeterminer := fun s =>
      match s with
      | .Running => some true
      | .Exited => some false
      | _ => none }

/-- One enclave `a` whose first listed container has a state without entry in the table of
`samplePartialEnv` and whose second is running. -/
def sampleUnknownFirst : Docker where
  networks := [⟨"na", "net-a", enclaveLabels "a"⟩]
  volumes := []
  containers := [⟨"ca1", "api", enclaveLabels "a", .Dead⟩,
                 ⟨"ca2", "web", enclaveLabels "a", .Running⟩]
  log := []

/-- One enclave `a` whose first listed container is running and whose second has a state
without entry in the table of `samplePartialEnv`. -/
def sampleUnknownLast : Docker where
  networks := [⟨"na", "net-a", enclaveLabels "a"⟩]
  volumes := []
  containers := [⟨"ca1", "api", enclaveLabels "a", .Running⟩,
                 ⟨"ca2", "web", enclaveLabels "a", .Dead⟩]
  log := []

/-- One enclave `a` with two exited containers, and no container for the enclave `b`. -/
def sampleStopped : Docker where
  networks := [⟨"na", "net-a", enclaveLabels "a"⟩, ⟨"nb", "net-b", enclaveLabels "b"⟩]
  volumes := []
  containers := [⟨"ca1", "api", enclaveLabels "a", .Exited⟩,
                 ⟨"ca2", "web", enclaveLabels "a", .Exited⟩]
  log := []

/-- The engine `sampleDocker` with one more `app-id=kurtosis` network, which has no
`enclave-uuid` label. -/
def sampleUntagged : Docker :=
  { sampleDocker with
    networks := sampleDocker.networks ++
      [⟨"nx", "net-x", [(AppIDDockerLabelKey, AppIDDockerLabelValue)]⟩] }

/-- The fault plan in which only the kill of the container `ca2` fails. -/
def sampleKillFailsEnv : Env :=
  { sampleEnv with
    fails := fun _ c =>
      match c with
      | .KillContainer id => if id = "ca2" then some "boom" else none
      | _ => none }

/-! ## Proof helpers for the error messages and for repeated runs -/

/-- The messages of the failed operations on the object ids recorded for the enclave `u`, in
the order of the set of ids, when the outcome of the operation on an id is `res`. -/
def failedStrs (res : String → Option GoError) (pairs : List (String × EnclaveUUID))
    (u : EnclaveUUID) : List String :=
  (idSetOf pairs).filterMap (fun p =>
    if (GoMap.setAll [] pairs).get? p.1 = some u then (res p.1).map GoError.Error else none)

/-- The fault plan in which the kills of the containers `ca1` and `ca2` fail. -/
def sampleKillsFailEnv : Env :=
  { sampleEnv with
    fails := fun _ c =>
      match c with
      | .KillContainer id => if id = "ca1" ∨ id = "ca2" then some "boom" else none
      | _ => none }

/-- The fault plan in which the removals of the volume `va` and of the container `cb1` fail. -/
def sampleMixedFailsEnv : Env :=
  { sampleEnv with
    fails := fun _ c =>
      match c with
      | .RemoveVolume name => if name = "va" then some "in use" else none
      | .RemoveContainer id => if id = "cb1" then some "boom" else none
      | _ => none }

/-- An engine in which two networks carry the label `enclave-uuid=a`. -/
def sampleTwinNetworks : Docker where
  networks := [⟨"na1", "net-a-old", enclaveLabels "a"⟩, ⟨"nb", "net-b", enclaveLabels "b"⟩,
               ⟨"na2", "net-a-new", enclaveLabels "a"⟩]
  volumes := []
  containers := []
  log := []

/-! ## The CLI command `enclave add` (`add.go`) -/

namespace add

def apiContainerVersionFlagKey : String := "api-container-version"
def apiContainerLogLevelFlagKey : String := "api-container-log-level"
def isSubnetworksEnabledFlagKey : String := "with-subnetworks"
def enclaveIdFlagKey : String := "id"
def enclaveNameFlagKey : String := "name"

/-- Signifies that an enclave ID should be auto-generated. -/
def autogenerateEnclaveIdKeyword : String := ""

/-- Signifies that an enclave name should be auto-generated. -/
def autogenerateEnclaveNameKeyword : String := ""

/-- The parsed flags of the command framework, absent from the sources: what `GetString` and
`GetBool` return for a key. -/
structure ParsedFlags where
  GetString : String → Except GoError String
  GetBool : String → Except GoError Bool

/-- The arguments of the `CreateEnclave` request of the engine API. -/
structure CreateEnclaveArgs where
  EnclaveName : String
  ApiContainerVersionTag : String
  ApiContainerLogLevel : String
  IsPartitioningEnabled : Bool
  deriving DecidableEq, Repr

/-- The collaborators of the command, absent from the sources: the engine manager, the engine
client it starts, and the metrics client, each given by what its calls return. -/
structure Collaborators where
  NewEngineManager : Option GoError
  StartEngineIdempotentlyWithDefaultVersion : Option GoError
  closeClientFunc : Option GoError
  TrackCreateEnclave : String → Option GoError
  CreateEnclave : CreateEnclaveArgs → Except GoError String

/-- What the command does to the outside, in order. -/
inductive Effect where
  | Log (level : String) (msg : String)
  | TrackCreateEnclave (enclaveName : String)
  | CreateEnclave (args : CreateEnclaveArgs)
  | PrintEnclaveName (enclaveName : String)
  | closeClientFunc
  deriving DecidableEq, Repr

/-- The deferred function that closes the engine client. -/
def run.deferredClose (env : Collaborators) : List Effect :=
  match env.closeClientFunc with
  | some _ => [.closeClientFunc, .Log "error" "Error closing the engine client"]
  | none => [.closeClientFunc]

/-- The function `run` of the command: the error it returns and the effects it has.  The
response of the engine is given by the name of the created enclave. -/
def run (env : Collaborators) (flags : ParsedFlags) : Option GoError × List Effect :=
  match flags.GetString apiContainerVersionFlagKey with
  | .error err =>
    (some (.Propagate err ("An error occurred while getting the API Container Version using " ++
      "flag with key '" ++ apiContainerVersionFlagKey ++ "'; this is a bug in Kurtosis")), [])
  | .ok apiContainerVersion =>
  match flags.GetBool isSubnetworksEnabledFlagKey with
  | .error err =>
    (some (.Propagate err ("An error occurred getting the is-subnetwork-enabled setting using " ++
      "flag key '" ++ isSubnetworksEnabledFlagKey ++ "'; this is a bug in Kurtosis")), [])
  | .ok isPartitioningEnabled =>
  match flags.GetString apiContainerLogLevelFlagKey with
  | .error err =>
    (some (.Propagate err ("An error occurred while getting the API Container log level using " ++
      "flag with key '" ++ apiContainerLogLevelFlagKey ++ "'; this is a bug in Kurtosis")), [])
  | .ok kurtosisLogLevelStr =>
  match flags.GetString enclaveIdFlagKey with
  | .error err =>
    (some (.Propagate err ("An error occurred while getting the enclave id using flag with " ++
      "key '" ++ enclaveIdFlagKey ++ "'; this is a bug in Kurtosis ")), [])
  | .ok enclaveIdStr =>
  match flags.GetString enclaveNameFlagKey with
  | .error err =>
    (some (.Propagate err ("An error occurred while getting the enclave name using flag with " ++
      "key '" ++ enclaveNameFlagKey ++ "'; this is a bug in Kurtosis ")), [])
  | .ok enclaveName =>
  match env.NewEngineManager with
  | some err => (some (.Propagate err "An error occurred creating an engine manager."), [])
  | none =>
  match env.StartEngineIdempotentlyWithDefaultVersion with
  | some err =>
    (some (.Propagate err "An error occurred creating a new Kurtosis engine client"), [])
  | none =>
  -- the deferred function closing the client is registered
  let logged : List Effect := [.Log "info" "Creating new enclave..."]
  -- if the enclave id is provided but the name is not, the supplied id is used
  let enclaveName :=
    if enclaveIdStr ≠ autogenerateEnclaveIdKeyword ∧ enclaveName = autogenerateEnclaveNameKeyword
    then enclaveIdStr else enclaveName
  let tracked : List Effect :=
    match env.TrackCreateEnclave enclaveName with
    | some _ =>
      [.TrackCreateEnclave enclaveName,
       .Log "warn" "An error occurred while logging the create enclave event"]
    | none => [.TrackCreateEnclave enclaveName]
  let createEnclaveArgs : CreateEnclaveArgs :=
    { EnclaveName := enclaveName
      ApiContainerVersionTag := apiContainerVersion
      ApiContainerLogLevel := kurtosisLogLevelStr
      IsPartitioningEnabled := isPartitioningEnabled }
  match env.CreateEnclave createEnclaveArgs with
  | .error err =>
    (some (.Propagate err ("An error occurred creating an enclave with ID '" ++ enclaveIdStr ++
      "'")),
     logged ++ tracked ++ [.CreateEnclave createEnclaveArgs] ++ run.deferredClose env)
  | .ok enclaveInfoName =>
    let enclaveName := enclaveInfoName
    -- the deferred functions run in reverse order of registration
    (none,
     logged ++ tracked ++ [.CreateEnclave createEnclaveArgs] ++
       [.PrintEnclaveName enclaveName] ++ run.deferredClose env)

/-- The flags of a command line: the strings of the three string flags other than the log
level, which has its default, and the subnetworks flag at its default. -/
def sampleFlags (id name : String) : ParsedFlags where
  GetString := fun key =>
    if key = enclaveIdFlagKey then .ok id
    else if key = enclaveNameFlagKey then .ok name
    else if key = apiContainerVersionFlagKey then .ok ""
    else if key = apiContainerLogLevelFlagKey then .ok "debug"
    else .error (.NewError ("no flag " ++ key))
  GetBool := fun key =>
    if key = isSubnetworksEnabledFlagKey then .ok false
    else .error (.NewError ("no flag " ++ key))

/-- Collaborators that all succeed; the engine names the enclave as requested. -/
def sampleCollaborators : Collaborators where
  NewEngineManager := none
  StartEngineIdempotentlyWithDefaultVersion := none
  closeClientFunc := none
  TrackCreateEnclave := fun _ => none
  CreateEnclave := fun args => .ok args.EnclaveName

end add

/-! ## The CLI command `files rendertemplate` (`rendertemplate.go`) -/

namespace rendertemplate

def defaultName : String := ""

def starlarkTemplateWithArtifactName : String :=
  "\ndef run(plan, args):\n\tplan.render_templates(\n\t\tname = args.name,\n" ++
  "\t\tconfig = \x7b\n\t\t\targs.file_name: struct(\n\t\t\t\ttemplate = args.template,\n" ++
  "\t\t\t\tdata = args.template_data,\n\t\t\t),\n\t\t\x7d\n\t)\n"

def starlarkTemplateWithoutArtifactName : String :=
  "\ndef run(plan, args):\n\tplan.render_templates(\n" ++
  "\t\tconfig = \x7b\n\t\t\targs.file_name: struct(\n\t\t\t\ttemplate = args.template,\n" ++
  "\t\t\t\tdata = args.template_data,\n\t\t\t),\n\t\t\x7d\n\t)\n"

def doNotDryRun : Bool := false
def noParallelism : Nat := 1

/-- The result of a Starlark run, as far as the command reads it. -/
structure StarlarkRunResult where
  RunOutput : String
  InterpretationError : Option String
  ValidationErrors : List String
  ExecutionError : Option String

/-- The arguments of a call of `RunStarlarkScriptBlocking`. -/
structure StarlarkCall where
  script : String
  params : String
  dryRun : Bool
  parallelism : Nat
  deriving DecidableEq, Repr

/-- The function `renderTemplateStarlarkCommand`: what it returns and the Starlark run it
requests.  The serializer `json.Marshal` of the template data and the enclave context's
`RunStarlarkScriptBlocking`, which here always returns a run result, are parameters. -/
def renderTemplateStarlarkCommand {Data : Type} (jsonMarshal : Data → Except GoError String)
    (RunStarlarkScriptBlocking : StarlarkCall → StarlarkRunResult × Option GoError)
    (destRelFilepath templateFileContents : String) (templateData : Data)
    (artifactName : String) : (String × Option GoError) × Option StarlarkCall :=
  let template :=
    if artifactName = defaultName then starlarkTemplateWithoutArtifactName
    else starlarkTemplateWithArtifactName
  match jsonMarshal templateData with
  | .error err =>
    (("", some (.Propagate err ("An error has occurred when parsing input params to render " ++
      "template Starlark command"))), none)
  | .ok templateDataBytes =>
    let call : StarlarkCall :=
      { script := template
        params := "\x7b\"file_name\": \"" ++ destRelFilepath ++ "\", \"template\": \"" ++
          templateFileContents ++ "\", \"template_data\": " ++ templateDataBytes ++
          ", \"name\": \"" ++ artifactName ++ "\"\x7d"
        dryRun := doNotDryRun
        parallelism := noParallelism }
    match RunStarlarkScriptBlocking call with
    | (runResult, err) =>
      match runResult.ExecutionError with
      | some msg =>
        (("", some (.NewError ("An error occurred during Starlark script execution for " ++
          "rendering template: " ++ msg))), some call)
      | none =>
        match runResult.InterpretationError with
        | some msg =>
          (("", some (.NewError ("An error occurred during Starlark script interpretation " ++
            "for rendering template: " ++ msg))), some call)
        | none =>
          if runResult.ValidationErrors.length > 0 then
            (("", some (.NewError ("An error occurred during Starlark script validation for " ++
              "rendering template: [" ++ stringsJoin runResult.ValidationErrors " " ++ "]"))),
             some call)
          else ((runResult.RunOutput, err), some call)

/-- A serializer that returns the data, given as its JSON text. -/
def sampleMarshal : String → Except GoError String := fun data => .ok data

/-- A Starlark run that succeeds and prints nothing. -/
def sampleRun : StarlarkCall → StarlarkRunResult × Option GoError :=
  fun _ => (⟨"", none, [], none⟩, none)

end rendertemplate

/-! ## Dumping an enclave -/

def containerInspectResultFilename : String := "spec.json"
def containerLogsFilename : String := "output.log"
def shouldFetchStoppedContainersWhenDumpingEnclave : Bool := true
def numContainersToDumpAtOnce : Nat := 20

/-- Permissions for the directories the dump creates (`0755`). -/
def createdDirPerms : Nat := 493

/-- Permissions for the files the dump creates (`0644`). -/
def createdFilePerms : Nat := 420

def shouldFollowContainerLogsWhenDumping : Bool := false
def containerSpecJsonSerializationIndent : String := "  "
def containerSpecJsonSerializationPrefix : String := ""

/-- A byte string; a byte is a number below 256. -/
abbrev Bytes := List Nat

/-- A path of the file system, as the list of its elements from the root. -/
abbrev Path := List String

/-- The function `path.Join` of the Go standard library on a directory and one more element.
Paths are kept as lists of elements; the element is taken to be a single path element, without
separator and other than `.` and `..`, as the names Docker gives containers are. -/
def pathJoin (dir : Path) (elem : String) : Path := dir ++ [elem]

/-- The text of a path. -/
def fmtPath (p : Path) : String := "/" ++ stringsJoin p "/"

/-- A node of the file system: a directory, or a file with its content. -/
inductive FsNode where
  | dir
  | file (content : Bytes)
  deriving DecidableEq, Repr

/-- The file system: the node at every path that exists. -/
abbrev FileSystem := GoMap Path FsNode

/-- Write `data` at the current end of the open file `p`. -/
def FileSystem.write (fs : FileSystem) (p : Path) (data : Bytes) : FileSystem :=
  match fs.get? p with
  | some (.file content) => fs.set p (.file (content ++ data))
  | _ => fs

/-- The part of `docker_types.ContainerJSON` the dump reads, `Config.Tty`, and the rest of the
inspect result as an opaque text. -/
structure ContainerJSON where
  Tty : Bool
  rest : String
  deriving DecidableEq, Repr

/-- The calls the dump makes to the file system and to the Docker driver. -/
inductive HostCall where
  | Stat (p : Path)
  | Mkdir (p : Path) (perm : Nat)
  | WriteFile (p : Path) (perm : Nat)
  | Create (p : Path)
  | Copy (dst : Path)
  | StdCopy (dstout dsterr : Path)
  | InspectContainer (ctx : Ctx) (containerId : String)
  | GetContainerLogs (ctx : Ctx) (containerId : String) (shouldFollowLogs : Bool)
  deriving DecidableEq, Repr

/-- A call to the host with its outcome: `none` for success, or the error message. -/
structure HostEvent where
  call : HostCall
  err : Option String
  deriving DecidableEq, Repr

/-- The host of the engine: the Docker engine, the file system and the trace of the calls the
dump made. -/
structure Host where
  docker : Docker
  files : FileSystem
  trace : List HostEvent

/-- The environment of a dump: the fault plan of the driver, the fault plan of the host calls
(a call the plan lets through can still fail for a reason the file system shows), what
inspecting a container and reading its logs return, and the serializer `json.MarshalIndent` of
the inspect result. -/
structure HostEnv where
  driver : Env
  hostFails : HostCall → Option String
  InspectContainer : String → ContainerJSON
  GetContainerLogs : String → Bytes
  jsonMarshalIndent : ContainerJSON → String → String → Except String Bytes

/-- Append a call to the trace. -/
def Host.emit (h : Host) (call : HostCall) (err : Option String) : Host :=
  { h with trace := h.trace ++ [⟨call, err⟩] }

/-- The error of `os.Stat`, as far as `os.IsNotExist` tells errors apart. -/
inductive StatError where
  | notExist
  | other (msg : String)
  deriving DecidableEq, Repr

/-- The function `os.IsNotExist` applied to the error of `os.Stat`. -/
def osIsNotExist : Option StatError → Bool
  | some .notExist => true
  | _ => false

/-- The function `os.Stat`, as far as its error goes.  A path that does not exist is reported
as such also when one of its ancestors is a regular file, where `os.Stat` reports that the
ancestor is not a directory. -/
def osStat (H : HostEnv) (p : Path) (h : Host) : Option StatError × Host :=
  match H.hostFails (.Stat p) with
  | some msg => (some (.other msg), h.emit (.Stat p) (some msg))
  | none =>
    match h.files.get? p with
    | some _ => (none, h.emit (.Stat p) none)
    | none => (some .notExist, h.emit (.Stat p) (some "no such file or directory"))

/-- The function `os.Mkdir`: it fails on a path that exists and under a parent that is not a
directory. -/
def osMkdir (H : HostEnv) (p : Path) (perm : Nat) (h : Host) : Option GoError × Host :=
  match H.hostFails (.Mkdir p perm) with
  | some msg => (some (.driver msg), h.emit (.Mkdir p perm) (some msg))
  | none =>
    if (h.files.get? p).isSome then
      (some (.driver "file exists"), h.emit (.Mkdir p perm) (some "file exists"))
    else if h.files.get? p.dropLast ≠ some .dir then
      (some (.driver "no such file or directory"),
       h.emit (.Mkdir p perm) (some "no such file or directory"))
    else (none, { h.emit (.Mkdir p perm) none with files := h.files.set p .dir })

/-- The function `ioutil.WriteFile`: it creates or truncates the file and writes the data. -/
def ioutilWriteFile (H : HostEnv) (p : Path) (data : Bytes) (perm : Nat) (h : Host) :
    Option GoError × Host :=
  match H.hostFails (.WriteFile p perm) with
  | some msg => (some (.driver msg), h.emit (.WriteFile p perm) (some msg))
  | none =>
    if h.files.get? p = some .dir then
      (some (.driver "is a directory"), h.emit (.WriteFile p perm) (some "is a directory"))
    else if h.files.get? p.dropLast ≠ some .dir then
      (some (.driver "no such file or directory"),
       h.emit (.WriteFile p perm) (some "no such file or directory"))
    else (none, { h.emit (.WriteFile p perm) none with files := h.files.set p (.file data) })

/-- The function `os.Create`: it creates or truncates the file and returns it open, here as its
path. -/
def osCreate (H : HostEnv) (p : Path) (h : Host) : Except GoError Path × Host :=
  match H.hostFails (.Create p) with
  | some msg => (.error (.driver msg), h.emit (.Create p) (some msg))
  | none =>
    if h.files.get? p = some .dir then
      (.error (.driver "is a directory"), h.emit (.Create p) (some "is a directory"))
    else if h.files.get? p.dropLast ≠ some .dir then
      (.error (.driver "no such file or directory"),
       h.emit (.Create p) (some "no such file or directory"))
    else (.ok p, { h.emit (.Create p) none with files := h.files.set p (.file []) })

/-- The function `io.Copy` from a byte stream to an open file; a failed copy is taken to have
written nothing. -/
def ioCopy (H : HostEnv) (dst : Path) (src : Bytes) (h : Host) : Option GoError × Host :=
  match H.hostFails (.Copy dst) with
  | some msg => (some (.driver msg), h.emit (.Copy dst) (some msg))
  | none => (none, { h.emit (.Copy dst) none with files := h.files.write dst src })

/-- The length of the header of a frame of the multiplexed stream of Docker. -/
def stdWriterPrefixLen : Nat := 8

/-- The size field of a frame header: four bytes, the most significant first. -/
def frameSize (b4 b5 b6 b7 : Nat) : Nat :=
  (b4 % 256) * 16777216 + (b5 % 256) * 65536 + (b6 % 256) * 256 + b7 % 256

/-- The text of a byte string. -/
def bytesToString (b : Bytes) : String := String.mk (b.map Char.ofNat)

/-- The loop of `stdcopy.StdCopy` over the frames of the source, with one unit of fuel per
frame: a frame is a header of eight bytes, the first naming the stream (0 standard input, 1
standard output, 2 standard error, 3 an error of the daemon) and the last four the size of the
payload, followed by the payload.  The payload of a frame of the streams 0 and 1 is written to
`dstout`, that of a frame of the stream 2 to `dsterr`; a source that ends inside a frame ends
the copy without error. -/
def stdcopy.StdCopy.loop (dstout dsterr : Path) :
    Nat → Bytes → FileSystem → Option String × FileSystem
  | 0, _, fs => (none, fs)
  | fuel + 1, src, fs =>
    match src with
    | fd :: _ :: _ :: _ :: b4 :: b5 :: b6 :: b7 :: rest =>
      if fd > 3 then (some ("Unrecognized input header: " ++ toString fd), fs)
      else if rest.length < frameSize b4 b5 b6 b7 then (none, fs)
      else if fd = 3 then
        (some ("error from daemon in stream: " ++
          bytesToString (rest.take (frameSize b4 b5 b6 b7))), fs)
      else
        stdcopy.StdCopy.loop dstout dsterr fuel (rest.drop (frameSize b4 b5 b6 b7))
          (fs.write (if fd = 2 then dsterr else dstout) (rest.take (frameSize b4 b5 b6 b7)))
    | _ => (none, fs)

/-- The function `stdcopy.StdCopy` of the Docker library, absent from the sources, from a byte
stream to two open files; a copy the fault plan fails is taken to have written nothing. -/
def stdcopy.StdCopy (H : HostEnv) (dstout dsterr : Path) (src : Bytes) (h : Host) :
    Option GoError × Host :=
  match H.hostFails (.StdCopy dstout dsterr) with
  | some msg => (some (.driver msg), h.emit (.StdCopy dstout dsterr) (some msg))
  | none =>
    match stdcopy.StdCopy.loop dstout dsterr (src.length + 1) src h.files with
    | (some msg, fs) =>
      (some (.driver msg), { h.emit (.StdCopy dstout dsterr) (some msg) with files := fs })
    | (none, fs) => (none, { h.emit (.StdCopy dstout dsterr) none with files := fs })

namespace DockerManager

/-- Modelled from the spec: `inspect_container(ctx, id)` of the substrate driver. -/
def InspectContainer (H : HostEnv) (ctx : Ctx) (containerId : String) (h : Host) :
    Except GoError ContainerJSON × Host :=
  match H.hostFails (.InspectContainer ctx containerId) with
  | some msg => (.error (.driver msg), h.emit (.InspectContainer ctx containerId) (some msg))
  | none => (.ok (H.InspectContainer containerId), h.emit (.InspectContainer ctx containerId) none)

/-- Modelled from the spec: `container_logs(ctx, id, follow)` of the substrate driver; the
stream is given by the bytes it delivers. -/
def GetContainerLogs (H : HostEnv) (ctx : Ctx) (containerId : String) (shouldFollowLogs : Bool)
    (h : Host) : Except GoError Bytes × Host :=
  match H.hostFails (.GetContainerLogs ctx containerId shouldFollowLogs) with
  | some msg =>
    (.error (.driver msg), h.emit (.GetContainerLogs ctx containerId shouldFollowLogs) (some msg))
  | none =>
    (.ok (H.GetContainerLogs containerId),
     h.emit (.GetContainerLogs ctx containerId shouldFollowLogs) none)

end DockerManager

def dumpContainerInfo (H : HostEnv) (ctx : Ctx) (enclaveOutputDirpath : Path)
    (containerName containerId : String) (h : Host) : Option GoError × Host :=
  -- Make output directory
  let containerOutputDirpath := pathJoin enclaveOutputDirpath containerName
  match osMkdir H containerOutputDirpath createdDirPerms h with
  | (some err, h) =>
    (some (.Propagate err ("An error occurred creating directory '" ++
      fmtPath containerOutputDirpath ++ "' to hold the output of container with name '" ++
      containerName ++ "' and ID '" ++ containerId ++ "'")), h)
  | (none, h) =>
  -- Write container inspect results to file
  match DockerManager.InspectContainer H ctx containerId h with
  | (.error err, h) =>
    (some (.Propagate err ("An error occurred inspecting container with ID '" ++ containerId ++
      "'")), h)
  | (.ok inspectResult, h) =>
  match H.jsonMarshalIndent inspectResult containerSpecJsonSerializationPrefix
      containerSpecJsonSerializationIndent with
  | .error err =>
    (some (.Propagate (.driver err) ("An error occurred serializing the results of inspecting " ++
      "container with ID '" ++ containerId ++ "' to JSON")), h)
  | .ok jsonSerializedInspectResultBytes =>
  let specOutputFilepath := pathJoin containerOutputDirpath containerInspectResultFilename
  match ioutilWriteFile H specOutputFilepath jsonSerializedInspectResultBytes
      createdFilePerms h with
  | (some err, h) =>
    (some (.Propagate err ("An error occurred writing the inspect output of container with " ++
      "name '" ++ containerName ++ "' and ID '" ++ containerId ++ "' to file '" ++
      fmtPath specOutputFilepath ++ "'")), h)
  | (none, h) =>
  -- Write container logs to file
  match DockerManager.GetContainerLogs H ctx containerId
      shouldFollowContainerLogsWhenDumping h with
  | (.error err, h) =>
    (some (.Propagate err ("An error occurred getting the logs for container with ID '" ++
      containerId ++ "'")), h)
  | (.ok containerLogsReadCloser, h) =>
  let logsOutputFilepath := pathJoin containerOutputDirpath containerLogsFilename
  match osCreate H logsOutputFilepath h with
  | (.error err, h) =>
    (some (.Propagate err ("An error occurred creating file '" ++ fmtPath logsOutputFilepath ++
      "' to hold the logs of container with name '" ++ containerName ++ "' and ID '" ++
      containerId ++ "'")), h)
  | (.ok logsOutputFp, h) =>
  if inspectResult.Tty then
    match ioCopy H logsOutputFp containerLogsReadCloser h with
    | (some err, h) =>
      (some (.Propagate err ("An error occurred copying the TTY container logs stream to " ++
        "file '" ++ fmtPath logsOutputFilepath ++ "' for container with name '" ++
        containerName ++ "' and ID '" ++ containerId ++ "'")), h)
    | (none, h) => (none, h)
  else
    match stdcopy.StdCopy H logsOutputFp logsOutputFp containerLogsReadCloser h with
    | (some err, h) =>
      (some (.Propagate err ("An error occurred copying the non-TTY container logs stream to " ++
        "file '" ++ fmtPath logsOutputFilepath ++ "' for container with name '" ++
        containerName ++ "' and ID '" ++ containerId ++ "'")), h)
    | (none, h) => (none, h)

/-- The job `createDumpContainerJob` returns: it dumps one container and sends the error, if
any, to the channel `resultErrsChan`. -/
def createDumpContainerJob (H : HostEnv) (ctx : Ctx) (enclaveOutputDirpath : Path)
    (containerName containerId : String) (resultErrsChan : List GoError) (h : Host) :
    List GoError × Host :=
  match dumpContainerInfo H ctx enclaveOutputDirpath containerName containerId h with
  | (some err, h) =>
    (resultErrsChan ++ [.Propagate err ("An error occurred dumping container info for " ++
      "container with name '" ++ containerName ++ "' and ID '" ++ containerId ++ "'")], h)
  | (none, h) => (resultErrsChan, h)

/-- The jobs submitted to the worker pool of `DumpEnclave`, run to the end of the pool: the
jobs are taken one after another in the order of submission, so the channel holds the errors
in that order. -/
def DumpEnclave.runJobs (H : HostEnv) (ctx : Ctx) (outputDirpath : Path) :
    List Container → List GoError → Host → List GoError × Host
  | [], resultErrsChan, h => (resultErrsChan, h)
  | container :: rest, resultErrsChan, h =>
    match createDumpContainerJob H ctx outputDirpath container.name container.id
        resultErrsChan h with
    | (resultErrsChan, h) => DumpEnclave.runJobs H ctx outputDirpath rest resultErrsChan h

/-- The loop of `DumpEnclave` that heads every error string with its index. -/
def DumpEnclave.indexErrStrs : Nat → List String → List String
  | _, [] => []
  | idx, resultErrStr :: rest =>
    (">>>>>>>>>>>>>>>>> ERROR " ++ toString idx ++ " <<<<<<<<<<<<<<<<<\n" ++ resultErrStr) ::
      DumpEnclave.indexErrStrs (idx + 1) rest

def DumpEnclave (H : HostEnv) (ctx : Ctx) (enclaveUuid : EnclaveUUID) (outputDirpath : Path)
    (h : Host) : Option GoError × Host :=
  let enclaveContainerSearchLabels : Labels :=
    [(AppIDDockerLabelKey, AppIDDockerLabelValue), (EnclaveUUIDDockerLabelKey, enclaveUuid)]
  match DockerManager.GetContainersByLabels H.driver ctx enclaveContainerSearchLabels
      shouldFetchStoppedContainersWhenDumpingEnclave h.docker with
  | (.error err, d) =>
    (some (.Propagate err ("An error occurred getting the containers in enclave '" ++
      enclaveUuid ++ "' for dumping the enclave")), { h with docker := d })
  | (.ok enclaveContainers, d) =>
  -- Create output directory
  match osStat H outputDirpath { h with docker := d } with
  | (err, h) =>
  if !osIsNotExist err then
    (some (.NewError ("Cannot create output directory at '" ++ fmtPath outputDirpath ++
      "'; directory already exists")), h)
  else
  match osMkdir H outputDirpath createdDirPerms h with
  | (some err, h) =>
    (some (.Propagate err ("An error occurred creating output directory at '" ++
      fmtPath outputDirpath ++ "'")), h)
  | (none, h) =>
  match DumpEnclave.runJobs H ctx outputDirpath enclaveContainers [] h with
  | (resultErrsChan, h) =>
  let allResultErrStrs := resultErrsChan.map GoError.Error
  if allResultErrStrs.length > 0 then
    let allIndexedResultErrStrs := DumpEnclave.indexErrStrs 0 allResultErrStrs
    (some (.driver ("The following errors occurred when trying to dump information about " ++
      "enclave '" ++ enclaveUuid ++ "':\n" ++ stringsJoin allIndexedResultErrStrs "\n\n")), h)
  else (none, h)

/-! ## Proof helpers for the dump -/

/-- The file system is a tree: the parent of every path that exists is a directory. -/
def FileSystem.WellFormed (fs : FileSystem) : Prop :=
  ∀ (p : Path) (x : String), (fs.get? (p ++ [x])).isSome → fs.get? p = some .dir

/-- The outcome of the dump of every container of the list, taken one after another from the
host state `h`. -/
def jobOutcomes (H : HostEnv) (ctx : Ctx) (out : Path) :
    List Container → Host → List (Container × Option GoError)
  | [], _ => []
  | c :: rest, h =>
    (c, (dumpContainerInfo H ctx out c.name c.id h).1) ::
      jobOutcomes H ctx out rest (dumpContainerInfo H ctx out c.name c.id h).2

/-- The error a failed dump job sends to the channel. -/
def jobError (c : Container) (err : GoError) : GoError :=
  .Propagate err ("An error occurred dumping container info for container with name '" ++
    c.name ++ "' and ID '" ++ c.id ++ "'")

/-- The errors of the failed jobs among the outcomes, in order. -/
def failedJobs (outcomes : List (Container × Option GoError)) : List GoError :=
  outcomes.filterMap (fun o => o.2.map (jobError o.1))

/-- The host state after the container listing of `DumpEnclave`, the check of the output
directory and its creation. -/
def afterOutputDir (ctx : Ctx) (u : EnclaveUUID) (out : Path) (h : Host) : Host :=
  { docker := h.docker.emit ctx (.GetContainersByLabels (searchLabelsOf u) true) none
    files := h.files.set out .dir
    trace := h.trace ++ [⟨.Stat out, some "no such file or directory"⟩,
      ⟨.Mkdir out createdDirPerms, none⟩] }

/-- The header of a frame of the multiplexed stream. -/
def frameHeader (fd size : Nat) : Bytes :=
  [fd, 0, 0, 0, size / 16777216 % 256, size / 65536 % 256, size / 256 % 256, size % 256]

/-- The multiplexed stream of a list of frames, each a stream number and a payload. -/
def muxFrames : List (Nat × Bytes) → Bytes
  | [] => []
  | (fd, payload) :: rest => frameHeader fd payload.length ++ payload ++ muxFrames rest

/-- The nodes a successful dump of the container named `name` creates under `out`. -/
def dumpedFiles (out : Path) (name : String) (spec log : Bytes) :
    List (Path × FsNode) :=
  [(pathJoin out name, .dir),
   (pathJoin (pathJoin out name) containerInspectResultFilename, .file spec),
   (pathJoin (pathJoin out name) containerLogsFilename, .file log)]

/-- The serialized inspect result of a container, empty when the serializer fails. -/
def specBytes (H : HostEnv) (containerId : String) : Bytes :=
  match H.jsonMarshalIndent (H.InspectContainer containerId)
      containerSpecJsonSerializationPrefix containerSpecJsonSerializationIndent with
  | .ok b => b
  | .error _ => []

/-- The payloads of the frames of a multiplexed stream that `stdcopy.StdCopy` writes when both
destinations are the same file, in the order of the stream. -/
def demuxPayloads : Nat → Bytes → Bytes
  | 0, _ => []
  | fuel + 1, src =>
    match src with
    | fd :: _ :: _ :: _ :: b4 :: b5 :: b6 :: b7 :: rest =>
      if fd > 3 then []
      else if rest.length < frameSize b4 b5 b6 b7 then []
      else if fd = 3 then []
      else rest.take (frameSize b4 b5 b6 b7) ++
        demuxPayloads fuel (rest.drop (frameSize b4 b5 b6 b7))
    | _ => []

/-- The content `dumpContainerInfo` writes to the log file of a container: the stream as it is
for a container with a TTY, the payloads of the frames of the stream otherwise. -/
def decodedLogs (H : HostEnv) (containerId : String) : Bytes :=
  if (H.InspectContainer containerId).Tty then H.GetContainerLogs containerId
  else demuxPayloads ((H.GetContainerLogs containerId).length + 1)
    (H.GetContainerLogs containerId)

/-- A host environment without faults: the container `ca1` has a TTY and a raw log, every
other container a log of one frame of standard output and one of standard error. -/
def sampleHostEnv : HostEnv where
  driver := sampleEnv
  hostFails := fun _ => none
  InspectContainer := fun id => ⟨decide (id = "ca1"), "image: " ++ id⟩
  GetContainerLogs := fun id =>
    if id = "ca1" then [104, 105]
    else muxFrames [(1, [111, 107]), (2, [33])]
  jsonMarshalIndent := fun r _ indent => .ok ((indent ++ r.rest).toList.map Char.toNat)

/-- The host environment in which only inspecting the container `ca1` fails. -/
def sampleInspectFailsEnv : HostEnv :=
  { sampleHostEnv with
    hostFails := fun c =>
      match c with
      | .InspectContainer _ id => if id = "ca1" then some "gone" else none
      | _ => none }

/-- A host with the engine `sampleDocker` and a file system holding the root and `/tmp`. -/
def sampleHost : Host where
  docker := sampleDocker
  files := [([], .dir), (["tmp"], .dir)]
  trace := []

/-- The nodes the successful dumps of the containers of the list create under `out`, in the
order of the dumps. -/
def dumpedTree (H : HostEnv) (out : Path) (cs : List Container) : List (Path × FsNode) :=
  cs.flatMap (fun c => dumpedFiles out c.name (specBytes H c.id) (decodedLogs H c.id))

/-- The fault plan in which the removal of the container `ca2` of the enclave `a` and the
listing of the volumes of the enclave `b` fail; every other call succeeds. -/
def sampleRemovalAndListingFailEnv : Env :=
  { sampleEnv with
    fails := fun _ c =>
      if c = .RemoveContainer "ca2" then some "boom"
      else if c = .GetVolumesByLabels (enclaveLabels "b") then some "listing failed"
      else none }
/-! ## Theorems -/

namespace GoMap

variable {K V : Type} [DecidableEq K]

theorem get?_set (m : GoMap K V) (k k' : K) (v : V) :
    (m.set k v).get? k' = if k = k' then some v else m.get? k' := by
  induction m with
  | nil => simp [set, get?]
  | cons p m ih =>
    obtain ⟨a, b⟩ := p
    by_cases h : a = k
    · subst h
      by_cases h' : a = k' <;> simp [set, get?, h']
    · by_cases h' : a = k'
      · subst h'
        have : ¬ k = a := fun e => h e.symm
        simp [set, get?, h, this]
      · simp [set, get?, h, h', ih]

theorem mem_keys_set (m : GoMap K V) (k k' : K) (v : V) :
    k' ∈ (m.set k v).keys ↔ k' = k ∨ k' ∈ m.keys := by
  induction m with
  | nil => simp [set, keys]
  | cons p m ih =>
    obtain ⟨a, b⟩ := p
    by_cases h : a = k
    · subst h
      simp [set, keys]
    · simp only [set, h, if_false, keys, List.map_cons, List.mem_cons] at ih ⊢
      rw [ih]
      tauto

theorem mem_set {m : GoMap K V} {k : K} {v : V} {p : K × V} (h : p ∈ m.set k v) :
    p = (k, v) ∨ p ∈ m := by
  induction m with
  | nil => simpa [set] using h
  | cons q m ih =>
    obtain ⟨a, b⟩ := q
    by_cases hk : a = k
    · simp only [set, hk, if_true, List.mem_cons] at h
      rcases h with h | h
      · exact Or.inl h
      · exact Or.inr (List.mem_cons_of_mem _ h)
    · simp only [set, hk, if_false, List.mem_cons] at h
      rcases h with h | h
      · exact Or.inr (by simp [h])
      · rcases ih h with h | h
        · exact Or.inl h
        · exact Or.inr (List.mem_cons_of_mem _ h)

theorem get?_eq_some_mem {m : GoMap K V} {k : K} {v : V} (h : m.get? k = some v) : (k, v) ∈ m := by
  induction m with
  | nil => simp [get?] at h
  | cons q m ih =>
    obtain ⟨a, b⟩ := q
    by_cases hk : a = k
    · simp only [get?, hk, if_true, Option.some.injEq] at h
      simp [hk, h]
    · simp only [get?, hk, if_false] at h
      exact List.mem_cons_of_mem _ (ih h)

theorem mem_keys_iff (m : GoMap K V) (k : K) : k ∈ m.keys ↔ ∃ v, m.get? k = some v := by
  induction m with
  | nil => simp [keys, get?]
  | cons q m ih =>
    obtain ⟨a, b⟩ := q
    by_cases hk : a = k
    · simp [keys, get?, hk]
    · have hk' : ¬ k = a := fun e => hk e.symm
      simp only [keys, List.map_cons, List.mem_cons, hk', false_or, get?, hk, if_false]
      exact ih

theorem get?_eq_none_iff (m : GoMap K V) (k : K) : m.get? k = none ↔ k ∉ m.keys := by
  rw [mem_keys_iff]
  cases h : m.get? k <;> simp

omit [DecidableEq K] in
theorem mem_keys_of_mem {m : GoMap K V} {k : K} {v : V} (h : (k, v) ∈ m) : k ∈ m.keys :=
  List.mem_map.mpr ⟨(k, v), h, rfl⟩

theorem get?_of_mem_nodup {m : GoMap K V} {k : K} {v : V} (hn : m.keys.Nodup) (h : (k, v) ∈ m) :
    m.get? k = some v := by
  induction m with
  | nil => simp at h
  | cons q m ih =>
    obtain ⟨a, b⟩ := q
    simp only [keys, List.map_cons, List.nodup_cons] at hn
    rcases List.mem_cons.mp h with h | h
    · cases h
      simp [get?]
    · have hne : a ≠ k := by
        intro e
        subst e
        exact hn.1 (mem_keys_of_mem h)
      simp only [get?, hne, if_false]
      exact ih hn.2 h

theorem nodup_keys_set {m : GoMap K V} (k : K) (v : V) (hn : m.keys.Nodup) :
    (m.set k v).keys.Nodup := by
  induction m with
  | nil => simp [set, keys]
  | cons q m ih =>
    obtain ⟨a, b⟩ := q
    simp only [keys, List.map_cons, List.nodup_cons] at hn
    by_cases hk : a = k
    · subst hk
      simpa [set, keys] using hn
    · simp only [set, hk, if_false, keys, List.map_cons, List.nodup_cons]
      refine ⟨?_, ih hn.2⟩
      intro hmem
      have := (mem_keys_set m k a v).mp hmem
      rcases this with h | h
      · exact hk h
      · exact hn.1 h

theorem setAll_nil (init : GoMap K V) : setAll init [] = init := rfl

theorem setAll_cons (init : GoMap K V) (p : K × V) (l : List (K × V)) :
    setAll init (p :: l) = setAll (init.set p.1 p.2) l := rfl

theorem setAll_append (init : GoMap K V) (l l' : List (K × V)) :
    setAll init (l ++ l') = setAll (setAll init l) l' := by
  simp [setAll, List.foldl_append]

theorem mem_keys_setAll (init : GoMap K V) (l : List (K × V)) (k : K) :
    k ∈ (setAll init l).keys ↔ k ∈ init.keys ∨ k ∈ l.map Prod.fst := by
  induction l generalizing init with
  | nil => simp [setAll]
  | cons p l ih =>
    rw [setAll_cons, ih, mem_keys_set]
    simp only [List.map_cons, List.mem_cons]
    tauto

theorem nodup_keys_setAll {init : GoMap K V} (l : List (K × V)) (hn : init.keys.Nodup) :
    (setAll init l).keys.Nodup := by
  induction l generalizing init with
  | nil => simpa [setAll] using hn
  | cons p l ih =>
    rw [setAll_cons]
    exact ih (nodup_keys_set _ _ hn)

theorem get?_setAll_some {init : GoMap K V} {l : List (K × V)} {k : K} {v : V}
    (h : (setAll init l).get? k = some v) : init.get? k = some v ∨ (k, v) ∈ l := by
  induction l generalizing init with
  | nil => exact Or.inl h
  | cons p l ih =>
    rw [setAll_cons] at h
    rcases ih h with h | h
    · rw [get?_set] at h
      by_cases hk : p.1 = k
      · simp only [hk, if_true, Option.some.injEq] at h
        right
        rw [← h, ← hk]
        exact List.mem_cons_self _ _
      · simp only [hk, if_false] at h
        exact Or.inl h
    · exact Or.inr (List.mem_cons_of_mem _ h)

theorem mem_setAll {init : GoMap K V} {l : List (K × V)} {p : K × V}
    (h : p ∈ setAll init l) : p ∈ init ∨ p ∈ l := by
  induction l generalizing init with
  | nil => exact Or.inl h
  | cons q l ih =>
    rw [setAll_cons] at h
    rcases ih h with h | h
    · rcases mem_set h with h | h
      · right
        subst h
        exact List.mem_cons_self _ _
      · exact Or.inl h
    · exact Or.inr (List.mem_cons_of_mem _ h)

end GoMap

/-! ### The parallel executor and the removal operations -/

theorem runOperations_result (ctx : Ctx) (op : DockerOperation) (res : String → Option GoError)
    (hres : ∀ id d, (op ctx id d).1 = res id) (ids : List (String × Bool))
    (succ : GoMap String Bool) (err : GoMap String GoError) (d : Docker) :
    (runOperations ctx op ids succ err d).1 =
      (GoMap.setAll succ ((ids.filter (fun p => (res p.1).isNone)).map (fun p => (p.1, true))),
       GoMap.setAll err (ids.filterMap (fun p => (res p.1).map (fun e => (p.1, e))))) := by
  induction ids generalizing succ err d with
  | nil => rfl
  | cons p ids ih =>
    obtain ⟨id, b⟩ := p
    have h1 := hres id d
    rcases hop : op ctx id d with ⟨r, d'⟩
    rw [hop] at h1
    simp only at h1
    cases r with
    | none =>
      simp only [runOperations, hop]
      rw [ih]
      simp [← h1, GoMap.setAll_cons]
    | some e =>
      simp only [runOperations, hop]
      rw [ih]
      simp [← h1, GoMap.setAll_cons]

theorem runOperations_state (ctx : Ctx) (op : DockerOperation) (ids : List (String × Bool))
    (succ : GoMap String Bool) (err : GoMap String GoError) (d : Docker) :
    (runOperations ctx op ids succ err d).2 = ids.foldl (fun d p => (op ctx p.1 d).2) d := by
  induction ids generalizing succ err d with
  | nil => rfl
  | cons p ids ih =>
    obtain ⟨id, b⟩ := p
    rcases hop : op ctx id d with ⟨r, d'⟩
    cases r <;> simp [runOperations, hop, ih]

theorem removeEnclaveContainerOperation_fst (E : Env) (ctx : Ctx) (id : String) (d : Docker) :
    (removeEnclaveContainerOperation E ctx id d).1 =
      (E.fails ctx (.RemoveContainer id)).map (fun m => GoError.Propagate (.driver m)
        ("An error occurred removing enclave container with ID '" ++ id ++ "'")) := by
  unfold removeEnclaveContainerOperation DockerManager.RemoveContainer
  cases E.fails ctx (.RemoveContainer id) <;> rfl

theorem removeEnclaveVolumeOperation_fst (E : Env) (ctx : Ctx) (id : String) (d : Docker) :
    (removeEnclaveVolumeOperation E ctx id d).1 =
      (E.fails ctx (.RemoveVolume id)).map (fun m => GoError.Propagate (.driver m)
        ("An error occurred removing enclave volume with ID '" ++ id ++ "'")) := by
  unfold removeEnclaveVolumeOperation DockerManager.RemoveVolume
  cases E.fails ctx (.RemoveVolume id) <;> rfl

theorem removeNetworkOperation_fst (E : Env) (ctx : Ctx) (id : String) (d : Docker) :
    (removeNetworkOperation E ctx id d).1 =
      (E.fails ctx (.RemoveNetwork id)).map (fun m => GoError.Propagate (.driver m)
        ("An error occurred removing enclave network with ID '" ++ id ++ "'")) := by
  unfold removeNetworkOperation DockerManager.RemoveNetwork
  cases E.fails ctx (.RemoveNetwork id) <;> rfl

theorem removeContainers_state (E : Env) (ctx : Ctx) (ids : List (String × Bool)) (d : Docker) :
    ids.foldl (fun d p => (removeEnclaveContainerOperation E ctx p.1 d).2) d =
      { networks := d.networks
        volumes := d.volumes
        containers := d.containers.filter (fun c =>
          !(ids.any (fun p => decide (p.1 = c.id) && (E.fails ctx (.RemoveContainer p.1)).isNone)))
        log := d.log ++ ids.map (fun p =>
          ⟨ctx, .RemoveContainer p.1, E.fails ctx (.RemoveContainer p.1)⟩) } := by
  induction ids generalizing d with
  | nil => simp
  | cons p ids ih =>
    rw [List.foldl_cons, ih]
    unfold removeEnclaveContainerOperation DockerManager.RemoveContainer
    cases h : E.fails ctx (.RemoveContainer p.1) with
    | some m => simp [Docker.emit, h]
    | none =>
      simp only [Docker.emit, List.filter_filter, List.any_cons, h, Option.isNone_none,
        Bool.and_true, List.map_cons, List.append_assoc, List.singleton_append, Docker.mk.injEq,
        true_and, and_true]
      apply List.filter_congr
      intro c _
      by_cases hc : p.1 = c.id
      · simp [hc]
      · have hc' : ¬ c.id = p.1 := fun e => hc e.symm
        simp [hc, hc']

theorem removeVolumes_state (E : Env) (ctx : Ctx) (ids : List (String × Bool)) (d : Docker) :
    ids.foldl (fun d p => (removeEnclaveVolumeOperation E ctx p.1 d).2) d =
      { networks := d.networks
        volumes := d.volumes.filter (fun v =>
          !(ids.any (fun p => decide (p.1 = v.Name) && (E.fails ctx (.RemoveVolume p.1)).isNone)))
        containers := d.containers
        log := d.log ++ ids.map (fun p =>
          ⟨ctx, .RemoveVolume p.1, E.fails ctx (.RemoveVolume p.1)⟩) } := by
  induction ids generalizing d with
  | nil => simp
  | cons p ids ih =>
    rw [List.foldl_cons, ih]
    unfold removeEnclaveVolumeOperation DockerManager.RemoveVolume
    cases h : E.fails ctx (.RemoveVolume p.1) with
    | some m => simp [Docker.emit, h]
    | none =>
      simp only [Docker.emit, List.filter_filter, List.any_cons, h, Option.isNone_none,
        Bool.and_true, List.map_cons, List.append_assoc, List.singleton_append, Docker.mk.injEq,
        true_and, and_true]
      apply List.filter_congr
      intro c _
      by_cases hc : p.1 = c.Name
      · simp [hc]
      · have hc' : ¬ c.Name = p.1 := fun e => hc e.symm
        simp [hc, hc']

theorem removeNetworks_state (E : Env) (ctx : Ctx) (ids : List (String × Bool)) (d : Docker) :
    ids.foldl (fun d p => (removeNetworkOperation E ctx p.1 d).2) d =
      { networks := d.networks.filter (fun n =>
          !(ids.any (fun p => decide (p.1 = n.id) && (E.fails ctx (.RemoveNetwork p.1)).isNone)))
        volumes := d.volumes
        containers := d.containers
        log := d.log ++ ids.map (fun p =>
          ⟨ctx, .RemoveNetwork p.1, E.fails ctx (.RemoveNetwork p.1)⟩) } := by
  induction ids generalizing d with
  | nil => simp
  | cons p ids ih =>
    rw [List.foldl_cons, ih]
    unfold removeNetworkOperation DockerManager.RemoveNetwork
    cases h : E.fails ctx (.RemoveNetwork p.1) with
    | some m => simp [Docker.emit, h]
    | none =>
      simp only [Docker.emit, List.filter_filter, List.any_cons, h, Option.isNone_none,
        Bool.and_true, List.map_cons, List.append_assoc, List.singleton_append, Docker.mk.injEq,
        true_and, and_true]
      apply List.filter_congr
      intro c _
      by_cases hc : p.1 = c.id
      · simp [hc]
      · have hc' : ¬ c.id = p.1 := fun e => hc e.symm
        simp [hc, hc']

/-! ### Grouping of object errors by enclave -/

theorem errorStrsOf_set (m : GoMap EnclaveUUID (List String)) (u u' : EnclaveUUID)
    (l : List String) : errorStrsOf (m.set u l) u' = if u = u' then l else errorStrsOf m u' := by
  unfold errorStrsOf
  rw [GoMap.get?_set]
  by_cases h : u = u' <;> simp [h]

theorem groupErrorStrsByEnclave_ok (uuidFor : GoMap String EnclaveUUID) (msg : String → String)
    (errored : List (String × GoError)) (acc : GoMap EnclaveUUID (List String))
    (h : ∀ p ∈ errored, p.1 ∈ uuidFor.keys) :
    ∃ strs, groupErrorStrsByEnclave uuidFor msg errored acc = .ok strs ∧
      ∀ u, errorStrsOf strs u = errorStrsOf acc u ++
        (errored.filter (fun p => decide (uuidFor.get? p.1 = some u))).map (fun p => p.2.Error) := by
  induction errored generalizing acc with
  | nil => exact ⟨acc, rfl, by simp⟩
  | cons p errored ih =>
    obtain ⟨id, e⟩ := p
    have hid : id ∈ uuidFor.keys := h (id, e) (List.mem_cons_self _ _)
    obtain ⟨u0, hu0⟩ := (GoMap.mem_keys_iff _ _).mp hid
    obtain ⟨strs, hs, hstrs⟩ := ih
      (acc.set u0 (errorStrsOf acc u0 ++ [e.Error]))
      (fun p hp => h p (List.mem_cons_of_mem _ hp))
    refine ⟨strs, ?_, ?_⟩
    · simp only [groupErrorStrsByEnclave, hu0]
      exact hs
    · intro u
      rw [hstrs u, errorStrsOf_set]
      by_cases hu : u0 = u
      · subst hu
        simp [hu0, List.filter_cons]
      · have : ¬ (uuidFor.get? id = some u) := by
          rw [hu0]
          intro e'
          exact hu (Option.some.inj e')
        simp [hu, List.filter_cons, this]

theorem splitEnclavesByErrors_eq (strs : GoMap EnclaveUUID (List String))
    (heading : EnclaveUUID → String) (l : List EnclaveUUID)
    (succ : GoMap EnclaveUUID Bool) (err : GoMap EnclaveUUID GoError) :
    splitEnclavesByErrors strs heading l (succ, err) =
      (GoMap.setAll succ ((l.filter (fun u => decide (errorStrsOf strs u = []))).map
          (fun u => (u, true))),
       GoMap.setAll err ((l.filter (fun u => !decide (errorStrsOf strs u = []))).map
          (fun u => (u, GoError.NewError (heading u ++ stringsJoin (errorStrsOf strs u) "\n\n"))))) := by
  induction l generalizing succ err with
  | nil => rfl
  | cons u l ih =>
    unfold splitEnclavesByErrors
    cases hg : strs.get? u with
    | none =>
      have h0 : errorStrsOf strs u = [] := by simp [errorStrsOf, hg]
      simp only [ih]
      simp [List.filter_cons, h0, GoMap.setAll_cons]
    | some ls =>
      have h0 : errorStrsOf strs u = ls := by simp [errorStrsOf, hg]
      by_cases hl : ls.length = 0
      · have hl' : ls = [] := List.length_eq_zero.mp hl
        simp only [hl, if_true, ih]
        simp [List.filter_cons, h0, hl', GoMap.setAll_cons]
      · have hl' : ls ≠ [] := fun e => hl (by simp [e])
        simp only [hl, if_false, ih]
        simp [List.filter_cons, h0, hl', GoMap.setAll_cons]

theorem mem_keys_split_successful (strs : GoMap EnclaveUUID (List String))
    (heading : EnclaveUUID → String) (l : List EnclaveUUID) (u : EnclaveUUID) :
    u ∈ (splitEnclavesByErrors strs heading l ([], [])).1.keys ↔
      u ∈ l ∧ errorStrsOf strs u = [] := by
  rw [splitEnclavesByErrors_eq, GoMap.mem_keys_setAll]
  simp [GoMap.keys, List.mem_filter]

theorem mem_keys_split_errored (strs : GoMap EnclaveUUID (List String))
    (heading : EnclaveUUID → String) (l : List EnclaveUUID) (u : EnclaveUUID) :
    u ∈ (splitEnclavesByErrors strs heading l ([], [])).2.keys ↔
      u ∈ l ∧ errorStrsOf strs u ≠ [] := by
  rw [splitEnclavesByErrors_eq, GoMap.mem_keys_setAll]
  simp [GoMap.keys, List.mem_filter]

/-! ### Phase 1: the containers -/

theorem gather_inner (u : EnclaveUUID) (cs : List Container)
    (acc : GoMap String EnclaveUUID × GoMap String Bool) :
    cs.foldl (fun acc container => (acc.1.set container.id u, acc.2.set container.id true)) acc =
      (GoMap.setAll acc.1 (cs.map (fun c => (c.id, u))),
       GoMap.setAll acc.2 ((cs.map (fun c => (c.id, u))).map (fun p => (p.1, true)))) := by
  induction cs generalizing acc with
  | nil => rfl
  | cons c cs ih => simp [List.foldl_cons, ih, GoMap.setAll_cons]

theorem gather_outer (m : GoMap EnclaveUUID matchingNetworkInformation)
    (acc : GoMap String EnclaveUUID × GoMap String Bool) :
    m.foldl (fun acc e => e.2.containers.foldl
        (fun acc container => (acc.1.set container.id e.1, acc.2.set container.id true)) acc) acc =
      (GoMap.setAll acc.1 (containerPairs m),
       GoMap.setAll acc.2 ((containerPairs m).map (fun p => (p.1, true)))) := by
  induction m generalizing acc with
  | nil => rfl
  | cons e m ih =>
    rw [List.foldl_cons, gather_inner, ih]
    simp [containerPairs, List.flatMap_cons, GoMap.setAll_append]

theorem destroyContainers_gather_eq (m : GoMap EnclaveUUID matchingNetworkInformation) :
    destroyContainersInEnclaves.gather m =
      (GoMap.setAll [] (containerPairs m),
       GoMap.setAll [] ((containerPairs m).map (fun p => (p.1, true)))) :=
  gather_outer m ([], [])

theorem mem_containerPairs {m : GoMap EnclaveUUID matchingNetworkInformation}
    {id : String} {u : EnclaveUUID} :
    (id, u) ∈ containerPairs m ↔ ∃ info, (u, info) ∈ m ∧ ∃ c ∈ info.containers, c.id = id := by
  unfold containerPairs
  simp only [List.mem_flatMap, List.mem_map, Prod.mk.injEq, Prod.exists]
  constructor
  · rintro ⟨u', info, hm, c, hc, h1, h2⟩
    subst h2
    exact ⟨info, hm, c, hc, h1⟩
  · rintro ⟨info, hm, c, hc, h1⟩
    exact ⟨u, info, hm, c, hc, h1, rfl⟩

theorem RunDockerOperationInParallel_eq (ctx : Ctx) (op : DockerOperation)
    (res : String → Option GoError) (hres : ∀ id d, (op ctx id d).1 = res id)
    (ids : GoMap String Bool) (d : Docker) :
    RunDockerOperationInParallel ctx ids op d =
      ((successfulOf res ids, erroredOf res ids), ids.foldl (fun d p => (op ctx p.1 d).2) d) := by
  unfold RunDockerOperationInParallel
  apply Prod.ext
  · rw [runOperations_result ctx op res hres]
    rfl
  · exact runOperations_state ctx op ids [] [] d

theorem mem_erroredOf {res : String → Option GoError} {ids : GoMap String Bool}
    {p : String × GoError} (h : p ∈ erroredOf res ids) : p.1 ∈ ids.keys ∧ res p.1 = some p.2 := by
  unfold erroredOf at h
  rcases GoMap.mem_setAll h with h | h
  · simp at h
  · obtain ⟨q, hq, hq'⟩ := List.mem_filterMap.mp h
    cases hr : res q.1 with
    | none => simp [hr] at hq'
    | some e =>
      simp only [hr, Option.map_some', Option.some.injEq] at hq'
      subst hq'
      exact ⟨List.mem_map.mpr ⟨q, hq, rfl⟩, hr⟩

theorem mem_keys_erroredOf (res : String → Option GoError) (ids : GoMap String Bool)
    (id : String) : id ∈ (erroredOf res ids).keys ↔ id ∈ ids.keys ∧ res id ≠ none := by
  unfold erroredOf
  rw [GoMap.mem_keys_setAll]
  simp only [GoMap.keys, List.map_nil, List.not_mem_nil, false_or, List.mem_map,
    List.mem_filterMap, Prod.exists]
  constructor
  · rintro ⟨a, b, ⟨a', b', hm, hr⟩, rfl⟩
    cases hres : res a' with
    | none => simp [hres] at hr
    | some e =>
      simp only [hres, Option.map_some', Option.some.injEq, Prod.mk.injEq] at hr
      obtain ⟨h1, _⟩ := hr
      subst h1
      exact ⟨⟨a', b', hm, rfl⟩, by simp [hres]⟩
  · rintro ⟨⟨a, b, hm, rfl⟩, hne⟩
    cases hres : res a with
    | none => exact absurd hres hne
    | some e => exact ⟨a, e, ⟨a, b, hm, by simp [hres]⟩, rfl⟩

theorem mem_keys_successfulOf (res : String → Option GoError) (ids : GoMap String Bool)
    (id : String) : id ∈ (successfulOf res ids).keys ↔ id ∈ ids.keys ∧ res id = none := by
  unfold successfulOf
  rw [GoMap.mem_keys_setAll]
  simp only [GoMap.keys, List.map_nil, List.not_mem_nil, false_or, List.mem_map,
    List.mem_filter, Prod.exists, Option.isNone_iff_eq_none, Prod.mk.injEq]
  constructor
  · rintro ⟨a, b, ⟨a', b', ⟨hm, hr⟩, h1, _⟩, rfl⟩
    subst h1
    exact ⟨⟨a', b', hm, rfl⟩, hr⟩
  · rintro ⟨⟨a, b, hm, rfl⟩, hr⟩
    exact ⟨a, true, ⟨a, b, ⟨hm, hr⟩, rfl, rfl⟩, rfl⟩

theorem mem_keys_idSetOf (pairs : List (String × EnclaveUUID)) (id : String) :
    id ∈ (idSetOf pairs).keys ↔ ∃ u, (id, u) ∈ pairs := by
  unfold idSetOf
  rw [GoMap.mem_keys_setAll]
  simp [GoMap.keys]

theorem nodup_keys_idSetOf (pairs : List (String × EnclaveUUID)) : (idSetOf pairs).keys.Nodup :=
  GoMap.nodup_keys_setAll _ (by simp [GoMap.keys])

theorem get?_setAll_functional {pairs : List (String × EnclaveUUID)}
    (hf : ∀ id u u', (id, u) ∈ pairs → (id, u') ∈ pairs → u = u') (id : String)
    (u : EnclaveUUID) : (GoMap.setAll [] pairs).get? id = some u ↔ (id, u) ∈ pairs := by
  constructor
  · intro h
    rcases GoMap.get?_setAll_some h with h | h
    · simp [GoMap.get?] at h
    · exact h
  · intro h
    have hk : id ∈ (GoMap.setAll ([] : GoMap String EnclaveUUID) pairs).keys := by
      rw [GoMap.mem_keys_setAll]
      exact Or.inr (List.mem_map.mpr ⟨(id, u), h, rfl⟩)
    obtain ⟨u', hu'⟩ := (GoMap.mem_keys_iff _ _).mp hk
    rcases GoMap.get?_setAll_some hu' with h' | h'
    · simp [GoMap.get?] at h'
    · rw [hu', hf id u' u h' h]

/-- Grouping and splitting after a parallel run over the ids of `pairs`: an enclave is
successful exactly when none of its ids failed. -/
theorem aggregate_spec (pairs : List (String × EnclaveUUID))
    (hf : ∀ id u u', (id, u) ∈ pairs → (id, u') ∈ pairs → u = u')
    (res : String → Option GoError) (msg : String → String) :
    ∃ strs, groupErrorStrsByEnclave (GoMap.setAll [] pairs) msg
        (erroredOf res (idSetOf pairs)) [] = .ok strs ∧
      ∀ u, errorStrsOf strs u = [] ↔ ∀ id, (id, u) ∈ pairs → res id = none := by
  obtain ⟨strs, hs, hstrs⟩ := groupErrorStrsByEnclave_ok (GoMap.setAll [] pairs) msg
    (erroredOf res (idSetOf pairs)) [] (by
      intro p hp
      have := (mem_erroredOf hp).1
      rw [mem_keys_idSetOf] at this
      obtain ⟨u, hu⟩ := this
      rw [GoMap.mem_keys_setAll]
      exact Or.inr (List.mem_map.mpr ⟨(p.1, u), hu, rfl⟩))
  refine ⟨strs, hs, ?_⟩
  intro u
  rw [hstrs u]
  simp only [errorStrsOf, GoMap.get?, List.nil_append, List.map_eq_nil_iff,
    List.filter_eq_nil_iff, decide_eq_true_eq]
  constructor
  · intro h id hid
    by_contra hne
    have hk : id ∈ (erroredOf res (idSetOf pairs)).keys := by
      rw [mem_keys_erroredOf, mem_keys_idSetOf]
      exact ⟨⟨u, hid⟩, hne⟩
    obtain ⟨e, he⟩ := (GoMap.mem_keys_iff _ _).mp hk
    exact h (id, e) (GoMap.get?_eq_some_mem he) ((get?_setAll_functional hf id u).mpr hid)
  · intro h p hp hget
    have h1 := (get?_setAll_functional hf p.1 u).mp hget
    have h2 := (mem_erroredOf hp).2
    rw [h p.1 h1] at h2
    exact absurd h2 (by simp)

theorem destroyContainersInEnclaves_snd (E : Env) (ctx : Ctx)
    (m : GoMap EnclaveUUID matchingNetworkInformation) (d : Docker) :
    (destroyContainersInEnclaves E ctx m d).2 = afterContainers E ctx m d := by
  unfold destroyContainersInEnclaves
  simp only [destroyContainers_gather_eq]
  rw [RunDockerOperationInParallel_eq ctx _ (containerResult E ctx)
    (fun id d => removeEnclaveContainerOperation_fst E ctx id d)]
  have hst := removeContainers_state E ctx (idSetOf (containerPairs m)) d
  simp only [idSetOf] at hst ⊢
  cases hg : groupErrorStrsByEnclave (GoMap.setAll [] (containerPairs m))
      (fun erroredContainerId => "An error occurred destroying container '" ++
        erroredContainerId ++ "' in an enclave we didn't request")
      (erroredOf (containerResult E ctx)
        (GoMap.setAll [] (List.map (fun p => (p.1, true)) (containerPairs m)))) [] with
  | error e => simp only [hst]; rfl
  | ok strs => simp only [hst]; rfl

theorem containerResult_eq_none (E : Env) (ctx : Ctx) (id : String) :
    containerResult E ctx id = none ↔ E.fails ctx (.RemoveContainer id) = none := by
  simp [containerResult]

theorem volumeResult_eq_none (E : Env) (ctx : Ctx) (id : String) :
    volumeResult E ctx id = none ↔ E.fails ctx (.RemoveVolume id) = none := by
  simp [volumeResult]

theorem networkResult_eq_none (E : Env) (ctx : Ctx) (id : String) :
    networkResult E ctx id = none ↔ E.fails ctx (.RemoveNetwork id) = none := by
  simp [networkResult]

/-- The container phase: with container ids that determine their enclave, the phase returns,
and an enclave is successful exactly when every removal of one of its containers succeeded. -/
theorem destroyContainersInEnclaves_spec (E : Env) (ctx : Ctx)
    (m : GoMap EnclaveUUID matchingNetworkInformation) (d : Docker)
    (hf : ∀ id u u', (id, u) ∈ containerPairs m → (id, u') ∈ containerPairs m → u = u') :
    ∃ succ err, destroyContainersInEnclaves E ctx m d = (.ok (succ, err), afterContainers E ctx m d) ∧
      succ.keys.Nodup ∧
      (∀ u, u ∈ succ.keys ↔ u ∈ m.keys ∧
        ∀ id, (id, u) ∈ containerPairs m → E.fails ctx (.RemoveContainer id) = none) ∧
      (∀ u, u ∈ err.keys ↔ u ∈ m.keys ∧
        ¬ ∀ id, (id, u) ∈ containerPairs m → E.fails ctx (.RemoveContainer id) = none) := by
  obtain ⟨strs, hs, hstrs⟩ := aggregate_spec (containerPairs m) hf (containerResult E ctx)
    (fun erroredContainerId => "An error occurred destroying container '" ++
        erroredContainerId ++ "' in an enclave we didn't request")
  have hsnd := destroyContainersInEnclaves_snd E ctx m d
  have hfst : (destroyContainersInEnclaves E ctx m d).1 =
      .ok (splitEnclavesByErrors strs
        (fun enclaveUuid => "One or more errors occurred removing the containers in enclave '" ++
          enclaveUuid ++ "':\n") m.keys ([], [])) := by
    unfold destroyContainersInEnclaves
    simp only [destroyContainers_gather_eq]
    rw [RunDockerOperationInParallel_eq ctx _ (containerResult E ctx)
      (fun id d => removeEnclaveContainerOperation_fst E ctx id d)]
    simp only [idSetOf] at hs
    simp only [hs]
  refine ⟨_, _, Prod.ext hfst hsnd, ?_, ?_, ?_⟩
  · rw [splitEnclavesByErrors_eq]
    exact GoMap.nodup_keys_setAll _ (by simp [GoMap.keys])
  · intro u
    rw [mem_keys_split_successful, hstrs u]
    simp only [containerResult_eq_none]
  · intro u
    rw [mem_keys_split_errored]
    simp only [ne_eq, hstrs u, containerResult_eq_none]

/-! ### The matcher -/

theorem listingOnly_refl (d : Docker) : d.listingOnly d :=
  ⟨[], by simp, by simp⟩

theorem listingOnly_trans {d d' d'' : Docker} (h : d.listingOnly d') (h' : d'.listingOnly d'') :
    d.listingOnly d'' := by
  obtain ⟨evs, rfl, he⟩ := h
  obtain ⟨evs', rfl, he'⟩ := h'
  refine ⟨evs ++ evs', by simp, ?_⟩
  intro e hm
  rcases List.mem_append.mp hm with hm | hm
  · exact he e hm
  · exact he' e hm

theorem listingOnly_emit (d : Docker) (ctx : Ctx) (call : Call) (err : Option String)
    (h : Event.isListing ⟨ctx, call, err⟩ = true) : d.listingOnly (d.emit ctx call err) :=
  ⟨[⟨ctx, call, err⟩], rfl, by simpa using h⟩

theorem listingOnly_networks {d d' : Docker} (h : d.listingOnly d') : d'.networks = d.networks := by
  obtain ⟨evs, rfl, _⟩ := h
  rfl

theorem listingOnly_volumes {d d' : Docker} (h : d.listingOnly d') : d'.volumes = d.volumes := by
  obtain ⟨evs, rfl, _⟩ := h
  rfl

theorem listingOnly_containers {d d' : Docker} (h : d.listingOnly d') :
    d'.containers = d.containers := by
  obtain ⟨evs, rfl, _⟩ := h
  rfl

theorem containersOf_listingOnly {d d' : Docker} (h : d.listingOnly d') (u : EnclaveUUID) :
    containersOf d' u = containersOf d u := by
  unfold containersOf
  rw [listingOnly_containers h]

theorem volumesOf_listingOnly {d d' : Docker} (h : d.listingOnly d') (u : EnclaveUUID) :
    volumesOf d' u = volumesOf d u := by
  unfold volumesOf
  rw [listingOnly_volumes h]

theorem GetNetworksByLabels_eq (E : Env) (ctx : Ctx) (labels : Labels) (d : Docker) :
    DockerManager.GetNetworksByLabels E ctx labels d =
      ((match E.fails ctx (.GetNetworksByLabels labels) with
        | some msg => .error (.driver msg)
        | none => .ok (d.networks.filter (fun n => hasLabels labels n.labels))),
       d.emit ctx (.GetNetworksByLabels labels) (E.fails ctx (.GetNetworksByLabels labels))) := by
  unfold DockerManager.GetNetworksByLabels
  cases E.fails ctx (.GetNetworksByLabels labels) <;> rfl

theorem GetVolumesByLabels_eq (E : Env) (ctx : Ctx) (labels : Labels) (d : Docker) :
    DockerManager.GetVolumesByLabels E ctx labels d =
      ((match E.fails ctx (.GetVolumesByLabels labels) with
        | some msg => .error (.driver msg)
        | none => .ok (d.volumes.filter (fun v => hasLabels labels v.labels))),
       d.emit ctx (.GetVolumesByLabels labels) (E.fails ctx (.GetVolumesByLabels labels))) := by
  unfold DockerManager.GetVolumesByLabels
  cases E.fails ctx (.GetVolumesByLabels labels) <;> rfl

theorem getEnclaveStatusAndContainers_eq (E : Env) (ctx : Ctx) (u : EnclaveUUID) (d : Docker) :
    getEnclaveStatusAndContainers E ctx u d =
      ((match E.fails ctx (.GetContainersByLabels
            [(AppIDDockerLabelKey, AppIDDockerLabelValue), (EnclaveUUIDDockerLabelKey, u)] true) with
        | some msg => .error (.Propagate
            (.Propagate (.driver msg) ("An error occurred getting the containers for enclave '" ++
              u ++ "' by labels '" ++ fmtLabels
                [(AppIDDockerLabelKey, AppIDDockerLabelValue), (EnclaveUUIDDockerLabelKey, u)] ++
              "'"))
            ("An error occurred getting the containers for enclave '" ++ u ++ "'"))
        | none =>
          match classify E (containersOf d u) with
          | .error e => .error e
          | .ok st => .ok (st, containersOf d u)),
       d.emit ctx (.GetContainersByLabels
          [(AppIDDockerLabelKey, AppIDDockerLabelValue), (EnclaveUUIDDockerLabelKey, u)] true)
        (E.fails ctx (.GetContainersByLabels
          [(AppIDDockerLabelKey, AppIDDockerLabelValue), (EnclaveUUIDDockerLabelKey, u)] true))) := by
  unfold getEnclaveStatusAndContainers getAllEnclaveContainers
    DockerManager.GetContainersByLabels shouldFetchStoppedContainersWhenGettingEnclaveStatus
  cases hf : E.fails ctx (.GetContainersByLabels
      [(AppIDDockerLabelKey, AppIDDockerLabelValue), (EnclaveUUIDDockerLabelKey, u)] true) with
  | some msg => simp only [hf]
  | none =>
    simp only [hf, Bool.true_or, Bool.and_true]
    unfold classify containersOf
    by_cases hl : (d.containers.filter (fun c => hasLabels
        [(AppIDDockerLabelKey, AppIDDockerLabelValue), (EnclaveUUIDDockerLabelKey, u)]
        c.labels)).length = 0
    · have hnil := List.length_eq_zero.mp hl
      simp only [hl, if_true]
      rw [hnil]
    · simp only [hl, if_false]
      cases getEnclaveStatusAndContainers.loop E (d.containers.filter (fun c => hasLabels
        [(AppIDDockerLabelKey, AppIDDockerLabelValue), (EnclaveUUIDDockerLabelKey, u)]
        c.labels)) <;> rfl

theorem getEnclaveStatusAndContainers_listingOnly (E : Env) (ctx : Ctx) (u : EnclaveUUID)
    (d : Docker) : d.listingOnly (getEnclaveStatusAndContainers E ctx u d).2 := by
  rw [getEnclaveStatusAndContainers_eq]
  exact listingOnly_emit _ _ _ _ rfl

theorem uuidLoop_ok_iff (filters : EnclaveFilters) (l : List Network)
    (acc r : GoMap EnclaveUUID Network) :
    getMatchingEnclaveNetworkInfo.uuidLoop filters l acc = .ok r ↔
      (∀ n ∈ l, ∃ u, n.labels.get? EnclaveUUIDDockerLabelKey = some u) ∧
      r = GoMap.setAll acc (uuidPairs filters l) := by
  induction l generalizing acc with
  | nil =>
    simp only [getMatchingEnclaveNetworkInfo.uuidLoop, Except.ok.injEq, List.not_mem_nil,
      false_implies, implies_true, true_and, uuidPairs, List.filterMap_nil, GoMap.setAll_nil]
    exact eq_comm
  | cons n l ih =>
    unfold getMatchingEnclaveNetworkInfo.uuidLoop getEnclaveUuidFromNetwork
    cases hg : n.labels.get? EnclaveUUIDDockerLabelKey with
    | none =>
      simp only [List.mem_cons, forall_eq_or_imp, hg]
      constructor
      · intro h
        cases h
      · rintro ⟨⟨⟨u, hu⟩, _⟩, _⟩
        cases hu
    | some u =>
      simp only [gt_iff_lt, List.mem_cons, forall_eq_or_imp, hg, Option.some.injEq, exists_eq',
        true_and]
      by_cases hp : filters.UUIDs.length > 0 ∧ (filters.UUIDs.get? u).isNone = true
      · have hpass : uuidPasses filters u = false := by
          simp [uuidPasses, hp.1, hp.2]
        simp only [gt_iff_lt] at hp
        simp only [hp, and_self, if_true]
        rw [ih]
        simp [uuidPairs, List.filterMap_cons, hg, hpass]
      · have hpass : uuidPasses filters u = true := by
          simp only [uuidPasses, Bool.not_eq_true', Bool.and_eq_false_imp, decide_eq_true_eq]
          intro h1
          by_contra h2
          exact hp ⟨h1, by simpa using h2⟩
        simp only [gt_iff_lt] at hp
        simp only [hp, if_false]
        rw [ih]
        simp [uuidPairs, List.filterMap_cons, hg, hpass, GoMap.setAll_cons]

theorem mem_uuidPairs {filters : EnclaveFilters} {l : List Network} {u : EnclaveUUID}
    {n : Network} : (u, n) ∈ uuidPairs filters l ↔
      n ∈ l ∧ n.labels.get? EnclaveUUIDDockerLabelKey = some u ∧ uuidPasses filters u = true := by
  unfold uuidPairs
  simp only [List.mem_filterMap]
  constructor
  · rintro ⟨n', hn', h⟩
    cases hg : n'.labels.get? EnclaveUUIDDockerLabelKey with
    | none => simp [hg] at h
    | some u' =>
      by_cases hp : uuidPasses filters u' = true
      · simp only [hg, hp, if_true, Option.some.injEq, Prod.mk.injEq] at h
        obtain ⟨rfl, rfl⟩ := h
        exact ⟨hn', hg, hp⟩
      · simp [hg, hp] at h
  · rintro ⟨hn, hg, hp⟩
    exact ⟨n, hn, by simp [hg, hp]⟩

theorem statusLoop_listingOnly (E : Env) (ctx : Ctx) (filters : EnclaveFilters)
    (l : List (EnclaveUUID × Network)) (acc : GoMap EnclaveUUID matchingNetworkInformation)
    (d : Docker) :
    d.listingOnly (getMatchingEnclaveNetworkInfo.statusLoop E ctx filters l acc d).2 := by
  induction l generalizing acc d with
  | nil => exact listingOnly_refl d
  | cons p l ih =>
    obtain ⟨u, n⟩ := p
    have h1 := getEnclaveStatusAndContainers_listingOnly E ctx u d
    unfold getMatchingEnclaveNetworkInfo.statusLoop
    rcases hs : getEnclaveStatusAndContainers E ctx u d with ⟨r, d1⟩
    rw [hs] at h1
    cases r with
    | error e => exact h1
    | ok sc =>
      obtain ⟨st, cs⟩ := sc
      simp only
      split
      · exact listingOnly_trans h1 (ih _ _)
      · exact listingOnly_trans h1 (ih _ _)

theorem statusLoop_ok_iff (E : Env) (ctx : Ctx) (filters : EnclaveFilters) (d0 : Docker)
    (l : List (EnclaveUUID × Network)) (acc : GoMap EnclaveUUID matchingNetworkInformation)
    (d : Docker) (hd : d0.listingOnly d) (m : GoMap EnclaveUUID matchingNetworkInformation) :
    (getMatchingEnclaveNetworkInfo.statusLoop E ctx filters l acc d).1 = .ok m ↔
      (∀ p ∈ l, E.fails ctx (.GetContainersByLabels (searchLabelsOf p.1) true) = none ∧
        ∃ st, classify E (containersOf d0 p.1) = .ok st) ∧
      m = GoMap.setAll acc (statusPairs E filters d0 l) := by
  induction l generalizing acc d with
  | nil =>
    simp only [getMatchingEnclaveNetworkInfo.statusLoop, Except.ok.injEq, List.not_mem_nil,
      false_implies, implies_true, true_and, statusPairs, List.filterMap_nil, GoMap.setAll_nil]
    exact eq_comm
  | cons p l ih =>
    obtain ⟨u, n⟩ := p
    have h1 := getEnclaveStatusAndContainers_listingOnly E ctx u d
    have heq := getEnclaveStatusAndContainers_eq E ctx u d
    rw [containersOf_listingOnly hd] at heq
    unfold getMatchingEnclaveNetworkInfo.statusLoop
    rcases hs : getEnclaveStatusAndContainers E ctx u d with ⟨r, d1⟩
    rw [hs] at h1 heq
    have hd1 : d0.listingOnly d1 := listingOnly_trans hd h1
    have hr := congrArg Prod.fst heq
    simp only at hr
    simp only [List.mem_cons, forall_eq_or_imp, searchLabelsOf]
    cases hf : E.fails ctx (.GetContainersByLabels
        [(AppIDDockerLabelKey, AppIDDockerLabelValue), (EnclaveUUIDDockerLabelKey, u)] true) with
    | some msg =>
      rw [hf] at hr
      simp only at hr
      subst hr
      simp
    | none =>
      rw [hf] at hr
      simp only at hr
      cases hc : classify E (containersOf d0 u) with
      | error e =>
        rw [hc] at hr
        simp only at hr
        subst hr
        simp
      | ok st =>
        rw [hc] at hr
        simp only at hr
        subst hr
        simp only [gt_iff_lt, Except.ok.injEq, exists_eq', and_self, true_and]
        by_cases hp : filters.Statuses.length > 0 ∧ (filters.Statuses.get? st).isNone = true
        · have hpass : statusPasses filters st = false := by
            simp [statusPasses, hp.1, hp.2]
          simp only [gt_iff_lt] at hp
          simp only [hp, and_self, if_true]
          rw [ih _ _ hd1]
          simp [statusPairs, List.filterMap_cons, hc, hpass, searchLabelsOf]
        · have hpass : statusPasses filters st = true := by
            simp only [statusPasses, Bool.not_eq_true', Bool.and_eq_false_imp, decide_eq_true_eq]
            intro h1
            by_contra h2
            exact hp ⟨h1, by simpa using h2⟩
          simp only [gt_iff_lt] at hp
          simp only [hp, if_false]
          rw [ih _ _ hd1]
          simp [statusPairs, List.filterMap_cons, hc, hpass, GoMap.setAll_cons, searchLabelsOf]

theorem mem_statusPairs {E : Env} {filters : EnclaveFilters} {d : Docker}
    {l : List (EnclaveUUID × Network)} {u : EnclaveUUID} {info : matchingNetworkInformation} :
    (u, info) ∈ statusPairs E filters d l ↔
      ∃ n st, (u, n) ∈ l ∧ classify E (containersOf d u) = .ok st ∧
        statusPasses filters st = true ∧ info = ⟨u, st, n, containersOf d u⟩ := by
  unfold statusPairs
  simp only [List.mem_filterMap]
  constructor
  · rintro ⟨⟨u', n⟩, hm, h⟩
    cases hc : classify E (containersOf d u') with
    | error e => simp [hc] at h
    | ok st =>
      by_cases hp : statusPasses filters st = true
      · simp only [hc, hp, if_true, Option.some.injEq, Prod.mk.injEq] at h
        obtain ⟨rfl, rfl⟩ := h
        exact ⟨n, st, hm, hc, hp, rfl⟩
      · simp [hc, hp] at h
  · rintro ⟨n, st, hm, hc, hp, rfl⟩
    exact ⟨(u, n), hm, by simp [hc, hp]⟩

theorem getMatchingEnclaveNetworkInfo_listingOnly (E : Env) (ctx : Ctx)
    (filters : EnclaveFilters) (d : Docker) :
    d.listingOnly (getMatchingEnclaveNetworkInfo E ctx filters d).2 := by
  simp only [getMatchingEnclaveNetworkInfo, GetNetworksByLabels_eq]
  have h0 : d.listingOnly (d.emit ctx (.GetNetworksByLabels
      [(AppIDDockerLabelKey, AppIDDockerLabelValue)])
      (E.fails ctx (.GetNetworksByLabels [(AppIDDockerLabelKey, AppIDDockerLabelValue)]))) :=
    listingOnly_emit _ _ _ _ rfl
  cases hf : E.fails ctx (.GetNetworksByLabels [(AppIDDockerLabelKey, AppIDDockerLabelValue)]) with
  | some msg =>
    rw [hf] at h0
    exact h0
  | none =>
    rw [hf] at h0
    simp only
    cases getMatchingEnclaveNetworkInfo.uuidLoop filters
        (d.networks.filter (fun n => hasLabels [(AppIDDockerLabelKey, AppIDDockerLabelValue)]
          n.labels)) [] with
    | error e => exact h0
    | ok mm => exact listingOnly_trans h0 (statusLoop_listingOnly _ _ _ _ _ _)

/-- The networks of the engine tagged `app-id=kurtosis`, as the matcher lists them. -/
theorem hasLabels_app (labels : Labels) :
    hasLabels [(AppIDDockerLabelKey, AppIDDockerLabelValue)] labels = true ↔
      labels.get? AppIDDockerLabelKey = some AppIDDockerLabelValue := by
  simp [hasLabels]

theorem hasLabels_searchLabelsOf (u : EnclaveUUID) (labels : Labels) :
    hasLabels (searchLabelsOf u) labels = true ↔
      labels.get? AppIDDockerLabelKey = some AppIDDockerLabelValue ∧
      labels.get? EnclaveUUIDDockerLabelKey = some u := by
  simp [hasLabels, searchLabelsOf]

/-- When the matcher returns a map, the map is the closed form of its two loops. -/
theorem getMatchingEnclaveNetworkInfo_ok (E : Env) (ctx : Ctx) (filters : EnclaveFilters)
    (d : Docker) (m : GoMap EnclaveUUID matchingNetworkInformation)
    (h : (getMatchingEnclaveNetworkInfo E ctx filters d).1 = .ok m) :
    m = GoMap.setAll [] (statusPairs E filters d (GoMap.setAll [] (uuidPairs filters
      (d.networks.filter (fun n => hasLabels [(AppIDDockerLabelKey, AppIDDockerLabelValue)]
        n.labels))))) := by
  simp only [getMatchingEnclaveNetworkInfo, GetNetworksByLabels_eq] at h
  cases hf : E.fails ctx (.GetNetworksByLabels [(AppIDDockerLabelKey, AppIDDockerLabelValue)]) with
  | some msg =>
    rw [hf] at h
    simp at h
  | none =>
    rw [hf] at h
    simp only at h
    cases hu : getMatchingEnclaveNetworkInfo.uuidLoop filters
        (d.networks.filter (fun n => hasLabels [(AppIDDockerLabelKey, AppIDDockerLabelValue)]
          n.labels)) [] with
    | error e =>
      rw [hu] at h
      simp at h
    | ok mm =>
      rw [hu] at h
      simp only at h
      have hmm := ((uuidLoop_ok_iff _ _ _ _).mp hu).2
      have := (statusLoop_ok_iff E ctx filters d mm [] _
        (listingOnly_emit d ctx (.GetNetworksByLabels
          [(AppIDDockerLabelKey, AppIDDockerLabelValue)]) none rfl) m).mp h
      rw [this.2, hmm]

/-- Every entry of the matcher's result is matched by the engine state, and no UUID is a key
twice. -/
theorem getMatchingEnclaveNetworkInfo_matched (E : Env) (ctx : Ctx) (filters : EnclaveFilters)
    (d : Docker) (m : GoMap EnclaveUUID matchingNetworkInformation)
    (h : (getMatchingEnclaveNetworkInfo E ctx filters d).1 = .ok m) :
    m.keys.Nodup ∧ ∀ u info, (u, info) ∈ m → MatchedBy d u info := by
  have hm := getMatchingEnclaveNetworkInfo_ok E ctx filters d m h
  constructor
  · rw [hm]
    exact GoMap.nodup_keys_setAll _ (by simp [GoMap.keys])
  · intro u info hin
    rw [hm] at hin
    rcases GoMap.mem_setAll hin with hin | hin
    · simp at hin
    · obtain ⟨n, st, hn, _, _, rfl⟩ := mem_statusPairs.mp hin
      rcases GoMap.mem_setAll hn with hn | hn
      · simp at hn
      · obtain ⟨hn1, hn2, _⟩ := mem_uuidPairs.mp hn
        rw [List.mem_filter] at hn1
        exact ⟨rfl, hn1.1, (hasLabels_app _).mp hn1.2, hn2, rfl⟩

/-! ### Phase 2: the volumes -/

theorem getAllEnclaveVolumes_eq (E : Env) (ctx : Ctx) (u : EnclaveUUID) (d : Docker) :
    getAllEnclaveVolumes E ctx u d =
      ((match E.fails ctx (.GetVolumesByLabels (searchLabelsOf u)) with
        | some msg => .error (.Propagate (.driver msg)
            ("An error occurred getting the volumes for enclave '" ++ u ++ "' by labels '" ++
              fmtLabels (searchLabelsOf u) ++ "'"))
        | none => .ok (volumesOf d u)),
       d.emit ctx (.GetVolumesByLabels (searchLabelsOf u))
        (E.fails ctx (.GetVolumesByLabels (searchLabelsOf u)))) := by
  simp only [getAllEnclaveVolumes, GetVolumesByLabels_eq, searchLabelsOf, volumesOf]
  cases E.fails ctx (.GetVolumesByLabels
    [(AppIDDockerLabelKey, AppIDDockerLabelValue), (EnclaveUUIDDockerLabelKey, u)]) <;> rfl

theorem volumes_gather_inner (u : EnclaveUUID) (vs : List Volume)
    (acc : GoMap String EnclaveUUID × GoMap String Bool) :
    vs.foldl (fun acc volume => (acc.1.set volume.Name u, acc.2.set volume.Name true)) acc =
      (GoMap.setAll acc.1 (vs.map (fun v => (v.Name, u))),
       GoMap.setAll acc.2 ((vs.map (fun v => (v.Name, u))).map (fun p => (p.1, true)))) := by
  induction vs generalizing acc with
  | nil => rfl
  | cons c cs ih => simp [List.foldl_cons, ih, GoMap.setAll_cons]

theorem volumes_gather_listingOnly (E : Env) (ctx : Ctx) (l : List (EnclaveUUID × Bool))
    (acc : GoMap String EnclaveUUID × GoMap String Bool) (d : Docker) :
    d.listingOnly (destroyVolumesInEnclaves.gather E ctx l acc d).2 := by
  induction l generalizing acc d with
  | nil => exact listingOnly_refl d
  | cons p l ih =>
    obtain ⟨u, b⟩ := p
    have h0 : d.listingOnly (d.emit ctx (.GetVolumesByLabels (searchLabelsOf u))
        (E.fails ctx (.GetVolumesByLabels (searchLabelsOf u)))) := listingOnly_emit _ _ _ _ rfl
    simp only [destroyVolumesInEnclaves.gather, getAllEnclaveVolumes_eq]
    cases hf : E.fails ctx (.GetVolumesByLabels (searchLabelsOf u)) with
    | some msg =>
      rw [hf] at h0
      exact h0
    | none =>
      rw [hf] at h0
      exact listingOnly_trans h0 (ih _ _)

theorem volumes_gather_ok_iff (E : Env) (ctx : Ctx) (d0 : Docker) (l : List (EnclaveUUID × Bool))
    (acc : GoMap String EnclaveUUID × GoMap String Bool) (d : Docker) (hd : d0.listingOnly d)
    (r : GoMap String EnclaveUUID × GoMap String Bool) :
    (destroyVolumesInEnclaves.gather E ctx l acc d).1 = .ok r ↔
      (∀ p ∈ l, E.fails ctx (.GetVolumesByLabels (searchLabelsOf p.1)) = none) ∧
      r = (GoMap.setAll acc.1 (volumePairs d0 l),
           GoMap.setAll acc.2 ((volumePairs d0 l).map (fun p => (p.1, true)))) := by
  induction l generalizing acc d with
  | nil =>
    simp only [destroyVolumesInEnclaves.gather, Except.ok.injEq, List.not_mem_nil,
      false_implies, implies_true, true_and, volumePairs, List.flatMap_nil, GoMap.setAll_nil,
      List.map_nil]
    exact eq_comm
  | cons p l ih =>
    obtain ⟨u, b⟩ := p
    have h0 : d.listingOnly (d.emit ctx (.GetVolumesByLabels (searchLabelsOf u))
        (E.fails ctx (.GetVolumesByLabels (searchLabelsOf u)))) := listingOnly_emit _ _ _ _ rfl
    simp only [destroyVolumesInEnclaves.gather, getAllEnclaveVolumes_eq, List.mem_cons,
      forall_eq_or_imp]
    cases hf : E.fails ctx (.GetVolumesByLabels (searchLabelsOf u)) with
    | some msg => simp
    | none =>
      rw [hf] at h0
      simp only [true_and]
      rw [ih _ _ (listingOnly_trans hd h0), volumes_gather_inner, volumesOf_listingOnly hd]
      simp [volumePairs, List.flatMap_cons, GoMap.setAll_append]

theorem mem_volumePairs {d : Docker} {enclaves : GoMap EnclaveUUID Bool} {id : String}
    {u : EnclaveUUID} :
    (id, u) ∈ volumePairs d enclaves ↔ u ∈ enclaves.keys ∧ ∃ v ∈ volumesOf d u, v.Name = id := by
  unfold volumePairs GoMap.keys
  simp only [List.mem_flatMap, List.mem_map, Prod.mk.injEq]
  constructor
  · rintro ⟨⟨u', b⟩, hm, v, hv, h1, h2⟩
    simp only at h2
    subst h2
    exact ⟨⟨(u', b), hm, rfl⟩, v, hv, h1⟩
  · rintro ⟨⟨⟨u', b⟩, hm, rfl⟩, v, hv, h1⟩
    exact ⟨(u', b), hm, v, hv, h1, rfl⟩

/-- The volume phase when a listing fails: the phase ends with an error and has removed
nothing. -/
theorem destroyVolumesInEnclaves_listing_fails (E : Env) (ctx : Ctx)
    (enclaves : GoMap EnclaveUUID Bool) (d : Docker)
    (h : ∃ u ∈ enclaves.keys, E.fails ctx (.GetVolumesByLabels (searchLabelsOf u)) ≠ none) :
    (∃ e, (destroyVolumesInEnclaves E ctx enclaves d).1 = .error e) ∧
      d.listingOnly (destroyVolumesInEnclaves E ctx enclaves d).2 := by
  have hl := volumes_gather_listingOnly E ctx enclaves ([], []) d
  unfold destroyVolumesInEnclaves
  rcases hg : destroyVolumesInEnclaves.gather E ctx enclaves ([], []) d with ⟨r, d1⟩
  rw [hg] at hl
  cases r with
  | error e => exact ⟨⟨e, rfl⟩, hl⟩
  | ok r =>
    exfalso
    have := (volumes_gather_ok_iff E ctx d enclaves ([], []) d (listingOnly_refl d) r).mp
      (by rw [hg])
    obtain ⟨u, hu, hne⟩ := h
    obtain ⟨p, hp, rfl⟩ := List.mem_map.mp hu
    exact hne (this.1 p hp)

/-- The volume phase when every listing succeeds: it returns, and an enclave is successful
exactly when every removal of one of its volumes succeeded. -/
theorem destroyVolumesInEnclaves_spec (E : Env) (ctx : Ctx)
    (enclaves : GoMap EnclaveUUID Bool) (d : Docker)
    (hf : ∀ id u u', (id, u) ∈ volumePairs d enclaves → (id, u') ∈ volumePairs d enclaves → u = u')
    (h : ∀ u ∈ enclaves.keys, E.fails ctx (.GetVolumesByLabels (searchLabelsOf u)) = none) :
    ∃ succ err dl, d.listingOnly dl ∧
      destroyVolumesInEnclaves E ctx enclaves d =
        (.ok (succ, err), afterVolumes E ctx (volumePairs d enclaves) dl) ∧
      succ.keys.Nodup ∧
      (∀ u, u ∈ succ.keys ↔ u ∈ enclaves.keys ∧
        ∀ id, (id, u) ∈ volumePairs d enclaves → E.fails ctx (.RemoveVolume id) = none) ∧
      (∀ u, u ∈ err.keys ↔ u ∈ enclaves.keys ∧
        ¬ ∀ id, (id, u) ∈ volumePairs d enclaves → E.fails ctx (.RemoveVolume id) = none) := by
  have hl := volumes_gather_listingOnly E ctx enclaves ([], []) d
  have hg : (destroyVolumesInEnclaves.gather E ctx enclaves ([], []) d).1 =
      .ok (GoMap.setAll [] (volumePairs d enclaves),
           GoMap.setAll [] ((volumePairs d enclaves).map (fun p => (p.1, true)))) :=
    (volumes_gather_ok_iff E ctx d enclaves ([], []) d (listingOnly_refl d) _).mpr
      ⟨fun p hp => h p.1 (List.mem_map.mpr ⟨p, hp, rfl⟩), rfl⟩
  rcases hgg : destroyVolumesInEnclaves.gather E ctx enclaves ([], []) d with ⟨r, dl⟩
  rw [hgg] at hl hg
  simp only at hg
  subst hg
  obtain ⟨strs, hs, hstrs⟩ := aggregate_spec (volumePairs d enclaves) hf (volumeResult E ctx)
    (fun erroredVolumeId => "An error occurred removing volume '" ++ erroredVolumeId ++
            "' in an enclave we didn't request")
  have hst := removeVolumes_state E ctx (idSetOf (volumePairs d enclaves)) dl
  simp only [idSetOf] at hs hst
  refine ⟨(splitEnclavesByErrors strs
        (fun enclaveUuid => "One or more errors occurred removing the volumes in enclave '" ++
          enclaveUuid ++ "':\n") enclaves.keys ([], [])).1,
      (splitEnclavesByErrors strs
        (fun enclaveUuid => "One or more errors occurred removing the volumes in enclave '" ++
          enclaveUuid ++ "':\n") enclaves.keys ([], [])).2, dl, hl, ?_, ?_, ?_, ?_⟩
  · unfold destroyVolumesInEnclaves
    simp only [hgg]
    rw [RunDockerOperationInParallel_eq ctx _ (volumeResult E ctx)
      (fun id d => removeEnclaveVolumeOperation_fst E ctx id d)]
    simp only [hs, hst]
    rfl
  · rw [splitEnclavesByErrors_eq]
    exact GoMap.nodup_keys_setAll _ (by simp [GoMap.keys])
  · intro u
    rw [mem_keys_split_successful, hstrs u]
    simp only [volumeResult_eq_none]
  · intro u
    rw [mem_keys_split_errored]
    simp only [ne_eq, hstrs u, volumeResult_eq_none]

/-! ### Phase 3: the networks -/

theorem networksLoop_ok (m : GoMap EnclaveUUID matchingNetworkInformation)
    (l : GoMap EnclaveUUID Bool) (acc : GoMap EnclaveUUID String)
    (h : ∀ p ∈ l, p.1 ∈ m.keys) :
    DestroyEnclaves.networksLoop m l acc = .ok (GoMap.setAll acc (networkPairs m l)) := by
  induction l generalizing acc with
  | nil => rfl
  | cons p l ih =>
    obtain ⟨u, b⟩ := p
    obtain ⟨info, hinfo⟩ := (GoMap.mem_keys_iff _ _).mp (h (u, b) (List.mem_cons_self _ _))
    simp only [DestroyEnclaves.networksLoop, hinfo]
    rw [ih _ (fun p hp => h p (List.mem_cons_of_mem _ hp))]
    simp [networkPairs, List.filterMap_cons, hinfo, GoMap.setAll_cons]

theorem mem_networkPairs {m : GoMap EnclaveUUID matchingNetworkInformation}
    {l : GoMap EnclaveUUID Bool} {u : EnclaveUUID} {id : String} :
    (u, id) ∈ networkPairs m l ↔
      u ∈ l.keys ∧ ∃ info, m.get? u = some info ∧ info.dockerNetwork.id = id := by
  unfold networkPairs GoMap.keys
  simp only [List.mem_filterMap, List.mem_map]
  constructor
  · rintro ⟨⟨u', b⟩, hm, h⟩
    cases hg : m.get? u' with
    | none => simp [hg] at h
    | some info =>
      simp only [hg, Option.map_some', Option.some.injEq, Prod.mk.injEq] at h
      obtain ⟨rfl, rfl⟩ := h
      exact ⟨⟨(u', b), hm, rfl⟩, info, hg, rfl⟩
  · rintro ⟨⟨⟨u', b⟩, hm, rfl⟩, info, hg, rfl⟩
    exact ⟨(u', b), hm, by simp [hg]⟩

theorem networks_gather_ids (nets : GoMap EnclaveUUID String) (acc : GoMap String Bool) :
    nets.foldl (fun acc e => acc.set e.2 true) acc =
      GoMap.setAll acc ((nets.map (fun e => (e.2, e.1))).map (fun p => (p.1, true))) := by
  induction nets generalizing acc with
  | nil => rfl
  | cons e nets ih => simp [List.foldl_cons, ih, GoMap.setAll_cons]

theorem networks_gather_uuids (nets : GoMap EnclaveUUID String)
    (acc : GoMap String EnclaveUUID) :
    nets.foldl (fun acc e => acc.set e.2 e.1) acc =
      GoMap.setAll acc (nets.map (fun e => (e.2, e.1))) := by
  induction nets generalizing acc with
  | nil => rfl
  | cons e nets ih => simp [List.foldl_cons, ih, GoMap.setAll_cons]

theorem successfulLoop_ok (uuidFor : GoMap String EnclaveUUID) (l : List (String × Bool))
    (acc : GoMap EnclaveUUID Bool) (h : ∀ p ∈ l, p.1 ∈ uuidFor.keys) :
    ∃ r, destroyEnclaveNetworks.successfulLoop uuidFor l acc = .ok r ∧
      (acc.keys.Nodup → r.keys.Nodup) ∧
      ∀ u, u ∈ r.keys ↔ u ∈ acc.keys ∨ ∃ p ∈ l, uuidFor.get? p.1 = some u := by
  induction l generalizing acc with
  | nil => exact ⟨acc, rfl, id, by simp⟩
  | cons p l ih =>
    obtain ⟨id', b⟩ := p
    obtain ⟨u0, hu0⟩ := (GoMap.mem_keys_iff _ _).mp (h (id', b) (List.mem_cons_self _ _))
    obtain ⟨r, hr, hnd, hkeys⟩ := ih (acc.set u0 true)
      (fun p hp => h p (List.mem_cons_of_mem _ hp))
    refine ⟨r, ?_, fun hn => hnd (GoMap.nodup_keys_set _ _ hn), ?_⟩
    · simp only [destroyEnclaveNetworks.successfulLoop, hu0]
      exact hr
    · intro u
      rw [hkeys u, GoMap.mem_keys_set]
      simp only [List.mem_cons, exists_eq_or_imp, hu0, Option.some.injEq]
      constructor
      · rintro ((h1 | h1) | h1)
        · exact Or.inr (Or.inl h1.symm)
        · exact Or.inl h1
        · exact Or.inr (Or.inr h1)
      · rintro (h1 | h1 | h1)
        · exact Or.inl (Or.inr h1)
        · exact Or.inl (Or.inl h1.symm)
        · exact Or.inr h1

theorem erroredLoop_ok (uuidFor : GoMap String EnclaveUUID) (l : List (String × GoError))
    (acc : GoMap EnclaveUUID GoError) (h : ∀ p ∈ l, p.1 ∈ uuidFor.keys) :
    ∃ r, destroyEnclaveNetworks.erroredLoop uuidFor l acc = .ok r ∧
      ∀ u, u ∈ r.keys ↔ u ∈ acc.keys ∨ ∃ p ∈ l, uuidFor.get? p.1 = some u := by
  induction l generalizing acc with
  | nil => exact ⟨acc, rfl, by simp⟩
  | cons p l ih =>
    obtain ⟨id', e⟩ := p
    obtain ⟨u0, hu0⟩ := (GoMap.mem_keys_iff _ _).mp (h (id', e) (List.mem_cons_self _ _))
    obtain ⟨r, hr, hkeys⟩ := ih (acc.set u0 e)
      (fun p hp => h p (List.mem_cons_of_mem _ hp))
    refine ⟨r, ?_, ?_⟩
    · simp only [destroyEnclaveNetworks.erroredLoop, hu0]
      exact hr
    · intro u
      rw [hkeys u, GoMap.mem_keys_set]
      simp only [List.mem_cons, exists_eq_or_imp, hu0, Option.some.injEq]
      constructor
      · rintro ((h1 | h1) | h1)
        · exact Or.inr (Or.inl h1.symm)
        · exact Or.inl h1
        · exact Or.inr (Or.inr h1)
      · rintro (h1 | h1 | h1)
        · exact Or.inl (Or.inr h1)
        · exact Or.inl (Or.inl h1.symm)
        · exact Or.inr h1

theorem mem_successfulOf_keys {res : String → Option GoError} {ids : GoMap String Bool}
    {p : String × Bool} (h : p ∈ successfulOf res ids) : p.1 ∈ ids.keys ∧ res p.1 = none :=
  (mem_keys_successfulOf res ids p.1).mp (List.mem_map.mpr ⟨p, h, rfl⟩)

/-- The network phase: with network ids that determine their enclave, the phase returns, and
an enclave is successful exactly when the removal of its network succeeded. -/
theorem destroyEnclaveNetworks_spec (E : Env) (ctx : Ctx) (nets : GoMap EnclaveUUID String)
    (d : Docker)
    (hf : ∀ id u u', (u, id) ∈ nets → (u', id) ∈ nets → u = u') :
    ∃ succ err, destroyEnclaveNetworks E ctx nets d =
        (.ok (succ, err),
         afterNetworks E ctx (idSetOf (nets.map (fun e => (e.2, e.1)))) d) ∧
      succ.keys.Nodup ∧
      (∀ u, u ∈ succ.keys ↔ ∃ id, (u, id) ∈ nets ∧ E.fails ctx (.RemoveNetwork id) = none) ∧
      (∀ u, u ∈ err.keys ↔ ∃ id, (u, id) ∈ nets ∧ E.fails ctx (.RemoveNetwork id) ≠ none) := by
  have hf' : ∀ id u u', (id, u) ∈ nets.map (fun e => (e.2, e.1)) →
      (id, u') ∈ nets.map (fun e => (e.2, e.1)) → u = u' := by
    intro id u u' h1 h2
    obtain ⟨⟨a, b⟩, ha, hab⟩ := List.mem_map.mp h1
    obtain ⟨⟨a', b'⟩, ha', hab'⟩ := List.mem_map.mp h2
    simp only [Prod.mk.injEq] at hab hab'
    obtain ⟨rfl, rfl⟩ := hab
    obtain ⟨rfl, rfl⟩ := hab'
    exact hf _ _ _ ha ha'
  have hpairs : ∀ id u, (id, u) ∈ nets.map (fun e => (e.2, e.1)) ↔ (u, id) ∈ nets := by
    intro id u
    simp only [List.mem_map, Prod.mk.injEq, Prod.exists]
    constructor
    · rintro ⟨a, b, h, rfl, rfl⟩
      exact h
    · intro h
      exact ⟨u, id, h, rfl, rfl⟩
  have hkeys : ∀ id, id ∈ (GoMap.setAll ([] : GoMap String EnclaveUUID)
      (nets.map (fun e => (e.2, e.1)))).keys ↔ id ∈ (idSetOf (nets.map (fun e => (e.2, e.1)))).keys := by
    intro id
    rw [mem_keys_idSetOf, GoMap.mem_keys_setAll]
    simp only [GoMap.keys, List.map_nil, List.not_mem_nil, false_or, List.mem_map]
    constructor
    · rintro ⟨⟨a, b⟩, hab, rfl⟩
      exact ⟨b, hab⟩
    · rintro ⟨u, hu⟩
      exact ⟨(id, u), hu, rfl⟩
  obtain ⟨succ, hsucc, hnd, hsk⟩ := successfulLoop_ok
    (GoMap.setAll [] (nets.map (fun e => (e.2, e.1))))
    (successfulOf (networkResult E ctx) (idSetOf (nets.map (fun e => (e.2, e.1))))) []
    (fun p hp => (hkeys _).mpr (mem_successfulOf_keys hp).1)
  obtain ⟨err, herr, hek⟩ := erroredLoop_ok
    (GoMap.setAll [] (nets.map (fun e => (e.2, e.1))))
    (erroredOf (networkResult E ctx) (idSetOf (nets.map (fun e => (e.2, e.1))))) []
    (fun p hp => (hkeys _).mpr (mem_erroredOf hp).1)
  have hst := removeNetworks_state E ctx (idSetOf (nets.map (fun e => (e.2, e.1)))) d
  refine ⟨succ, err, ?_, hnd (by simp [GoMap.keys]), ?_, ?_⟩
  · unfold destroyEnclaveNetworks
    simp only [networks_gather_ids, networks_gather_uuids]
    rw [RunDockerOperationInParallel_eq ctx _ (networkResult E ctx)
      (fun id d => removeNetworkOperation_fst E ctx id d)]
    simp only [idSetOf] at hsucc herr hst
    simp only [hsucc, herr, hst]
    rfl
  · intro u
    rw [hsk u]
    simp only [GoMap.keys, List.map_nil, List.not_mem_nil, false_or]
    constructor
    · rintro ⟨p, hp, hg⟩
      have h1 := (get?_setAll_functional hf' p.1 u).mp hg
      exact ⟨p.1, (hpairs _ _).mp h1, (networkResult_eq_none E ctx p.1).mp
        (mem_successfulOf_keys hp).2⟩
    · rintro ⟨id, hid, hfail⟩
      have hk : id ∈ (successfulOf (networkResult E ctx)
          (idSetOf (nets.map (fun e => (e.2, e.1))))).keys := by
        rw [mem_keys_successfulOf, mem_keys_idSetOf]
        exact ⟨⟨u, (hpairs _ _).mpr hid⟩, (networkResult_eq_none E ctx id).mpr hfail⟩
      obtain ⟨b, hb⟩ := (GoMap.mem_keys_iff _ _).mp hk
      exact ⟨(id, b), GoMap.get?_eq_some_mem hb,
        (get?_setAll_functional hf' id u).mpr ((hpairs _ _).mpr hid)⟩
  · intro u
    rw [hek u]
    simp only [GoMap.keys, List.map_nil, List.not_mem_nil, false_or]
    constructor
    · rintro ⟨p, hp, hg⟩
      have h1 := (get?_setAll_functional hf' p.1 u).mp hg
      refine ⟨p.1, (hpairs _ _).mp h1, ?_⟩
      intro hnone
      have := (mem_erroredOf hp).2
      rw [(networkResult_eq_none E ctx p.1).mpr hnone] at this
      cases this
    · rintro ⟨id, hid, hfail⟩
      have hk : id ∈ (erroredOf (networkResult E ctx)
          (idSetOf (nets.map (fun e => (e.2, e.1))))).keys := by
        rw [mem_keys_erroredOf, mem_keys_idSetOf]
        refine ⟨⟨u, (hpairs _ _).mpr hid⟩, ?_⟩
        intro hnone
        exact hfail ((networkResult_eq_none E ctx id).mp hnone)
      obtain ⟨b, hb⟩ := (GoMap.mem_keys_iff _ _).mp hk
      exact ⟨(id, b), GoMap.get?_eq_some_mem hb,
        (get?_setAll_functional hf' id u).mpr ((hpairs _ _).mpr hid)⟩

/-! ### The three phases together -/

theorem GoMap.set_of_not_mem {K V : Type} [DecidableEq K] (m : GoMap K V) (k : K) (v : V)
    (h : k ∉ m.keys) : m.set k v = m ++ [(k, v)] := by
  induction m with
  | nil => rfl
  | cons p m ih =>
    obtain ⟨a, b⟩ := p
    simp only [GoMap.keys, List.map_cons, List.mem_cons, not_or] at h
    have ha : ¬ a = k := fun e => h.1 e.symm
    simp only [GoMap.set, ha, if_false, List.cons_append, List.cons.injEq, true_and]
    exact ih h.2

theorem GoMap.setAll_eq_append {K V : Type} [DecidableEq K] (acc l : GoMap K V)
    (h : (acc ++ l).keys.Nodup) : GoMap.setAll acc l = acc ++ l := by
  induction l generalizing acc with
  | nil => simp [GoMap.setAll]
  | cons p l ih =>
    have hp : p.1 ∉ acc.keys := by
      intro hmem
      simp only [GoMap.keys, List.map_append, List.map_cons] at h hmem
      have := (List.nodup_append.mp h).2.2
      exact this hmem (List.mem_cons_self _ _)
    rw [GoMap.setAll_cons, GoMap.set_of_not_mem _ _ _ hp]
    have h' : ((acc ++ [(p.1, p.2)]) ++ l).keys.Nodup := by
      simpa [GoMap.keys] using h
    rw [ih _ h']
    simp

theorem tenantCheck_eq_none (backend : DockerKurtosisBackend)
    (m : GoMap EnclaveUUID matchingNetworkInformation) :
    DestroyEnclaves.tenantCheck backend m = none ↔ NoTenantState backend m := by
  unfold NoTenantState
  induction m with
  | nil => simp [DestroyEnclaves.tenantCheck, GoMap.keys]
  | cons p m ih =>
    obtain ⟨u, info⟩ := p
    simp only [DestroyEnclaves.tenantCheck, GoMap.keys, List.map_cons, List.mem_cons,
      forall_eq_or_imp]
    cases h1 : backend.enclaveFreeIpProviders.get? u with
    | some x => simp
    | none =>
      cases h2 : backend.serviceRegistrations.get? u with
      | some y => simp
      | none =>
        simp only [true_and]
        exact ih

theorem addErrors_keys (acc new : GoMap EnclaveUUID GoError) (u : EnclaveUUID) :
    u ∈ (DestroyEnclaves.addErrors acc new).keys ↔ u ∈ acc.keys ∨ u ∈ new.keys :=
  GoMap.mem_keys_setAll acc new u

theorem eq_of_mem_of_id_eq {α : Type} {l : List α} {f : α → String}
    (hn : (l.map f).Nodup) {a b : α} (ha : a ∈ l) (hb : b ∈ l) (h : f a = f b) : a = b :=
  List.inj_on_of_nodup_map hn ha hb h

theorem mem_containersOf {d : Docker} {u : EnclaveUUID} {c : Container} :
    c ∈ containersOf d u ↔ c ∈ d.containers ∧
      c.labels.get? AppIDDockerLabelKey = some AppIDDockerLabelValue ∧
      c.labels.get? EnclaveUUIDDockerLabelKey = some u := by
  unfold containersOf
  rw [List.mem_filter]
  exact and_congr_right (fun _ => hasLabels_searchLabelsOf u c.labels)

theorem mem_volumesOf {d : Docker} {u : EnclaveUUID} {v : Volume} :
    v ∈ volumesOf d u ↔ v ∈ d.volumes ∧
      v.labels.get? AppIDDockerLabelKey = some AppIDDockerLabelValue ∧
      v.labels.get? EnclaveUUIDDockerLabelKey = some u := by
  unfold volumesOf
  rw [List.mem_filter]
  exact and_congr_right (fun _ => hasLabels_searchLabelsOf u v.labels)

theorem containerPairs_functional {d : Docker} (hw : d.WellFormed)
    {m : GoMap EnclaveUUID matchingNetworkInformation}
    (hm : ∀ u info, (u, info) ∈ m → MatchedBy d u info) :
    ∀ id u u', (id, u) ∈ containerPairs m → (id, u') ∈ containerPairs m → u = u' := by
  intro id u u' h1 h2
  obtain ⟨info, hi, c, hc, hid⟩ := mem_containerPairs.mp h1
  obtain ⟨info', hi', c', hc', hid'⟩ := mem_containerPairs.mp h2
  rw [(hm u info hi).2.2.2.2] at hc
  rw [(hm u' info' hi').2.2.2.2] at hc'
  obtain ⟨hcd, _, hcu⟩ := mem_containersOf.mp hc
  obtain ⟨hcd', _, hcu'⟩ := mem_containersOf.mp hc'
  have : c = c' := eq_of_mem_of_id_eq hw.containerIds hcd hcd' (hid.trans hid'.symm)
  subst this
  rw [hcu] at hcu'
  exact Option.some.inj hcu'

theorem volumePairs_functional {d : Docker} (hw : d.WellFormed)
    (enclaves : GoMap EnclaveUUID Bool) :
    ∀ id u u', (id, u) ∈ volumePairs d enclaves → (id, u') ∈ volumePairs d enclaves → u = u' := by
  intro id u u' h1 h2
  obtain ⟨_, v, hv, hid⟩ := mem_volumePairs.mp h1
  obtain ⟨_, v', hv', hid'⟩ := mem_volumePairs.mp h2
  obtain ⟨hvd, _, hvu⟩ := mem_volumesOf.mp hv
  obtain ⟨hvd', _, hvu'⟩ := mem_volumesOf.mp hv'
  have : v = v' := eq_of_mem_of_id_eq hw.volumeNames hvd hvd' (hid.trans hid'.symm)
  subst this
  rw [hvu] at hvu'
  exact Option.some.inj hvu'

theorem volumePairs_congr {d d' : Docker} (h : d'.volumes = d.volumes)
    (enclaves : GoMap EnclaveUUID Bool) : volumePairs d' enclaves = volumePairs d enclaves := by
  unfold volumePairs volumesOf
  rw [h]

theorem containersOk_iff (E : Env) (ctx : Ctx) (m : GoMap EnclaveUUID matchingNetworkInformation)
    (u : EnclaveUUID) :
    (∀ id, (id, u) ∈ containerPairs m → E.fails ctx (.RemoveContainer id) = none) ↔
      ContainersOk E ctx m u := by
  unfold ContainersOk
  constructor
  · intro h info hi c hc
    exact h c.id (mem_containerPairs.mpr ⟨info, hi, c, hc, rfl⟩)
  · intro h id hid
    obtain ⟨info, hi, c, hc, rfl⟩ := mem_containerPairs.mp hid
    exact h info hi c hc

theorem volumesOk_iff (E : Env) (ctx : Ctx) (d : Docker) (enclaves : GoMap EnclaveUUID Bool)
    (u : EnclaveUUID) (hu : u ∈ enclaves.keys) :
    (∀ id, (id, u) ∈ volumePairs d enclaves → E.fails ctx (.RemoveVolume id) = none) ↔
      VolumesOk E ctx d u := by
  unfold VolumesOk
  constructor
  · intro h v hv
    exact h v.Name (mem_volumePairs.mpr ⟨hu, v, hv, rfl⟩)
  · intro h id hid
    obtain ⟨_, v, hv, rfl⟩ := mem_volumePairs.mp hid
    exact h v hv

theorem networkPairs_functional {d : Docker} (hw : d.WellFormed)
    {m : GoMap EnclaveUUID matchingNetworkInformation}
    (hm : ∀ u info, (u, info) ∈ m → MatchedBy d u info) (l : GoMap EnclaveUUID Bool) :
    ∀ id u u', (u, id) ∈ networkPairs m l → (u', id) ∈ networkPairs m l → u = u' := by
  intro id u u' h1 h2
  obtain ⟨_, info, hi, hid⟩ := mem_networkPairs.mp h1
  obtain ⟨_, info', hi', hid'⟩ := mem_networkPairs.mp h2
  obtain ⟨_, hn, _, hu, _⟩ := hm u info (GoMap.get?_eq_some_mem hi)
  obtain ⟨_, hn', _, hu', _⟩ := hm u' info' (GoMap.get?_eq_some_mem hi')
  have : info.dockerNetwork = info'.dockerNetwork :=
    eq_of_mem_of_id_eq hw.networkIds hn hn' (hid.trans hid'.symm)
  rw [this, hu'] at hu
  exact (Option.some.inj hu).symm

theorem networkPairs_nodup (m : GoMap EnclaveUUID matchingNetworkInformation)
    (l : GoMap EnclaveUUID Bool) (h : l.keys.Nodup) :
    (GoMap.keys (networkPairs m l)).Nodup := by
  induction l with
  | nil => simp [networkPairs, GoMap.keys]
  | cons p l ih =>
    simp only [GoMap.keys, List.map_cons, List.nodup_cons] at h
    unfold networkPairs
    rw [List.filterMap_cons]
    cases hg : m.get? p.1 with
    | none => exact ih h.2
    | some info =>
      simp only [Option.map_some', GoMap.keys, List.map_cons, List.nodup_cons]
      refine ⟨?_, ih h.2⟩
      intro hmem
      obtain ⟨⟨u, id⟩, hq, hq'⟩ := List.mem_map.mp hmem
      simp only at hq'
      subst hq'
      exact h.1 (mem_networkPairs.mp hq).1

theorem networkOk_iff (E : Env) (ctx : Ctx) (m : GoMap EnclaveUUID matchingNetworkInformation)
    (hn : m.keys.Nodup) (l : GoMap EnclaveUUID Bool) (hl : ∀ u ∈ l.keys, u ∈ m.keys)
    (u : EnclaveUUID) :
    (∃ id, (u, id) ∈ networkPairs m l ∧ E.fails ctx (.RemoveNetwork id) = none) ↔
      u ∈ l.keys ∧ NetworkOk E ctx m u := by
  unfold NetworkOk
  constructor
  · rintro ⟨id, hid, hfail⟩
    obtain ⟨hu, info, hi, rfl⟩ := mem_networkPairs.mp hid
    refine ⟨hu, ?_⟩
    intro info' hi'
    have := GoMap.get?_of_mem_nodup hn hi'
    rw [hi] at this
    rw [← Option.some.inj this]
    exact hfail
  · rintro ⟨hu, hok⟩
    obtain ⟨info, hi⟩ := (GoMap.mem_keys_iff _ _).mp (hl u hu)
    exact ⟨info.dockerNetwork.id, mem_networkPairs.mpr ⟨hu, info, hi, rfl⟩,
      hok info (GoMap.get?_eq_some_mem hi)⟩

theorem networkFails_iff (E : Env) (ctx : Ctx) (m : GoMap EnclaveUUID matchingNetworkInformation)
    (hn : m.keys.Nodup) (l : GoMap EnclaveUUID Bool) (hl : ∀ u ∈ l.keys, u ∈ m.keys)
    (u : EnclaveUUID) :
    (∃ id, (u, id) ∈ networkPairs m l ∧ E.fails ctx (.RemoveNetwork id) ≠ none) ↔
      u ∈ l.keys ∧ ¬ NetworkOk E ctx m u := by
  unfold NetworkOk
  constructor
  · rintro ⟨id, hid, hfail⟩
    obtain ⟨hu, info, hi, rfl⟩ := mem_networkPairs.mp hid
    exact ⟨hu, fun hok => hfail (hok info (GoMap.get?_eq_some_mem hi))⟩
  · rintro ⟨hu, hok⟩
    obtain ⟨info, hi⟩ := (GoMap.mem_keys_iff _ _).mp (hl u hu)
    refine ⟨info.dockerNetwork.id, mem_networkPairs.mpr ⟨hu, info, hi, rfl⟩, ?_⟩
    intro hnone
    apply hok
    intro info' hi'
    have := GoMap.get?_of_mem_nodup hn hi'
    rw [hi] at this
    rw [← Option.some.inj this]
    exact hnone

/-- The run of `DestroyEnclaves` after the matcher returned `m` and no matched enclave has
tenant-local state: the container phase always completes; then either the listing of the
volumes of an enclave that cleared the container phase fails and the call ends with an error,
or the three phases complete and the result and the final state are as described. -/
theorem DestroyEnclaves_phases (E : Env) (backend : DockerKurtosisBackend) (ctx : Ctx)
    (filters : EnclaveFilters) (d d1 : Docker) (hw : d.WellFormed)
    (m : GoMap EnclaveUUID matchingNetworkInformation)
    (hm : getMatchingEnclaveNetworkInfo E ctx filters d = (.ok m, d1))
    (ht : NoTenantState backend m) :
    ∃ succ1 err1,
      succ1.keys.Nodup ∧
      (∀ u, u ∈ succ1.keys ↔ u ∈ m.keys ∧ ContainersOk E ctx m u) ∧
      (∀ u, u ∈ err1.keys ↔ u ∈ m.keys ∧ ¬ ContainersOk E ctx m u) ∧
      (((∃ u ∈ succ1.keys, E.fails ctx (.GetVolumesByLabels (searchLabelsOf u)) ≠ none) ∧
          (∃ e, (DestroyEnclaves E backend ctx filters d).1 = .error e) ∧
          (afterContainers E ctx m d1).listingOnly (DestroyEnclaves E backend ctx filters d).2) ∨
       ((∀ u ∈ succ1.keys, E.fails ctx (.GetVolumesByLabels (searchLabelsOf u)) = none) ∧
          ∃ succ2 err2 succ3 err3 dl,
            (afterContainers E ctx m d1).listingOnly dl ∧
            DestroyEnclaves E backend ctx filters d =
              (.ok (succ3, DestroyEnclaves.addErrors
                (DestroyEnclaves.addErrors (DestroyEnclaves.addErrors [] err1) err2) err3),
               afterNetworks E ctx (idSetOf ((networkPairs m succ2).map (fun e => (e.2, e.1))))
                 (afterVolumes E ctx (volumePairs d succ1) dl)) ∧
            succ2.keys.Nodup ∧
            (∀ u, u ∈ succ2.keys ↔ u ∈ succ1.keys ∧ VolumesOk E ctx d u) ∧
            (∀ u, u ∈ err2.keys ↔ u ∈ succ1.keys ∧ ¬ VolumesOk E ctx d u) ∧
            (∀ u, u ∈ succ3.keys ↔ u ∈ succ2.keys ∧ NetworkOk E ctx m u) ∧
            (∀ u, u ∈ err3.keys ↔ u ∈ succ2.keys ∧ ¬ NetworkOk E ctx m u))) := by
  have hl1 : d.listingOnly d1 := by
    have := getMatchingEnclaveNetworkInfo_listingOnly E ctx filters d
    rw [hm] at this
    exact this
  have hmm := getMatchingEnclaveNetworkInfo_matched E ctx filters d m (by rw [hm])
  have htc := (tenantCheck_eq_none backend m).mpr ht
  obtain ⟨succ1, err1, h1, hnd1, hs1, he1⟩ :=
    destroyContainersInEnclaves_spec E ctx m d1 (containerPairs_functional hw hmm.2)
  have hvol : (afterContainers E ctx m d1).volumes = d.volumes :=
    (show (afterContainers E ctx m d1).volumes = d1.volumes from rfl).trans
      (listingOnly_volumes hl1)
  have hvp : volumePairs (afterContainers E ctx m d1) succ1 = volumePairs d succ1 :=
    volumePairs_congr hvol succ1
  refine ⟨succ1, err1, hnd1, fun u => (hs1 u).trans (and_congr_right fun _ =>
    containersOk_iff E ctx m u), fun u => (he1 u).trans (and_congr_right fun _ =>
    not_congr (containersOk_iff E ctx m u)), ?_⟩
  by_cases hlist : ∀ u ∈ succ1.keys, E.fails ctx (.GetVolumesByLabels (searchLabelsOf u)) = none
  · right
    refine ⟨hlist, ?_⟩
    obtain ⟨succ2, err2, dl, hdl, h2, hnd2, hs2, he2⟩ :=
      destroyVolumesInEnclaves_spec E ctx succ1 (afterContainers E ctx m d1)
        (by rw [hvp]; exact volumePairs_functional hw succ1) hlist
    rw [hvp] at h2 hs2 he2
    have hsub : ∀ p ∈ succ2, p.1 ∈ m.keys := by
      intro p hp
      have := (hs2 p.1).mp (List.mem_map.mpr ⟨p, hp, rfl⟩)
      exact ((hs1 p.1).mp this.1).1
    have hsubk : ∀ u ∈ succ2.keys, u ∈ m.keys := by
      intro u hu
      obtain ⟨p, hp, rfl⟩ := List.mem_map.mp hu
      exact hsub p hp
    have hloop : DestroyEnclaves.networksLoop m succ2 [] = .ok (networkPairs m succ2) := by
      rw [networksLoop_ok m succ2 [] hsub, GoMap.setAll_eq_append]
      · rfl
      · simpa using networkPairs_nodup m succ2 hnd2
    obtain ⟨succ3, err3, h3, _, hs3, he3⟩ :=
      destroyEnclaveNetworks_spec E ctx (networkPairs m succ2)
        (afterVolumes E ctx (volumePairs d succ1) dl)
        (networkPairs_functional hw hmm.2 succ2)
    refine ⟨succ2, err2, succ3, err3, dl, hdl, ?_, hnd2, ?_, ?_, ?_, ?_⟩
    · unfold DestroyEnclaves
      simp only [hm, htc, h1, h2, hloop, h3]
    · intro u
      exact (hs2 u).trans (and_congr_right fun hu => volumesOk_iff E ctx d succ1 u hu)
    · intro u
      exact (he2 u).trans (and_congr_right fun hu =>
        not_congr (volumesOk_iff E ctx d succ1 u hu))
    · intro u
      exact (hs3 u).trans (networkOk_iff E ctx m hmm.1 succ2 hsubk u)
    · intro u
      exact (he3 u).trans (networkFails_iff E ctx m hmm.1 succ2 hsubk u)
  · left
    have hex : ∃ u ∈ succ1.keys, E.fails ctx (.GetVolumesByLabels (searchLabelsOf u)) ≠ none := by
      by_contra hcon
      apply hlist
      intro u hu
      by_contra hne
      exact hcon ⟨u, hu, hne⟩
    refine ⟨hex, ?_⟩
    obtain ⟨⟨e, he⟩, hlo⟩ := destroyVolumesInEnclaves_listing_fails E ctx succ1
      (afterContainers E ctx m d1) hex
    rcases hdv : destroyVolumesInEnclaves E ctx succ1 (afterContainers E ctx m d1) with ⟨r, d3⟩
    rw [hdv] at he hlo
    simp only at he
    subst he
    unfold DestroyEnclaves
    simp only [hm, htc, h1, hdv]
    exact ⟨⟨_, rfl⟩, hlo⟩

/-! ### The final state of a run -/

theorem issued_eq {d d' : Docker} {evs : List Event} (h : d'.log = d.log ++ evs) :
    issued d d' = evs := by
  unfold issued
  rw [h, List.drop_left]

theorem issued_listingOnly {d d' : Docker} (h : d.listingOnly d') :
    ∀ e ∈ issued d d', e.isListing = true := by
  obtain ⟨evs, rfl, he⟩ := h
  rw [@issued_eq d _ evs rfl]
  exact he

theorem any_ids_iff (ids : GoMap String Bool) (f : String → Option String) (x : String) :
    ids.any (fun p => decide (p.1 = x) && (f p.1).isNone) = true ↔ x ∈ ids.keys ∧ f x = none := by
  simp only [List.any_eq_true, Bool.and_eq_true, decide_eq_true_eq, Option.isNone_iff_eq_none,
    GoMap.keys, List.mem_map]
  constructor
  · rintro ⟨p, hp, rfl, hf⟩
    exact ⟨⟨p, hp, rfl⟩, hf⟩
  · rintro ⟨⟨p, hp, rfl⟩, hf⟩
    exact ⟨p, hp, rfl, hf⟩

theorem mem_afterContainers {E : Env} {ctx : Ctx}
    {m : GoMap EnclaveUUID matchingNetworkInformation} {d : Docker} {c : Container} :
    c ∈ (afterContainers E ctx m d).containers ↔ c ∈ d.containers ∧
      ¬ ((∃ u, (c.id, u) ∈ containerPairs m) ∧ E.fails ctx (.RemoveContainer c.id) = none) := by
  unfold afterContainers
  simp only [List.mem_filter, Bool.not_eq_true', Bool.eq_false_iff, ne_eq]
  rw [any_ids_iff (idSetOf (containerPairs m)) (fun id => E.fails ctx (.RemoveContainer id)),
    mem_keys_idSetOf]

theorem mem_afterVolumes {E : Env} {ctx : Ctx} {pairs : List (String × EnclaveUUID)}
    {d : Docker} {v : Volume} :
    v ∈ (afterVolumes E ctx pairs d).volumes ↔ v ∈ d.volumes ∧
      ¬ ((∃ u, (v.Name, u) ∈ pairs) ∧ E.fails ctx (.RemoveVolume v.Name) = none) := by
  unfold afterVolumes
  simp only [List.mem_filter, Bool.not_eq_true', Bool.eq_false_iff, ne_eq]
  rw [any_ids_iff (idSetOf pairs) (fun id => E.fails ctx (.RemoveVolume id)), mem_keys_idSetOf]

theorem mem_afterNetworks {E : Env} {ctx : Ctx} {pairs : List (String × EnclaveUUID)}
    {d : Docker} {n : Network} :
    n ∈ (afterNetworks E ctx (idSetOf pairs) d).networks ↔ n ∈ d.networks ∧
      ¬ ((∃ u, (n.id, u) ∈ pairs) ∧ E.fails ctx (.RemoveNetwork n.id) = none) := by
  unfold afterNetworks
  simp only [List.mem_filter, Bool.not_eq_true', Bool.eq_false_iff, ne_eq]
  rw [any_ids_iff (idSetOf pairs) (fun id => E.fails ctx (.RemoveNetwork id)), mem_keys_idSetOf]

theorem mem_swap_networkPairs {m : GoMap EnclaveUUID matchingNetworkInformation}
    {l : GoMap EnclaveUUID Bool} {id : String} {u : EnclaveUUID} :
    (id, u) ∈ (networkPairs m l).map (fun e => (e.2, e.1)) ↔ (u, id) ∈ networkPairs m l := by
  simp only [List.mem_map, Prod.mk.injEq, Prod.exists]
  constructor
  · rintro ⟨a, b, h, rfl, rfl⟩
    exact h
  · intro h
    exact ⟨u, id, h, rfl, rfl⟩

/-- A run of `DestroyEnclaves` that returns a result went through the three phases. -/
theorem DestroyEnclaves_ok_inv (E : Env) (backend : DockerKurtosisBackend) (ctx : Ctx)
    (filters : EnclaveFilters) (d d1 : Docker) (hw : d.WellFormed)
    (m : GoMap EnclaveUUID matchingNetworkInformation)
    (hm : getMatchingEnclaveNetworkInfo E ctx filters d = (.ok m, d1))
    (succ : GoMap EnclaveUUID Bool) (err : GoMap EnclaveUUID GoError)
    (hres : (DestroyEnclaves E backend ctx filters d).1 = .ok (succ, err)) :
    NoTenantState backend m ∧
    ∃ succ1 err1 succ2 err2 err3 dl,
      (∀ u, u ∈ succ1.keys ↔ u ∈ m.keys ∧ ContainersOk E ctx m u) ∧
      (∀ u, u ∈ err1.keys ↔ u ∈ m.keys ∧ ¬ ContainersOk E ctx m u) ∧
      (∀ u ∈ succ1.keys, E.fails ctx (.GetVolumesByLabels (searchLabelsOf u)) = none) ∧
      (afterContainers E ctx m d1).listingOnly dl ∧
      (DestroyEnclaves E backend ctx filters d).2 =
        afterNetworks E ctx (idSetOf ((networkPairs m succ2).map (fun e => (e.2, e.1))))
          (afterVolumes E ctx (volumePairs d succ1) dl) ∧
      err = DestroyEnclaves.addErrors
        (DestroyEnclaves.addErrors (DestroyEnclaves.addErrors [] err1) err2) err3 ∧
      (∀ u, u ∈ succ2.keys ↔ u ∈ succ1.keys ∧ VolumesOk E ctx d u) ∧
      (∀ u, u ∈ err2.keys ↔ u ∈ succ1.keys ∧ ¬ VolumesOk E ctx d u) ∧
      (∀ u, u ∈ succ.keys ↔ u ∈ succ2.keys ∧ NetworkOk E ctx m u) ∧
      (∀ u, u ∈ err3.keys ↔ u ∈ succ2.keys ∧ ¬ NetworkOk E ctx m u) := by
  have ht : NoTenantState backend m := by
    rw [← tenantCheck_eq_none]
    cases htc : DestroyEnclaves.tenantCheck backend m with
    | none => rfl
    | some e =>
      exfalso
      unfold DestroyEnclaves at hres
      simp [hm, htc] at hres
  refine ⟨ht, ?_⟩
  obtain ⟨succ1, err1, _, hs1, he1, hcases⟩ :=
    DestroyEnclaves_phases E backend ctx filters d d1 hw m hm ht
  rcases hcases with ⟨_, ⟨e, he⟩, _⟩ | ⟨hlist, succ2, err2, succ3, err3, dl, hdl, heq, _, hs2, he2,
    hs3, he3⟩
  · rw [he] at hres
    cases hres
  · rw [heq] at hres
    simp only [Except.ok.injEq, Prod.mk.injEq] at hres
    obtain ⟨rfl, rfl⟩ := hres
    exact ⟨succ1, err1, succ2, err2, err3, dl, hs1, he1, hlist, hdl, by rw [heq], rfl, hs2, he2,
      hs3, he3⟩

/-! ### The events of a run -/

theorem mem_eventsOf {E : Env} {ctx : Ctx} {mk : String → Call} {ids : GoMap String Bool}
    {e : Event} :
    e ∈ eventsOf E ctx mk ids ↔ ∃ id ∈ ids.keys, e = ⟨ctx, mk id, E.fails ctx (mk id)⟩ := by
  unfold eventsOf GoMap.keys
  simp only [List.mem_map]
  constructor
  · rintro ⟨p, hp, rfl⟩
    exact ⟨p.1, ⟨p, hp, rfl⟩, rfl⟩
  · rintro ⟨id, ⟨p, hp, rfl⟩, rfl⟩
    exact ⟨p, hp, rfl⟩

/-- The events of a run that went through the container phase and stopped in the volume
listing. -/
theorem issued_shape_listing {E : Env} {ctx : Ctx}
    {m : GoMap EnclaveUUID matchingNetworkInformation} {d d1 d' : Docker}
    (hl1 : d.listingOnly d1) (hd' : (afterContainers E ctx m d1).listingOnly d') :
    ∃ L1 L2, (∀ e ∈ L1, e.isListing = true) ∧ (∀ e ∈ L2, e.isListing = true) ∧
      issued d d' =
        L1 ++ eventsOf E ctx .RemoveContainer (idSetOf (containerPairs m)) ++ L2 := by
  obtain ⟨L1, rfl, h1⟩ := hl1
  obtain ⟨L2, rfl, h2⟩ := hd'
  refine ⟨L1, L2, h1, h2, ?_⟩
  apply issued_eq
  simp [afterContainers, eventsOf]

/-- The events of a run that went through the three phases. -/
theorem issued_shape_full {E : Env} {ctx : Ctx}
    {m : GoMap EnclaveUUID matchingNetworkInformation} {d d1 dl : Docker}
    (pv : List (String × EnclaveUUID)) (idsN : GoMap String Bool)
    (hl1 : d.listingOnly d1) (hdl : (afterContainers E ctx m d1).listingOnly dl) :
    ∃ L1 L2, (∀ e ∈ L1, e.isListing = true) ∧ (∀ e ∈ L2, e.isListing = true) ∧
      issued d (afterNetworks E ctx idsN (afterVolumes E ctx pv dl)) =
        L1 ++ eventsOf E ctx .RemoveContainer (idSetOf (containerPairs m)) ++ L2 ++
          eventsOf E ctx .RemoveVolume (idSetOf pv) ++ eventsOf E ctx .RemoveNetwork idsN := by
  obtain ⟨L1, rfl, h1⟩ := hl1
  obtain ⟨L2, rfl, h2⟩ := hdl
  refine ⟨L1, L2, h1, h2, ?_⟩
  apply issued_eq
  simp [afterContainers, afterVolumes, afterNetworks, eventsOf]

theorem not_listing_of_removeVolume {e : Event} {name : String}
    (h : e.call = .RemoveVolume name) : ¬ e.isListing = true := by
  simp [Event.isListing, h]

theorem not_listing_of_removeNetwork {e : Event} {id : String}
    (h : e.call = .RemoveNetwork id) : ¬ e.isListing = true := by
  simp [Event.isListing, h]

theorem not_listing_of_removeContainer {e : Event} {id : String}
    (h : e.call = .RemoveContainer id) : ¬ e.isListing = true := by
  simp [Event.isListing, h]

/-- In a run through the three phases, a volume removal event comes from the volume phase. -/
theorem removeVolume_event_source {E : Env} {ctx : Ctx} {L1 L2 : List Event}
    {idsC idsV idsN : GoMap String Bool} {e : Event} {name : String}
    (h1 : ∀ e ∈ L1, e.isListing = true) (h2 : ∀ e ∈ L2, e.isListing = true)
    (he : e ∈ L1 ++ eventsOf E ctx .RemoveContainer idsC ++ L2 ++
      eventsOf E ctx .RemoveVolume idsV ++ eventsOf E ctx .RemoveNetwork idsN)
    (hc : e.call = .RemoveVolume name) : name ∈ idsV.keys := by
  simp only [List.mem_append] at he
  rcases he with (((he | he) | he) | he) | he
  · exact absurd (h1 e he) (not_listing_of_removeVolume hc)
  · obtain ⟨id, _, rfl⟩ := mem_eventsOf.mp he
    cases hc
  · exact absurd (h2 e he) (not_listing_of_removeVolume hc)
  · obtain ⟨id, hid, rfl⟩ := mem_eventsOf.mp he
    simp only [Call.RemoveVolume.injEq] at hc
    exact hc ▸ hid
  · obtain ⟨id, _, rfl⟩ := mem_eventsOf.mp he
    cases hc

/-- In a run through the three phases, a network removal event comes from the network phase. -/
theorem removeNetwork_event_source {E : Env} {ctx : Ctx} {L1 L2 : List Event}
    {idsC idsV idsN : GoMap String Bool} {e : Event} {id : String}
    (h1 : ∀ e ∈ L1, e.isListing = true) (h2 : ∀ e ∈ L2, e.isListing = true)
    (he : e ∈ L1 ++ eventsOf E ctx .RemoveContainer idsC ++ L2 ++
      eventsOf E ctx .RemoveVolume idsV ++ eventsOf E ctx .RemoveNetwork idsN)
    (hc : e.call = .RemoveNetwork id) : id ∈ idsN.keys := by
  simp only [List.mem_append] at he
  rcases he with (((he | he) | he) | he) | he
  · exact absurd (h1 e he) (not_listing_of_removeNetwork hc)
  · obtain ⟨id', _, rfl⟩ := mem_eventsOf.mp he
    cases hc
  · exact absurd (h2 e he) (not_listing_of_removeNetwork hc)
  · obtain ⟨id', _, rfl⟩ := mem_eventsOf.mp he
    cases hc
  · obtain ⟨id', hid, rfl⟩ := mem_eventsOf.mp he
    simp only [Call.RemoveNetwork.injEq] at hc
    exact hc ▸ hid

/-- A volume listed for an enclave that cleared the container phase belongs to one enclave
only. -/
theorem volumePairs_owner {d : Docker} (hw : d.WellFormed) {enclaves : GoMap EnclaveUUID Bool}
    {u u' : EnclaveUUID} {v : Volume} (hv : v ∈ volumesOf d u)
    (h : (v.Name, u') ∈ volumePairs d enclaves) : u' = u ∧ u ∈ enclaves.keys := by
  obtain ⟨hk, v', hv', hn⟩ := mem_volumePairs.mp h
  obtain ⟨hvd, _, hvu⟩ := mem_volumesOf.mp hv
  obtain ⟨hvd', _, hvu'⟩ := mem_volumesOf.mp hv'
  have : v' = v := eq_of_mem_of_id_eq hw.volumeNames hvd' hvd hn
  subst this
  rw [hvu] at hvu'
  have := Option.some.inj hvu'
  subst this
  exact ⟨rfl, hk⟩

/-- A network id gathered for the network phase belongs to one matched enclave only. -/
theorem networkPairs_owner {d : Docker} (hw : d.WellFormed)
    {m : GoMap EnclaveUUID matchingNetworkInformation}
    (hm : ∀ u info, (u, info) ∈ m → MatchedBy d u info) {l : GoMap EnclaveUUID Bool}
    {u u' : EnclaveUUID} {info : matchingNetworkInformation} (hi : (u, info) ∈ m)
    (h : (u', info.dockerNetwork.id) ∈ networkPairs m l) : u' = u ∧ u ∈ l.keys := by
  obtain ⟨hk, info', hi', hid⟩ := mem_networkPairs.mp h
  obtain ⟨_, hn, _, hu, _⟩ := hm u info hi
  obtain ⟨_, hn', _, hu', _⟩ := hm u' info' (GoMap.get?_eq_some_mem hi')
  have : info'.dockerNetwork = info.dockerNetwork := eq_of_mem_of_id_eq hw.networkIds hn' hn hid
  rw [this, hu] at hu'
  have := Option.some.inj hu'
  subst this
  exact ⟨rfl, hk⟩

/-! ### When the matcher returns -/

/-- The matcher returns a map exactly when the listing of the networks succeeds, every listed
network carries the UUID label, and the containers of every enclave that passes the UUID filter
are listed and classified; the map is then the closed form of the two loops. -/
theorem getMatchingEnclaveNetworkInfo_ok_iff (E : Env) (ctx : Ctx) (filters : EnclaveFilters)
    (d : Docker) (m : GoMap EnclaveUUID matchingNetworkInformation) :
    (getMatchingEnclaveNetworkInfo E ctx filters d).1 = .ok m ↔
      E.fails ctx (.GetNetworksByLabels [(AppIDDockerLabelKey, AppIDDockerLabelValue)]) = none ∧
      (∀ n ∈ kurtosisNetworks d, ∃ u, n.labels.get? EnclaveUUIDDockerLabelKey = some u) ∧
      (∀ p ∈ GoMap.setAll [] (uuidPairs filters (kurtosisNetworks d)),
        E.fails ctx (.GetContainersByLabels (searchLabelsOf p.1) true) = none ∧
        ∃ st, classify E (containersOf d p.1) = .ok st) ∧
      m = GoMap.setAll [] (statusPairs E filters d
        (GoMap.setAll [] (uuidPairs filters (kurtosisNetworks d)))) := by
  simp only [getMatchingEnclaveNetworkInfo, GetNetworksByLabels_eq]
  cases hf : E.fails ctx (.GetNetworksByLabels [(AppIDDockerLabelKey, AppIDDockerLabelValue)]) with
  | some msg => simp
  | none =>
    simp only [true_and]
    cases hu : getMatchingEnclaveNetworkInfo.uuidLoop filters
        (d.networks.filter (fun n => hasLabels [(AppIDDockerLabelKey, AppIDDockerLabelValue)]
          n.labels)) [] with
    | error e =>
      constructor
      · intro h
        cases h
      · rintro ⟨hlab, _, _⟩
        have := (uuidLoop_ok_iff filters (kurtosisNetworks d) []
          (GoMap.setAll [] (uuidPairs filters (kurtosisNetworks d)))).mpr ⟨hlab, rfl⟩
        unfold kurtosisNetworks at this
        rw [hu] at this
        cases this
    | ok mm =>
      obtain ⟨hlab, hmm⟩ := (uuidLoop_ok_iff _ _ _ _).mp hu
      simp only
      rw [statusLoop_ok_iff E ctx filters d mm [] _
        (listingOnly_emit d ctx (.GetNetworksByLabels
          [(AppIDDockerLabelKey, AppIDDockerLabelValue)]) none rfl) m]
      unfold kurtosisNetworks
      rw [← hmm]
      constructor
      · rintro ⟨h1, h2⟩
        exact ⟨hlab, h1, h2⟩
      · rintro ⟨_, h1, h2⟩
        exact ⟨h1, h2⟩

/-- With a UUID filter holding the single UUID `u`, only `u` passes. -/
theorem uuidPasses_single (u u' : EnclaveUUID) (b : Bool) (s : GoMap EnclaveStatus Bool) :
    uuidPasses ⟨[(u, b)], s⟩ u' = true ↔ u' = u := by
  by_cases h : u = u'
  · subst h
    simp [uuidPasses, GoMap.get?]
  · have h' : ¬ u' = u := fun e => h e.symm
    simp [uuidPasses, GoMap.get?, h, h']

theorem statusPasses_empty (us : GoMap EnclaveUUID Bool) (st : EnclaveStatus) :
    statusPasses ⟨us, []⟩ st = true := by
  simp [statusPasses]

/-- The objects of an enclave `DestroyEnclaves` reports successful are gone from the engine, and
the call adds no object. -/
theorem DestroyEnclaves_removed (E : Env) (backend : DockerKurtosisBackend) (ctx : Ctx)
    (filters : EnclaveFilters) (d d1 : Docker) (hw : d.WellFormed)
    (m : GoMap EnclaveUUID matchingNetworkInformation)
    (hm : getMatchingEnclaveNetworkInfo E ctx filters d = (.ok m, d1))
    (succ : GoMap EnclaveUUID Bool) (err : GoMap EnclaveUUID GoError)
    (hres : (DestroyEnclaves E backend ctx filters d).1 = .ok (succ, err))
    (u : EnclaveUUID) (info : matchingNetworkInformation) (hu : (u, info) ∈ m)
    (hsucc : u ∈ succ.keys) :
    (∀ c ∈ info.containers, c ∉ (DestroyEnclaves E backend ctx filters d).2.containers) ∧
    (∀ v ∈ volumesOf d u, v ∉ (DestroyEnclaves E backend ctx filters d).2.volumes) ∧
    info.dockerNetwork ∉ (DestroyEnclaves E backend ctx filters d).2.networks ∧
    (∀ c ∈ (DestroyEnclaves E backend ctx filters d).2.containers, c ∈ d.containers) ∧
    (∀ v ∈ (DestroyEnclaves E backend ctx filters d).2.volumes, v ∈ d.volumes) ∧
    (∀ n ∈ (DestroyEnclaves E backend ctx filters d).2.networks, n ∈ d.networks) := by
  have hl1 : d.listingOnly d1 := by
    have := getMatchingEnclaveNetworkInfo_listingOnly E ctx filters d
    rw [hm] at this
    exact this
  have hmm := getMatchingEnclaveNetworkInfo_matched E ctx filters d m (by rw [hm])
  obtain ⟨_, succ1, err1, succ2, err2, err3, dl, hs1, _, _, hdl, hst, _, hs2, _, hs3, _⟩ :=
    DestroyEnclaves_ok_inv E backend ctx filters d d1 hw m hm succ err hres
  obtain ⟨hu2, hn⟩ := (hs3 u).mp hsucc
  obtain ⟨hu1, hv⟩ := (hs2 u).mp hu2
  obtain ⟨_, hc⟩ := (hs1 u).mp hu1
  have hdlc : dl.containers = (afterContainers E ctx m d1).containers := listingOnly_containers hdl
  have hdlv : dl.volumes = d.volumes :=
    (listingOnly_volumes hdl).trans
      ((show (afterContainers E ctx m d1).volumes = d1.volumes from rfl).trans
        (listingOnly_volumes hl1))
  have hdln : dl.networks = d.networks :=
    (listingOnly_networks hdl).trans
      ((show (afterContainers E ctx m d1).networks = d1.networks from rfl).trans
        (listingOnly_networks hl1))
  rw [hst]
  refine ⟨?_, ?_, ?_, ?_, ?_, ?_⟩
  · intro c hcm hmem
    have hmem' : c ∈ (afterContainers E ctx m d1).containers := by
      rw [← hdlc]
      exact hmem
    exact (mem_afterContainers.mp hmem').2
      ⟨⟨u, mem_containerPairs.mpr ⟨info, hu, c, hcm, rfl⟩⟩, hc info hu c hcm⟩
  · intro v hvm hmem
    have hmem' : v ∈ (afterVolumes E ctx (volumePairs d succ1) dl).volumes := hmem
    exact (mem_afterVolumes.mp hmem').2
      ⟨⟨u, mem_volumePairs.mpr ⟨hu1, v, hvm, rfl⟩⟩, hv v hvm⟩
  · intro hmem
    exact (mem_afterNetworks.mp hmem).2 ⟨⟨u, mem_swap_networkPairs.mpr
      (mem_networkPairs.mpr ⟨hu2, info, GoMap.get?_of_mem_nodup hmm.1 hu, rfl⟩)⟩, hn info hu⟩
  · intro c hmem
    have hmem' : c ∈ (afterContainers E ctx m d1).containers := by
      rw [← hdlc]
      exact hmem
    have := (mem_afterContainers.mp hmem').1
    rw [listingOnly_containers hl1] at this
    exact this
  · intro v hmem
    have hmem' : v ∈ (afterVolumes E ctx (volumePairs d succ1) dl).volumes := hmem
    have := (mem_afterVolumes.mp hmem').1
    rw [hdlv] at this
    exact this
  · intro n hmem
    have := (mem_afterNetworks.mp hmem).1
    have hmem' : n ∈ dl.networks := this
    rw [hdln] at hmem'
    exact hmem'

/-- With the UUID filter holding only `u`, every key of the matcher's result is `u`. -/
theorem matched_single_filter {E : Env} {filters : EnclaveFilters} {d : Docker}
    {u : EnclaveUUID} {b : Bool} {s : GoMap EnclaveStatus Bool} (hf : filters = ⟨[(u, b)], s⟩)
    {u' : EnclaveUUID} {info : matchingNetworkInformation}
    (h : (u', info) ∈ GoMap.setAll [] (statusPairs E filters d
      (GoMap.setAll [] (uuidPairs filters (kurtosisNetworks d))))) : u' = u := by
  subst hf
  rcases GoMap.mem_setAll h with h | h
  · simp at h
  · obtain ⟨n, st, hn, _, _, _⟩ := mem_statusPairs.mp h
    rcases GoMap.mem_setAll hn with hn | hn
    · simp at hn
    · exact (uuidPasses_single u u' b s).mp (mem_uuidPairs.mp hn).2.2

theorem mem_kurtosisNetworks {d : Docker} {n : Network} :
    n ∈ kurtosisNetworks d ↔ n ∈ d.networks ∧
      n.labels.get? AppIDDockerLabelKey = some AppIDDockerLabelValue := by
  unfold kurtosisNetworks
  rw [List.mem_filter, hasLabels_app]

/-! ## Claims on `DestroyEnclaves` -/

/-- C1 (phase gate of `DestroyEnclaves`): in every well-formed engine state, for every filter
and every enclave `u` the matcher returned with entry `info`: a `RemoveVolume` is issued for a
volume of `u` only if a successful `RemoveContainer` was issued for every container of `u`; a
`RemoveNetwork` is issued for the network of `u` only if moreover a successful `RemoveVolume`
was issued for every volume of `u`; and when the removal of one container of `u` fails, every
volume of `u` and the network of `u` are still in the engine after the call. -/
theorem DestroyEnclaves_phase_gate (E : Env) (backend : DockerKurtosisBackend) (ctx : Ctx)
    (filters : EnclaveFilters) (d d1 : Docker) (hw : d.WellFormed)
    (m : GoMap EnclaveUUID matchingNetworkInformation)
    (hm : getMatchingEnclaveNetworkInfo E ctx filters d = (.ok m, d1))
    (u : EnclaveUUID) (info : matchingNetworkInformation) (hu : (u, info) ∈ m) :
    (∀ v ∈ volumesOf d u,
      (∃ e ∈ issued d (DestroyEnclaves E backend ctx filters d).2, e.call = .RemoveVolume v.Name) →
      ∀ c ∈ info.containers, (⟨ctx, .RemoveContainer c.id, none⟩ : Event) ∈
        issued d (DestroyEnclaves E backend ctx filters d).2) ∧
    ((∃ e ∈ issued d (DestroyEnclaves E backend ctx filters d).2,
        e.call = .RemoveNetwork info.dockerNetwork.id) →
      (∀ c ∈ info.containers, (⟨ctx, .RemoveContainer c.id, none⟩ : Event) ∈
        issued d (DestroyEnclaves E backend ctx filters d).2) ∧
      (∀ v ∈ volumesOf d u, (⟨ctx, .RemoveVolume v.Name, none⟩ : Event) ∈
        issued d (DestroyEnclaves E backend ctx filters d).2)) ∧
    ((∃ c ∈ info.containers, E.fails ctx (.RemoveContainer c.id) ≠ none) →
      (∀ v ∈ volumesOf d u, v ∈ (DestroyEnclaves E backend ctx filters d).2.volumes) ∧
      info.dockerNetwork ∈ (DestroyEnclaves E backend ctx filters d).2.networks) := by
  have hl1 : d.listingOnly d1 := by
    have := getMatchingEnclaveNetworkInfo_listingOnly E ctx filters d
    rw [hm] at this
    exact this
  have hmm := getMatchingEnclaveNetworkInfo_matched E ctx filters d m (by rw [hm])
  have hnet : info.dockerNetwork ∈ d.networks := (hmm.2 u info hu).2.1
  by_cases ht : NoTenantState backend m
  · obtain ⟨succ1, err1, _, hs1, _, hcases⟩ :=
      DestroyEnclaves_phases E backend ctx filters d d1 hw m hm ht
    rcases hcases with ⟨_, _, hlo⟩ | ⟨_, succ2, err2, succ3, err3, dl, hdl, heq, _, hs2, _, _, _⟩
    · -- the listing of the volumes failed: only containers were removed
      obtain ⟨L1, L2, h1, h2, hsh⟩ := issued_shape_listing hl1 hlo
      have hsh' : issued d (DestroyEnclaves E backend ctx filters d).2 =
          L1 ++ eventsOf E ctx .RemoveContainer (idSetOf (containerPairs m)) ++ L2 ++
            eventsOf E ctx .RemoveVolume [] ++ eventsOf E ctx .RemoveNetwork [] := by
        rw [hsh]
        simp [eventsOf]
      refine ⟨?_, ?_, ?_⟩
      · rintro v _ ⟨e, he, hc⟩
        rw [hsh'] at he
        have := removeVolume_event_source h1 h2 he hc
        simp [GoMap.keys] at this
      · rintro ⟨e, he, hc⟩
        rw [hsh'] at he
        have := removeNetwork_event_source h1 h2 he hc
        simp [GoMap.keys] at this
      · intro _
        constructor
        · intro v hv
          rw [listingOnly_volumes hlo]
          show v ∈ d1.volumes
          rw [listingOnly_volumes hl1]
          exact (mem_volumesOf.mp hv).1
        · rw [listingOnly_networks hlo]
          show info.dockerNetwork ∈ d1.networks
          rw [listingOnly_networks hl1]
          exact hnet
    · -- the three phases completed
      obtain ⟨L1, L2, h1, h2, hsh⟩ := issued_shape_full (volumePairs d succ1)
        (idSetOf ((networkPairs m succ2).map (fun e => (e.2, e.1)))) hl1 hdl
      rw [heq]
      simp only
      have hcev : u ∈ succ1.keys → ∀ c ∈ info.containers,
          (⟨ctx, .RemoveContainer c.id, none⟩ : Event) ∈
            issued d (afterNetworks E ctx
              (idSetOf ((networkPairs m succ2).map (fun e => (e.2, e.1))))
              (afterVolumes E ctx (volumePairs d succ1) dl)) := by
        intro hu1 c hc
        have hok := ((hs1 u).mp hu1).2 info hu c hc
        rw [hsh]
        simp only [List.mem_append]
        refine Or.inl (Or.inl (Or.inl (Or.inr (mem_eventsOf.mpr ⟨c.id, ?_, by rw [hok]⟩))))
        rw [mem_keys_idSetOf]
        exact ⟨u, mem_containerPairs.mpr ⟨info, hu, c, hc, rfl⟩⟩
      refine ⟨?_, ?_, ?_⟩
      · rintro v hv ⟨e, he, hc⟩
        rw [hsh] at he
        have hk := removeVolume_event_source h1 h2 he hc
        rw [mem_keys_idSetOf] at hk
        obtain ⟨u', hu'⟩ := hk
        exact hcev (volumePairs_owner hw hv hu').2
      · rintro ⟨e, he, hc⟩
        rw [hsh] at he
        have hk := removeNetwork_event_source h1 h2 he hc
        rw [mem_keys_idSetOf] at hk
        obtain ⟨u', hu'⟩ := hk
        have hu2 := (networkPairs_owner hw hmm.2 hu (mem_swap_networkPairs.mp hu')).2
        obtain ⟨hu1, hvok⟩ := (hs2 u).mp hu2
        refine ⟨hcev hu1, ?_⟩
        intro v hv
        have hok := hvok v hv
        rw [hsh]
        simp only [List.mem_append]
        refine Or.inl (Or.inr (mem_eventsOf.mpr ⟨v.Name, ?_, by rw [hok]⟩))
        rw [mem_keys_idSetOf]
        exact ⟨u, mem_volumePairs.mpr ⟨hu1, v, hv, rfl⟩⟩
      · rintro ⟨c, hc, hfail⟩
        have hnot : u ∉ succ1.keys := fun h => hfail (((hs1 u).mp h).2 info hu c hc)
        have hdlv : dl.volumes = d.volumes :=
          (listingOnly_volumes hdl).trans
            ((show (afterContainers E ctx m d1).volumes = d1.volumes from rfl).trans
              (listingOnly_volumes hl1))
        have hdln : dl.networks = d.networks :=
          (listingOnly_networks hdl).trans
            ((show (afterContainers E ctx m d1).networks = d1.networks from rfl).trans
              (listingOnly_networks hl1))
        constructor
        · intro v hv
          show v ∈ (afterVolumes E ctx (volumePairs d succ1) dl).volumes
          rw [mem_afterVolumes, hdlv]
          refine ⟨(mem_volumesOf.mp hv).1, ?_⟩
          rintro ⟨⟨u', hu'⟩, _⟩
          exact hnot (volumePairs_owner hw hv hu').2
        · rw [mem_afterNetworks]
          refine ⟨?_, ?_⟩
          · show info.dockerNetwork ∈ dl.networks
            rw [hdln]
            exact hnet
          · rintro ⟨⟨u', hu'⟩, _⟩
            have hu2 := (networkPairs_owner hw hmm.2 hu (mem_swap_networkPairs.mp hu')).2
            exact hnot ((hs2 u).mp hu2).1
  · -- an enclave with tenant-local state was matched: nothing was removed
    have htc : ∃ e, DestroyEnclaves.tenantCheck backend m = some e := by
      cases h : DestroyEnclaves.tenantCheck backend m with
      | none => exact absurd ((tenantCheck_eq_none backend m).mp h) ht
      | some e => exact ⟨e, rfl⟩
    obtain ⟨e0, he0⟩ := htc
    have hD : DestroyEnclaves E backend ctx filters d = (.error e0, d1) := by
      unfold DestroyEnclaves
      simp only [hm, he0]
    rw [hD]
    simp only
    refine ⟨?_, ?_, ?_⟩
    · rintro v _ ⟨e, he, hc⟩
      exact absurd (issued_listingOnly hl1 e he) (not_listing_of_removeVolume hc)
    · rintro ⟨e, he, hc⟩
      exact absurd (issued_listingOnly hl1 e he) (not_listing_of_removeNetwork hc)
    · intro _
      constructor
      · intro v hv
        rw [listingOnly_volumes hl1]
        exact (mem_volumesOf.mp hv).1
      · rw [listingOnly_networks hl1]
        exact hnet

theorem sampleDocker_wellFormed : sampleDocker.WellFormed :=
  ⟨by decide, by decide, by decide⟩

theorem sample_matcher :
    getMatchingEnclaveNetworkInfo sampleFailingEnv (.request 1) ⟨[], []⟩ sampleDocker =
      (.ok [("a", sampleInfoA), ("b", sampleInfoB)], sampleDockerMatched) := rfl

set_option maxRecDepth 100000 in
theorem DestroyEnclaves_phase_gate_witness :
    sampleDocker.WellFormed ∧
    ((∀ v ∈ volumesOf sampleDocker "a",
        v ∈ (DestroyEnclaves sampleFailingEnv sampleBackend (.request 1) ⟨[], []⟩
          sampleDocker).2.volumes) ∧
      sampleInfoA.dockerNetwork ∈ (DestroyEnclaves sampleFailingEnv sampleBackend (.request 1)
        ⟨[], []⟩ sampleDocker).2.networks) :=
  ⟨sampleDocker_wellFormed,
   (DestroyEnclaves_phase_gate sampleFailingEnv sampleBackend (.request 1) ⟨[], []⟩ sampleDocker
      sampleDockerMatched sampleDocker_wellFormed [("a", sampleInfoA), ("b", sampleInfoB)]
      sample_matcher "a" sampleInfoA (by simp)).2.2
    ⟨⟨"ca2", "web", enclaveLabels "a", .Exited⟩, by simp [sampleInfoA], by decide⟩⟩

/-- The keys of the errors `DestroyEnclaves` returns are those of the three phases. -/
theorem mem_keys_destroy_errors (err1 err2 err3 : GoMap EnclaveUUID GoError) (u : EnclaveUUID) :
    u ∈ (DestroyEnclaves.addErrors
      (DestroyEnclaves.addErrors (DestroyEnclaves.addErrors [] err1) err2) err3).keys ↔
      u ∈ err1.keys ∨ u ∈ err2.keys ∨ u ∈ err3.keys := by
  rw [addErrors_keys, addErrors_keys, addErrors_keys]
  simp only [GoMap.keys, List.map_nil, List.not_mem_nil, false_or]
  tauto

/-- C2: for every call of `DestroyEnclaves` on a well-formed engine state that returns no
top-level error, with `m` the map the matcher returned: the successful set and the keys of
errored are disjoint, their union is the key set of `m`, and an enclave is successful if and only
if it was matched and the removals of all its containers, of all its volumes and of its network
succeed. -/
theorem DestroyEnclaves_partition (E : Env) (backend : DockerKurtosisBackend) (ctx : Ctx)
    (filters : EnclaveFilters) (d d1 : Docker) (hw : d.WellFormed)
    (m : GoMap EnclaveUUID matchingNetworkInformation)
    (hm : getMatchingEnclaveNetworkInfo E ctx filters d = (.ok m, d1))
    (succ : GoMap EnclaveUUID Bool) (err : GoMap EnclaveUUID GoError)
    (hres : (DestroyEnclaves E backend ctx filters d).1 = .ok (succ, err)) :
    (∀ u, ¬ (u ∈ succ.keys ∧ u ∈ err.keys)) ∧
    (∀ u, u ∈ succ.keys ∨ u ∈ err.keys ↔ u ∈ m.keys) ∧
    (∀ u, u ∈ succ.keys ↔ u ∈ m.keys ∧
      ContainersOk E ctx m u ∧ VolumesOk E ctx d u ∧ NetworkOk E ctx m u) := by
  obtain ⟨_, succ1, err1, succ2, err2, err3, dl, hs1, he1, _, _, _, herr, hs2, he2, hs3, he3⟩ :=
    DestroyEnclaves_ok_inv E backend ctx filters d d1 hw m hm succ err hres
  have hsucc : ∀ u, u ∈ succ.keys ↔ u ∈ m.keys ∧
      ContainersOk E ctx m u ∧ VolumesOk E ctx d u ∧ NetworkOk E ctx m u := by
    intro u
    rw [hs3 u, hs2 u, hs1 u]
    tauto
  have herrk : ∀ u, u ∈ err.keys ↔ u ∈ m.keys ∧
      ¬ (ContainersOk E ctx m u ∧ VolumesOk E ctx d u ∧ NetworkOk E ctx m u) := by
    intro u
    rw [herr, mem_keys_destroy_errors, he1 u, he2 u, he3 u, hs2 u, hs1 u]
    tauto
  refine ⟨?_, ?_, hsucc⟩
  · intro u
    rw [hsucc u, herrk u]
    tauto
  · intro u
    rw [hsucc u, herrk u]
    tauto

set_option maxRecDepth 100000 in
theorem DestroyEnclaves_partition_witness :
    sampleDocker.WellFormed ∧
    ("b" ∈ GoMap.keys [("b", true)] ↔ "b" ∈ GoMap.keys [("a", sampleInfoA), ("b", sampleInfoB)] ∧
      ContainersOk sampleFailingEnv (.request 1) [("a", sampleInfoA), ("b", sampleInfoB)] "b" ∧
      VolumesOk sampleFailingEnv (.request 1) sampleDocker "b" ∧
      NetworkOk sampleFailingEnv (.request 1) [("a", sampleInfoA), ("b", sampleInfoB)] "b") :=
  ⟨sampleDocker_wellFormed,
   (DestroyEnclaves_partition sampleFailingEnv sampleBackend (.request 1) ⟨[], []⟩ sampleDocker
      sampleDockerMatched sampleDocker_wellFormed [("a", sampleInfoA), ("b", sampleInfoB)]
      sample_matcher [("b", true)]
      [("a", .NewError ("One or more errors occurred removing the containers in enclave 'a':\n" ++
        "An error occurred removing enclave container with ID 'ca2'\nCaused by: boom"))]
      rfl).2.2 "b"⟩

/-- C3: for every filter, if an enclave the matcher returned is a key of the backend's
free-ip-providers map or of its service-registrations map, `DestroyEnclaves` returns a top-level
error and no result, issues no removal of a container, volume or network, and leaves the
networks, volumes and containers of the engine unchanged. -/
theorem DestroyEnclaves_tenant_state (E : Env) (backend : DockerKurtosisBackend) (ctx : Ctx)
    (filters : EnclaveFilters) (d d1 : Docker)
    (m : GoMap EnclaveUUID matchingNetworkInformation)
    (hm : getMatchingEnclaveNetworkInfo E ctx filters d = (.ok m, d1))
    (u : EnclaveUUID) (hu : u ∈ m.keys)
    (ht : u ∈ backend.enclaveFreeIpProviders.keys ∨ u ∈ backend.serviceRegistrations.keys) :
    (∃ e, (DestroyEnclaves E backend ctx filters d).1 = .error e) ∧
    (∀ e ∈ issued d (DestroyEnclaves E backend ctx filters d).2, ∀ id,
      e.call ≠ .RemoveContainer id ∧ e.call ≠ .RemoveVolume id ∧ e.call ≠ .RemoveNetwork id) ∧
    (DestroyEnclaves E backend ctx filters d).2.networks = d.networks ∧
    (DestroyEnclaves E backend ctx filters d).2.volumes = d.volumes ∧
    (DestroyEnclaves E backend ctx filters d).2.containers = d.containers := by
  have hl1 : d.listingOnly d1 := by
    have := getMatchingEnclaveNetworkInfo_listingOnly E ctx filters d
    rw [hm] at this
    exact this
  have hnt : ¬ NoTenantState backend m := by
    intro h
    obtain ⟨h1, h2⟩ := h u hu
    rcases ht with ht | ht
    · exact (GoMap.get?_eq_none_iff _ _).mp h1 ht
    · exact (GoMap.get?_eq_none_iff _ _).mp h2 ht
  have htc : ∃ e, DestroyEnclaves.tenantCheck backend m = some e := by
    cases h : DestroyEnclaves.tenantCheck backend m with
    | none => exact absurd ((tenantCheck_eq_none backend m).mp h) hnt
    | some e => exact ⟨e, rfl⟩
  obtain ⟨e0, he0⟩ := htc
  have hD : DestroyEnclaves E backend ctx filters d = (.error e0, d1) := by
    unfold DestroyEnclaves
    simp only [hm, he0]
  rw [hD]
  refine ⟨⟨e0, rfl⟩, ?_, listingOnly_networks hl1, listingOnly_volumes hl1,
    listingOnly_containers hl1⟩
  intro e he id
  have hlist := issued_listingOnly hl1 e he
  refine ⟨?_, ?_, ?_⟩
  · intro hc
    exact not_listing_of_removeContainer hc hlist
  · intro hc
    exact not_listing_of_removeVolume hc hlist
  · intro hc
    exact not_listing_of_removeNetwork hc hlist

set_option maxRecDepth 100000 in
theorem DestroyEnclaves_tenant_state_witness :
    "a" ∈ sampleTenantBackend.serviceRegistrations.keys ∧
    (DestroyEnclaves sampleFailingEnv sampleTenantBackend (.request 1) ⟨[], []⟩
      sampleDocker).2.containers = sampleDocker.containers :=
  ⟨by decide,
   (DestroyEnclaves_tenant_state sampleFailingEnv sampleTenantBackend (.request 1) ⟨[], []⟩
      sampleDocker sampleDockerMatched [("a", sampleInfoA), ("b", sampleInfoB)]
      sample_matcher "a" (by decide) (Or.inr (by decide))).2.2.2.2⟩

set_option maxRecDepth 100000 in
/-- C4, counterexample: on the two enclaves `a` and `b` of `sampleDocker`, the removal of the
container `ca2` of `a` fails and every removal of a container, of a volume and of the network
of `b` succeeds, but the listing of the volumes of `b` fails: the matcher returns both
enclaves, `DestroyEnclaves` returns a top-level error and no result, so `b` is in no
successful set, and the volume and the network of `b` are still in the engine. -/
theorem DestroyEnclaves_batch_lost_to_listing :
    (getMatchingEnclaveNetworkInfo sampleRemovalAndListingFailEnv (.request 1) ⟨[], []⟩
      sampleDocker).1 = .ok [("a", sampleInfoA), ("b", sampleInfoB)] ∧
    sampleRemovalAndListingFailEnv.fails (.request 1) (.RemoveContainer "ca2") = some "boom" ∧
    (∀ id, id ≠ "ca2" →
      sampleRemovalAndListingFailEnv.fails (.request 1) (.RemoveContainer id) = none) ∧
    (∀ name, sampleRemovalAndListingFailEnv.fails (.request 1) (.RemoveVolume name) = none) ∧
    (∀ id, sampleRemovalAndListingFailEnv.fails (.request 1) (.RemoveNetwork id) = none) ∧
    (∃ e, (DestroyEnclaves sampleRemovalAndListingFailEnv sampleBackend (.request 1) ⟨[], []⟩
      sampleDocker).1 = .error e) ∧
    (⟨"vb", enclaveLabels "b" ++ [(VolumeTypeDockerLabelKey, "enclave-data")]⟩ : Volume) ∈
      (DestroyEnclaves sampleRemovalAndListingFailEnv sampleBackend (.request 1) ⟨[], []⟩
        sampleDocker).2.volumes ∧
    (⟨"nb", "net-b", enclaveLabels "b"⟩ : Network) ∈
      (DestroyEnclaves sampleRemovalAndListingFailEnv sampleBackend (.request 1) ⟨[], []⟩
        sampleDocker).2.networks :=
  ⟨rfl, rfl, fun id h => by simp [sampleRemovalAndListingFailEnv, h],
   fun name => by simp [sampleRemovalAndListingFailEnv],
   fun id => by simp [sampleRemovalAndListingFailEnv], ⟨_, rfl⟩, by decide, by decide⟩

/-- C4, amended: in every batch on a well-formed engine state in which `DestroyEnclaves`
matches the enclaves `A` and `B`, no matched enclave has tenant-local state and the volumes of
every matched enclave that cleared the container phase can be listed, if the removal of one
container of `A` fails while every removal of a container, of a volume and of the network of
`B` succeeds (so `A` and `B` are distinct), then the call returns a result with `B` in the
successful set and `A` in errored, and every container and volume of `B` and the network of
`B` are gone from the engine.  If instead the listing of the volumes of `B` fails, the call
returns a top-level error. -/
theorem DestroyEnclaves_batch_isolation (E : Env) (backend : DockerKurtosisBackend) (ctx : Ctx)
    (filters : EnclaveFilters) (d d1 : Docker) (hw : d.WellFormed)
    (m : GoMap EnclaveUUID matchingNetworkInformation)
    (hm : getMatchingEnclaveNetworkInfo E ctx filters d = (.ok m, d1))
    (ht : NoTenantState backend m)
    (A B : EnclaveUUID) (infoA infoB : matchingNetworkInformation)
    (hA : (A, infoA) ∈ m) (hB : (B, infoB) ∈ m)
    (hfail : ∃ c ∈ infoA.containers, E.fails ctx (.RemoveContainer c.id) ≠ none)
    (hBc : ContainersOk E ctx m B) (hBv : VolumesOk E ctx d B) (hBn : NetworkOk E ctx m B) :
    ((∀ u ∈ m.keys, ContainersOk E ctx m u →
        E.fails ctx (.GetVolumesByLabels (searchLabelsOf u)) = none) →
      A ≠ B ∧
      (∃ succ err, (DestroyEnclaves E backend ctx filters d).1 = .ok (succ, err) ∧
        B ∈ succ.keys ∧ A ∈ err.keys) ∧
      (∀ c ∈ infoB.containers, c ∉ (DestroyEnclaves E backend ctx filters d).2.containers) ∧
      (∀ v ∈ volumesOf d B, v ∉ (DestroyEnclaves E backend ctx filters d).2.volumes) ∧
      infoB.dockerNetwork ∉ (DestroyEnclaves E backend ctx filters d).2.networks) ∧
    (E.fails ctx (.GetVolumesByLabels (searchLabelsOf B)) ≠ none →
      ∃ e, (DestroyEnclaves E backend ctx filters d).1 = .error e) := by
  obtain ⟨succ1', err1', _, hs1', _, hcases⟩ :=
    DestroyEnclaves_phases E backend ctx filters d d1 hw m hm ht
  constructor
  swap
  · intro hne
    rcases hcases with ⟨_, he, _⟩ | ⟨hall, _⟩
    · exact he
    · exact absurd (hall B ((hs1' B).mpr ⟨GoMap.mem_keys_of_mem hB, hBc⟩)) hne
  intro hlist
  have hex : ∃ succ err, (DestroyEnclaves E backend ctx filters d).1 = .ok (succ, err) := by
    rcases hcases with ⟨⟨u, hu, hne⟩, _, _⟩ | ⟨_, succ2, err2, succ3, err3, dl, _, heq, _⟩
    · exfalso
      obtain ⟨h1, h2⟩ := (hs1' u).mp hu
      exact hne (hlist u h1 h2)
    · exact ⟨succ3, _, by rw [heq]⟩
  obtain ⟨succ, err, hres⟩ := hex
  have hmm := getMatchingEnclaveNetworkInfo_matched E ctx filters d m (by rw [hm])
  obtain ⟨_, succ1, err1, succ2, err2, err3, dl, hs1, he1, _, hdl, hst, herr, hs2, _, hs3, _⟩ :=
    DestroyEnclaves_ok_inv E backend ctx filters d d1 hw m hm succ err hres
  have hAbad : ¬ ContainersOk E ctx m A := by
    intro h
    obtain ⟨c, hc, hne⟩ := hfail
    exact hne (h infoA hA c hc)
  have hB1 : B ∈ succ1.keys := (hs1 B).mpr ⟨GoMap.mem_keys_of_mem hB, hBc⟩
  have hB2 : B ∈ succ2.keys := (hs2 B).mpr ⟨hB1, hBv⟩
  refine ⟨?_, ⟨succ, err, hres, (hs3 B).mpr ⟨hB2, hBn⟩, ?_⟩, ?_, ?_, ?_⟩
  · intro h
    subst h
    exact hAbad hBc
  · rw [herr, mem_keys_destroy_errors]
    exact Or.inl ((he1 A).mpr ⟨GoMap.mem_keys_of_mem hA, hAbad⟩)
  · intro c hc hmem
    rw [hst] at hmem
    have hmem' : c ∈ (afterContainers E ctx m d1).containers := by
      rw [← listingOnly_containers hdl]
      exact hmem
    exact (mem_afterContainers.mp hmem').2
      ⟨⟨B, mem_containerPairs.mpr ⟨infoB, hB, c, hc, rfl⟩⟩, hBc infoB hB c hc⟩
  · intro v hv hmem
    rw [hst] at hmem
    have hmem' : v ∈ (afterVolumes E ctx (volumePairs d succ1) dl).volumes := hmem
    exact (mem_afterVolumes.mp hmem').2
      ⟨⟨B, mem_volumePairs.mpr ⟨hB1, v, hv, rfl⟩⟩, hBv v hv⟩
  · intro hmem
    rw [hst] at hmem
    refine (mem_afterNetworks.mp hmem).2 ⟨⟨B, mem_swap_networkPairs.mpr
      (mem_networkPairs.mpr ⟨hB2, infoB, GoMap.get?_of_mem_nodup hmm.1 hB, rfl⟩)⟩, hBn infoB hB⟩

set_option maxRecDepth 100000 in
/-- C4, witness: on the two enclaves of `sampleDocker`, when only the removal of the container
`ca2` of `a` fails, `DestroyEnclaves` returns a result with `b` successful and `a` errored,
and the network of `b` is gone. -/
theorem DestroyEnclaves_batch_isolation_witness :
    sampleDocker.WellFormed ∧
    (∃ succ err, (DestroyEnclaves sampleFailingEnv sampleBackend (.request 1) ⟨[], []⟩
        sampleDocker).1 = .ok (succ, err) ∧ "b" ∈ succ.keys ∧ "a" ∈ err.keys) ∧
    sampleInfoB.dockerNetwork ∉ (DestroyEnclaves sampleFailingEnv sampleBackend (.request 1)
      ⟨[], []⟩ sampleDocker).2.networks :=
  have h := (DestroyEnclaves_batch_isolation sampleFailingEnv sampleBackend (.request 1) ⟨[], []⟩
    sampleDocker sampleDockerMatched sampleDocker_wellFormed
    [("a", sampleInfoA), ("b", sampleInfoB)] sample_matcher (fun _ _ => ⟨rfl, rfl⟩)
    "a" "b" sampleInfoA sampleInfoB (by simp) (by simp)
    ⟨⟨"ca2", "web", enclaveLabels "a", .Exited⟩, by simp [sampleInfoA], by decide⟩
    (by
      intro info hi c hc
      simp only [List.mem_cons, Prod.mk.injEq, List.mem_singleton, List.not_mem_nil, or_false] at hi
      rcases hi with ⟨h, _⟩ | ⟨_, rfl⟩
      · exact absurd h (by decide)
      · simp only [sampleInfoB, List.mem_singleton] at hc
        subst hc
        rfl)
    (by
      intro v hv
      have : volumesOf sampleDocker "b" =
          [⟨"vb", enclaveLabels "b" ++ [(VolumeTypeDockerLabelKey, "enclave-data")]⟩] := by decide
      rw [this, List.mem_singleton] at hv
      subst hv
      rfl)
    (by
      intro info hi
      simp only [List.mem_cons, Prod.mk.injEq, List.mem_singleton, List.not_mem_nil, or_false] at hi
      rcases hi with ⟨h, _⟩ | ⟨_, rfl⟩
      · exact absurd h (by decide)
      · rfl)).1 (fun _ _ _ => rfl)
  ⟨sampleDocker_wellFormed, h.2.1, h.2.2.2.2⟩

set_option maxRecDepth 100000 in
/-- C5, counterexample: in `sampleTwinNetworks` the networks `na1` and `na2` both carry
`app-id=kurtosis`, `enclave-uuid=a`; the backend has no tenant-local state and every call to
the engine succeeds.  `DestroyEnclaves` with the UUID filter holding `a` reports `a`
successful with an empty errored map, but removes only `na2`, the last listed network: `na1`,
tagged with `a`, is still in the engine, and the following `GetEnclaves` with the same filter
returns the enclave `a` and not the empty map. -/
theorem DestroyEnclaves_leaves_twin_network :
    sampleTwinNetworks.WellFormed ∧
    "a" ∉ sampleBackend.enclaveFreeIpProviders.keys ∧
    "a" ∉ sampleBackend.serviceRegistrations.keys ∧
    (∀ c, sampleEnv.fails (.request 1) c = none) ∧
    (DestroyEnclaves sampleEnv sampleBackend (.request 1) ⟨[("a", true)], []⟩
      sampleTwinNetworks).1 = .ok ([("a", true)], []) ∧
    (DestroyEnclaves sampleEnv sampleBackend (.request 1) ⟨[("a", true)], []⟩
      sampleTwinNetworks).2.networks =
        [⟨"na1", "net-a-old", enclaveLabels "a"⟩, ⟨"nb", "net-b", enclaveLabels "b"⟩] ∧
    hasLabels (searchLabelsOf "a") (enclaveLabels "a") = true ∧
    (GetEnclaves sampleEnv (.request 2) ⟨[("a", true)], []⟩
      (DestroyEnclaves sampleEnv sampleBackend (.request 1) ⟨[("a", true)], []⟩
        sampleTwinNetworks).2).1 = .ok [("a", ⟨"a", "", .Empty, none⟩)] :=
  ⟨⟨by decide, by decide, by decide⟩, by decide, by decide, fun _ => rfl, rfl, rfl, rfl, rfl⟩

/-- C5, amended: let `u` be a live enclave of a well-formed engine state, that is, exactly one
network is tagged `app-id=kurtosis`, `enclave-uuid=u`; assume the matcher returns for the UUID
filter holding `u`, `u` is a key of neither tenant map, every removal succeeds and the volumes
of `u` can be listed.  Then `DestroyEnclaves` with that filter returns a result with `u`
successful, no container, volume or network tagged `app-id=kurtosis`, `enclave-uuid=u` is left
in the engine, and a following `GetEnclaves` with the same filter, whose listing of the networks
succeeds, returns the empty map. -/
theorem DestroyEnclaves_then_GetEnclaves (E E2 : Env) (backend : DockerKurtosisBackend)
    (ctx ctx2 : Ctx) (d d1 : Docker) (hw : d.WellFormed) (u : EnclaveUUID)
    (m : GoMap EnclaveUUID matchingNetworkInformation)
    (hm : getMatchingEnclaveNetworkInfo E ctx ⟨[(u, true)], []⟩ d = (.ok m, d1))
    (hone : ∃ n ∈ d.networks, hasLabels (searchLabelsOf u) n.labels = true ∧
      ∀ n' ∈ d.networks, hasLabels (searchLabelsOf u) n'.labels = true → n' = n)
    (ht : u ∉ backend.enclaveFreeIpProviders.keys ∧ u ∉ backend.serviceRegistrations.keys)
    (hrem : ∀ id, E.fails ctx (.RemoveContainer id) = none ∧
      E.fails ctx (.RemoveVolume id) = none ∧ E.fails ctx (.RemoveNetwork id) = none)
    (hlist : E.fails ctx (.GetVolumesByLabels (searchLabelsOf u)) = none)
    (hlist2 : E2.fails ctx2
      (.GetNetworksByLabels [(AppIDDockerLabelKey, AppIDDockerLabelValue)]) = none) :
    (∃ succ err, (DestroyEnclaves E backend ctx ⟨[(u, true)], []⟩ d).1 = .ok (succ, err) ∧
      u ∈ succ.keys) ∧
    (∀ c ∈ (DestroyEnclaves E backend ctx ⟨[(u, true)], []⟩ d).2.containers,
      hasLabels (searchLabelsOf u) c.labels = false) ∧
    (∀ v ∈ (DestroyEnclaves E backend ctx ⟨[(u, true)], []⟩ d).2.volumes,
      hasLabels (searchLabelsOf u) v.labels = false) ∧
    (∀ n ∈ (DestroyEnclaves E backend ctx ⟨[(u, true)], []⟩ d).2.networks,
      hasLabels (searchLabelsOf u) n.labels = false) ∧
    (GetEnclaves E2 ctx2 ⟨[(u, true)], []⟩
      (DestroyEnclaves E backend ctx ⟨[(u, true)], []⟩ d).2).1 = .ok [] := by
  have hmm := getMatchingEnclaveNetworkInfo_matched E ctx _ d m (by rw [hm])
  obtain ⟨_, hlab, hcls, hmeq⟩ := (getMatchingEnclaveNetworkInfo_ok_iff E ctx _ d m).mp
    (by rw [hm])
  have hkeys : ∀ u' info, (u', info) ∈ m → u' = u := by
    intro u' info h
    rw [hmeq] at h
    exact matched_single_filter rfl h
  obtain ⟨n0, hn0, hn0l, hn0u⟩ := hone
  obtain ⟨hn0app, hn0uuid⟩ := (hasLabels_searchLabelsOf u n0.labels).mp hn0l
  -- the enclave `u` is matched
  have humem : ∃ info, (u, info) ∈ m := by
    have h1 : (u, n0) ∈ uuidPairs ⟨[(u, true)], []⟩ (kurtosisNetworks d) :=
      mem_uuidPairs.mpr ⟨mem_kurtosisNetworks.mpr ⟨hn0, hn0app⟩, hn0uuid,
        (uuidPasses_single u u true []).mpr rfl⟩
    have h2 : u ∈ (GoMap.setAll ([] : GoMap EnclaveUUID Network)
        (uuidPairs ⟨[(u, true)], []⟩ (kurtosisNetworks d))).keys := by
      rw [GoMap.mem_keys_setAll]
      exact Or.inr (List.mem_map.mpr ⟨(u, n0), h1, rfl⟩)
    obtain ⟨n1, hn1⟩ := (GoMap.mem_keys_iff _ _).mp h2
    have h3 := GoMap.get?_eq_some_mem hn1
    obtain ⟨_, st, hst⟩ := hcls (u, n1) h3
    have h4 : u ∈ m.keys := by
      rw [hmeq, GoMap.mem_keys_setAll]
      exact Or.inr (List.mem_map.mpr ⟨(u, ⟨u, st, n1, containersOf d u⟩),
        mem_statusPairs.mpr ⟨n1, st, h3, hst, statusPasses_empty _ st, rfl⟩, rfl⟩)
    obtain ⟨info, hinfo⟩ := (GoMap.mem_keys_iff _ _).mp h4
    exact ⟨info, GoMap.get?_eq_some_mem hinfo⟩
  obtain ⟨info, hinfo⟩ := humem
  obtain ⟨_, hin, hiapp, hiuuid, hicont⟩ := hmm.2 u info hinfo
  have hinet : info.dockerNetwork = n0 :=
    hn0u _ hin ((hasLabels_searchLabelsOf u _).mpr ⟨hiapp, hiuuid⟩)
  have hten : NoTenantState backend m := by
    intro u' hu'
    obtain ⟨info', hinfo'⟩ := (GoMap.mem_keys_iff _ _).mp hu'
    have := hkeys u' info' (GoMap.get?_eq_some_mem hinfo')
    subst this
    exact ⟨(GoMap.get?_eq_none_iff _ _).mpr ht.1, (GoMap.get?_eq_none_iff _ _).mpr ht.2⟩
  obtain ⟨succ1, err1, _, hs1, _, hcases⟩ :=
    DestroyEnclaves_phases E backend ctx ⟨[(u, true)], []⟩ d d1 hw m hm hten
  have hcase : ∃ succ err, (DestroyEnclaves E backend ctx ⟨[(u, true)], []⟩ d).1 =
      .ok (succ, err) ∧ u ∈ succ.keys := by
    rcases hcases with ⟨⟨u', hu', hne⟩, _, _⟩ | ⟨_, succ2, err2, succ3, err3, dl, _, heq, _,
      hs2, _, hs3, _⟩
    · exfalso
      obtain ⟨info', hinfo'⟩ := (GoMap.mem_keys_iff _ _).mp ((hs1 u').mp hu').1
      have := hkeys u' info' (GoMap.get?_eq_some_mem hinfo')
      subst this
      exact hne hlist
    · refine ⟨succ3, _, by rw [heq], ?_⟩
      rw [hs3 u, hs2 u, hs1 u]
      exact ⟨⟨⟨GoMap.mem_keys_of_mem hinfo, fun _ _ c _ => (hrem c.id).1⟩,
        fun v _ => (hrem v.Name).2.1⟩, fun i _ => (hrem i.dockerNetwork.id).2.2⟩
  obtain ⟨succ, err, hres, husucc⟩ := hcase
  obtain ⟨hrc, hrv, hrn, hsc, hsv, hsn⟩ := DestroyEnclaves_removed E backend ctx
    ⟨[(u, true)], []⟩ d d1 hw m hm succ err hres u info hinfo husucc
  have hnone : ∀ n ∈ (DestroyEnclaves E backend ctx ⟨[(u, true)], []⟩ d).2.networks,
      hasLabels (searchLabelsOf u) n.labels = false := by
    intro n hn
    by_contra hne
    have htag : hasLabels (searchLabelsOf u) n.labels = true := by simpa using hne
    have := hn0u n (hsn n hn) htag
    subst this
    exact hrn (hinet ▸ hn)
  refine ⟨⟨succ, err, hres, husucc⟩, ?_, ?_, hnone, ?_⟩
  · intro c hc
    by_contra hne
    have htag : hasLabels (searchLabelsOf u) c.labels = true := by simpa using hne
    have hmem : c ∈ info.containers := by
      rw [hicont]
      exact mem_containersOf.mpr ⟨hsc c hc, (hasLabels_searchLabelsOf u _).mp htag⟩
    exact hrc c hmem hc
  · intro v hv
    by_contra hne
    have htag : hasLabels (searchLabelsOf u) v.labels = true := by simpa using hne
    exact hrv v (mem_volumesOf.mpr ⟨hsv v hv, (hasLabels_searchLabelsOf u _).mp htag⟩) hv
  · -- the following `GetEnclaves`
    have hpairs : uuidPairs ⟨[(u, true)], []⟩
        (kurtosisNetworks (DestroyEnclaves E backend ctx ⟨[(u, true)], []⟩ d).2) = [] := by
      rw [List.eq_nil_iff_forall_not_mem]
      rintro ⟨u', n⟩ hp
      obtain ⟨hnk, hnu, hpass⟩ := mem_uuidPairs.mp hp
      have := (uuidPasses_single u u' true []).mp hpass
      subst this
      obtain ⟨hnd, hnapp⟩ := mem_kurtosisNetworks.mp hnk
      have := hnone n hnd
      rw [(hasLabels_searchLabelsOf u' n.labels).mpr ⟨hnapp, hnu⟩] at this
      cases this
    have hget : (getMatchingEnclaveNetworkInfo E2 ctx2 ⟨[(u, true)], []⟩
        (DestroyEnclaves E backend ctx ⟨[(u, true)], []⟩ d).2).1 = .ok [] := by
      rw [getMatchingEnclaveNetworkInfo_ok_iff, hpairs]
      refine ⟨hlist2, ?_, ?_, rfl⟩
      · intro n hn
        obtain ⟨hnd, hnapp⟩ := mem_kurtosisNetworks.mp hn
        exact hlab n (mem_kurtosisNetworks.mpr ⟨hsn n hnd, hnapp⟩)
      · intro p hp
        simp [GoMap.setAll] at hp
    unfold GetEnclaves
    rcases hg : getMatchingEnclaveNetworkInfo E2 ctx2 ⟨[(u, true)], []⟩
      (DestroyEnclaves E backend ctx ⟨[(u, true)], []⟩ d).2 with ⟨r, d'⟩
    rw [hg] at hget
    simp only at hget
    subst hget
    rfl

set_option maxRecDepth 100000 in
theorem DestroyEnclaves_then_GetEnclaves_witness :
    sampleDocker.WellFormed ∧
    (GetEnclaves sampleEnv (.request 2) ⟨[("a", true)], []⟩
      (DestroyEnclaves sampleEnv sampleBackend (.request 1) ⟨[("a", true)], []⟩
        sampleDocker).2).1 = .ok [] :=
  ⟨sampleDocker_wellFormed,
   (DestroyEnclaves_then_GetEnclaves sampleEnv sampleEnv sampleBackend (.request 1) (.request 2)
      sampleDocker sampleDockerMatchedA sampleDocker_wellFormed "a" [("a", sampleInfoA)] rfl
      ⟨⟨"na", "net-a", enclaveLabels "a"⟩, by decide, by decide, by decide⟩
      ⟨by decide, by decide⟩ (fun _ => ⟨rfl, rfl, rfl⟩) rfl rfl).2.2.2.2⟩

set_option maxRecDepth 100000 in
/-- C6, counterexample: on the two enclaves `a` and `b` of `sampleDocker`, when only the listing
of the volumes of `a` fails, the matcher returns both enclaves and every container is removed,
but `DestroyEnclaves` returns a top-level error and no result, and the volume and the network of
`b` are still in the engine. -/
theorem DestroyEnclaves_listing_failure_aborts :
    (getMatchingEnclaveNetworkInfo sampleListingFailsEnv (.request 1) ⟨[], []⟩ sampleDocker).1 =
      .ok [("a", sampleInfoA), ("b", sampleInfoB)] ∧
    (∃ e, (DestroyEnclaves sampleListingFailsEnv sampleBackend (.request 1) ⟨[], []⟩
      sampleDocker).1 = .error e) ∧
    (DestroyEnclaves sampleListingFailsEnv sampleBackend (.request 1) ⟨[], []⟩
      sampleDocker).2.containers = [] ∧
    (DestroyEnclaves sampleListingFailsEnv sampleBackend (.request 1) ⟨[], []⟩
      sampleDocker).2.volumes = sampleDocker.volumes ∧
    (DestroyEnclaves sampleListingFailsEnv sampleBackend (.request 1) ⟨[], []⟩
      sampleDocker).2.networks = sampleDocker.networks :=
  ⟨rfl, ⟨_, rfl⟩, rfl, rfl, rfl⟩

/-- C6, amended: in a well-formed engine state, after the matcher returned `m` without
tenant-local state, a failed removal never aborts the batch: if the volumes of every enclave
that cleared the container phase can be listed, `DestroyEnclaves` returns a result in which
every matched enclave with a failed removal is in errored and every other matched enclave is
in successful; and if the listing of the volumes of an enclave that cleared the container
phase fails, the call returns a top-level error. -/
theorem DestroyEnclaves_removal_errors_per_enclave (E : Env) (backend : DockerKurtosisBackend)
    (ctx : Ctx) (filters : EnclaveFilters) (d d1 : Docker) (hw : d.WellFormed)
    (m : GoMap EnclaveUUID matchingNetworkInformation)
    (hm : getMatchingEnclaveNetworkInfo E ctx filters d = (.ok m, d1))
    (ht : NoTenantState backend m) :
    ((∀ u ∈ m.keys, ContainersOk E ctx m u →
        E.fails ctx (.GetVolumesByLabels (searchLabelsOf u)) = none) →
      ∃ succ err, (DestroyEnclaves E backend ctx filters d).1 = .ok (succ, err) ∧
        (∀ u ∈ m.keys,
          ¬ (ContainersOk E ctx m u ∧ VolumesOk E ctx d u ∧ NetworkOk E ctx m u) →
          u ∈ err.keys) ∧
        (∀ u ∈ m.keys,
          ContainersOk E ctx m u ∧ VolumesOk E ctx d u ∧ NetworkOk E ctx m u →
          u ∈ succ.keys)) ∧
    ((∃ u ∈ m.keys, ContainersOk E ctx m u ∧
        E.fails ctx (.GetVolumesByLabels (searchLabelsOf u)) ≠ none) →
      ∃ e, (DestroyEnclaves E backend ctx filters d).1 = .error e) := by
  obtain ⟨succ1, err1, _, hs1, he1, hcases⟩ :=
    DestroyEnclaves_phases E backend ctx filters d d1 hw m hm ht
  constructor
  · intro hlist
    rcases hcases with ⟨⟨u', hu', hne⟩, _, _⟩ | ⟨_, succ2, err2, succ3, err3, dl, _, heq, _,
      hs2, he2, hs3, he3⟩
    · exfalso
      obtain ⟨h1, h2⟩ := (hs1 u').mp hu'
      exact hne (hlist u' h1 h2)
    · refine ⟨succ3, _, by rw [heq], ?_, ?_⟩
      · intro u hu hbad
        rw [mem_keys_destroy_errors, he1 u, he2 u, he3 u, hs2 u, hs1 u]
        tauto
      · intro u hu hok
        rw [hs3 u, hs2 u, hs1 u]
        tauto
  · rintro ⟨u, hu, hc, hne⟩
    rcases hcases with ⟨_, he, _⟩ | ⟨hlist, _⟩
    · exact he
    · exact absurd (hlist u ((hs1 u).mpr ⟨hu, hc⟩)) hne

set_option maxRecDepth 100000 in
theorem DestroyEnclaves_removal_errors_per_enclave_witness :
    sampleDocker.WellFormed ∧
    NoTenantState sampleBackend [("a", sampleInfoA), ("b", sampleInfoB)] ∧
    ∃ succ err, (DestroyEnclaves sampleFailingEnv sampleBackend (.request 1) ⟨[], []⟩
        sampleDocker).1 = .ok (succ, err) ∧
      (∀ u ∈ GoMap.keys [("a", sampleInfoA), ("b", sampleInfoB)],
        ¬ (ContainersOk sampleFailingEnv (.request 1) [("a", sampleInfoA), ("b", sampleInfoB)] u ∧
          VolumesOk sampleFailingEnv (.request 1) sampleDocker u ∧
          NetworkOk sampleFailingEnv (.request 1) [("a", sampleInfoA), ("b", sampleInfoB)] u) →
        u ∈ err.keys) ∧
      (∀ u ∈ GoMap.keys [("a", sampleInfoA), ("b", sampleInfoB)],
        ContainersOk sampleFailingEnv (.request 1) [("a", sampleInfoA), ("b", sampleInfoB)] u ∧
          VolumesOk sampleFailingEnv (.request 1) sampleDocker u ∧
          NetworkOk sampleFailingEnv (.request 1) [("a", sampleInfoA), ("b", sampleInfoB)] u →
        u ∈ succ.keys) :=
  ⟨sampleDocker_wellFormed, fun _ _ => ⟨rfl, rfl⟩,
   (DestroyEnclaves_removal_errors_per_enclave sampleFailingEnv sampleBackend (.request 1)
      ⟨[], []⟩ sampleDocker sampleDockerMatched sampleDocker_wellFormed
      [("a", sampleInfoA), ("b", sampleInfoB)] sample_matcher
      (fun _ _ => ⟨rfl, rfl⟩)).1 (fun _ _ _ => rfl)⟩

/-! ## Creating an enclave -/

theorem filter_length_pos_iff {α : Type} (p : α → Bool) (l : List α) :
    ¬ (l.filter p).length > 0 ↔ ∀ x ∈ l, p x = false := by
  simp [List.filter_eq_nil_iff]

/-- The runs of `CreateEnclave`: it fails after listing calls only, or it reaches the creation of
the network, and then the creation of the network fails, or the creation of the data volume
fails and the network is rolled back, or the call succeeds. -/
theorem CreateEnclave_cases (E : Env) (backend : DockerKurtosisBackend) (ctx : Ctx)
    (u : EnclaveUUID) (n : String) (p : Bool) (d : Docker) :
    ((¬ ∃ na va, CreateEnclave.Reached E backend ctx u n p d na va) ∧
      (∃ e, (CreateEnclave E backend ctx u n p d).1 = .error e) ∧
      d.listingOnly (CreateEnclave E backend ctx u n p d).2) ∨
    ∃ na va, CreateEnclave.Reached E backend ctx u n p d na va ∧
      ((∃ msg text, E.fails ctx (.CreateNewNetwork na.name (labelStrings na.labels)) = some msg ∧
          CreateEnclave E backend ctx u n p d =
            (.error (.Propagate (.driver msg) text),
             CreateEnclave.networkFailed ctx u na msg d)) ∨
       (E.fails ctx (.CreateNewNetwork na.name (labelStrings na.labels)) = none ∧
        ∃ msg text, E.fails ctx (.CreateVolume va.name (labelStrings va.labels)) = some msg ∧
          CreateEnclave E backend ctx u n p d =
            (.error (.Propagate (.driver msg) text),
             CreateEnclave.rolledBack E ctx u na va msg d)) ∨
       (E.fails ctx (.CreateNewNetwork na.name (labelStrings na.labels)) = none ∧
        E.fails ctx (.CreateVolume va.name (labelStrings va.labels)) = none ∧
        CreateEnclave E backend ctx u n p d =
          (.ok ⟨u, n, .Empty, some E.now⟩, CreateEnclave.created E ctx u na va d))) := by
  have hl1 : ∀ r, d.listingOnly (d.emit ctx (.GetNetworksByLabels (searchLabelsOf u)) r) :=
    fun r => listingOnly_emit _ _ _ _ rfl
  have hl2 : ∀ r, d.listingOnly ((d.emit ctx (.GetNetworksByLabels (searchLabelsOf u)) none).emit
      ctx (.GetVolumesByLabels (dataVolumeLabelsOf u)) r) :=
    fun r => listingOnly_trans (hl1 none) (listingOnly_emit _ _ _ _ rfl)
  simp only [CreateEnclave, GetNetworksByLabels_eq, GetVolumesByLabels_eq]
  cases h1 : E.fails ctx (.GetNetworksByLabels
      [(AppIDDockerLabelKey, AppIDDockerLabelValue), (EnclaveUUIDDockerLabelKey, u)]) with
  | some msg =>
    refine Or.inl ⟨?_, ⟨_, rfl⟩, hl1 _⟩
    rintro ⟨na, va, hr⟩
    have := hr.listNetworks
    simp [searchLabelsOf, h1] at this
  | none =>
    simp only
    by_cases h2 : (d.networks.filter (fun x => hasLabels
        [(AppIDDockerLabelKey, AppIDDockerLabelValue), (EnclaveUUIDDockerLabelKey, u)]
        x.labels)).length > 0
    · simp only [h2, if_true]
      refine Or.inl ⟨?_, ⟨_, rfl⟩, hl1 _⟩
      rintro ⟨na, va, hr⟩
      exact (filter_length_pos_iff _ _).mpr hr.noNetwork h2
    · simp only [h2, if_false]
      cases h3 : E.fails ctx (.GetVolumesByLabels
          [(AppIDDockerLabelKey, AppIDDockerLabelValue), (EnclaveUUIDDockerLabelKey, u),
           (VolumeTypeDockerLabelKey, EnclaveDataVolumeTypeDockerLabelValue)]) with
      | some msg =>
        refine Or.inl ⟨?_, ⟨_, rfl⟩, hl2 _⟩
        rintro ⟨na, va, hr⟩
        have := hr.listVolumes
        simp [dataVolumeLabelsOf, h3] at this
      | none =>
        simp only
        by_cases h4 : (List.filter (fun v => hasLabels
            [(AppIDDockerLabelKey, AppIDDockerLabelValue), (EnclaveUUIDDockerLabelKey, u),
             (VolumeTypeDockerLabelKey, EnclaveDataVolumeTypeDockerLabelValue)] v.labels)
            (d.emit ctx (.GetNetworksByLabels
              [(AppIDDockerLabelKey, AppIDDockerLabelValue), (EnclaveUUIDDockerLabelKey, u)])
              none).volumes).length > 0
        · simp only [h4, if_true]
          refine Or.inl ⟨?_, ⟨_, rfl⟩, hl2 _⟩
          rintro ⟨na, va, hr⟩
          exact (filter_length_pos_iff _ _).mpr hr.noVolume h4
        · simp only [h4, if_false]
          cases h5 : backend.objAttrsProvider.ForEnclave u with
          | error e =>
            refine Or.inl ⟨?_, ⟨_, rfl⟩, hl2 _⟩
            rintro ⟨na, va, hr⟩
            obtain ⟨prov, hp, _⟩ := hr.provider
            rw [h5] at hp
            cases hp
          | ok prov =>
            simp only
            cases h6 : prov.ForEnclaveNetwork n E.now p with
            | error e =>
              refine Or.inl ⟨?_, ⟨_, rfl⟩, hl2 _⟩
              rintro ⟨na, va, hr⟩
              obtain ⟨prov', hp, hp', _⟩ := hr.provider
              rw [h5] at hp
              cases hp
              rw [h6] at hp'
              cases hp'
            | ok na =>
              simp only
              cases h7 : prov.ForEnclaveDataVolume with
              | error e =>
                refine Or.inl ⟨?_, ⟨_, rfl⟩, hl2 _⟩
                rintro ⟨na, va, hr⟩
                obtain ⟨prov', hp, _, hp'⟩ := hr.provider
                rw [h5] at hp
                cases hp
                rw [h7] at hp'
                cases hp'
              | ok va =>
                simp only
                right
                refine ⟨na, va, ⟨h1, (filter_length_pos_iff _ _).mp h2, h3,
                  (filter_length_pos_iff _ _).mp h4, prov, h5, h6, h7⟩, ?_⟩
                unfold DockerManager.CreateNewNetwork
                cases h8 : E.fails ctx (.CreateNewNetwork na.name (labelStrings na.labels)) with
                | some msg =>
                  left
                  refine ⟨msg, "An error occurred allocating a new network for enclave '" ++
                    u ++ "'", rfl, ?_⟩
                  simp [CreateEnclave.networkFailed, CreateEnclave.checkEvents, Docker.emit,
                    searchLabelsOf, dataVolumeLabelsOf]
                | none =>
                  right
                  simp only
                  unfold DockerManager.CreateVolume
                  cases h9 : E.fails ctx (.CreateVolume va.name (labelStrings va.labels)) with
                  | some msg =>
                    left
                    refine ⟨trivial, msg, "An error occurred creating enclave data volume " ++
                      "with name '" ++ va.name ++ "' and labels '" ++
                      fmtLabels (labelStrings va.labels) ++ "'", rfl, ?_⟩
                    simp only [CreateEnclave.deferredRemoveNetwork, if_true,
                      DockerManager.RemoveNetwork]
                    cases h10 : E.fails .background (.RemoveNetwork (E.newNetworkId na.name)) with
                    | some m' =>
                      simp [CreateEnclave.rolledBack, CreateEnclave.checkEvents, Docker.emit,
                        searchLabelsOf, dataVolumeLabelsOf, h10, CreateEnclave.network]
                    | none =>
                      simp [CreateEnclave.rolledBack, CreateEnclave.checkEvents, Docker.emit,
                        searchLabelsOf, dataVolumeLabelsOf, h10, CreateEnclave.network]
                  | none =>
                    right
                    refine ⟨trivial, rfl, ?_⟩
                    simp [CreateEnclave.created, CreateEnclave.checkEvents, Docker.emit,
                      searchLabelsOf, dataVolumeLabelsOf, CreateEnclave.deferredRemoveNetwork,
                      CreateEnclave.deferredRemoveVolume, CreateEnclave.network]

/-- The attributes a run of `CreateEnclave` reached the creation of the network with are
determined by the call. -/
theorem CreateEnclave.Reached.unique {E : Env} {backend : DockerKurtosisBackend} {ctx : Ctx}
    {u : EnclaveUUID} {n : String} {p : Bool} {d : Docker} {na va na' va' : DockerObjectAttributes}
    (h : CreateEnclave.Reached E backend ctx u n p d na va)
    (h' : CreateEnclave.Reached E backend ctx u n p d na' va') : na' = na ∧ va' = va := by
  obtain ⟨prov, hp, hn, hv⟩ := h.provider
  obtain ⟨prov', hp', hn', hv'⟩ := h'.provider
  rw [hp] at hp'
  cases hp'
  rw [hn] at hn'
  rw [hv] at hv'
  cases hn'
  cases hv'
  exact ⟨rfl, rfl⟩

theorem issued_networkFailed (ctx : Ctx) (u : EnclaveUUID) (na : DockerObjectAttributes)
    (msg : String) (d : Docker) :
    issued d (CreateEnclave.networkFailed ctx u na msg d) = CreateEnclave.checkEvents ctx u ++
      [⟨ctx, .CreateNewNetwork na.name (labelStrings na.labels), some msg⟩] :=
  issued_eq rfl

theorem issued_rolledBack (E : Env) (ctx : Ctx) (u : EnclaveUUID)
    (na va : DockerObjectAttributes) (msg : String) (d : Docker) :
    issued d (CreateEnclave.rolledBack E ctx u na va msg d) = CreateEnclave.checkEvents ctx u ++
      [⟨ctx, .CreateNewNetwork na.name (labelStrings na.labels), none⟩,
       ⟨ctx, .CreateVolume va.name (labelStrings va.labels), some msg⟩,
       ⟨.background, .RemoveNetwork (E.newNetworkId na.name),
         E.fails .background (.RemoveNetwork (E.newNetworkId na.name))⟩] :=
  issued_eq rfl

theorem issued_created (E : Env) (ctx : Ctx) (u : EnclaveUUID)
    (na va : DockerObjectAttributes) (d : Docker) :
    issued d (CreateEnclave.created E ctx u na va d) = CreateEnclave.checkEvents ctx u ++
      [⟨ctx, .CreateNewNetwork na.name (labelStrings na.labels), none⟩,
       ⟨ctx, .CreateVolume va.name (labelStrings va.labels), none⟩] :=
  issued_eq rfl

/-- C7: for every UUID `u` and name `n`, if the engine holds a network tagged
`app-id=kurtosis`, `enclave-uuid=u` or a volume tagged moreover `volume-type=enclave-data`,
`CreateEnclave` returns an error and no enclave, issues listing calls only, and leaves the
networks, volumes and containers as they were.  In particular this is so in the state a
successful `CreateEnclave` for the same UUID left, when the attributes provider tags the network
with the app id and the UUID. -/
theorem CreateEnclave_already_exists (E : Env) (backend : DockerKurtosisBackend) (ctx : Ctx)
    (u : EnclaveUUID) (n : String) (p : Bool) (d : Docker) :
    (((∃ x ∈ d.networks, hasLabels (searchLabelsOf u) x.labels = true) ∨
      (∃ v ∈ d.volumes, hasLabels (dataVolumeLabelsOf u) v.labels = true)) →
      (∃ e, (CreateEnclave E backend ctx u n p d).1 = .error e) ∧
      (∀ e ∈ issued d (CreateEnclave E backend ctx u n p d).2, e.isListing = true) ∧
      (CreateEnclave E backend ctx u n p d).2.networks = d.networks ∧
      (CreateEnclave E backend ctx u n p d).2.volumes = d.volumes ∧
      (CreateEnclave E backend ctx u n p d).2.containers = d.containers) ∧
    (∀ (E0 : Env) (ctx0 : Ctx) (n0 : String) (p0 : Bool) (d0 : Docker) (e0 : Enclave),
      CreateEnclave E0 backend ctx0 u n0 p0 d0 = (.ok e0, d) →
      (∀ prov na, backend.objAttrsProvider.ForEnclave u = .ok prov →
        prov.ForEnclaveNetwork n0 E0.now p0 = .ok na →
        hasLabels (searchLabelsOf u) (labelStrings na.labels) = true) →
      (∃ e, (CreateEnclave E backend ctx u n p d).1 = .error e) ∧
      (∀ e ∈ issued d (CreateEnclave E backend ctx u n p d).2, e.isListing = true) ∧
      (CreateEnclave E backend ctx u n p d).2.networks = d.networks ∧
      (CreateEnclave E backend ctx u n p d).2.volumes = d.volumes ∧
      (CreateEnclave E backend ctx u n p d).2.containers = d.containers) := by
  have key : ((∃ x ∈ d.networks, hasLabels (searchLabelsOf u) x.labels = true) ∨
      (∃ v ∈ d.volumes, hasLabels (dataVolumeLabelsOf u) v.labels = true)) →
      (∃ e, (CreateEnclave E backend ctx u n p d).1 = .error e) ∧
      (∀ e ∈ issued d (CreateEnclave E backend ctx u n p d).2, e.isListing = true) ∧
      (CreateEnclave E backend ctx u n p d).2.networks = d.networks ∧
      (CreateEnclave E backend ctx u n p d).2.volumes = d.volumes ∧
      (CreateEnclave E backend ctx u n p d).2.containers = d.containers := by
    intro h
    rcases CreateEnclave_cases E backend ctx u n p d with ⟨_, he, hl⟩ | ⟨na, va, hr, _⟩
    · exact ⟨he, issued_listingOnly hl, listingOnly_networks hl, listingOnly_volumes hl,
        listingOnly_containers hl⟩
    · exfalso
      rcases h with ⟨x, hx, hxl⟩ | ⟨v, hv, hvl⟩
      · rw [hr.noNetwork x hx] at hxl
        cases hxl
      · rw [hr.noVolume v hv] at hvl
        cases hvl
  refine ⟨key, ?_⟩
  intro E0 ctx0 n0 p0 d0 e0 hfirst htag
  apply key
  left
  rcases CreateEnclave_cases E0 backend ctx0 u n0 p0 d0 with ⟨_, ⟨e, he⟩, _⟩ | ⟨na, va, hr, hc⟩
  · rw [hfirst] at he
    cases he
  · obtain ⟨prov, hp1, hp2, _⟩ := hr.provider
    rcases hc with ⟨_, _, _, heq⟩ | ⟨_, _, _, _, heq⟩ | ⟨_, _, heq⟩
    · rw [hfirst] at heq
      cases heq
    · rw [hfirst] at heq
      cases heq
    · rw [hfirst] at heq
      have hd : d = CreateEnclave.created E0 ctx0 u na va d0 := (Prod.mk.inj heq).2
      refine ⟨CreateEnclave.network E0 na, ?_, htag prov na hp1 hp2⟩
      rw [hd]
      simp [CreateEnclave.created]

set_option maxRecDepth 100000 in
theorem CreateEnclave_already_exists_witness :
    (∃ x ∈ sampleCreated.networks, hasLabels (searchLabelsOf "e1") x.labels = true) ∧
    (∃ e, (CreateEnclave sampleEnv sampleCreateBackend (.request 2) "e1" "web-test" false
      sampleCreated).1 = .error e) ∧
    (CreateEnclave sampleEnv sampleCreateBackend (.request 2) "e1" "web-test" false
      sampleCreated).2.networks = sampleCreated.networks :=
  have h := (CreateEnclave_already_exists sampleEnv sampleCreateBackend (.request 2) "e1"
    "web-test" false sampleCreated).1 (Or.inl (by decide))
  ⟨by decide, h.1, h.2.2.1⟩

/-- C8: for every UUID `u` unused in the engine (no network tagged `app-id=kurtosis`,
`enclave-uuid=u`, no data volume tagged so) and every name `n` for which the attributes provider
returns attributes, when every driver call succeeds `CreateEnclave` returns the enclave with
UUID `u`, name `n`, status `Empty` and the creation time read from the clock; it has added
exactly one network and one volume to the engine and issued, after the two listings, one
creation of a network and one creation of a volume, and no removal. -/
theorem CreateEnclave_success (E : Env) (backend : DockerKurtosisBackend) (ctx : Ctx)
    (u : EnclaveUUID) (n : String) (p : Bool) (d : Docker)
    (prov : DockerEnclaveObjectAttributesProvider) (na va : DockerObjectAttributes)
    (hnet : ∀ x ∈ d.networks, hasLabels (searchLabelsOf u) x.labels = false)
    (hvol : ∀ v ∈ d.volumes, hasLabels (dataVolumeLabelsOf u) v.labels = false)
    (hprov : backend.objAttrsProvider.ForEnclave u = .ok prov)
    (hna : prov.ForEnclaveNetwork n E.now p = .ok na)
    (hva : prov.ForEnclaveDataVolume = .ok va)
    (hok : ∀ call, E.fails ctx call = none) :
    (CreateEnclave E backend ctx u n p d).1 = .ok ⟨u, n, .Empty, some E.now⟩ ∧
    (CreateEnclave E backend ctx u n p d).2.networks =
      d.networks ++ [⟨E.newNetworkId na.name, na.name, labelStrings na.labels⟩] ∧
    (CreateEnclave E backend ctx u n p d).2.volumes =
      d.volumes ++ [⟨va.name, labelStrings va.labels⟩] ∧
    (CreateEnclave E backend ctx u n p d).2.containers = d.containers ∧
    issued d (CreateEnclave E backend ctx u n p d).2 =
      [⟨ctx, .GetNetworksByLabels (searchLabelsOf u), none⟩,
       ⟨ctx, .GetVolumesByLabels (dataVolumeLabelsOf u), none⟩,
       ⟨ctx, .CreateNewNetwork na.name (labelStrings na.labels), none⟩,
       ⟨ctx, .CreateVolume va.name (labelStrings va.labels), none⟩] ∧
    (∀ e ∈ issued d (CreateEnclave E backend ctx u n p d).2, ∀ id,
      e.call ≠ .RemoveNetwork id ∧ e.call ≠ .RemoveVolume id) := by
  have hr : CreateEnclave.Reached E backend ctx u n p d na va :=
    ⟨hok _, hnet, hok _, hvol, prov, hprov, hna, hva⟩
  rcases CreateEnclave_cases E backend ctx u n p d with ⟨hno, _⟩ | ⟨na', va', hr', hc⟩
  · exact absurd ⟨na, va, hr⟩ hno
  · obtain ⟨rfl, rfl⟩ := hr.unique hr'
    rcases hc with ⟨msg, _, hf, _⟩ | ⟨_, msg, _, hf, _⟩ | ⟨_, _, heq⟩
    · rw [hok] at hf
      cases hf
    · rw [hok] at hf
      cases hf
    · rw [heq]
      refine ⟨rfl, rfl, rfl, rfl, ?_, ?_⟩
      · rw [issued_created]
        rfl
      · intro e he id
        rw [issued_created] at he
        simp only [CreateEnclave.checkEvents, List.cons_append, List.nil_append, List.mem_cons,
          List.mem_singleton, List.not_mem_nil, or_false] at he
        rcases he with rfl | rfl | rfl | rfl <;> simp

set_option maxRecDepth 100000 in
theorem CreateEnclave_success_witness :
    (CreateEnclave sampleEnv sampleCreateBackend (.request 1) "e1" "web-test" false
      emptyDocker).1 = .ok ⟨"e1", "web-test", .Empty, some ⟨1700000000, 5⟩⟩ ∧
    (CreateEnclave sampleEnv sampleCreateBackend (.request 1) "e1" "web-test" false
      emptyDocker).2.volumes = [⟨"e1--enclave-data", dataVolumeLabelsOf "e1"⟩] :=
  have h := CreateEnclave_success sampleEnv sampleCreateBackend (.request 1) "e1" "web-test"
    false emptyDocker
    { ForEnclaveNetwork := fun name t _ => .ok
        ⟨"kt-" ++ name,
         [(AppIDDockerLabelKey, AppIDDockerLabelValue), (EnclaveUUIDDockerLabelKey, "e1"),
          (EnclaveNameDockerLabelKey, name),
          (EnclaveCreationTimeLabelKey, sampleFormatRFC3339 t)]⟩
      ForEnclaveDataVolume := .ok
        ⟨"e1" ++ "--enclave-data",
         [(AppIDDockerLabelKey, AppIDDockerLabelValue), (EnclaveUUIDDockerLabelKey, "e1"),
          (VolumeTypeDockerLabelKey, EnclaveDataVolumeTypeDockerLabelValue)]⟩ }
    _ _ (by simp [emptyDocker]) (by simp [emptyDocker]) rfl rfl rfl (fun _ => rfl)
  ⟨h.1, h.2.2.1⟩

/-- C9: in every call of `CreateEnclave` that issues a creation of the data volume which fails
with `msg`, the network was created before; the call issues exactly one `RemoveNetwork`, for the
id of the network it created and under `context.Background()`, which no cancellation of the
caller's context reaches; whatever the outcome of that removal the call returns an error whose
cause is the error of the volume creation; and when the removal succeeds and Docker gave the
new network an id no other network has, the networks and volumes of the engine are those before
the call. -/
theorem CreateEnclave_rollback (E : Env) (backend : DockerKurtosisBackend) (ctx : Ctx)
    (u : EnclaveUUID) (n : String) (p : Bool) (d : Docker) (vn : String) (vl : Labels)
    (msg : String)
    (hfail : (⟨ctx, .CreateVolume vn vl, some msg⟩ : Event) ∈
      issued d (CreateEnclave E backend ctx u n p d).2) :
    ∃ na : DockerObjectAttributes,
      (⟨ctx, .CreateNewNetwork na.name (labelStrings na.labels), none⟩ : Event) ∈
        issued d (CreateEnclave E backend ctx u n p d).2 ∧
      (⟨.background, .RemoveNetwork (E.newNetworkId na.name),
          E.fails .background (.RemoveNetwork (E.newNetworkId na.name))⟩ : Event) ∈
        issued d (CreateEnclave E backend ctx u n p d).2 ∧
      (∀ e ∈ issued d (CreateEnclave E backend ctx u n p d).2, ∀ id,
        e.call = .RemoveNetwork id →
        id = E.newNetworkId na.name ∧ e.ctx = .background) ∧
      (∃ e, (CreateEnclave E backend ctx u n p d).1 = .error e ∧
        e.cause = some (.driver msg)) ∧
      (E.fails .background (.RemoveNetwork (E.newNetworkId na.name)) = none →
        (∀ x ∈ d.networks, x.id ≠ E.newNetworkId na.name) →
        (CreateEnclave E backend ctx u n p d).2.networks = d.networks ∧
        (CreateEnclave E backend ctx u n p d).2.volumes = d.volumes) := by
  rcases CreateEnclave_cases E backend ctx u n p d with ⟨_, _, hl⟩ | ⟨na, va, _, hc⟩
  · have := issued_listingOnly hl _ hfail
    simp [Event.isListing] at this
  · rcases hc with ⟨msg', _, _, heq⟩ | ⟨_, msg', text, _, heq⟩ | ⟨_, _, heq⟩
    · rw [heq, issued_networkFailed] at hfail
      simp [CreateEnclave.checkEvents] at hfail
    · rw [heq]
      rw [heq, issued_rolledBack] at hfail
      simp only [CreateEnclave.checkEvents, List.cons_append, List.nil_append, List.mem_cons,
        Event.mk.injEq, List.mem_singleton, List.not_mem_nil, or_false] at hfail
      have hmsg : msg' = msg := by
        rcases hfail with ⟨_, h, _⟩ | ⟨_, h, _⟩ | ⟨_, h, _⟩ | ⟨_, _, h⟩ | ⟨_, h, _⟩
        · cases h
        · cases h
        · cases h
        · exact (Option.some.inj h).symm
        · cases h
      subst hmsg
      refine ⟨na, ?_, ?_, ?_, ⟨_, rfl, rfl⟩, ?_⟩
      · rw [issued_rolledBack]
        simp
      · rw [issued_rolledBack]
        simp
      · intro e he id hcall
        rw [issued_rolledBack] at he
        simp only [CreateEnclave.checkEvents, List.cons_append, List.nil_append, List.mem_cons,
          List.mem_singleton, List.not_mem_nil, or_false] at he
        rcases he with rfl | rfl | rfl | rfl | rfl
        · cases hcall
        · cases hcall
        · cases hcall
        · cases hcall
        · simp only [Call.RemoveNetwork.injEq] at hcall
          exact ⟨hcall.symm, rfl⟩
      · intro hrm hfresh
        refine ⟨?_, rfl⟩
        simp only [CreateEnclave.rolledBack, hrm, if_true, List.filter_append]
        have h1 : d.networks.filter (fun x => decide (x.id ≠ E.newNetworkId na.name)) =
            d.networks := by
          rw [List.filter_eq_self]
          intro x hx
          simpa using hfresh x hx
        rw [h1]
        simp [CreateEnclave.network]
    · rw [heq, issued_created] at hfail
      simp [CreateEnclave.checkEvents] at hfail

set_option maxRecDepth 100000 in
theorem CreateEnclave_rollback_witness :
    (⟨.request 1, .CreateVolume "e1--enclave-data" (dataVolumeLabelsOf "e1"),
        some "no space left"⟩ : Event) ∈
      issued emptyDocker (CreateEnclave sampleVolumeFailsEnv sampleCreateBackend (.request 1)
        "e1" "web-test" false emptyDocker).2 ∧
    ∃ na : DockerObjectAttributes,
      (⟨.request 1, .CreateNewNetwork na.name (labelStrings na.labels), none⟩ : Event) ∈
        issued emptyDocker (CreateEnclave sampleVolumeFailsEnv sampleCreateBackend (.request 1)
          "e1" "web-test" false emptyDocker).2 ∧
      (⟨.background, .RemoveNetwork (sampleVolumeFailsEnv.newNetworkId na.name),
          sampleVolumeFailsEnv.fails .background
            (.RemoveNetwork (sampleVolumeFailsEnv.newNetworkId na.name))⟩ : Event) ∈
        issued emptyDocker (CreateEnclave sampleVolumeFailsEnv sampleCreateBackend (.request 1)
          "e1" "web-test" false emptyDocker).2 :=
  have h := CreateEnclave_rollback sampleVolumeFailsEnv sampleCreateBackend (.request 1) "e1"
    "web-test" false emptyDocker "e1--enclave-data" (dataVolumeLabelsOf "e1") "no space left"
    (by decide)
  ⟨by decide, h.imp (fun _ hna => ⟨hna.1, hna.2.1⟩)⟩

theorem kurtosisNetworks_append (d : Docker) (x : Network) (ns : List Network)
    (vs : List Volume) (cs : List Container) (l : List Event)
    (hx : x.labels.get? AppIDDockerLabelKey = some AppIDDockerLabelValue) :
    kurtosisNetworks ⟨ns ++ [x], vs, cs, l⟩ = kurtosisNetworks ⟨ns, d.volumes, d.containers, d.log⟩
      ++ [x] := by
  simp [kurtosisNetworks, List.filter_append, hasLabels_app, hx]

theorem uuidPairs_append (filters : EnclaveFilters) (l l' : List Network) :
    uuidPairs filters (l ++ l') = uuidPairs filters l ++ uuidPairs filters l' := by
  simp [uuidPairs, List.filterMap_append]

/-- C10 (create/get round trip): let `CreateEnclave(u, n, p)` succeed in an engine with no
container tagged with `u` and whose `app-id=kurtosis` networks all carry a UUID label, and let
the attributes provider label the network with `app-id=kurtosis`, `enclave-uuid=u`,
`enclave-name=n` and a creation time that `time.Parse` reads back as the creation instant cut
to whole seconds.  Then the returned enclave has UUID `u`, name `n`, status `Empty` and the
creation instant, and a following `GetEnclaves` with the UUID filter holding `u`, whose two
listings succeed, returns the map with the single key `u`, whose enclave has UUID `u`, name `n`,
status `Empty` and the creation instant cut to whole seconds. -/
theorem CreateEnclave_then_GetEnclaves (E E2 : Env) (backend : DockerKurtosisBackend)
    (ctx ctx2 : Ctx) (u : EnclaveUUID) (n : String) (p : Bool) (d d' : Docker) (e : Enclave)
    (hcreate : CreateEnclave E backend ctx u n p d = (.ok e, d'))
    (hunused : ∀ c ∈ d.containers, hasLabels (searchLabelsOf u) c.labels = false)
    (hlabels : ∀ x ∈ kurtosisNetworks d, ∃ v, x.labels.get? EnclaveUUIDDockerLabelKey = some v)
    (htag : ∀ prov na, backend.objAttrsProvider.ForEnclave u = .ok prov →
      prov.ForEnclaveNetwork n E.now p = .ok na →
      (labelStrings na.labels).get? AppIDDockerLabelKey = some AppIDDockerLabelValue ∧
      (labelStrings na.labels).get? EnclaveUUIDDockerLabelKey = some u ∧
      (labelStrings na.labels).get? EnclaveNameDockerLabelKey = some n ∧
      ∃ s, (labelStrings na.labels).get? EnclaveCreationTimeLabelKey = some s ∧
        E2.timeParseRFC3339 s = .ok E.now.truncSec)
    (hlist1 : E2.fails ctx2
      (.GetNetworksByLabels [(AppIDDockerLabelKey, AppIDDockerLabelValue)]) = none)
    (hlist2 : E2.fails ctx2 (.GetContainersByLabels (searchLabelsOf u) true) = none) :
    e = ⟨u, n, .Empty, some E.now⟩ ∧
    (GetEnclaves E2 ctx2 ⟨[(u, true)], []⟩ d').1 =
      .ok [(u, ⟨u, n, .Empty, some E.now.truncSec⟩)] := by
  rcases CreateEnclave_cases E backend ctx u n p d with ⟨_, ⟨e', he'⟩, _⟩ | ⟨na, va, hr, hc⟩
  · rw [hcreate] at he'
    cases he'
  · obtain ⟨prov, hp1, hp2, _⟩ := hr.provider
    obtain ⟨tapp, tuuid, tname, s, ttime, tparse⟩ := htag prov na hp1 hp2
    rcases hc with ⟨_, _, _, heq⟩ | ⟨_, _, _, _, heq⟩ | ⟨_, _, heq⟩
    · rw [hcreate] at heq
      cases heq
    · rw [hcreate] at heq
      cases heq
    · rw [hcreate] at heq
      obtain ⟨he, hd⟩ := Prod.mk.inj heq
      have he' : e = ⟨u, n, .Empty, some E.now⟩ := Except.ok.inj he
      refine ⟨he', ?_⟩
      subst hd
      -- the networks the matcher lists
      have hk : kurtosisNetworks (CreateEnclave.created E ctx u na va d) =
          kurtosisNetworks d ++ [CreateEnclave.network E na] :=
        kurtosisNetworks_append d (CreateEnclave.network E na) d.networks _ _ _ tapp
      have hold : uuidPairs ⟨[(u, true)], []⟩ (kurtosisNetworks d) = [] := by
        rw [List.eq_nil_iff_forall_not_mem]
        rintro ⟨u', x⟩ hx
        obtain ⟨hxk, hxu, hpass⟩ := mem_uuidPairs.mp hx
        have := (uuidPasses_single u u' true []).mp hpass
        subst this
        obtain ⟨hxd, hxapp⟩ := mem_kurtosisNetworks.mp hxk
        have := hr.noNetwork x hxd
        rw [(hasLabels_searchLabelsOf u' x.labels).mpr ⟨hxapp, hxu⟩] at this
        cases this
      have hnew : uuidPairs ⟨[(u, true)], []⟩ [CreateEnclave.network E na] =
          [(u, CreateEnclave.network E na)] := by
        have hpass := (uuidPasses_single u u true []).mpr rfl
        simp [uuidPairs, CreateEnclave.network, tuuid, hpass]
      have hpairs : GoMap.setAll ([] : GoMap EnclaveUUID Network) (uuidPairs ⟨[(u, true)], []⟩
          (kurtosisNetworks (CreateEnclave.created E ctx u na va d))) =
          [(u, CreateEnclave.network E na)] := by
        rw [hk, uuidPairs_append, hold, hnew]
        rfl
      have hcont : containersOf (CreateEnclave.created E ctx u na va d) u = [] := by
        unfold containersOf
        rw [List.filter_eq_nil_iff]
        intro c hc
        have := hunused c hc
        simp only [searchLabelsOf] at this
        simp [this]
      have hcls : classify E2 (containersOf (CreateEnclave.created E ctx u na va d) u) =
          .ok .Empty := by
        rw [hcont]
        rfl
      have hmatch : (getMatchingEnclaveNetworkInfo E2 ctx2 ⟨[(u, true)], []⟩
          (CreateEnclave.created E ctx u na va d)).1 =
          .ok [(u, ⟨u, .Empty, CreateEnclave.network E na, []⟩)] := by
        rw [getMatchingEnclaveNetworkInfo_ok_iff, hpairs]
        refine ⟨hlist1, ?_, ?_, ?_⟩
        · intro x hx
          rw [hk] at hx
          rcases List.mem_append.mp hx with hx | hx
          · exact hlabels x hx
          · rw [List.mem_singleton] at hx
            subst hx
            exact ⟨u, tuuid⟩
        · intro q hq
          rw [List.mem_singleton] at hq
          subst hq
          exact ⟨hlist2, .Empty, hcls⟩
        · have hsp : statusPairs E2 ⟨[(u, true)], []⟩ (CreateEnclave.created E ctx u na va d)
              [(u, CreateEnclave.network E na)] =
              [(u, ⟨u, .Empty, CreateEnclave.network E na, []⟩)] := by
            have hcls0 : classify E2 [] = .ok .Empty := rfl
            simp only [statusPairs, List.filterMap_cons, List.filterMap_nil, hcont, hcls0,
              statusPasses_empty, if_true]
          rw [hsp]
          rfl
      unfold GetEnclaves
      rcases hg : getMatchingEnclaveNetworkInfo E2 ctx2 ⟨[(u, true)], []⟩
        (CreateEnclave.created E ctx u na va d) with ⟨r, d2⟩
      rw [hg] at hmatch
      simp only at hmatch
      subst hmatch
      have hname : (CreateEnclave.network E na).labels.get? EnclaveNameDockerLabelKey =
          some n := tname
      have htime : (CreateEnclave.network E na).labels.get? EnclaveCreationTimeLabelKey =
          some s := ttime
      simp [GetEnclaves.loop, getEnclaveCreationTimeFromNetwork, getEnclaveNameFromNetwork,
        hname, htime, tparse, GoMap.set]

set_option maxRecDepth 100000 in
theorem CreateEnclave_then_GetEnclaves_witness :
    CreateEnclave sampleEnv sampleCreateBackend (.request 1) "e1" "web-test" false emptyDocker =
      (.ok ⟨"e1", "web-test", .Empty, some ⟨1700000000, 5⟩⟩, sampleCreated) ∧
    (GetEnclaves sampleEnv (.request 2) ⟨[("e1", true)], []⟩ sampleCreated).1 =
      .ok [("e1", ⟨"e1", "web-test", .Empty, some ⟨1700000000, 0⟩⟩)] :=
  ⟨rfl,
   (CreateEnclave_then_GetEnclaves sampleEnv sampleEnv sampleCreateBackend (.request 1)
      (.request 2) "e1" "web-test" false emptyDocker sampleCreated
      ⟨"e1", "web-test", .Empty, some ⟨1700000000, 5⟩⟩ rfl
      (by simp [emptyDocker]) (by simp [emptyDocker, kurtosisNetworks])
      (by
        intro prov na h1 h2
        cases h1
        cases h2
        exact ⟨rfl, rfl, rfl, "2023-11-14T22:13:20Z", rfl, rfl⟩)
      rfl rfl).2⟩

/-! ## The status classifier -/

theorem getEnclaveStatusAndContainers_ok_iff (E : Env) (ctx : Ctx) (u : EnclaveUUID)
    (d : Docker) (st : EnclaveStatus) (cs : List Container) :
    (getEnclaveStatusAndContainers E ctx u d).1 = .ok (st, cs) ↔
      E.fails ctx (.GetContainersByLabels (searchLabelsOf u) true) = none ∧
      classify E (containersOf d u) = .ok st ∧ cs = containersOf d u := by
  rw [getEnclaveStatusAndContainers_eq]
  simp only [searchLabelsOf]
  cases hf : E.fails ctx (.GetContainersByLabels
      [(AppIDDockerLabelKey, AppIDDockerLabelValue), (EnclaveUUIDDockerLabelKey, u)] true) with
  | some msg =>
    constructor
    · intro h
      cases h
    · rintro ⟨h, _⟩
      cases h
  | none =>
    cases hc : classify E (containersOf d u) with
    | error e =>
      constructor
      · intro h
        cases h
      · rintro ⟨_, h, _⟩
        cases h
    | ok st' =>
      constructor
      · intro h
        have h' := Except.ok.inj h
        obtain ⟨h1, h2⟩ := Prod.mk.inj h'
        exact ⟨rfl, by rw [h1], h2.symm⟩
      · rintro ⟨_, h1, h2⟩
        have h1' := Except.ok.inj h1
        rw [h1', h2]

theorem getEnclaveStatusAndContainers_error_of_classify (E : Env) (ctx : Ctx) (u : EnclaveUUID)
    (d : Docker) (e : GoError) (h : classify E (containersOf d u) = .error e) :
    ∃ e', (getEnclaveStatusAndContainers E ctx u d).1 = .error e' := by
  rw [getEnclaveStatusAndContainers_eq]
  cases E.fails ctx (.GetContainersByLabels
      [(AppIDDockerLabelKey, AppIDDockerLabelValue), (EnclaveUUIDDockerLabelKey, u)] true) with
  | some msg => exact ⟨_, rfl⟩
  | none =>
    simp only [h]
    exact ⟨_, rfl⟩

theorem statusLoop_running (E : Env) (pre post : List Container) (c : Container)
    (hpre : ∀ x ∈ pre, E.IsContainerRunningDeterminer x.status = some false)
    (hc : E.IsContainerRunningDeterminer c.status = some true) :
    getEnclaveStatusAndContainers.loop E (pre ++ c :: post) = .ok .Running := by
  induction pre with
  | nil => simp [getEnclaveStatusAndContainers.loop, hc]
  | cons x pre ih =>
    have hx := hpre x (List.mem_cons_self _ _)
    simp only [List.cons_append, getEnclaveStatusAndContainers.loop, hx]
    exact ih (fun y hy => hpre y (List.mem_cons_of_mem _ hy))

theorem statusLoop_unknown (E : Env) (pre post : List Container) (c : Container)
    (hpre : ∀ x ∈ pre, E.IsContainerRunningDeterminer x.status ≠ some true)
    (hc : E.IsContainerRunningDeterminer c.status = none) :
    ∃ e, getEnclaveStatusAndContainers.loop E (pre ++ c :: post) = .error e := by
  induction pre with
  | nil =>
    simp only [List.nil_append, getEnclaveStatusAndContainers.loop, hc]
    exact ⟨_, rfl⟩
  | cons x pre ih =>
    have hx := hpre x (List.mem_cons_self _ _)
    simp only [List.cons_append, getEnclaveStatusAndContainers.loop]
    cases hdx : E.IsContainerRunningDeterminer x.status with
    | none => exact ⟨_, rfl⟩
    | some b =>
      cases b with
      | true => exact absurd hdx hx
      | false => exact ih (fun y hy => hpre y (List.mem_cons_of_mem _ hy))

theorem statusLoop_stopped (E : Env) (cs : List Container)
    (h : ∀ x ∈ cs, E.IsContainerRunningDeterminer x.status = some false) :
    getEnclaveStatusAndContainers.loop E cs = .ok .Stopped := by
  induction cs with
  | nil => rfl
  | cons x cs ih =>
    have hx := h x (List.mem_cons_self _ _)
    simp only [getEnclaveStatusAndContainers.loop, hx]
    exact ih (fun y hy => h y (List.mem_cons_of_mem _ hy))

theorem statusLoop_ne_empty (E : Env) (cs : List Container) :
    getEnclaveStatusAndContainers.loop E cs ≠ .ok .Empty := by
  induction cs with
  | nil =>
    intro h
    cases h
  | cons x cs ih =>
    simp only [getEnclaveStatusAndContainers.loop]
    cases hdx : E.IsContainerRunningDeterminer x.status with
    | none =>
      intro h
      cases h
    | some b =>
      cases b with
      | true =>
        intro h
        cases h
      | false => exact ih

theorem classify_empty_iff (E : Env) (cs : List Container) :
    classify E cs = .ok .Empty ↔ cs = [] := by
  unfold classify
  constructor
  · intro h
    by_cases hl : cs.length = 0
    · exact List.length_eq_zero.mp hl
    · rw [if_neg hl] at h
      exact absurd h (statusLoop_ne_empty E cs)
  · intro h
    subst h
    rfl

theorem classify_of_ne_nil (E : Env) (cs : List Container) (h : cs ≠ []) :
    classify E cs = getEnclaveStatusAndContainers.loop E cs := by
  unfold classify
  rw [if_neg]
  intro hl
  exact h (List.length_eq_zero.mp hl)

/-! ## Names of enclaves -/

theorem kurtosisNetworks_created (E : Env) (ctx : Ctx) (u : EnclaveUUID)
    (na va : DockerObjectAttributes) (d : Docker) :
    kurtosisNetworks (CreateEnclave.created E ctx u na va d) =
      kurtosisNetworks d ++ [CreateEnclave.network E na].filter
        (fun x => hasLabels [(AppIDDockerLabelKey, AppIDDockerLabelValue)] x.labels) := by
  simp [kurtosisNetworks, CreateEnclave.created, List.filter_append]

set_option maxRecDepth 100000 in
/-- C11, counterexample: in `sampleNamed` the only enclave is `e1`, named `web-test`, so no two
enclave networks carry the same name.  `CreateEnclave("e2", "web-test", false)` succeeds there,
and afterwards the networks of the two live enclaves `e1` and `e2` both carry the name
`web-test`. -/
theorem CreateEnclave_duplicate_name :
    NamesUnique sampleNamed ∧
    (CreateEnclave sampleEnv sampleUuidNamedBackend (.request 2) "e2" "web-test" false
      sampleNamed).1 = .ok ⟨"e2", "web-test", .Empty, some sampleEnv.now⟩ ∧
    (kurtosisNetworks (CreateEnclave sampleEnv sampleUuidNamedBackend (.request 2) "e2"
      "web-test" false sampleNamed).2).map
        (fun x => (x.id, x.labels.get? EnclaveUUIDDockerLabelKey,
          x.labels.get? EnclaveNameDockerLabelKey)) =
      [("id-kt-e1", some "e1", some "web-test"), ("id-kt-e2", some "e2", some "web-test")] ∧
    ¬ NamesUnique (CreateEnclave sampleEnv sampleUuidNamedBackend (.request 2) "e2"
      "web-test" false sampleNamed).2 := by
  refine ⟨?_, rfl, rfl, ?_⟩
  · unfold NamesUnique
    decide
  · unfold NamesUnique
    decide

/-- C11, amended: `CreateEnclave` compares UUIDs only, so it keeps names unique when the new
name is free.  For every engine state in which no two enclave networks carry the same
`enclave-name` and none carries the name `n`, after a successful `CreateEnclave(u, n, p)` whose
attributes provider labels the network with `enclave-name=n`, still no two enclave networks
carry the same `enclave-name`. -/
theorem CreateEnclave_preserves_names (E : Env) (backend : DockerKurtosisBackend) (ctx : Ctx)
    (u : EnclaveUUID) (n : String) (p : Bool) (d d' : Docker) (e : Enclave)
    (hcreate : CreateEnclave E backend ctx u n p d = (.ok e, d'))
    (huniq : NamesUnique d)
    (hfree : ∀ x ∈ kurtosisNetworks d, x.labels.get? EnclaveNameDockerLabelKey ≠ some n)
    (htag : ∀ prov na, backend.objAttrsProvider.ForEnclave u = .ok prov →
      prov.ForEnclaveNetwork n E.now p = .ok na →
      (labelStrings na.labels).get? EnclaveNameDockerLabelKey = some n) :
    NamesUnique d' := by
  rcases CreateEnclave_cases E backend ctx u n p d with ⟨_, ⟨e', he'⟩, _⟩ | ⟨na, va, hr, hc⟩
  · rw [hcreate] at he'
    cases he'
  · obtain ⟨prov, hp1, hp2, _⟩ := hr.provider
    have tname := htag prov na hp1 hp2
    rcases hc with ⟨_, _, _, heq⟩ | ⟨_, _, _, _, heq⟩ | ⟨_, _, heq⟩
    · rw [hcreate] at heq
      cases heq
    · rw [hcreate] at heq
      cases heq
    · rw [hcreate] at heq
      obtain ⟨_, hd⟩ := Prod.mk.inj heq
      subst hd
      unfold NamesUnique at huniq ⊢
      rw [kurtosisNetworks_created, List.pairwise_append]
      refine ⟨huniq, ?_, ?_⟩
      · by_cases happ : hasLabels [(AppIDDockerLabelKey, AppIDDockerLabelValue)]
            (CreateEnclave.network E na).labels = true
        · simp [List.filter_cons, happ]
        · simp [List.filter_cons, happ]
      · intro x hx y hy
        have hy' := (List.mem_filter.mp hy).1
        rw [List.mem_singleton] at hy'
        subst hy'
        right
        have hname : (CreateEnclave.network E na).labels.get? EnclaveNameDockerLabelKey =
            some n := tname
        rw [hname]
        exact hfree x hx

set_option maxRecDepth 100000 in
/-- C11, witness: creating the enclave `e2` with the free name `db-test` in `sampleNamed` keeps
the names of the enclave networks distinct. -/
theorem CreateEnclave_preserves_names_witness :
    NamesUnique (CreateEnclave sampleEnv sampleUuidNamedBackend (.request 2) "e2" "db-test"
      false sampleNamed).2 :=
  CreateEnclave_preserves_names sampleEnv sampleUuidNamedBackend (.request 2) "e2" "db-test"
    false sampleNamed _ ⟨"e2", "db-test", .Empty, some sampleEnv.now⟩ rfl
    (by unfold NamesUnique; decide) (by decide)
    (by
      intro prov na h1 h2
      cases h1
      cases h2
      rfl)

set_option maxRecDepth 100000 in
/-- C12, counterexample: with the table of `samplePartialEnv`, which has no entry for `Dead`,
the enclave `a` of `sampleUnknownFirst` lists a dead container and then a running one.  The
list is non-empty and holds a container designated running, and the classifier returns the
error of the missing designation, not `Running`. -/
theorem classifier_fails_on_dead_then_running :
    containersOf sampleUnknownFirst "a" =
      [⟨"ca1", "api", enclaveLabels "a", .Dead⟩, ⟨"ca2", "web", enclaveLabels "a", .Running⟩] ∧
    samplePartialEnv.IsContainerRunningDeterminer ContainerStatus.Running = some true ∧
    samplePartialEnv.IsContainerRunningDeterminer ContainerStatus.Dead = none ∧
    (getEnclaveStatusAndContainers samplePartialEnv (.request 1) "a" sampleUnknownFirst).1 =
      .error (.NewError ("No is-running designation found for enclave container status " ++
        "'DEAD'; this is a bug in Kurtosis!")) :=
  ⟨rfl, rfl, rfl, rfl⟩

/-- C12, amended: when the listing of the containers of the enclave `u` succeeds and the list
holds a container designated running by the is-running table before which every listed
container is designated not running, the classifier returns `Running` together with the full
container list. -/
theorem getEnclaveStatusAndContainers_running (E : Env) (ctx : Ctx) (u : EnclaveUUID)
    (d : Docker) (pre post : List Container) (c : Container)
    (hlist : E.fails ctx (.GetContainersByLabels (searchLabelsOf u) true) = none)
    (hsplit : containersOf d u = pre ++ c :: post)
    (hpre : ∀ x ∈ pre, E.IsContainerRunningDeterminer x.status = some false)
    (hc : E.IsContainerRunningDeterminer c.status = some true) :
    (getEnclaveStatusAndContainers E ctx u d).1 = .ok (.Running, containersOf d u) := by
  rw [getEnclaveStatusAndContainers_ok_iff]
  refine ⟨hlist, ?_, rfl⟩
  rw [classify_of_ne_nil E _ (by rw [hsplit]; simp), hsplit]
  exact statusLoop_running E pre post c hpre hc

set_option maxRecDepth 100000 in
/-- C12, witness: the enclave `a` of `sampleDocker` lists a running container and then an
exited one, and is classified `Running` with both containers. -/
theorem getEnclaveStatusAndContainers_running_witness :
    (getEnclaveStatusAndContainers sampleEnv (.request 1) "a" sampleDocker).1 =
      .ok (.Running, [⟨"ca1", "api", enclaveLabels "a", .Running⟩,
        ⟨"ca2", "web", enclaveLabels "a", .Exited⟩]) :=
  getEnclaveStatusAndContainers_running sampleEnv (.request 1) "a" sampleDocker []
    [⟨"ca2", "web", enclaveLabels "a", .Exited⟩] ⟨"ca1", "api", enclaveLabels "a", .Running⟩
    rfl rfl (by simp) rfl

set_option maxRecDepth 100000 in
/-- C13, counterexample: with the table of `samplePartialEnv`, which has no entry for `Dead`,
the enclave `a` of `sampleUnknownLast` lists a running container and then a dead one.  The list
holds a container whose state has no entry in the table, and the classifier returns the status
`Running` with both containers, not an error. -/
theorem classifier_returns_on_running_then_dead :
    containersOf sampleUnknownLast "a" =
      [⟨"ca1", "api", enclaveLabels "a", .Running⟩, ⟨"ca2", "web", enclaveLabels "a", .Dead⟩] ∧
    samplePartialEnv.IsContainerRunningDeterminer ContainerStatus.Dead = none ∧
    (getEnclaveStatusAndContainers samplePartialEnv (.request 1) "a" sampleUnknownLast).1 =
      .ok (.Running, [⟨"ca1", "api", enclaveLabels "a", .Running⟩,
        ⟨"ca2", "web", enclaveLabels "a", .Dead⟩]) :=
  ⟨rfl, rfl, rfl⟩

/-- C13, amended: when the container list of the enclave `u` holds a container whose state has
no entry in the is-running table and no container listed before it is designated running, the
classifier returns an error and no status, whatever the states of the containers listed after
it. -/
theorem getEnclaveStatusAndContainers_unknown (E : Env) (ctx : Ctx) (u : EnclaveUUID)
    (d : Docker) (pre post : List Container) (c : Container)
    (hsplit : containersOf d u = pre ++ c :: post)
    (hpre : ∀ x ∈ pre, E.IsContainerRunningDeterminer x.status ≠ some true)
    (hc : E.IsContainerRunningDeterminer c.status = none) :
    ∃ e, (getEnclaveStatusAndContainers E ctx u d).1 = .error e := by
  obtain ⟨e, he⟩ := statusLoop_unknown E pre post c hpre hc
  apply getEnclaveStatusAndContainers_error_of_classify E ctx u d e
  rw [classify_of_ne_nil E _ (by rw [hsplit]; simp), hsplit]
  exact he

set_option maxRecDepth 100000 in
/-- C13, witness: the enclave `a` of `sampleUnknownFirst` lists a dead container, whose state
has no entry in the table of `samplePartialEnv`, before its running container, and the
classifier returns an error. -/
theorem getEnclaveStatusAndContainers_unknown_witness :
    ∃ e, (getEnclaveStatusAndContainers samplePartialEnv (.request 1) "a"
      sampleUnknownFirst).1 = .error e :=
  getEnclaveStatusAndContainers_unknown samplePartialEnv (.request 1) "a" sampleUnknownFirst []
    [⟨"ca2", "web", enclaveLabels "a", .Running⟩] ⟨"ca1", "api", enclaveLabels "a", .Dead⟩
    rfl (by simp) rfl

/-- C14 (classifier, `Empty` and `Stopped`): when the listing of the containers of the enclave
`u` succeeds and every listed container has a state that the is-running table designates not
running, the classifier returns `Empty` with no container if the list is empty and `Stopped`
with the full list if it is non-empty; and whenever the classifier returns a status, the status
is `Empty` exactly when the enclave has no containers. -/
theorem getEnclaveStatusAndContainers_empty_or_stopped (E : Env) (ctx : Ctx) (u : EnclaveUUID)
    (d : Docker) :
    (E.fails ctx (.GetContainersByLabels (searchLabelsOf u) true) = none →
      (∀ x ∈ containersOf d u, E.IsContainerRunningDeterminer x.status = some false) →
      (containersOf d u = [] →
        (getEnclaveStatusAndContainers E ctx u d).1 = .ok (.Empty, [])) ∧
      (containersOf d u ≠ [] →
        (getEnclaveStatusAndContainers E ctx u d).1 = .ok (.Stopped, containersOf d u))) ∧
    (∀ st cs, (getEnclaveStatusAndContainers E ctx u d).1 = .ok (st, cs) →
      cs = containersOf d u ∧ (st = .Empty ↔ containersOf d u = [])) := by
  constructor
  · intro hlist hall
    constructor
    · intro hnil
      rw [getEnclaveStatusAndContainers_ok_iff]
      exact ⟨hlist, (classify_empty_iff E _).mpr hnil, hnil.symm⟩
    · intro hne
      rw [getEnclaveStatusAndContainers_ok_iff]
      refine ⟨hlist, ?_, rfl⟩
      rw [classify_of_ne_nil E _ hne]
      exact statusLoop_stopped E _ hall
  · intro st cs h
    obtain ⟨_, hc, hcs⟩ := (getEnclaveStatusAndContainers_ok_iff E ctx u d st cs).mp h
    refine ⟨hcs, ?_⟩
    rw [← classify_empty_iff E]
    constructor
    · intro hst
      rw [hc, hst]
    · intro hemp
      rw [hemp] at hc
      exact (Except.ok.inj hc).symm

set_option maxRecDepth 100000 in
/-- C14, witness: in `sampleStopped` the enclave `a` has two exited containers and is
classified `Stopped` with both, and whatever the classifier returns there is `Empty` only for
an enclave without containers. -/
theorem getEnclaveStatusAndContainers_empty_or_stopped_witness :
    (getEnclaveStatusAndContainers sampleEnv (.request 1) "a" sampleStopped).1 =
      .ok (.Stopped, [⟨"ca1", "api", enclaveLabels "a", .Exited⟩,
        ⟨"ca2", "web", enclaveLabels "a", .Exited⟩]) ∧
    (getEnclaveStatusAndContainers sampleEnv (.request 1) "b" sampleStopped).1 =
      .ok (.Empty, []) :=
  ⟨((getEnclaveStatusAndContainers_empty_or_stopped sampleEnv (.request 1) "a"
      sampleStopped).1 rfl (by decide)).2 (by decide),
   ((getEnclaveStatusAndContainers_empty_or_stopped sampleEnv (.request 1) "b"
      sampleStopped).1 rfl (by decide)).1 rfl⟩

/-! ## The keys of the matcher and of `GetEnclaves` -/

theorem uuidPasses_iff (filters : EnclaveFilters) (u : EnclaveUUID) :
    uuidPasses filters u = true ↔ filters.UUIDs = [] ∨ u ∈ filters.UUIDs.keys := by
  unfold uuidPasses
  rw [GoMap.mem_keys_iff]
  cases hU : filters.UUIDs with
  | nil => simp
  | cons p us =>
    rw [← hU]
    have hlen : filters.UUIDs.length > 0 := by rw [hU]; simp
    cases hg : filters.UUIDs.get? u with
    | none => simp [hlen, hU]
    | some b => simp [hlen, hU]

theorem statusPasses_iff (filters : EnclaveFilters) (s : EnclaveStatus) :
    statusPasses filters s = true ↔ filters.Statuses = [] ∨ s ∈ filters.Statuses.keys := by
  unfold statusPasses
  rw [GoMap.mem_keys_iff]
  cases hS : filters.Statuses with
  | nil => simp
  | cons p ss =>
    rw [← hS]
    have hlen : filters.Statuses.length > 0 := by rw [hS]; simp
    cases hg : filters.Statuses.get? s with
    | none => simp [hlen, hS]
    | some b => simp [hlen, hS]

/-- The keys of the matcher's result: the UUIDs carried by an enclave network that pass the
UUID filter and whose classified status passes the status filter. -/
theorem mem_keys_matcher (E : Env) (ctx : Ctx) (filters : EnclaveFilters) (d : Docker)
    (m : GoMap EnclaveUUID matchingNetworkInformation)
    (hm : (getMatchingEnclaveNetworkInfo E ctx filters d).1 = .ok m) (u : EnclaveUUID) :
    u ∈ m.keys ↔
      (∃ n ∈ kurtosisNetworks d, n.labels.get? EnclaveUUIDDockerLabelKey = some u) ∧
      uuidPasses filters u = true ∧
      E.fails ctx (.GetContainersByLabels (searchLabelsOf u) true) = none ∧
      ∃ st, classify E (containersOf d u) = .ok st ∧ statusPasses filters st = true := by
  obtain ⟨_, _, hcls, hmeq⟩ := (getMatchingEnclaveNetworkInfo_ok_iff E ctx filters d m).mp hm
  constructor
  · intro hu
    obtain ⟨info, hinfo⟩ := (GoMap.mem_keys_iff _ _).mp hu
    have hin := GoMap.get?_eq_some_mem hinfo
    rw [hmeq] at hin
    rcases GoMap.mem_setAll hin with hin | hin
    · simp at hin
    · obtain ⟨n, st, hn, hst, hpass, _⟩ := mem_statusPairs.mp hin
      have hf := (hcls (u, n) hn).1
      rcases GoMap.mem_setAll hn with hn | hn
      · simp at hn
      · obtain ⟨hn1, hn2, hn3⟩ := mem_uuidPairs.mp hn
        exact ⟨⟨n, hn1, hn2⟩, hn3, hf, st, hst, hpass⟩
  · rintro ⟨⟨n, hn1, hn2⟩, hpass, _, st, hst, hspass⟩
    have h1 : (u, n) ∈ uuidPairs filters (kurtosisNetworks d) :=
      mem_uuidPairs.mpr ⟨hn1, hn2, hpass⟩
    have h2 : u ∈ (GoMap.setAll ([] : GoMap EnclaveUUID Network)
        (uuidPairs filters (kurtosisNetworks d))).keys := by
      rw [GoMap.mem_keys_setAll]
      exact Or.inr (List.mem_map.mpr ⟨(u, n), h1, rfl⟩)
    obtain ⟨n1, hn1'⟩ := (GoMap.mem_keys_iff _ _).mp h2
    have h3 := GoMap.get?_eq_some_mem hn1'
    rw [hmeq, GoMap.mem_keys_setAll]
    exact Or.inr (List.mem_map.mpr ⟨(u, ⟨u, st, n1, containersOf d u⟩),
      mem_statusPairs.mpr ⟨n1, st, h3, hst, hspass, rfl⟩, rfl⟩)

/-- An enclave that passes the UUID filter was listed and classified when the matcher
returned. -/
theorem matcher_classified (E : Env) (ctx : Ctx) (filters : EnclaveFilters) (d : Docker)
    (m : GoMap EnclaveUUID matchingNetworkInformation)
    (hm : (getMatchingEnclaveNetworkInfo E ctx filters d).1 = .ok m) (u : EnclaveUUID)
    (n : Network) (hn : n ∈ kurtosisNetworks d)
    (hu : n.labels.get? EnclaveUUIDDockerLabelKey = some u)
    (hpass : uuidPasses filters u = true) :
    E.fails ctx (.GetContainersByLabels (searchLabelsOf u) true) = none ∧
      ∃ st, classify E (containersOf d u) = .ok st := by
  obtain ⟨_, _, hcls, _⟩ := (getMatchingEnclaveNetworkInfo_ok_iff E ctx filters d m).mp hm
  have h1 : (u, n) ∈ uuidPairs filters (kurtosisNetworks d) :=
    mem_uuidPairs.mpr ⟨hn, hu, hpass⟩
  have h2 : u ∈ (GoMap.setAll ([] : GoMap EnclaveUUID Network)
      (uuidPairs filters (kurtosisNetworks d))).keys := by
    rw [GoMap.mem_keys_setAll]
    exact Or.inr (List.mem_map.mpr ⟨(u, n), h1, rfl⟩)
  obtain ⟨n1, hn1⟩ := (GoMap.mem_keys_iff _ _).mp h2
  exact hcls (u, n1) (GoMap.get?_eq_some_mem hn1)

theorem GetEnclaves_loop_ok_iff (E : Env) (l : List (EnclaveUUID × matchingNetworkInformation))
    (acc r : GoMap EnclaveUUID Enclave) :
    GetEnclaves.loop E l acc = .ok r ↔
      (∀ p ∈ l, ∃ t, getEnclaveCreationTimeFromNetwork E p.2.dockerNetwork = .ok t) ∧
      r = GoMap.setAll acc (enclavePairs E l) := by
  induction l generalizing acc with
  | nil =>
    simp only [GetEnclaves.loop, Except.ok.injEq, List.not_mem_nil, false_implies,
      implies_true, true_and, enclavePairs, List.filterMap_nil, GoMap.setAll_nil]
    exact eq_comm
  | cons p l ih =>
    obtain ⟨u, info⟩ := p
    unfold GetEnclaves.loop
    cases hg : getEnclaveCreationTimeFromNetwork E info.dockerNetwork with
    | error e =>
      simp only [List.mem_cons, forall_eq_or_imp, hg]
      constructor
      · intro h
        cases h
      · rintro ⟨⟨⟨t, ht⟩, _⟩, _⟩
        cases ht
    | ok t =>
      simp only [List.mem_cons, forall_eq_or_imp, hg, Except.ok.injEq, exists_eq', true_and]
      rw [ih]
      simp [enclavePairs, List.filterMap_cons, hg, GoMap.setAll_cons]

theorem enclavePairs_keys (E : Env) (l : List (EnclaveUUID × matchingNetworkInformation))
    (h : ∀ p ∈ l, ∃ t, getEnclaveCreationTimeFromNetwork E p.2.dockerNetwork = .ok t) :
    (enclavePairs E l).map Prod.fst = l.map Prod.fst := by
  induction l with
  | nil => rfl
  | cons p l ih =>
    obtain ⟨t, ht⟩ := h p (List.mem_cons_self _ _)
    simp only [enclavePairs, List.filterMap_cons, ht, List.map_cons, List.cons.injEq, true_and]
    exact ih (fun q hq => h q (List.mem_cons_of_mem _ hq))

theorem mem_enclavePairs {E : Env} {l : List (EnclaveUUID × matchingNetworkInformation)}
    {u : EnclaveUUID} {e : Enclave} :
    (u, e) ∈ enclavePairs E l ↔ ∃ info t, (u, info) ∈ l ∧
      getEnclaveCreationTimeFromNetwork E info.dockerNetwork = .ok t ∧
      e = ⟨u, getEnclaveNameFromNetwork info.dockerNetwork, info.enclaveStatus, t⟩ := by
  unfold enclavePairs
  simp only [List.mem_filterMap]
  constructor
  · rintro ⟨⟨u', info⟩, hm, h⟩
    cases hc : getEnclaveCreationTimeFromNetwork E info.dockerNetwork with
    | error e' => simp [hc] at h
    | ok t =>
      simp only [hc, Option.some.injEq, Prod.mk.injEq] at h
      obtain ⟨rfl, rfl⟩ := h
      exact ⟨info, t, hm, hc, rfl⟩
  · rintro ⟨info, t, hm, hc, rfl⟩
    exact ⟨(u, info), hm, by simp [hc]⟩

/-- The call `GetEnclaves` returns a map exactly when the matcher returns and the creation time
of every matched network reads; the map then holds one enclave per matched entry. -/
theorem GetEnclaves_ok_iff (E : Env) (ctx : Ctx) (filters : EnclaveFilters) (d : Docker)
    (r : GoMap EnclaveUUID Enclave) :
    (GetEnclaves E ctx filters d).1 = .ok r ↔
      ∃ m, (getMatchingEnclaveNetworkInfo E ctx filters d).1 = .ok m ∧
        (∀ p ∈ m, ∃ t, getEnclaveCreationTimeFromNetwork E p.2.dockerNetwork = .ok t) ∧
        r = GoMap.setAll [] (enclavePairs E m) := by
  unfold GetEnclaves
  rcases hg : getMatchingEnclaveNetworkInfo E ctx filters d with ⟨res, d1⟩
  cases res with
  | error e =>
    simp only
    constructor
    · intro h
      cases h
    · rintro ⟨m, h, _⟩
      cases h
  | ok m =>
    simp only [GetEnclaves_loop_ok_iff, Except.ok.injEq]
    constructor
    · intro h
      exact ⟨m, rfl, h⟩
    · rintro ⟨m', h, h'⟩
      subst h
      exact h'

theorem GetEnclaves_snd (E : Env) (ctx : Ctx) (filters : EnclaveFilters) (d : Docker) :
    (GetEnclaves E ctx filters d).2 = (getMatchingEnclaveNetworkInfo E ctx filters d).2 := by
  unfold GetEnclaves
  rcases hg : getMatchingEnclaveNetworkInfo E ctx filters d with ⟨res, d1⟩
  cases res <;> rfl

/-- C15 (key set of the matcher): when the matcher returns the map `m` for the filter with
UUID set `U` and status set `S`, a UUID `u` is a key of `m` exactly when some network tagged
`app-id=kurtosis` carries `enclave-uuid=u`, `U` is empty or holds `u`, and `S` is empty or
holds the status the classifier returns for `u`. -/
theorem getMatchingEnclaveNetworkInfo_keys (E : Env) (ctx : Ctx) (filters : EnclaveFilters)
    (d : Docker) (m : GoMap EnclaveUUID matchingNetworkInformation)
    (hm : (getMatchingEnclaveNetworkInfo E ctx filters d).1 = .ok m) (u : EnclaveUUID) :
    u ∈ m.keys ↔
      (∃ n ∈ d.networks, n.labels.get? AppIDDockerLabelKey = some AppIDDockerLabelValue ∧
        n.labels.get? EnclaveUUIDDockerLabelKey = some u) ∧
      (filters.UUIDs = [] ∨ u ∈ filters.UUIDs.keys) ∧
      (filters.Statuses = [] ∨ ∃ st cs,
        (getEnclaveStatusAndContainers E ctx u d).1 = .ok (st, cs) ∧
        st ∈ filters.Statuses.keys) := by
  rw [mem_keys_matcher E ctx filters d m hm u, uuidPasses_iff]
  constructor
  · rintro ⟨⟨n, hn, hu⟩, hpass, hf, st, hst, hspass⟩
    obtain ⟨hnd, hnapp⟩ := mem_kurtosisNetworks.mp hn
    refine ⟨⟨n, hnd, hnapp, hu⟩, hpass, ?_⟩
    rcases (statusPasses_iff filters st).mp hspass with h | h
    · exact Or.inl h
    · exact Or.inr ⟨st, containersOf d u,
        (getEnclaveStatusAndContainers_ok_iff E ctx u d st _).mpr ⟨hf, hst, rfl⟩, h⟩
  · rintro ⟨⟨n, hnd, hnapp, hu⟩, hpass, hs⟩
    have hn := mem_kurtosisNetworks.mpr ⟨hnd, hnapp⟩
    obtain ⟨hf, st, hst⟩ := matcher_classified E ctx filters d m hm u n hn hu
      ((uuidPasses_iff filters u).mpr hpass)
    refine ⟨⟨n, hn, hu⟩, hpass, hf, st, hst, ?_⟩
    rw [statusPasses_iff]
    rcases hs with h | ⟨st', cs, hres, hmem⟩
    · exact Or.inl h
    · obtain ⟨_, hst', _⟩ := (getEnclaveStatusAndContainers_ok_iff E ctx u d st' cs).mp hres
      rw [hst] at hst'
      rw [Except.ok.inj hst']
      exact Or.inr hmem

set_option maxRecDepth 100000 in
/-- C15, witness: in `sampleStopped` the enclave `a` is stopped and the enclave `b` is empty;
with the status filter holding `Stopped` the matcher returns the key `a` only, and `b` is a key
exactly when the three conditions hold for it. -/
theorem getMatchingEnclaveNetworkInfo_keys_witness :
    (getMatchingEnclaveNetworkInfo sampleEnv (.request 1) ⟨[], [(.Stopped, true)]⟩
      sampleStopped).1 = .ok [("a", ⟨"a", .Stopped, ⟨"na", "net-a", enclaveLabels "a"⟩,
        [⟨"ca1", "api", enclaveLabels "a", .Exited⟩,
         ⟨"ca2", "web", enclaveLabels "a", .Exited⟩]⟩)] ∧
    ("b" ∈ GoMap.keys [("a", (⟨"a", .Stopped, ⟨"na", "net-a", enclaveLabels "a"⟩,
        [⟨"ca1", "api", enclaveLabels "a", .Exited⟩,
         ⟨"ca2", "web", enclaveLabels "a", .Exited⟩]⟩ : matchingNetworkInformation))] ↔
      (∃ n ∈ sampleStopped.networks,
        n.labels.get? AppIDDockerLabelKey = some AppIDDockerLabelValue ∧
        n.labels.get? EnclaveUUIDDockerLabelKey = some "b") ∧
      ((([] : GoMap EnclaveUUID Bool) = []) ∨ "b" ∈ GoMap.keys ([] : GoMap EnclaveUUID Bool)) ∧
      ([(EnclaveStatus.Stopped, true)] = [] ∨ ∃ st cs,
        (getEnclaveStatusAndContainers sampleEnv (.request 1) "b" sampleStopped).1 =
          .ok (st, cs) ∧ st ∈ GoMap.keys [(EnclaveStatus.Stopped, true)])) :=
  ⟨rfl, getMatchingEnclaveNetworkInfo_keys sampleEnv (.request 1) ⟨[], [(.Stopped, true)]⟩
    sampleStopped _ rfl "b"⟩

/-- C16 (entries are keyed by their UUID): when the matcher returns the map `m`, the entry
stored under a key `u` has `enclaveUuid = u` and its network is a network of the engine that
carries the label `enclave-uuid=u`; and when `GetEnclaves` with the same filter returns a map,
its keys are the keys of `m` and the enclave stored under a key `u` has UUID `u`. -/
theorem getMatchingEnclaveNetworkInfo_keyed_by_uuid (E : Env) (ctx : Ctx)
    (filters : EnclaveFilters) (d : Docker) (m : GoMap EnclaveUUID matchingNetworkInformation)
    (hm : (getMatchingEnclaveNetworkInfo E ctx filters d).1 = .ok m) :
    (∀ u info, m.get? u = some info →
      info.enclaveUuid = u ∧ info.dockerNetwork ∈ d.networks ∧
      info.dockerNetwork.labels.get? EnclaveUUIDDockerLabelKey = some u) ∧
    (∀ r, (GetEnclaves E ctx filters d).1 = .ok r →
      (∀ u, u ∈ r.keys ↔ u ∈ m.keys) ∧ ∀ u e, r.get? u = some e → e.uuid = u) := by
  have hmm := getMatchingEnclaveNetworkInfo_matched E ctx filters d m hm
  constructor
  · intro u info hget
    obtain ⟨h1, h2, _, h4, _⟩ := hmm.2 u info (GoMap.get?_eq_some_mem hget)
    exact ⟨h1, h2, h4⟩
  · intro r hr
    obtain ⟨m', hm', hall, hreq⟩ := (GetEnclaves_ok_iff E ctx filters d r).mp hr
    rw [hm] at hm'
    have := Except.ok.inj hm'
    subst this
    constructor
    · intro u
      rw [hreq, GoMap.mem_keys_setAll, enclavePairs_keys E m hall]
      simp [GoMap.keys]
    · intro u e hget
      rw [hreq] at hget
      rcases GoMap.get?_setAll_some hget with h | h
      · simp [GoMap.get?] at h
      · obtain ⟨info, t, _, _, he⟩ := mem_enclavePairs.mp h
        rw [he]

set_option maxRecDepth 100000 in
/-- C16, witness: on the two enclaves of `sampleDocker` the matcher returns the entries of `a`
and `b`, each under its own UUID, and `GetEnclaves` returns enclaves keyed by their UUID. -/
theorem getMatchingEnclaveNetworkInfo_keyed_by_uuid_witness :
    (∀ u info, GoMap.get? [("a", sampleInfoA), ("b", sampleInfoB)] u = some info →
      info.enclaveUuid = u ∧ info.dockerNetwork ∈ sampleDocker.networks ∧
      info.dockerNetwork.labels.get? EnclaveUUIDDockerLabelKey = some u) ∧
    (∀ r, (GetEnclaves sampleEnv (.request 1) ⟨[], []⟩ sampleDocker).1 = .ok r →
      (∀ u, u ∈ r.keys ↔ u ∈ GoMap.keys [("a", sampleInfoA), ("b", sampleInfoB)]) ∧
      ∀ u e, r.get? u = some e → e.uuid = u) :=
  getMatchingEnclaveNetworkInfo_keyed_by_uuid sampleEnv (.request 1) ⟨[], []⟩ sampleDocker
    [("a", sampleInfoA), ("b", sampleInfoB)] rfl

/-- C18 (legacy network without creation time): when the matcher returns the map `m`, the
network of the entry stored under `u` has no creation-time label and the creation time of every
other matched network reads, `getEnclaveCreationTimeFromNetwork` returns no time and no error
for that network, and `GetEnclaves` returns a map in which `u` is stored with its name, its
status and an unknown creation time. -/
theorem GetEnclaves_without_creation_time (E : Env) (ctx : Ctx) (filters : EnclaveFilters)
    (d : Docker) (m : GoMap EnclaveUUID matchingNetworkInformation) (u : EnclaveUUID)
    (info : matchingNetworkInformation)
    (hm : (getMatchingEnclaveNetworkInfo E ctx filters d).1 = .ok m)
    (hu : m.get? u = some info)
    (hno : info.dockerNetwork.labels.get? EnclaveCreationTimeLabelKey = none)
    (hothers : ∀ p ∈ m, p.1 ≠ u →
      ∃ t, getEnclaveCreationTimeFromNetwork E p.2.dockerNetwork = .ok t) :
    getEnclaveCreationTimeFromNetwork E info.dockerNetwork = .ok none ∧
    ∃ r, (GetEnclaves E ctx filters d).1 = .ok r ∧
      r.get? u = some ⟨u, getEnclaveNameFromNetwork info.dockerNetwork, info.enclaveStatus,
        none⟩ := by
  have hnone : getEnclaveCreationTimeFromNetwork E info.dockerNetwork = .ok none := by
    simp only [getEnclaveCreationTimeFromNetwork, hno]
  have hmm := getMatchingEnclaveNetworkInfo_matched E ctx filters d m hm
  have hin := GoMap.get?_eq_some_mem hu
  have hall : ∀ p ∈ m, ∃ t, getEnclaveCreationTimeFromNetwork E p.2.dockerNetwork = .ok t := by
    rintro ⟨u', info'⟩ hp
    by_cases hne : u' = u
    · subst hne
      have h1 := GoMap.get?_of_mem_nodup hmm.1 hp
      rw [hu] at h1
      have := Option.some.inj h1
      subst this
      exact ⟨none, hnone⟩
    · exact hothers _ hp hne
  refine ⟨hnone, GoMap.setAll [] (enclavePairs E m),
    (GetEnclaves_ok_iff E ctx filters d _).mpr ⟨m, hm, hall, rfl⟩, ?_⟩
  have hk : (GoMap.keys (enclavePairs E m)).Nodup := by
    have := enclavePairs_keys E m hall
    simp only [GoMap.keys] at hmm ⊢
    rw [this]
    exact hmm.1
  rw [GoMap.setAll_eq_append [] _ (by simpa using hk), List.nil_append]
  exact GoMap.get?_of_mem_nodup hk (mem_enclavePairs.mpr ⟨info, none, hin, hnone, rfl⟩)

set_option maxRecDepth 100000 in
/-- C18, witness: the networks of `sampleDocker` carry no creation-time label, and
`GetEnclaves` returns the enclave `a` without a name, running and with an unknown creation
time. -/
theorem GetEnclaves_without_creation_time_witness :
    getEnclaveCreationTimeFromNetwork sampleEnv sampleInfoA.dockerNetwork = .ok none ∧
    ∃ r, (GetEnclaves sampleEnv (.request 1) ⟨[], []⟩ sampleDocker).1 = .ok r ∧
      r.get? "a" = some ⟨"a", "", .Running, none⟩ :=
  GetEnclaves_without_creation_time sampleEnv (.request 1) ⟨[], []⟩ sampleDocker
    [("a", sampleInfoA), ("b", sampleInfoB)] "a" sampleInfoA rfl rfl rfl
    (by
      intro p hp _
      simp only [List.mem_cons, List.mem_singleton, List.not_mem_nil, or_false] at hp
      rcases hp with rfl | rfl
      · exact ⟨none, rfl⟩
      · exact ⟨none, rfl⟩)

/-! ## Stopping enclaves -/

theorem StopEnclaves_gather_eq (m : GoMap EnclaveUUID matchingNetworkInformation) :
    StopEnclaves.gather m =
      (GoMap.setAll [] (containerPairs m),
       GoMap.setAll [] ((containerPairs m).map (fun p => (p.1, true)))) :=
  gather_outer m ([], [])

theorem stopEnclaveContainerOperation_fst (E : Env) (ctx : Ctx) (id : String) (d : Docker) :
    (stopEnclaveContainerOperation E ctx id d).1 = killResult E ctx id := by
  unfold stopEnclaveContainerOperation DockerManager.KillContainer killResult
  cases E.fails ctx (.KillContainer id) <;> rfl

theorem killResult_eq_none (E : Env) (ctx : Ctx) (id : String) :
    killResult E ctx id = none ↔ E.fails ctx (.KillContainer id) = none := by
  simp [killResult]

theorem killContainers_state (E : Env) (ctx : Ctx) (ids : List (String × Bool)) (d : Docker) :
    ids.foldl (fun d p => (stopEnclaveContainerOperation E ctx p.1 d).2) d =
      { networks := d.networks
        volumes := d.volumes
        containers := killedContainers E ctx ids d.containers
        log := d.log ++ eventsOf E ctx .KillContainer ids } := by
  induction ids generalizing d with
  | nil => simp [killedContainers, eventsOf]
  | cons p ids ih =>
    rw [List.foldl_cons, ih]
    unfold stopEnclaveContainerOperation DockerManager.KillContainer
    cases h : E.fails ctx (.KillContainer p.1) with
    | some m =>
      simp only [Docker.emit, killedContainers, eventsOf, List.any_cons, h, Option.isNone_some,
        Bool.and_false, Bool.false_or, List.map_cons, List.append_assoc, List.singleton_append]
    | none =>
      simp only [Docker.emit, killedContainers, eventsOf, List.map_map, List.any_cons, h,
        Option.isNone_none, Bool.and_true, List.map_cons, List.append_assoc,
        List.singleton_append, Docker.mk.injEq, true_and, and_true]
      apply List.map_congr_left
      intro c _
      simp only [Function.comp]
      by_cases hc : c.id = p.1
      · have hc' : p.1 = c.id := hc.symm
        simp only [hc, if_true, decide_True, Bool.true_or]
        by_cases ha : (ids.any fun q => decide (q.1 = p.1) &&
            (E.fails ctx (Call.KillContainer q.1)).isNone) = true
        · simp only [ha, if_true]
        · simp only [ha]
          rfl
      · have hc' : ¬ p.1 = c.id := fun e => hc e.symm
        simp only [hc, if_false, hc', decide_False, Bool.false_or]

theorem StopEnclaves_error (E : Env) (ctx : Ctx) (filters : EnclaveFilters) (d d1 : Docker)
    (e : GoError) (hm : getMatchingEnclaveNetworkInfo E ctx filters d = (.error e, d1)) :
    StopEnclaves E ctx filters d =
      (.error (.Propagate e ("An error occurred getting enclave network info using filters '" ++
        fmtFilters filters ++ "'")), d1) := by
  unfold StopEnclaves
  rw [hm]

theorem StopEnclaves_snd (E : Env) (ctx : Ctx) (filters : EnclaveFilters) (d d1 : Docker)
    (m : GoMap EnclaveUUID matchingNetworkInformation)
    (hm : getMatchingEnclaveNetworkInfo E ctx filters d = (.ok m, d1)) :
    (StopEnclaves E ctx filters d).2 = afterKills E ctx m d1 := by
  unfold StopEnclaves
  rw [hm]
  simp only [StopEnclaves_gather_eq]
  rw [RunDockerOperationInParallel_eq ctx _ (killResult E ctx)
    (fun id d => stopEnclaveContainerOperation_fst E ctx id d)]
  have hst := killContainers_state E ctx (idSetOf (containerPairs m)) d1
  simp only [idSetOf] at hst ⊢
  cases hg : groupErrorStrsByEnclave (GoMap.setAll [] (containerPairs m))
      (fun erroredContainerId => "An error occurred stopping container '" ++
        erroredContainerId ++ "' in an enclave we didn't request")
      (erroredOf (killResult E ctx)
        (GoMap.setAll [] (List.map (fun p => (p.1, true)) (containerPairs m)))) [] with
  | error e => simp only [hst]; rfl
  | ok strs => simp only [hst]; rfl

/-- The result of `StopEnclaves` after the matcher returned `m`: with container ids that
determine their enclave, the call returns, and an enclave is successful exactly when every kill
of one of its containers succeeded. -/
theorem StopEnclaves_spec (E : Env) (ctx : Ctx) (filters : EnclaveFilters) (d d1 : Docker)
    (m : GoMap EnclaveUUID matchingNetworkInformation)
    (hm : getMatchingEnclaveNetworkInfo E ctx filters d = (.ok m, d1))
    (hf : ∀ id u u', (id, u) ∈ containerPairs m → (id, u') ∈ containerPairs m → u = u') :
    ∃ succ err, StopEnclaves E ctx filters d = (.ok (succ, err), afterKills E ctx m d1) ∧
      succ.keys.Nodup ∧
      (∀ u, u ∈ succ.keys ↔ u ∈ m.keys ∧
        ∀ id, (id, u) ∈ containerPairs m → E.fails ctx (.KillContainer id) = none) ∧
      (∀ u, u ∈ err.keys ↔ u ∈ m.keys ∧
        ¬ ∀ id, (id, u) ∈ containerPairs m → E.fails ctx (.KillContainer id) = none) := by
  obtain ⟨strs, hs, hstrs⟩ := aggregate_spec (containerPairs m) hf (killResult E ctx)
    (fun erroredContainerId => "An error occurred stopping container '" ++
        erroredContainerId ++ "' in an enclave we didn't request")
  have hsnd := StopEnclaves_snd E ctx filters d d1 m hm
  have hfst : (StopEnclaves E ctx filters d).1 =
      .ok (splitEnclavesByErrors strs
        (fun enclaveUuid => "One or more errors occurred killing the containers in enclave '" ++
          enclaveUuid ++ "':\n") m.keys ([], [])) := by
    unfold StopEnclaves
    rw [hm]
    simp only [StopEnclaves_gather_eq]
    rw [RunDockerOperationInParallel_eq ctx _ (killResult E ctx)
      (fun id d => stopEnclaveContainerOperation_fst E ctx id d)]
    simp only [idSetOf] at hs
    simp only [hs]
  refine ⟨_, _, Prod.ext hfst hsnd, ?_, ?_, ?_⟩
  · rw [splitEnclavesByErrors_eq]
    exact GoMap.nodup_keys_setAll _ (by simp [GoMap.keys])
  · intro u
    rw [mem_keys_split_successful, hstrs u]
    simp only [killResult_eq_none]
  · intro u
    rw [mem_keys_split_errored]
    simp only [ne_eq, hstrs u, killResult_eq_none]

theorem matcher_error_of_untagged (E : Env) (ctx : Ctx) (filters : EnclaveFilters) (d : Docker)
    (h : ∃ n ∈ kurtosisNetworks d, n.labels.get? EnclaveUUIDDockerLabelKey = none) :
    ∃ e d1, getMatchingEnclaveNetworkInfo E ctx filters d = (.error e, d1) ∧
      d.listingOnly d1 := by
  have hl := getMatchingEnclaveNetworkInfo_listingOnly E ctx filters d
  rcases hg : getMatchingEnclaveNetworkInfo E ctx filters d with ⟨res, d1⟩
  rw [hg] at hl
  cases res with
  | error e => exact ⟨e, d1, rfl, hl⟩
  | ok m =>
    obtain ⟨_, hlab, _⟩ := (getMatchingEnclaveNetworkInfo_ok_iff E ctx filters d m).mp
      (by rw [hg])
    obtain ⟨n, hn, hnone⟩ := h
    obtain ⟨u, hu⟩ := hlab n hn
    rw [hnone] at hu
    cases hu

theorem killedContainers_ids (E : Env) (ctx : Ctx) (ids : GoMap String Bool)
    (cs : List Container) :
    (killedContainers E ctx ids cs).map (fun c => (c.id, c.name, c.labels)) =
      cs.map (fun c => (c.id, c.name, c.labels)) := by
  unfold killedContainers
  rw [List.map_map]
  apply List.map_congr_left
  intro c _
  simp only [Function.comp]
  by_cases ha : (ids.any fun p => decide (p.1 = c.id) &&
      (E.fails ctx (Call.KillContainer p.1)).isNone) = true
  · simp only [ha, if_true]
  · simp only [ha]
    rfl

theorem mem_get?_of_matched {E : Env} {ctx : Ctx} {filters : EnclaveFilters} {d : Docker}
    {m : GoMap EnclaveUUID matchingNetworkInformation}
    (hm : (getMatchingEnclaveNetworkInfo E ctx filters d).1 = .ok m) (u : EnclaveUUID)
    (info : matchingNetworkInformation) : (u, info) ∈ m ↔ m.get? u = some info :=
  ⟨GoMap.get?_of_mem_nodup (getMatchingEnclaveNetworkInfo_matched E ctx filters d m hm).1,
   GoMap.get?_eq_some_mem⟩

/-- C17 (network without UUID label): when a network tagged `app-id=kurtosis` has no
`enclave-uuid` label, the matcher returns an error whatever the filter, and `GetEnclaves`,
`StopEnclaves` and `DestroyEnclaves` each return a top-level error and leave the engine as it
was but for listing events in the log: no kill and no removal is issued. -/
theorem untagged_network_aborts (E : Env) (backend : DockerKurtosisBackend) (ctx : Ctx)
    (filters : EnclaveFilters) (d : Docker)
    (h : ∃ n ∈ d.networks, n.labels.get? AppIDDockerLabelKey = some AppIDDockerLabelValue ∧
      n.labels.get? EnclaveUUIDDockerLabelKey = none) :
    (∃ e, (getMatchingEnclaveNetworkInfo E ctx filters d).1 = .error e) ∧
    ((∃ e, (GetEnclaves E ctx filters d).1 = .error e) ∧
      d.listingOnly (GetEnclaves E ctx filters d).2) ∧
    ((∃ e, (StopEnclaves E ctx filters d).1 = .error e) ∧
      d.listingOnly (StopEnclaves E ctx filters d).2) ∧
    ((∃ e, (DestroyEnclaves E backend ctx filters d).1 = .error e) ∧
      d.listingOnly (DestroyEnclaves E backend ctx filters d).2) := by
  obtain ⟨n, hn, happ, hnone⟩ := h
  obtain ⟨e, d1, hg, hl⟩ := matcher_error_of_untagged E ctx filters d
    ⟨n, mem_kurtosisNetworks.mpr ⟨hn, happ⟩, hnone⟩
  refine ⟨⟨e, by rw [hg]⟩, ?_, ?_, ?_⟩
  · unfold GetEnclaves
    rw [hg]
    exact ⟨⟨_, rfl⟩, hl⟩
  · rw [StopEnclaves_error E ctx filters d d1 e hg]
    exact ⟨⟨_, rfl⟩, hl⟩
  · unfold DestroyEnclaves
    rw [hg]
    exact ⟨⟨_, rfl⟩, hl⟩

set_option maxRecDepth 100000 in
/-- C17, witness: `sampleUntagged` holds the network `nx` tagged `app-id=kurtosis` without UUID
label, and the three verbs fail there without a kill or a removal. -/
theorem untagged_network_aborts_witness :
    (∃ e, (getMatchingEnclaveNetworkInfo sampleEnv (.request 1) ⟨[("a", true)], []⟩
      sampleUntagged).1 = .error e) ∧
    ((∃ e, (GetEnclaves sampleEnv (.request 1) ⟨[("a", true)], []⟩ sampleUntagged).1 =
        .error e) ∧
      sampleUntagged.listingOnly
        (GetEnclaves sampleEnv (.request 1) ⟨[("a", true)], []⟩ sampleUntagged).2) ∧
    ((∃ e, (StopEnclaves sampleEnv (.request 1) ⟨[("a", true)], []⟩ sampleUntagged).1 =
        .error e) ∧
      sampleUntagged.listingOnly
        (StopEnclaves sampleEnv (.request 1) ⟨[("a", true)], []⟩ sampleUntagged).2) ∧
    ((∃ e, (DestroyEnclaves sampleEnv sampleBackend (.request 1) ⟨[("a", true)], []⟩
        sampleUntagged).1 = .error e) ∧
      sampleUntagged.listingOnly
        (DestroyEnclaves sampleEnv sampleBackend (.request 1) ⟨[("a", true)], []⟩
          sampleUntagged).2) :=
  untagged_network_aborts sampleEnv sampleBackend (.request 1) ⟨[("a", true)], []⟩
    sampleUntagged
    ⟨⟨"nx", "net-x", [(AppIDDockerLabelKey, AppIDDockerLabelValue)]⟩, by decide, rfl, rfl⟩

/-- C19 (`StopEnclaves` partitions the matched enclaves): in a well-formed engine state, when
the matcher returns the map `m`, `StopEnclaves` returns a result `(successful, errored)` whose
two key sets are disjoint and together are the keys of `m`; an enclave is in `errored` exactly
when the kill of at least one of its containers failed; and every matched enclave without
containers is in `successful`. -/
theorem StopEnclaves_partition (E : Env) (ctx : Ctx) (filters : EnclaveFilters) (d : Docker)
    (hw : d.WellFormed) (m : GoMap EnclaveUUID matchingNetworkInformation)
    (hm : (getMatchingEnclaveNetworkInfo E ctx filters d).1 = .ok m) :
    ∃ succ err, (StopEnclaves E ctx filters d).1 = .ok (succ, err) ∧
      (∀ u, u ∈ succ.keys → u ∉ err.keys) ∧
      (∀ u, u ∈ succ.keys ∨ u ∈ err.keys ↔ u ∈ m.keys) ∧
      (∀ u, u ∈ err.keys ↔ ∃ info c, m.get? u = some info ∧ c ∈ info.containers ∧
        E.fails ctx (.KillContainer c.id) ≠ none) ∧
      (∀ u info, m.get? u = some info → info.containers = [] → u ∈ succ.keys) := by
  rcases hg : getMatchingEnclaveNetworkInfo E ctx filters d with ⟨res, d1⟩
  rw [hg] at hm
  simp only at hm
  subst hm
  have hm' : (getMatchingEnclaveNetworkInfo E ctx filters d).1 = .ok m := by rw [hg]
  have hmm := getMatchingEnclaveNetworkInfo_matched E ctx filters d m hm'
  obtain ⟨succ, err, h1, _, hs, he⟩ :=
    StopEnclaves_spec E ctx filters d d1 m hg (containerPairs_functional hw hmm.2)
  refine ⟨succ, err, by rw [h1], ?_, ?_, ?_, ?_⟩
  · intro u hu hu'
    exact ((he u).mp hu').2 ((hs u).mp hu).2
  · intro u
    rw [hs, he]
    tauto
  · intro u
    rw [he]
    constructor
    · rintro ⟨_, hnot⟩
      by_contra hcon
      apply hnot
      intro id hid
      by_contra hfail
      obtain ⟨info, hinfo, c, hc, hcid⟩ := mem_containerPairs.mp hid
      exact hcon ⟨info, c, (mem_get?_of_matched hm' u info).mp hinfo, hc, by rw [hcid]; exact hfail⟩
    · rintro ⟨info, c, hinfo, hc, hfail⟩
      have hin := GoMap.get?_eq_some_mem hinfo
      refine ⟨GoMap.mem_keys_of_mem hin, ?_⟩
      intro hall
      exact hfail (hall c.id (mem_containerPairs.mpr ⟨info, hin, c, hc, rfl⟩))
  · intro u info hinfo hnil
    have hin := GoMap.get?_eq_some_mem hinfo
    rw [hs]
    refine ⟨GoMap.mem_keys_of_mem hin, ?_⟩
    intro id hid
    obtain ⟨info', hinfo', c, hc, _⟩ := mem_containerPairs.mp hid
    have h2 := (mem_get?_of_matched hm' u info').mp hinfo'
    rw [hinfo] at h2
    have := Option.some.inj h2
    subst this
    rw [hnil] at hc
    cases hc

set_option maxRecDepth 100000 in
/-- C19, witness: on the two enclaves of `sampleDocker`, when only the kill of the container
`ca2` of `a` fails, `StopEnclaves` returns a result that partitions `a` and `b` as stated. -/
theorem StopEnclaves_partition_witness :
    ∃ succ err, (StopEnclaves sampleKillFailsEnv (.request 1) ⟨[], []⟩ sampleDocker).1 =
        .ok (succ, err) ∧
      (∀ u, u ∈ succ.keys → u ∉ err.keys) ∧
      (∀ u, u ∈ succ.keys ∨ u ∈ err.keys ↔
        u ∈ GoMap.keys [("a", sampleInfoA), ("b", sampleInfoB)]) ∧
      (∀ u, u ∈ err.keys ↔ ∃ info c,
        GoMap.get? [("a", sampleInfoA), ("b", sampleInfoB)] u = some info ∧
        c ∈ info.containers ∧
        sampleKillFailsEnv.fails (.request 1) (.KillContainer c.id) ≠ none) ∧
      (∀ u info, GoMap.get? [("a", sampleInfoA), ("b", sampleInfoB)] u = some info →
        info.containers = [] → u ∈ succ.keys) :=
  StopEnclaves_partition sampleKillFailsEnv (.request 1) ⟨[], []⟩ sampleDocker
    sampleDocker_wellFormed [("a", sampleInfoA), ("b", sampleInfoB)] rfl

/-- C20 (`StopEnclaves` removes nothing): for every engine state and filter, the events
`StopEnclaves` adds to the log are listing events followed by one `KillContainer` per id of a
set `ids` without repetition; when the matcher returns a map, `ids` holds exactly the ids of
the containers of the matched enclaves, and when the matcher fails no kill is issued.  The
networks and the volumes are the same after the call as before, and the containers are the
same but for the reported status of those whose kill succeeded: no network, volume or
container is removed. -/
theorem StopEnclaves_frame (E : Env) (ctx : Ctx) (filters : EnclaveFilters) (d : Docker) :
    ∃ (L : List Event) (ids : GoMap String Bool),
      (∀ e ∈ L, e.isListing = true) ∧ ids.keys.Nodup ∧
      issued d (StopEnclaves E ctx filters d).2 = L ++ eventsOf E ctx .KillContainer ids ∧
      (∀ m, (getMatchingEnclaveNetworkInfo E ctx filters d).1 = .ok m →
        ∀ id, id ∈ ids.keys ↔
          ∃ u info c, m.get? u = some info ∧ c ∈ info.containers ∧ c.id = id) ∧
      ((∃ e, (getMatchingEnclaveNetworkInfo E ctx filters d).1 = .error e) → ids = []) ∧
      (StopEnclaves E ctx filters d).2.networks = d.networks ∧
      (StopEnclaves E ctx filters d).2.volumes = d.volumes ∧
      (StopEnclaves E ctx filters d).2.containers = killedContainers E ctx ids d.containers ∧
      (StopEnclaves E ctx filters d).2.containers.map (fun c => (c.id, c.name, c.labels)) =
        d.containers.map (fun c => (c.id, c.name, c.labels)) := by
  have hl := getMatchingEnclaveNetworkInfo_listingOnly E ctx filters d
  rcases hg : getMatchingEnclaveNetworkInfo E ctx filters d with ⟨res, d1⟩
  rw [hg] at hl
  obtain ⟨L, hd1, hL⟩ := hl
  simp only at hd1
  cases res with
  | error e =>
    rw [StopEnclaves_error E ctx filters d d1 e hg]
    refine ⟨L, [], hL, by simp [GoMap.keys], ?_, ?_, fun _ => rfl, ?_, ?_, ?_, ?_⟩
    · apply issued_eq
      simp [hd1, eventsOf]
    · intro m hm
      cases hm
    · rw [hd1]
    · rw [hd1]
    · rw [hd1]
      simp [killedContainers]
    · rw [hd1]
  | ok m =>
    have hm' : (getMatchingEnclaveNetworkInfo E ctx filters d).1 = .ok m := by rw [hg]
    rw [StopEnclaves_snd E ctx filters d d1 m hg]
    refine ⟨L, idSetOf (containerPairs m), hL, nodup_keys_idSetOf _, ?_, ?_, ?_, ?_, ?_, ?_, ?_⟩
    · apply issued_eq
      simp [afterKills, hd1]
    · intro m2 hm2
      have := Except.ok.inj hm2
      subst this
      intro id
      rw [mem_keys_idSetOf]
      constructor
      · rintro ⟨u, hu⟩
        obtain ⟨info, hinfo, c, hc, hcid⟩ := mem_containerPairs.mp hu
        exact ⟨u, info, c, (mem_get?_of_matched hm' u info).mp hinfo, hc, hcid⟩
      · rintro ⟨u, info, c, hinfo, hc, hcid⟩
        exact ⟨u, mem_containerPairs.mpr ⟨info, GoMap.get?_eq_some_mem hinfo, c, hc, hcid⟩⟩
    · rintro ⟨e, he⟩
      cases he
    · simp [afterKills, hd1]
    · simp [afterKills, hd1]
    · simp [afterKills, hd1]
    · simp only [afterKills, hd1]
      exact killedContainers_ids E ctx _ _

set_option maxRecDepth 100000 in
/-- C20, witness: on the two enclaves of `sampleDocker`, when only the kill of `ca2` fails,
`StopEnclaves` lists, then issues one kill for each of `ca1`, `ca2` and `cb1`, and leaves the
networks, the volumes and the identities of the containers as they were. -/
theorem StopEnclaves_frame_witness :
    issued sampleDocker (StopEnclaves sampleKillFailsEnv (.request 1) ⟨[], []⟩ sampleDocker).2 =
      [⟨.request 1, .GetNetworksByLabels [(AppIDDockerLabelKey, AppIDDockerLabelValue)], none⟩,
       ⟨.request 1, .GetContainersByLabels (searchLabelsOf "a") true, none⟩,
       ⟨.request 1, .GetContainersByLabels (searchLabelsOf "b") true, none⟩,
       ⟨.request 1, .KillContainer "ca1", none⟩,
       ⟨.request 1, .KillContainer "ca2", some "boom"⟩,
       ⟨.request 1, .KillContainer "cb1", none⟩] ∧
    ∃ (L : List Event) (ids : GoMap String Bool),
      (∀ e ∈ L, e.isListing = true) ∧ ids.keys.Nodup ∧
      issued sampleDocker
        (StopEnclaves sampleKillFailsEnv (.request 1) ⟨[], []⟩ sampleDocker).2 =
          L ++ eventsOf sampleKillFailsEnv (.request 1) .KillContainer ids ∧
      (∀ m, (getMatchingEnclaveNetworkInfo sampleKillFailsEnv (.request 1) ⟨[], []⟩
          sampleDocker).1 = .ok m →
        ∀ id, id ∈ ids.keys ↔
          ∃ u info c, m.get? u = some info ∧ c ∈ info.containers ∧ c.id = id) ∧
      ((∃ e, (getMatchingEnclaveNetworkInfo sampleKillFailsEnv (.request 1) ⟨[], []⟩
          sampleDocker).1 = .error e) → ids = []) ∧
      (StopEnclaves sampleKillFailsEnv (.request 1) ⟨[], []⟩ sampleDocker).2.networks =
        sampleDocker.networks ∧
      (StopEnclaves sampleKillFailsEnv (.request 1) ⟨[], []⟩ sampleDocker).2.volumes =
        sampleDocker.volumes ∧
      (StopEnclaves sampleKillFailsEnv (.request 1) ⟨[], []⟩ sampleDocker).2.containers =
        killedContainers sampleKillFailsEnv (.request 1) ids sampleDocker.containers ∧
      (StopEnclaves sampleKillFailsEnv (.request 1) ⟨[], []⟩ sampleDocker).2.containers.map
          (fun c => (c.id, c.name, c.labels)) =
        sampleDocker.containers.map (fun c => (c.id, c.name, c.labels)) :=
  ⟨rfl, StopEnclaves_frame sampleKillFailsEnv (.request 1) ⟨[], []⟩ sampleDocker⟩

/-! ## The errors of the phases of `DestroyEnclaves` -/

theorem GoMap.get?_setAll_not_mem {K V : Type} [DecidableEq K] (acc l : GoMap K V) (k : K)
    (h : k ∉ l.keys) : (GoMap.setAll acc l).get? k = acc.get? k := by
  induction l generalizing acc with
  | nil => rfl
  | cons p l ih =>
    simp only [GoMap.keys, List.map_cons, List.mem_cons, not_or] at h
    rw [GoMap.setAll_cons, ih _ (by simpa [GoMap.keys] using h.2), GoMap.get?_set]
    have : ¬ p.1 = k := fun e => h.1 e.symm
    simp [this]

theorem GoMap.get?_setAll_nodup {K V : Type} [DecidableEq K] (acc l : GoMap K V) (k : K)
    (hn : l.keys.Nodup) (h : k ∈ l.keys) : (GoMap.setAll acc l).get? k = l.get? k := by
  induction l generalizing acc with
  | nil => simp [GoMap.keys] at h
  | cons p l ih =>
    obtain ⟨a, b⟩ := p
    simp only [GoMap.keys, List.map_cons, List.nodup_cons] at hn
    rw [GoMap.setAll_cons]
    by_cases hk : a = k
    · subst hk
      rw [GoMap.get?_setAll_not_mem _ _ _ hn.1, GoMap.get?_set]
      simp [GoMap.get?]
    · simp only [GoMap.keys, List.map_cons, List.mem_cons] at h
      have hkl : k ∈ GoMap.keys l := by
        rcases h with h | h
        · exact absurd h.symm hk
        · exact h
      rw [ih _ hn.2 hkl]
      simp [GoMap.get?, hk]

theorem split_errored_nodup (strs : GoMap EnclaveUUID (List String))
    (heading : EnclaveUUID → String) (l : List EnclaveUUID) :
    (splitEnclavesByErrors strs heading l ([], [])).2.keys.Nodup := by
  rw [splitEnclavesByErrors_eq]
  exact GoMap.nodup_keys_setAll _ (by simp [GoMap.keys])

theorem destroyContainersInEnclaves_err_nodup (E : Env) (ctx : Ctx)
    (m : GoMap EnclaveUUID matchingNetworkInformation) (d d' : Docker)
    (succ : GoMap EnclaveUUID Bool) (err : GoMap EnclaveUUID GoError)
    (h : destroyContainersInEnclaves E ctx m d = (.ok (succ, err), d')) : err.keys.Nodup := by
  simp only [destroyContainersInEnclaves] at h
  rcases hr : RunDockerOperationInParallel ctx (destroyContainersInEnclaves.gather m).2
    (removeEnclaveContainerOperation E) d with ⟨⟨s, e⟩, d2⟩
  rw [hr] at h
  simp only at h
  cases hg : groupErrorStrsByEnclave (destroyContainersInEnclaves.gather m).1
      (fun erroredContainerId => "An error occurred destroying container '" ++
        erroredContainerId ++ "' in an enclave we didn't request") e [] with
  | error x =>
    rw [hg] at h
    cases h
  | ok strs =>
    rw [hg] at h
    simp only [Prod.mk.injEq, Except.ok.injEq] at h
    have := split_errored_nodup strs (fun enclaveUuid =>
      "One or more errors occurred removing the containers in enclave '" ++
          enclaveUuid ++ "':\n") m.keys
    rw [h.1] at this
    exact this

theorem destroyVolumesInEnclaves_err_nodup (E : Env) (ctx : Ctx)
    (enclaves : GoMap EnclaveUUID Bool) (d d' : Docker)
    (succ : GoMap EnclaveUUID Bool) (err : GoMap EnclaveUUID GoError)
    (h : destroyVolumesInEnclaves E ctx enclaves d = (.ok (succ, err), d')) : err.keys.Nodup := by
  simp only [destroyVolumesInEnclaves] at h
  rcases hgg : destroyVolumesInEnclaves.gather E ctx enclaves ([], []) d with ⟨r, dl⟩
  rw [hgg] at h
  cases r with
  | error x => cases h
  | ok acc =>
    obtain ⟨uuidFor, ids⟩ := acc
    simp only at h
    rcases hr : RunDockerOperationInParallel ctx ids (removeEnclaveVolumeOperation E) dl with
      ⟨⟨s, e⟩, d2⟩
    rw [hr] at h
    simp only at h
    cases hg : groupErrorStrsByEnclave uuidFor
        (fun erroredVolumeId => "An error occurred removing volume '" ++ erroredVolumeId ++
          "' in an enclave we didn't request") e [] with
    | error x =>
      rw [hg] at h
      cases h
    | ok strs =>
      rw [hg] at h
      simp only [Prod.mk.injEq, Except.ok.injEq] at h
      have := split_errored_nodup strs (fun enclaveUuid =>
        "One or more errors occurred removing the volumes in enclave '" ++
            enclaveUuid ++ "':\n") enclaves.keys
      rw [h.1] at this
      exact this

theorem erroredLoop_nodup (uuidFor : GoMap String EnclaveUUID) (l : List (String × GoError))
    (acc r : GoMap EnclaveUUID GoError) (hn : acc.keys.Nodup)
    (h : destroyEnclaveNetworks.erroredLoop uuidFor l acc = .ok r) : r.keys.Nodup := by
  induction l generalizing acc with
  | nil =>
    simp only [destroyEnclaveNetworks.erroredLoop, Except.ok.injEq] at h
    rw [← h]
    exact hn
  | cons p l ih =>
    obtain ⟨id, e⟩ := p
    simp only [destroyEnclaveNetworks.erroredLoop] at h
    cases hg : uuidFor.get? id with
    | none =>
      rw [hg] at h
      cases h
    | some u =>
      rw [hg] at h
      exact ih _ (GoMap.nodup_keys_set _ _ hn) h

theorem destroyEnclaveNetworks_err_nodup (E : Env) (ctx : Ctx) (nets : GoMap EnclaveUUID String)
    (d d' : Docker) (succ : GoMap EnclaveUUID Bool) (err : GoMap EnclaveUUID GoError)
    (h : destroyEnclaveNetworks E ctx nets d = (.ok (succ, err), d')) : err.keys.Nodup := by
  simp only [destroyEnclaveNetworks] at h
  rcases hr : RunDockerOperationInParallel ctx (nets.foldl (fun acc e => acc.set e.2 true) [])
    (removeNetworkOperation E) d with ⟨⟨s, e⟩, d2⟩
  rw [hr] at h
  simp only at h
  cases hs : destroyEnclaveNetworks.successfulLoop
      (nets.foldl (fun acc e => acc.set e.2 e.1) []) s [] with
  | error x =>
    rw [hs] at h
    cases h
  | ok sr =>
    rw [hs] at h
    simp only at h
    cases he : destroyEnclaveNetworks.erroredLoop
        (nets.foldl (fun acc e => acc.set e.2 e.1) []) e [] with
    | error x =>
      rw [he] at h
      cases h
    | ok er =>
      rw [he] at h
      simp only [Prod.mk.injEq, Except.ok.injEq] at h
      have := erroredLoop_nodup _ _ _ _ (by simp [GoMap.keys]) he
      rw [h.1.2] at this
      exact this

/-- A run of `DestroyEnclaves` that returns a result: the results of the three phase calls, and
which enclaves each phase reports in its errored map. -/
theorem DestroyEnclaves_phase_results (E : Env) (backend : DockerKurtosisBackend) (ctx : Ctx)
    (filters : EnclaveFilters) (d d1 : Docker) (hw : d.WellFormed)
    (m : GoMap EnclaveUUID matchingNetworkInformation)
    (hm : getMatchingEnclaveNetworkInfo E ctx filters d = (.ok m, d1))
    (succ : GoMap EnclaveUUID Bool) (err : GoMap EnclaveUUID GoError)
    (hres : (DestroyEnclaves E backend ctx filters d).1 = .ok (succ, err)) :
    ∃ succ1 err1 succ2 err2 err3 dA dB dC nets,
      destroyContainersInEnclaves E ctx m d1 = (.ok (succ1, err1), dA) ∧
      destroyVolumesInEnclaves E ctx succ1 dA = (.ok (succ2, err2), dB) ∧
      DestroyEnclaves.networksLoop m succ2 [] = .ok nets ∧
      destroyEnclaveNetworks E ctx nets dB = (.ok (succ, err3), dC) ∧
      err = DestroyEnclaves.addErrors
        (DestroyEnclaves.addErrors (DestroyEnclaves.addErrors [] err1) err2) err3 ∧
      (∀ u, u ∈ succ1.keys ↔ u ∈ m.keys ∧ ContainersOk E ctx m u) ∧
      (∀ u, u ∈ err1.keys ↔ u ∈ m.keys ∧ ¬ ContainersOk E ctx m u) ∧
      (∀ u, u ∈ succ2.keys ↔ u ∈ succ1.keys ∧ VolumesOk E ctx d u) ∧
      (∀ u, u ∈ err2.keys ↔ u ∈ succ1.keys ∧ ¬ VolumesOk E ctx d u) ∧
      (∀ u, u ∈ err3.keys ↔ u ∈ succ2.keys ∧ ¬ NetworkOk E ctx m u) := by
  have hl1 : d.listingOnly d1 := by
    have := getMatchingEnclaveNetworkInfo_listingOnly E ctx filters d
    rw [hm] at this
    exact this
  have hmm := getMatchingEnclaveNetworkInfo_matched E ctx filters d m (by rw [hm])
  have htc : DestroyEnclaves.tenantCheck backend m = none := by
    cases htc : DestroyEnclaves.tenantCheck backend m with
    | none => rfl
    | some e =>
      exfalso
      unfold DestroyEnclaves at hres
      simp [hm, htc] at hres
  obtain ⟨succ1, err1, h1, hnd1, hs1, he1⟩ :=
    destroyContainersInEnclaves_spec E ctx m d1 (containerPairs_functional hw hmm.2)
  have hvol : (afterContainers E ctx m d1).volumes = d.volumes :=
    (show (afterContainers E ctx m d1).volumes = d1.volumes from rfl).trans
      (listingOnly_volumes hl1)
  have hvp : volumePairs (afterContainers E ctx m d1) succ1 = volumePairs d succ1 :=
    volumePairs_congr hvol succ1
  by_cases hlist : ∀ u ∈ succ1.keys, E.fails ctx (.GetVolumesByLabels (searchLabelsOf u)) = none
  · obtain ⟨succ2, err2, dl, hdl, h2, hnd2, hs2, he2⟩ :=
      destroyVolumesInEnclaves_spec E ctx succ1 (afterContainers E ctx m d1)
        (by rw [hvp]; exact volumePairs_functional hw succ1) hlist
    rw [hvp] at h2 hs2 he2
    have hsub : ∀ p ∈ succ2, p.1 ∈ m.keys := by
      intro p hp
      have := (hs2 p.1).mp (List.mem_map.mpr ⟨p, hp, rfl⟩)
      exact ((hs1 p.1).mp this.1).1
    have hsubk : ∀ u ∈ succ2.keys, u ∈ m.keys := by
      intro u hu
      obtain ⟨p, hp, rfl⟩ := List.mem_map.mp hu
      exact hsub p hp
    have hloop : DestroyEnclaves.networksLoop m succ2 [] = .ok (networkPairs m succ2) := by
      rw [networksLoop_ok m succ2 [] hsub, GoMap.setAll_eq_append]
      · rfl
      · simpa using networkPairs_nodup m succ2 hnd2
    obtain ⟨succ3, err3, h3, _, hs3, he3⟩ :=
      destroyEnclaveNetworks_spec E ctx (networkPairs m succ2)
        (afterVolumes E ctx (volumePairs d succ1) dl)
        (networkPairs_functional hw hmm.2 succ2)
    have heq : DestroyEnclaves E backend ctx filters d =
        (.ok (succ3, DestroyEnclaves.addErrors
          (DestroyEnclaves.addErrors (DestroyEnclaves.addErrors [] err1) err2) err3),
         afterNetworks E ctx (idSetOf ((networkPairs m succ2).map (fun e => (e.2, e.1))))
           (afterVolumes E ctx (volumePairs d succ1) dl)) := by
      unfold DestroyEnclaves
      simp only [hm, htc, h1, h2, hloop, h3]
    rw [heq] at hres
    simp only [Except.ok.injEq, Prod.mk.injEq] at hres
    obtain ⟨rfl, rfl⟩ := hres
    refine ⟨succ1, err1, succ2, err2, err3, _, _, _, _, h1, h2, hloop, h3, rfl, ?_, ?_, ?_, ?_, ?_⟩
    · intro u
      exact (hs1 u).trans (and_congr_right fun _ => containersOk_iff E ctx m u)
    · intro u
      exact (he1 u).trans (and_congr_right fun _ => not_congr (containersOk_iff E ctx m u))
    · intro u
      exact (hs2 u).trans (and_congr_right fun hu => volumesOk_iff E ctx d succ1 u hu)
    · intro u
      exact (he2 u).trans (and_congr_right fun hu =>
        not_congr (volumesOk_iff E ctx d succ1 u hu))
    · intro u
      exact (he3 u).trans (networkFails_iff E ctx m hmm.1 succ2 hsubk u)
  · exfalso
    have hex : ∃ u ∈ succ1.keys, E.fails ctx (.GetVolumesByLabels (searchLabelsOf u)) ≠ none := by
      by_contra hcon
      apply hlist
      intro u hu
      by_contra hne
      exact hcon ⟨u, hu, hne⟩
    obtain ⟨⟨e, he⟩, _⟩ := destroyVolumesInEnclaves_listing_fails E ctx succ1
      (afterContainers E ctx m d1) hex
    rcases hdv : destroyVolumesInEnclaves E ctx succ1 (afterContainers E ctx m d1) with ⟨r, d3⟩
    rw [hdv] at he
    simp only at he
    subst he
    unfold DestroyEnclaves at hres
    simp only [hm, htc, h1, hdv] at hres
    cases hres

/-- C27 (one phase error per enclave): in a well-formed engine state, when the matcher returns
`m` and `DestroyEnclaves` returns the result `(successful, errored)`, the errored maps `err1`,
`err2` and `err3` of the container phase, the volume phase and the network phase have pairwise
disjoint key sets, the keys of `errored` are their union, and `errored[u]` is the error the
phase holding `u` reported; the phase holding `u` is the earliest phase that failed for `u`:
the container phase if a removal of a container of `u` failed, else the volume phase if a
removal of a volume of `u` failed, else the network phase. -/
theorem DestroyEnclaves_earliest_error (E : Env) (backend : DockerKurtosisBackend) (ctx : Ctx)
    (filters : EnclaveFilters) (d d1 : Docker) (hw : d.WellFormed)
    (m : GoMap EnclaveUUID matchingNetworkInformation)
    (hm : getMatchingEnclaveNetworkInfo E ctx filters d = (.ok m, d1))
    (succ : GoMap EnclaveUUID Bool) (err : GoMap EnclaveUUID GoError)
    (hres : (DestroyEnclaves E backend ctx filters d).1 = .ok (succ, err)) :
    ∃ succ1 err1 succ2 err2 err3 dA dB dC nets,
      destroyContainersInEnclaves E ctx m d1 = (.ok (succ1, err1), dA) ∧
      destroyVolumesInEnclaves E ctx succ1 dA = (.ok (succ2, err2), dB) ∧
      DestroyEnclaves.networksLoop m succ2 [] = .ok nets ∧
      destroyEnclaveNetworks E ctx nets dB = (.ok (succ, err3), dC) ∧
      (∀ u, u ∈ err.keys ↔ u ∈ err1.keys ∨ u ∈ err2.keys ∨ u ∈ err3.keys) ∧
      (∀ u, u ∈ err1.keys → u ∉ err2.keys ∧ u ∉ err3.keys) ∧
      (∀ u, u ∈ err2.keys → u ∉ err3.keys) ∧
      (∀ u, u ∈ err1.keys → err.get? u = err1.get? u) ∧
      (∀ u, u ∈ err2.keys → err.get? u = err2.get? u) ∧
      (∀ u, u ∈ err3.keys → err.get? u = err3.get? u) ∧
      (∀ u, u ∈ err1.keys ↔ u ∈ m.keys ∧ ¬ ContainersOk E ctx m u) ∧
      (∀ u, u ∈ err2.keys ↔
        u ∈ m.keys ∧ ContainersOk E ctx m u ∧ ¬ VolumesOk E ctx d u) ∧
      (∀ u, u ∈ err3.keys ↔
        u ∈ m.keys ∧ ContainersOk E ctx m u ∧ VolumesOk E ctx d u ∧ ¬ NetworkOk E ctx m u) := by
  obtain ⟨succ1, err1, succ2, err2, err3, dA, dB, dC, nets, h1, h2, hloop, h3, herr, hs1, he1,
    hs2, he2, he3⟩ := DestroyEnclaves_phase_results E backend ctx filters d d1 hw m hm succ err hres
  have hn2 := destroyVolumesInEnclaves_err_nodup E ctx succ1 dA dB succ2 err2 h2
  have hn3 := destroyEnclaveNetworks_err_nodup E ctx nets dB dC succ err3 h3
  have hn1 := destroyContainersInEnclaves_err_nodup E ctx m d1 dA succ1 err1 h1
  have hd12 : ∀ u, u ∈ err1.keys → u ∉ err2.keys := by
    intro u hu hu'
    exact ((he1 u).mp hu).2 ((hs1 u).mp ((he2 u).mp hu').1).2
  have hd13 : ∀ u, u ∈ err1.keys → u ∉ err3.keys := by
    intro u hu hu'
    exact ((he1 u).mp hu).2 ((hs1 u).mp ((hs2 u).mp ((he3 u).mp hu').1).1).2
  have hd23 : ∀ u, u ∈ err2.keys → u ∉ err3.keys := by
    intro u hu hu'
    exact ((he2 u).mp hu).2 ((hs2 u).mp ((he3 u).mp hu').1).2
  refine ⟨succ1, err1, succ2, err2, err3, dA, dB, dC, nets, h1, h2, hloop, h3, ?_, ?_, hd23,
    ?_, ?_, ?_, he1, ?_, ?_⟩
  · intro u
    rw [herr, addErrors_keys, addErrors_keys, addErrors_keys]
    simp [GoMap.keys, or_assoc]
  · intro u hu
    exact ⟨hd12 u hu, hd13 u hu⟩
  · intro u hu
    rw [herr]
    unfold DestroyEnclaves.addErrors
    change (GoMap.setAll (GoMap.setAll (GoMap.setAll [] err1) err2) err3).get? u = _
    rw [GoMap.get?_setAll_not_mem _ _ _ (hd13 u hu), GoMap.get?_setAll_not_mem _ _ _ (hd12 u hu),
      GoMap.get?_setAll_nodup _ _ _ hn1 hu]
  · intro u hu
    rw [herr]
    change (GoMap.setAll (GoMap.setAll (GoMap.setAll [] err1) err2) err3).get? u = _
    rw [GoMap.get?_setAll_not_mem _ _ _ (hd23 u hu), GoMap.get?_setAll_nodup _ _ _ hn2 hu]
  · intro u hu
    rw [herr]
    change (GoMap.setAll (GoMap.setAll (GoMap.setAll [] err1) err2) err3).get? u = _
    rw [GoMap.get?_setAll_nodup _ _ _ hn3 hu]
  · intro u
    rw [he2, hs1]
    tauto
  · intro u
    rw [he3, hs2, hs1]
    tauto

set_option maxRecDepth 100000 in
/-- C27, witness: on the two enclaves of `sampleDocker`, when only the removals of the volume
`va` and of the container `cb1` fail, `DestroyEnclaves` reports `b` with the error of its
container phase and `a` with the error of its volume phase. -/
theorem DestroyEnclaves_earliest_error_witness :
    (∃ succ err, (DestroyEnclaves sampleMixedFailsEnv sampleBackend (.request 1) ⟨[], []⟩
        sampleDocker).1 = .ok (succ, err) ∧ err.keys = ["b", "a"]) ∧
    ∃ succ1 err1 succ2 err2 err3 dA dB dC nets,
      destroyContainersInEnclaves sampleMixedFailsEnv (.request 1)
        [("a", sampleInfoA), ("b", sampleInfoB)] sampleDockerMatched =
          (.ok (succ1, err1), dA) ∧
      destroyVolumesInEnclaves sampleMixedFailsEnv (.request 1) succ1 dA =
        (.ok (succ2, err2), dB) ∧
      DestroyEnclaves.networksLoop [("a", sampleInfoA), ("b", sampleInfoB)] succ2 [] =
        .ok nets ∧
      destroyEnclaveNetworks sampleMixedFailsEnv (.request 1) nets dB =
        (.ok ([], err3), dC) ∧
      (∀ u, u ∈ GoMap.keys
          [("b", GoError.NewError ("One or more errors occurred removing the containers in " ++
              "enclave 'b':\nAn error occurred removing enclave container with ID 'cb1'\n" ++
              "Caused by: boom")),
           ("a", GoError.NewError ("One or more errors occurred removing the volumes in " ++
              "enclave 'a':\nAn error occurred removing enclave volume with ID 'va'\n" ++
              "Caused by: in use"))] ↔
        u ∈ err1.keys ∨ u ∈ err2.keys ∨ u ∈ err3.keys) :=
  ⟨⟨_, _, rfl, rfl⟩,
   by
    obtain ⟨succ1, err1, succ2, err2, err3, dA, dB, dC, nets, h1, h2, h3, h4, h5, _⟩ :=
      DestroyEnclaves_earliest_error sampleMixedFailsEnv sampleBackend (.request 1) ⟨[], []⟩
        sampleDocker sampleDockerMatched sampleDocker_wellFormed
        [("a", sampleInfoA), ("b", sampleInfoB)] rfl [] _ rfl
    exact ⟨succ1, err1, succ2, err2, err3, dA, dB, dC, nets, h1, h2, h3, h4, h5⟩⟩

/-! ## The messages of the per-enclave errors -/

theorem filterMap_keys_sublist {V W : Type} (ids : List (String × V))
    (f : String × V → Option W) :
    ((ids.filterMap (fun p => (f p).map (fun e => (p.1, e)))).map Prod.fst).Sublist
      (ids.map Prod.fst) := by
  induction ids with
  | nil => exact List.Sublist.slnil
  | cons p ids ih =>
    cases hf : f p with
    | none =>
      simp only [List.filterMap_cons, hf, Option.map_none', List.map_cons]
      exact List.Sublist.cons _ ih
    | some e =>
      simp only [List.filterMap_cons, hf, Option.map_some', List.map_cons]
      exact List.Sublist.cons₂ _ ih

theorem erroredOf_eq (res : String → Option GoError) (ids : GoMap String Bool)
    (hn : ids.keys.Nodup) :
    erroredOf res ids = ids.filterMap (fun p => (res p.1).map (fun e => (p.1, e))) := by
  unfold erroredOf
  rw [GoMap.setAll_eq_append]
  · rfl
  · have := filterMap_keys_sublist ids (fun p => res p.1)
    simp only [GoMap.keys, List.nil_append]
    exact List.Nodup.sublist this hn

theorem failedStrs_eq (res : String → Option GoError) (pairs : List (String × EnclaveUUID))
    (u : EnclaveUUID) :
    ((erroredOf res (idSetOf pairs)).filter
        (fun p => decide ((GoMap.setAll [] pairs).get? p.1 = some u))).map (fun p => p.2.Error) =
      failedStrs res pairs u := by
  rw [erroredOf_eq res _ (nodup_keys_idSetOf pairs)]
  unfold failedStrs
  generalize idSetOf pairs = ids
  induction ids with
  | nil => rfl
  | cons p ids ih =>
    cases hr : res p.1 with
    | none =>
      simp only [List.filterMap_cons, hr, Option.map_none', ih]
      by_cases hu : (GoMap.setAll [] pairs).get? p.1 = some u <;> simp [hu]
    | some e =>
      simp only [List.filterMap_cons, hr, Option.map_some', List.filter_cons]
      by_cases hu : (GoMap.setAll [] pairs).get? p.1 = some u
      · simp only [hu, decide_True, if_true, List.map_cons, ih]
      · simp only [hu, decide_False, if_false]
        exact ih

theorem mem_failedStrs (res : String → Option GoError) (pairs : List (String × EnclaveUUID))
    (hf : ∀ id v v', (id, v) ∈ pairs → (id, v') ∈ pairs → v = v') (u : EnclaveUUID)
    (s : String) :
    s ∈ failedStrs res pairs u ↔ ∃ id e, (id, u) ∈ pairs ∧ res id = some e ∧ s = e.Error := by
  unfold failedStrs
  simp only [List.mem_filterMap]
  constructor
  · rintro ⟨p, hp, h⟩
    by_cases hu : (GoMap.setAll [] pairs).get? p.1 = some u
    · simp only [hu, if_true, Option.map_eq_some'] at h
      obtain ⟨e, he, rfl⟩ := h
      exact ⟨p.1, e, (get?_setAll_functional hf p.1 u).mp hu, he, rfl⟩
    · simp [hu] at h
  · rintro ⟨id, e, hid, he, rfl⟩
    have hk : id ∈ (idSetOf pairs).keys := (mem_keys_idSetOf pairs id).mpr ⟨u, hid⟩
    obtain ⟨p, hp, rfl⟩ := List.mem_map.mp hk
    refine ⟨p, hp, ?_⟩
    simp [(get?_setAll_functional hf p.1 u).mpr hid, he]

/-- Grouping after a parallel run over the ids of `pairs`: the strings recorded for an enclave
are the messages of the failed operations on its ids. -/
theorem aggregate_form (pairs : List (String × EnclaveUUID))
    (res : String → Option GoError) (msg : String → String) :
    ∃ strs, groupErrorStrsByEnclave (GoMap.setAll [] pairs) msg
        (erroredOf res (idSetOf pairs)) [] = .ok strs ∧
      ∀ u, errorStrsOf strs u = failedStrs res pairs u := by
  obtain ⟨strs, hs, hstrs⟩ := groupErrorStrsByEnclave_ok (GoMap.setAll [] pairs) msg
    (erroredOf res (idSetOf pairs)) [] (by
      intro p hp
      have := (mem_erroredOf hp).1
      rw [mem_keys_idSetOf] at this
      obtain ⟨u, hu⟩ := this
      rw [GoMap.mem_keys_setAll]
      exact Or.inr (List.mem_map.mpr ⟨(p.1, u), hu, rfl⟩))
  refine ⟨strs, hs, ?_⟩
  intro u
  rw [hstrs u, failedStrs_eq]
  simp [errorStrsOf, GoMap.get?]

theorem split_errored_get? (strs : GoMap EnclaveUUID (List String))
    (heading : EnclaveUUID → String) (l : List EnclaveUUID) (u : EnclaveUUID) (e : GoError)
    (h : (splitEnclavesByErrors strs heading l ([], [])).2.get? u = some e) :
    e = .NewError (heading u ++ stringsJoin (errorStrsOf strs u) "\n\n") ∧
      errorStrsOf strs u ≠ [] := by
  rw [splitEnclavesByErrors_eq] at h
  rcases GoMap.get?_setAll_some h with h | h
  · simp [GoMap.get?] at h
  · obtain ⟨u', hu', heq⟩ := List.mem_map.mp h
    simp only [Prod.mk.injEq] at heq
    obtain ⟨rfl, rfl⟩ := heq
    have := (List.mem_filter.mp hu').2
    simp only [Bool.not_eq_true', decide_eq_false_iff_not] at this
    exact ⟨rfl, this⟩

theorem StopEnclaves_result_form (E : Env) (ctx : Ctx) (filters : EnclaveFilters)
    (d d1 : Docker) (m : GoMap EnclaveUUID matchingNetworkInformation)
    (hm : getMatchingEnclaveNetworkInfo E ctx filters d = (.ok m, d1)) :
    ∃ strs, (∀ u, errorStrsOf strs u = failedStrs (killResult E ctx) (containerPairs m) u) ∧
      (StopEnclaves E ctx filters d).1 = .ok (splitEnclavesByErrors strs
        (fun enclaveUuid => "One or more errors occurred killing the containers in enclave '" ++
          enclaveUuid ++ "':\n") m.keys ([], [])) := by
  obtain ⟨strs, hs, hstrs⟩ := aggregate_form (containerPairs m) (killResult E ctx)
    (fun erroredContainerId => "An error occurred stopping container '" ++
        erroredContainerId ++ "' in an enclave we didn't request")
  refine ⟨strs, hstrs, ?_⟩
  unfold StopEnclaves
  rw [hm]
  simp only [StopEnclaves_gather_eq]
  rw [RunDockerOperationInParallel_eq ctx _ (killResult E ctx)
    (fun id d => stopEnclaveContainerOperation_fst E ctx id d)]
  simp only [idSetOf] at hs
  simp only [hs]

theorem destroyContainersInEnclaves_result_form (E : Env) (ctx : Ctx)
    (m : GoMap EnclaveUUID matchingNetworkInformation) (d : Docker) :
    ∃ strs, (∀ u, errorStrsOf strs u =
        failedStrs (containerResult E ctx) (containerPairs m) u) ∧
      (destroyContainersInEnclaves E ctx m d).1 = .ok (splitEnclavesByErrors strs
        (fun enclaveUuid => "One or more errors occurred removing the containers in enclave '" ++
          enclaveUuid ++ "':\n") m.keys ([], [])) := by
  obtain ⟨strs, hs, hstrs⟩ := aggregate_form (containerPairs m) (containerResult E ctx)
    (fun erroredContainerId => "An error occurred destroying container '" ++
        erroredContainerId ++ "' in an enclave we didn't request")
  refine ⟨strs, hstrs, ?_⟩
  unfold destroyContainersInEnclaves
  simp only [destroyContainers_gather_eq]
  rw [RunDockerOperationInParallel_eq ctx _ (containerResult E ctx)
    (fun id d => removeEnclaveContainerOperation_fst E ctx id d)]
  simp only [idSetOf] at hs
  simp only [hs]

theorem destroyVolumesInEnclaves_result_form (E : Env) (ctx : Ctx)
    (enclaves : GoMap EnclaveUUID Bool) (d : Docker)
    (r : GoMap EnclaveUUID Bool × GoMap EnclaveUUID GoError)
    (h : (destroyVolumesInEnclaves E ctx enclaves d).1 = .ok r) :
    ∃ strs, (∀ u, errorStrsOf strs u =
        failedStrs (volumeResult E ctx) (volumePairs d enclaves) u) ∧
      r = splitEnclavesByErrors strs
        (fun enclaveUuid => "One or more errors occurred removing the volumes in enclave '" ++
          enclaveUuid ++ "':\n") enclaves.keys ([], []) := by
  obtain ⟨strs, hs, hstrs⟩ := aggregate_form (volumePairs d enclaves) (volumeResult E ctx)
    (fun erroredVolumeId => "An error occurred removing volume '" ++ erroredVolumeId ++
            "' in an enclave we didn't request")
  refine ⟨strs, hstrs, ?_⟩
  unfold destroyVolumesInEnclaves at h
  rcases hgg : destroyVolumesInEnclaves.gather E ctx enclaves ([], []) d with ⟨g, dl⟩
  rw [hgg] at h
  cases g with
  | error x => cases h
  | ok acc =>
    have hg := ((volumes_gather_ok_iff E ctx d enclaves ([], []) d (listingOnly_refl d) acc).mp
      (by rw [hgg])).2
    subst hg
    simp only at h
    rw [RunDockerOperationInParallel_eq ctx _ (volumeResult E ctx)
      (fun id d => removeEnclaveVolumeOperation_fst E ctx id d)] at h
    simp only [idSetOf] at hs
    simp only [hs, Except.ok.injEq] at h
    exact h.symm

set_option maxRecDepth 100000 in
/-- C22, counterexample: on the two enclaves of `sampleDocker`, when the kills of the containers
`ca1` and `ca2` of `a` fail, `StopEnclaves` reports `a` in errored; the messages of the two
failed kills are joined by two newlines after a heading that names the enclave, so the message
of the error of `a` is not the two messages joined by a newline. -/
theorem StopEnclaves_message_has_heading :
    ∃ succ err, (StopEnclaves sampleKillsFailEnv (.request 1) ⟨[], []⟩ sampleDocker).1 =
        .ok (succ, err) ∧
      failedStrs (killResult sampleKillsFailEnv (.request 1))
          (containerPairs [("a", sampleInfoA), ("b", sampleInfoB)]) "a" =
        ["An error occurred killing enclave container with ID 'ca1'\nCaused by: boom",
         "An error occurred killing enclave container with ID 'ca2'\nCaused by: boom"] ∧
      (err.get? "a").map GoError.Error =
        some ("One or more errors occurred killing the containers in enclave 'a':\n" ++
          "An error occurred killing enclave container with ID 'ca1'\nCaused by: boom" ++
          "\n\n" ++
          "An error occurred killing enclave container with ID 'ca2'\nCaused by: boom") ∧
      (err.get? "a").map GoError.Error ≠
        some (stringsJoin
          ["An error occurred killing enclave container with ID 'ca1'\nCaused by: boom",
           "An error occurred killing enclave container with ID 'ca2'\nCaused by: boom"] "\n") :=
  ⟨_, _, rfl, rfl, rfl, by decide⟩

/-- C22, amended: for every enclave `u` reported in errored by `StopEnclaves`, by
`destroyContainersInEnclaves` or by `destroyVolumesInEnclaves`, the per-enclave error is a new
error whose message is a heading naming the enclave, ending in a newline, followed by the
messages of the failed object operations recorded for `u` (at least one) joined by two
newlines; when an object id belongs to one enclave only, these are exactly the messages of the
failed operations on the objects of `u`. -/
theorem per_enclave_error_message (E : Env) (ctx : Ctx) :
    (∀ filters d d1 m succ err u e,
      getMatchingEnclaveNetworkInfo E ctx filters d = (.ok m, d1) →
      (StopEnclaves E ctx filters d).1 = .ok (succ, err) → err.get? u = some e →
      failedStrs (killResult E ctx) (containerPairs m) u ≠ [] ∧
      e = .NewError ("One or more errors occurred killing the containers in enclave '" ++ u ++
        "':\n" ++ stringsJoin (failedStrs (killResult E ctx) (containerPairs m) u) "\n\n")) ∧
    (∀ m d succ err u e,
      (destroyContainersInEnclaves E ctx m d).1 = .ok (succ, err) → err.get? u = some e →
      failedStrs (containerResult E ctx) (containerPairs m) u ≠ [] ∧
      e = .NewError ("One or more errors occurred removing the containers in enclave '" ++ u ++
        "':\n" ++ stringsJoin (failedStrs (containerResult E ctx) (containerPairs m) u) "\n\n")) ∧
    (∀ enclaves d succ err u e,
      (destroyVolumesInEnclaves E ctx enclaves d).1 = .ok (succ, err) → err.get? u = some e →
      failedStrs (volumeResult E ctx) (volumePairs d enclaves) u ≠ [] ∧
      e = .NewError ("One or more errors occurred removing the volumes in enclave '" ++ u ++
        "':\n" ++
        stringsJoin (failedStrs (volumeResult E ctx) (volumePairs d enclaves) u) "\n\n")) ∧
    (∀ (res : String → Option GoError) (pairs : List (String × EnclaveUUID)) u s,
      (∀ id v v', (id, v) ∈ pairs → (id, v') ∈ pairs → v = v') →
      (s ∈ failedStrs res pairs u ↔
        ∃ id e, (id, u) ∈ pairs ∧ res id = some e ∧ s = e.Error)) := by
  refine ⟨?_, ?_, ?_, ?_⟩
  · intro filters d d1 m succ err u e hm hres hget
    obtain ⟨strs, hstrs, hform⟩ := StopEnclaves_result_form E ctx filters d d1 m hm
    rw [hform] at hres
    have hr := Except.ok.inj hres
    have herr : (splitEnclavesByErrors strs
        (fun enclaveUuid => "One or more errors occurred killing the containers in enclave '" ++
          enclaveUuid ++ "':\n") m.keys ([], [])).2 = err := by rw [hr]
    rw [← herr] at hget
    obtain ⟨h1, h2⟩ := split_errored_get? _ _ _ _ _ hget
    rw [hstrs u] at h1 h2
    exact ⟨h2, h1⟩
  · intro m d succ err u e hres hget
    obtain ⟨strs, hstrs, hform⟩ := destroyContainersInEnclaves_result_form E ctx m d
    rw [hform] at hres
    have hr := Except.ok.inj hres
    have herr : (splitEnclavesByErrors strs
        (fun enclaveUuid => "One or more errors occurred removing the containers in enclave '" ++
          enclaveUuid ++ "':\n") m.keys ([], [])).2 = err := by rw [hr]
    rw [← herr] at hget
    obtain ⟨h1, h2⟩ := split_errored_get? _ _ _ _ _ hget
    rw [hstrs u] at h1 h2
    exact ⟨h2, h1⟩
  · intro enclaves d succ err u e hres hget
    obtain ⟨strs, hstrs, hform⟩ :=
      destroyVolumesInEnclaves_result_form E ctx enclaves d (succ, err) hres
    have herr : (splitEnclavesByErrors strs
        (fun enclaveUuid => "One or more errors occurred removing the volumes in enclave '" ++
          enclaveUuid ++ "':\n") enclaves.keys ([], [])).2 = err := by rw [← hform]
    rw [← herr] at hget
    obtain ⟨h1, h2⟩ := split_errored_get? _ _ _ _ _ hget
    rw [hstrs u] at h1 h2
    exact ⟨h2, h1⟩
  · intro res pairs u s hf
    exact mem_failedStrs res pairs hf u s

set_option maxRecDepth 100000 in
/-- C22, witness: when only the kill of `ca2` fails, the error `StopEnclaves` reports for the
enclave `a` of `sampleDocker` is the heading followed by the message of the failed kill. -/
theorem per_enclave_error_message_witness :
    failedStrs (killResult sampleKillFailsEnv (.request 1))
        (containerPairs [("a", sampleInfoA), ("b", sampleInfoB)]) "a" ≠ [] ∧
    GoError.NewError ("One or more errors occurred killing the containers in enclave 'a':\n" ++
        "An error occurred killing enclave container with ID 'ca2'\nCaused by: boom") =
      .NewError ("One or more errors occurred killing the containers in enclave '" ++ "a" ++
        "':\n" ++ stringsJoin (failedStrs (killResult sampleKillFailsEnv (.request 1))
          (containerPairs [("a", sampleInfoA), ("b", sampleInfoB)]) "a") "\n\n") :=
  (per_enclave_error_message sampleKillFailsEnv (.request 1)).1 ⟨[], []⟩ sampleDocker
    sampleDockerMatched [("a", sampleInfoA), ("b", sampleInfoB)] _ _ "a" _ rfl rfl rfl

/-! ## Several networks with one enclave UUID -/

theorem GoMap.get?_setAll_last {K V : Type} [DecidableEq K] (acc l : GoMap K V) (k : K) (v : V)
    (h : (GoMap.setAll acc l).get? k = some v) :
    (acc.get? k = some v ∧ ∀ q ∈ l, q.1 ≠ k) ∨
    ∃ pre post, l = pre ++ (k, v) :: post ∧ ∀ q ∈ post, q.1 ≠ k := by
  induction l using List.reverseRecOn with
  | nil => exact Or.inl ⟨h, by simp⟩
  | append_singleton l p ih =>
    rw [GoMap.setAll_append, GoMap.setAll_cons, GoMap.setAll_nil, GoMap.get?_set] at h
    by_cases hp : p.1 = k
    · simp only [hp, if_true, Option.some.injEq] at h
      right
      refine ⟨l, [], ?_, by simp⟩
      rw [← h, ← hp]
    · simp only [hp, if_false] at h
      rcases ih h with ⟨h1, h2⟩ | ⟨pre, post, h1, h2⟩
      · left
        refine ⟨h1, ?_⟩
        intro q hq
        rcases List.mem_append.mp hq with hq | hq
        · exact h2 q hq
        · rw [List.mem_singleton] at hq
          rw [hq]
          exact hp
      · right
        refine ⟨pre, post ++ [p], by rw [h1]; simp, ?_⟩
        intro q hq
        rcases List.mem_append.mp hq with hq | hq
        · exact h2 q hq
        · rw [List.mem_singleton] at hq
          rw [hq]
          exact hp

theorem filterMap_split {α β : Type} (f : α → Option β) (l : List α) (pre post : List β)
    (x : β) (h : l.filterMap f = pre ++ x :: post) :
    ∃ pre' post' a, l = pre' ++ a :: post' ∧ f a = some x ∧ post'.filterMap f = post := by
  induction l generalizing pre with
  | nil =>
    simp at h
  | cons a l ih =>
    cases hfa : f a with
    | none =>
      rw [List.filterMap_cons, hfa] at h
      obtain ⟨pre', post', b, h1, h2, h3⟩ := ih pre h
      exact ⟨a :: pre', post', b, by rw [h1]; rfl, h2, h3⟩
    | some y =>
      rw [List.filterMap_cons, hfa] at h
      cases pre with
      | nil =>
        simp only [List.nil_append, List.cons.injEq] at h
        exact ⟨[], l, a, rfl, by rw [hfa, h.1], h.2⟩
      | cons z pre =>
        simp only [List.cons_append, List.cons.injEq] at h
        obtain ⟨pre', post', b, h1, h2, h3⟩ := ih pre h.2
        exact ⟨a :: pre', post', b, by rw [h1]; rfl, h2, h3⟩

/-- The network of a matched entry is the last listed network that carries the UUID. -/
theorem matcher_last_network (E : Env) (ctx : Ctx) (filters : EnclaveFilters) (d : Docker)
    (m : GoMap EnclaveUUID matchingNetworkInformation)
    (hm : (getMatchingEnclaveNetworkInfo E ctx filters d).1 = .ok m)
    (u : EnclaveUUID) (info : matchingNetworkInformation) (hu : m.get? u = some info) :
    ∃ pre post, kurtosisNetworks d = pre ++ info.dockerNetwork :: post ∧
      info.dockerNetwork.labels.get? EnclaveUUIDDockerLabelKey = some u ∧
      ∀ n ∈ post, n.labels.get? EnclaveUUIDDockerLabelKey ≠ some u := by
  obtain ⟨_, _, _, hmeq⟩ := (getMatchingEnclaveNetworkInfo_ok_iff E ctx filters d m).mp hm
  have hin := GoMap.get?_eq_some_mem hu
  rw [hmeq] at hin
  rcases GoMap.mem_setAll hin with hin | hin
  · simp at hin
  · obtain ⟨n, st, hn, _, _, hinfo⟩ := mem_statusPairs.mp hin
    have hnodup : (GoMap.setAll ([] : GoMap EnclaveUUID Network)
        (uuidPairs filters (kurtosisNetworks d))).keys.Nodup :=
      GoMap.nodup_keys_setAll _ (by simp [GoMap.keys])
    have hget := GoMap.get?_of_mem_nodup hnodup hn
    rcases GoMap.get?_setAll_last _ _ _ _ hget with ⟨h1, _⟩ | ⟨pre, post, hsplit, hpost⟩
    · simp [GoMap.get?] at h1
    · unfold uuidPairs at hsplit
      obtain ⟨pre', post', a, hl, hfa, hpost'⟩ := filterMap_split _ _ _ _ _ hsplit
      have ha : a = n ∧ a.labels.get? EnclaveUUIDDockerLabelKey = some u ∧
          uuidPasses filters u = true := by
        cases hg : a.labels.get? EnclaveUUIDDockerLabelKey with
        | none => simp [hg] at hfa
        | some u' =>
          by_cases hp : uuidPasses filters u' = true
          · simp only [hg, hp, if_true, Option.some.injEq, Prod.mk.injEq] at hfa
            obtain ⟨rfl, rfl⟩ := hfa
            exact ⟨rfl, rfl, hp⟩
          · simp [hg, hp] at hfa
      obtain ⟨rfl, hlab, hpass⟩ := ha
      have hnet : info.dockerNetwork = a := by rw [hinfo]
      refine ⟨pre', post', by rw [hnet]; exact hl, by rw [hnet]; exact hlab, ?_⟩
      intro n' hn' hlab'
      have : (u, n') ∈ post := by
        rw [← hpost']
        exact List.mem_filterMap.mpr ⟨n', hn', by simp [hlab', hpass]⟩
      exact hpost _ this rfl

/-- The networks `DestroyEnclaves` removes are networks of matched entries, and every other
network stays in the engine. -/
theorem DestroyEnclaves_network_removals (E : Env) (backend : DockerKurtosisBackend)
    (ctx : Ctx) (filters : EnclaveFilters) (d d1 : Docker) (hw : d.WellFormed)
    (m : GoMap EnclaveUUID matchingNetworkInformation)
    (hm : getMatchingEnclaveNetworkInfo E ctx filters d = (.ok m, d1)) :
    (∀ e ∈ issued d (DestroyEnclaves E backend ctx filters d).2, ∀ id,
      e.call = .RemoveNetwork id →
      ∃ u info, m.get? u = some info ∧ info.dockerNetwork.id = id) ∧
    (∀ n ∈ d.networks, (∀ u info, m.get? u = some info → info.dockerNetwork.id ≠ n.id) →
      n ∈ (DestroyEnclaves E backend ctx filters d).2.networks) := by
  have hl1 : d.listingOnly d1 := by
    have := getMatchingEnclaveNetworkInfo_listingOnly E ctx filters d
    rw [hm] at this
    exact this
  by_cases ht : NoTenantState backend m
  · obtain ⟨succ1, err1, _, _, _, hcases⟩ :=
      DestroyEnclaves_phases E backend ctx filters d d1 hw m hm ht
    rcases hcases with ⟨_, _, hlo⟩ | ⟨_, succ2, err2, succ3, err3, dl, hdl, heq, _⟩
    · obtain ⟨L1, L2, h1, h2, hsh⟩ := issued_shape_listing hl1 hlo
      have hsh' : issued d (DestroyEnclaves E backend ctx filters d).2 =
          L1 ++ eventsOf E ctx .RemoveContainer (idSetOf (containerPairs m)) ++ L2 ++
            eventsOf E ctx .RemoveVolume [] ++ eventsOf E ctx .RemoveNetwork [] := by
        rw [hsh]
        simp [eventsOf]
      constructor
      · intro e he id hc
        rw [hsh'] at he
        have := removeNetwork_event_source h1 h2 he hc
        simp [GoMap.keys] at this
      · intro n hn _
        rw [listingOnly_networks hlo]
        show n ∈ d1.networks
        rw [listingOnly_networks hl1]
        exact hn
    · obtain ⟨L1, L2, h1, h2, hsh⟩ := issued_shape_full (volumePairs d succ1)
        (idSetOf ((networkPairs m succ2).map (fun e => (e.2, e.1)))) hl1 hdl
      rw [heq]
      simp only
      have hdln : dl.networks = d.networks :=
        (listingOnly_networks hdl).trans
          ((show (afterContainers E ctx m d1).networks = d1.networks from rfl).trans
            (listingOnly_networks hl1))
      constructor
      · intro e he id hc
        rw [hsh] at he
        have hk := removeNetwork_event_source h1 h2 he hc
        rw [mem_keys_idSetOf] at hk
        obtain ⟨u', hu'⟩ := hk
        obtain ⟨_, info, hi, hid⟩ := mem_networkPairs.mp (mem_swap_networkPairs.mp hu')
        exact ⟨u', info, hi, hid⟩
      · intro n hn hother
        rw [mem_afterNetworks]
        refine ⟨?_, ?_⟩
        · show n ∈ dl.networks
          rw [hdln]
          exact hn
        · rintro ⟨⟨u', hu'⟩, _⟩
          obtain ⟨_, info, hi, hid⟩ := mem_networkPairs.mp (mem_swap_networkPairs.mp hu')
          exact hother u' info hi hid
  · have htc : ∃ e, DestroyEnclaves.tenantCheck backend m = some e := by
      cases h : DestroyEnclaves.tenantCheck backend m with
      | none => exact absurd ((tenantCheck_eq_none backend m).mp h) ht
      | some e => exact ⟨e, rfl⟩
    obtain ⟨e0, he0⟩ := htc
    have hD : DestroyEnclaves E backend ctx filters d = (.error e0, d1) := by
      unfold DestroyEnclaves
      simp only [hm, he0]
    rw [hD]
    simp only
    constructor
    · intro e he id hc
      exact absurd (issued_listingOnly hl1 e he) (not_listing_of_removeNetwork hc)
    · intro n hn _
      rw [listingOnly_networks hl1]
      exact hn

/-- C29 (several networks with one UUID): when the matcher returns the map `m`, no UUID is a
key of `m` twice, and the network of the entry stored under `u` is the last network, in the
order of the listing, that carries `enclave-uuid=u`.  In a well-formed engine state
`DestroyEnclaves` with the same filter issues `RemoveNetwork` only for the networks of the
entries of `m`, and every network of the engine that is not the network of an entry is still
in the engine after the call. -/
theorem getMatchingEnclaveNetworkInfo_last_network (E : Env) (backend : DockerKurtosisBackend)
    (ctx : Ctx) (filters : EnclaveFilters) (d : Docker)
    (m : GoMap EnclaveUUID matchingNetworkInformation)
    (hm : (getMatchingEnclaveNetworkInfo E ctx filters d).1 = .ok m) :
    m.keys.Nodup ∧
    (∀ u info, m.get? u = some info →
      ∃ pre post, kurtosisNetworks d = pre ++ info.dockerNetwork :: post ∧
        info.dockerNetwork.labels.get? EnclaveUUIDDockerLabelKey = some u ∧
        ∀ n ∈ post, n.labels.get? EnclaveUUIDDockerLabelKey ≠ some u) ∧
    (d.WellFormed →
      (∀ e ∈ issued d (DestroyEnclaves E backend ctx filters d).2, ∀ id,
        e.call = .RemoveNetwork id →
        ∃ u info, m.get? u = some info ∧ info.dockerNetwork.id = id) ∧
      (∀ n ∈ d.networks, (∀ u info, m.get? u = some info → info.dockerNetwork.id ≠ n.id) →
        n ∈ (DestroyEnclaves E backend ctx filters d).2.networks)) := by
  refine ⟨(getMatchingEnclaveNetworkInfo_matched E ctx filters d m hm).1,
    fun u info hu => matcher_last_network E ctx filters d m hm u info hu, ?_⟩
  intro hw
  rcases hg : getMatchingEnclaveNetworkInfo E ctx filters d with ⟨res, d1⟩
  rw [hg] at hm
  simp only at hm
  subst hm
  exact DestroyEnclaves_network_removals E backend ctx filters d d1 hw m hg

set_option maxRecDepth 100000 in
/-- C29, witness: in `sampleTwinNetworks` the networks `na1` and `na2` both carry
`enclave-uuid=a`; the matcher stores `na2`, the later one, under `a`, and `DestroyEnclaves`
removes `na2` and `nb` and leaves `na1` in the engine. -/
theorem getMatchingEnclaveNetworkInfo_last_network_witness :
    (getMatchingEnclaveNetworkInfo sampleEnv (.request 1) ⟨[], []⟩ sampleTwinNetworks).1 =
      .ok [("a", ⟨"a", .Empty, ⟨"na2", "net-a-new", enclaveLabels "a"⟩, []⟩),
           ("b", ⟨"b", .Empty, ⟨"nb", "net-b", enclaveLabels "b"⟩, []⟩)] ∧
    (DestroyEnclaves sampleEnv sampleBackend (.request 1) ⟨[], []⟩
      sampleTwinNetworks).2.networks = [⟨"na1", "net-a-old", enclaveLabels "a"⟩] ∧
    (⟨"na1", "net-a-old", enclaveLabels "a"⟩ : Network) ∈
      (DestroyEnclaves sampleEnv sampleBackend (.request 1) ⟨[], []⟩
        sampleTwinNetworks).2.networks :=
  ⟨rfl, rfl,
   ((getMatchingEnclaveNetworkInfo_last_network sampleEnv sampleBackend (.request 1) ⟨[], []⟩
      sampleTwinNetworks _ rfl).2.2 ⟨by decide, by decide, by decide⟩).2
      ⟨"na1", "net-a-old", enclaveLabels "a"⟩ (by decide) (by
        intro u info h
        simp only [GoMap.get?] at h
        by_cases h1 : "a" = u
        · simp only [h1, if_true, Option.some.injEq] at h
          rw [← h]
          simp
        · simp only [h1, if_false] at h
          by_cases h2 : "b" = u
          · simp only [h2, if_true, Option.some.injEq] at h
            rw [← h]
            simp
          · simp [h2] at h)⟩

/-! ## Running `StopEnclaves` again -/

theorem mem_killedContainers {E : Env} {ctx : Ctx} {ids : GoMap String Bool}
    {cs : List Container} {c : Container} :
    c ∈ killedContainers E ctx ids cs ↔ ∃ c0 ∈ cs,
      (c0.id ∈ ids.keys ∧ E.fails ctx (.KillContainer c0.id) = none ∧
        c = { c0 with status := .Exited }) ∨
      (¬ (c0.id ∈ ids.keys ∧ E.fails ctx (.KillContainer c0.id) = none) ∧ c = c0) := by
  unfold killedContainers
  simp only [List.mem_map]
  constructor
  · rintro ⟨c0, hc0, rfl⟩
    refine ⟨c0, hc0, ?_⟩
    by_cases ha : (ids.any fun p => decide (p.1 = c0.id) &&
        (E.fails ctx (Call.KillContainer p.1)).isNone) = true
    · have := (any_ids_iff ids (fun id => E.fails ctx (.KillContainer id)) c0.id).mp ha
      left
      exact ⟨this.1, this.2, by simp only [ha, if_true]⟩
    · right
      refine ⟨?_, by simp only [ha]; rfl⟩
      intro h
      exact ha ((any_ids_iff ids (fun id => E.fails ctx (.KillContainer id)) c0.id).mpr h)
  · rintro ⟨c0, hc0, ⟨h1, h2, rfl⟩ | ⟨h1, rfl⟩⟩
    · refine ⟨c0, hc0, ?_⟩
      have := (any_ids_iff ids (fun id => E.fails ctx (.KillContainer id)) c0.id).mpr ⟨h1, h2⟩
      simp only [this, if_true]
    · refine ⟨c, hc0, ?_⟩
      have : ¬ (ids.any fun p => decide (p.1 = c.id) &&
          (E.fails ctx (Call.KillContainer p.1)).isNone) = true := fun ha =>
        h1 ((any_ids_iff ids (fun id => E.fails ctx (.KillContainer id)) c.id).mp ha)
      simp only [this]
      rfl

theorem killedContainers_fixed (E : Env) (ctx : Ctx) (ids : GoMap String Bool)
    (cs : List Container)
    (h : ∀ c ∈ cs, c.id ∈ ids.keys → c.status = .Exited) :
    killedContainers E ctx ids cs = cs := by
  unfold killedContainers
  conv_rhs => rw [← List.map_id cs]
  apply List.map_congr_left
  intro c hc
  by_cases ha : (ids.any fun p => decide (p.1 = c.id) &&
      (E.fails ctx (Call.KillContainer p.1)).isNone) = true
  · have := (any_ids_iff ids (fun id => E.fails ctx (.KillContainer id)) c.id).mp ha
    have hs := h c hc this.1
    simp only [ha, if_true, id]
    cases c
    simp only at hs
    rw [hs]
  · simp only [ha]
    rfl

theorem classify_known (E : Env) (cs : List Container)
    (h : ∀ c ∈ cs, ∃ b, E.IsContainerRunningDeterminer c.status = some b) :
    ∃ st, classify E cs = .ok st := by
  unfold classify
  by_cases hl : cs.length = 0
  · exact ⟨.Empty, by rw [if_pos hl]⟩
  · rw [if_neg hl]
    clear hl
    induction cs with
    | nil => exact ⟨.Stopped, rfl⟩
    | cons c cs ih =>
      obtain ⟨b, hb⟩ := h c (List.mem_cons_self _ _)
      simp only [getEnclaveStatusAndContainers.loop, hb]
      cases b with
      | true => exact ⟨.Running, rfl⟩
      | false => exact ih (fun x hx => h x (List.mem_cons_of_mem _ hx))

theorem afterKills_wellFormed (E : Env) (ctx : Ctx)
    (m : GoMap EnclaveUUID matchingNetworkInformation) (d d1 : Docker) (hw : d.WellFormed)
    (hl : d.listingOnly d1) : (afterKills E ctx m d1).WellFormed := by
  constructor
  · show (d1.networks.map (fun n => n.id)).Nodup
    rw [listingOnly_networks hl]
    exact hw.networkIds
  · show (d1.volumes.map (fun v => v.Name)).Nodup
    rw [listingOnly_volumes hl]
    exact hw.volumeNames
  · show ((killedContainers E ctx (idSetOf (containerPairs m)) d1.containers).map
      (fun c => c.id)).Nodup
    have h := killedContainers_ids E ctx (idSetOf (containerPairs m)) d1.containers
    have h' := congrArg (List.map (fun t : String × String × Labels => t.1)) h
    simp only [List.map_map] at h'
    have e : ((fun t : String × String × Labels => t.1) ∘
        fun c : Container => (c.id, c.name, c.labels)) = fun c => c.id := rfl
    rw [e] at h'
    rw [h', listingOnly_containers hl]
    exact hw.containerIds

/-- C21 (`StopEnclaves` is idempotent): in a well-formed engine state, let a first run of
`StopEnclaves` with the UUID filter holding `u` return a result with `u` successful and leave
the state `d'`.  In a second run from `d'` with the same filter, in which the listings succeed,
the is-running table has an entry for the exited state and the kill of every exited container
succeeds, `StopEnclaves` returns a result with `u` successful, no other enclave and an empty
errored map, and the networks, the volumes and the containers of the engine are as the first
run left them. -/
theorem StopEnclaves_idempotent (E E2 : Env) (ctx ctx2 : Ctx) (u : EnclaveUUID) (d d' : Docker)
    (hw : d.WellFormed) (succ : GoMap EnclaveUUID Bool) (err : GoMap EnclaveUUID GoError)
    (h1 : StopEnclaves E ctx ⟨[(u, true)], []⟩ d = (.ok (succ, err), d'))
    (hu : u ∈ succ.keys)
    (hlist1 : E2.fails ctx2
      (.GetNetworksByLabels [(AppIDDockerLabelKey, AppIDDockerLabelValue)]) = none)
    (hlist2 : E2.fails ctx2 (.GetContainersByLabels (searchLabelsOf u) true) = none)
    (htable : ∃ b, E2.IsContainerRunningDeterminer .Exited = some b)
    (hkill : ∀ c ∈ d'.containers, c.status = .Exited →
      E2.fails ctx2 (.KillContainer c.id) = none) :
    (∃ succ2, (StopEnclaves E2 ctx2 ⟨[(u, true)], []⟩ d').1 = .ok (succ2, []) ∧
      u ∈ succ2.keys ∧ ∀ u' ∈ succ2.keys, u' = u) ∧
    (StopEnclaves E2 ctx2 ⟨[(u, true)], []⟩ d').2.networks = d'.networks ∧
    (StopEnclaves E2 ctx2 ⟨[(u, true)], []⟩ d').2.volumes = d'.volumes ∧
    (StopEnclaves E2 ctx2 ⟨[(u, true)], []⟩ d').2.containers = d'.containers := by
  rcases hg : getMatchingEnclaveNetworkInfo E ctx ⟨[(u, true)], []⟩ d with ⟨res, d1⟩
  cases res with
  | error e =>
    rw [StopEnclaves_error E ctx _ d d1 e hg] at h1
    cases h1
  | ok m =>
    have hm' : (getMatchingEnclaveNetworkInfo E ctx ⟨[(u, true)], []⟩ d).1 = .ok m := by
      rw [hg]
    have hl1 : d.listingOnly d1 := by
      have := getMatchingEnclaveNetworkInfo_listingOnly E ctx ⟨[(u, true)], []⟩ d
      rw [hg] at this
      exact this
    have hmm := getMatchingEnclaveNetworkInfo_matched E ctx _ d m hm'
    obtain ⟨succ', err', hS, _, hs, _⟩ :=
      StopEnclaves_spec E ctx _ d d1 m hg (containerPairs_functional hw hmm.2)
    rw [hS] at h1
    simp only [Prod.mk.injEq, Except.ok.injEq] at h1
    obtain ⟨⟨rfl, rfl⟩, rfl⟩ := h1
    obtain ⟨hum, hok⟩ := (hs u).mp hu
    obtain ⟨_, hlab, _, _⟩ := (getMatchingEnclaveNetworkInfo_ok_iff E ctx _ d m).mp hm'
    -- the containers of `u` are exited after the first run
    have hex : ∀ c ∈ containersOf (afterKills E ctx m d1) u, c.status = .Exited := by
      intro c hc
      obtain ⟨hcd, happ, huu⟩ := mem_containersOf.mp hc
      obtain ⟨c0, hc0, hcase⟩ := mem_killedContainers.mp hcd
      rcases hcase with ⟨_, _, rfl⟩ | ⟨hnot, rfl⟩
      · rfl
      · exfalso
        apply hnot
        have hcu : c ∈ containersOf d u :=
          mem_containersOf.mpr ⟨by rw [← listingOnly_containers hl1]; exact hc0, happ, huu⟩
        obtain ⟨info, hinfo⟩ := (GoMap.mem_keys_iff _ _).mp hum
        have hin := GoMap.get?_eq_some_mem hinfo
        have hcont := (hmm.2 u info hin).2.2.2.2
        have hpair : (c.id, u) ∈ containerPairs m :=
          mem_containerPairs.mpr ⟨info, hin, c, by rw [hcont]; exact hcu, rfl⟩
        exact ⟨(mem_keys_idSetOf _ _).mpr ⟨u, hpair⟩, hok c.id hpair⟩
    have hw' := afterKills_wellFormed E ctx m d d1 hw hl1
    have hnet' : kurtosisNetworks (afterKills E ctx m d1) = kurtosisNetworks d := by
      unfold kurtosisNetworks
      show d1.networks.filter _ = _
      rw [listingOnly_networks hl1]
    obtain ⟨st2, hst2⟩ := classify_known E2 (containersOf (afterKills E ctx m d1) u)
      (fun c hc => by rw [hex c hc]; exact htable)
    -- the matcher of the second run
    have hm2 : (getMatchingEnclaveNetworkInfo E2 ctx2 ⟨[(u, true)], []⟩
        (afterKills E ctx m d1)).1 = .ok (GoMap.setAll [] (statusPairs E2 ⟨[(u, true)], []⟩
          (afterKills E ctx m d1) (GoMap.setAll [] (uuidPairs ⟨[(u, true)], []⟩
            (kurtosisNetworks (afterKills E ctx m d1)))))) := by
      rw [getMatchingEnclaveNetworkInfo_ok_iff]
      refine ⟨hlist1, by rw [hnet']; exact hlab, ?_, rfl⟩
      intro p hp
      have hpu : p.1 = u := by
        rcases GoMap.mem_setAll hp with hp | hp
        · simp at hp
        · exact (uuidPasses_single u p.1 true []).mp (mem_uuidPairs.mp hp).2.2
      rw [hpu]
      exact ⟨hlist2, st2, hst2⟩
    rcases hg2 : getMatchingEnclaveNetworkInfo E2 ctx2 ⟨[(u, true)], []⟩
      (afterKills E ctx m d1) with ⟨res2, d2⟩
    have hl2 : (afterKills E ctx m d1).listingOnly d2 := by
      have := getMatchingEnclaveNetworkInfo_listingOnly E2 ctx2 ⟨[(u, true)], []⟩
        (afterKills E ctx m d1)
      rw [hg2] at this
      exact this
    rw [hg2] at hm2
    simp only at hm2
    subst hm2
    have hm2' : (getMatchingEnclaveNetworkInfo E2 ctx2 ⟨[(u, true)], []⟩
        (afterKills E ctx m d1)).1 = .ok (GoMap.setAll [] (statusPairs E2 ⟨[(u, true)], []⟩
          (afterKills E ctx m d1) (GoMap.setAll [] (uuidPairs ⟨[(u, true)], []⟩
            (kurtosisNetworks (afterKills E ctx m d1)))))) := by rw [hg2]
    have hmm2 := getMatchingEnclaveNetworkInfo_matched E2 ctx2 _ _ _ hm2'
    obtain ⟨succ2, err2, hS2, _, hs2, he2⟩ :=
      StopEnclaves_spec E2 ctx2 _ _ d2 _ hg2 (containerPairs_functional hw' hmm2.2)
    have hown : ∀ u' id, (id, u') ∈ containerPairs (GoMap.setAll [] (statusPairs E2
        ⟨[(u, true)], []⟩ (afterKills E ctx m d1) (GoMap.setAll [] (uuidPairs ⟨[(u, true)], []⟩
          (kurtosisNetworks (afterKills E ctx m d1)))))) →
        ∃ c ∈ containersOf (afterKills E ctx m d1) u, c.id = id := by
      intro u' id hid
      obtain ⟨info, hin, c, hc, hcid⟩ := mem_containerPairs.mp hid
      have hu' : u' = u := matched_single_filter rfl hin
      subst hu'
      rw [(hmm2.2 u' info hin).2.2.2.2] at hc
      exact ⟨c, hc, hcid⟩
    have hok2 : ∀ u' id, (id, u') ∈ containerPairs (GoMap.setAll [] (statusPairs E2
        ⟨[(u, true)], []⟩ (afterKills E ctx m d1) (GoMap.setAll [] (uuidPairs ⟨[(u, true)], []⟩
          (kurtosisNetworks (afterKills E ctx m d1)))))) →
        E2.fails ctx2 (.KillContainer id) = none := by
      intro u' id hid
      obtain ⟨c, hc, rfl⟩ := hown u' id hid
      exact hkill c (mem_containersOf.mp hc).1 (hex c hc)
    have herr2 : err2 = [] := by
      cases err2 with
      | nil => rfl
      | cons p t =>
        exfalso
        have := (he2 p.1).mp (by simp [GoMap.keys])
        exact this.2 (fun id hid => hok2 p.1 id hid)
    subst herr2
    have hu2m : u ∈ GoMap.keys (GoMap.setAll [] (statusPairs E2
        ⟨[(u, true)], []⟩ (afterKills E ctx m d1) (GoMap.setAll [] (uuidPairs ⟨[(u, true)], []⟩
          (kurtosisNetworks (afterKills E ctx m d1)))))) := by
      obtain ⟨⟨n, hn, hnl⟩, hpass, _⟩ := (mem_keys_matcher E ctx _ d m hm' u).mp hum
      exact (mem_keys_matcher E2 ctx2 _ _ _ hm2' u).mpr
        ⟨⟨n, by rw [hnet']; exact hn, hnl⟩, hpass, hlist2, st2, hst2, statusPasses_empty _ _⟩
    rw [hS2]
    refine ⟨⟨succ2, rfl, (hs2 u).mpr ⟨hu2m, fun id hid => hok2 u id hid⟩, ?_⟩, ?_, ?_, ?_⟩
    · intro u' hu'
      obtain ⟨info, hinfo⟩ := (GoMap.mem_keys_iff _ _).mp ((hs2 u').mp hu').1
      exact matched_single_filter rfl (GoMap.get?_eq_some_mem hinfo)
    · show d2.networks = _
      exact listingOnly_networks hl2
    · show d2.volumes = _
      exact listingOnly_volumes hl2
    · show killedContainers E2 ctx2 _ d2.containers = _
      rw [listingOnly_containers hl2]
      apply killedContainers_fixed
      intro c hc hid
      obtain ⟨u', hu'⟩ := (mem_keys_idSetOf _ _).mp hid
      obtain ⟨c', hc', hcid⟩ := hown u' c.id hu'
      have : c' = c :=
        eq_of_mem_of_id_eq hw'.containerIds (mem_containersOf.mp hc').1 hc hcid
      rw [← this]
      exact hex c' hc'

set_option maxRecDepth 100000 in
/-- C21, witness: stopping the enclave `a` of `sampleDocker` twice gives `a` successful both
times, and the second run leaves the engine as the first left it. -/
theorem StopEnclaves_idempotent_witness :
    (StopEnclaves sampleEnv (.request 1) ⟨[("a", true)], []⟩ sampleDocker).1 =
      .ok ([("a", true)], []) ∧
    (∃ succ2, (StopEnclaves sampleEnv (.request 2) ⟨[("a", true)], []⟩
        (StopEnclaves sampleEnv (.request 1) ⟨[("a", true)], []⟩ sampleDocker).2).1 =
          .ok (succ2, []) ∧
      "a" ∈ succ2.keys ∧ ∀ u' ∈ succ2.keys, u' = "a") ∧
    (StopEnclaves sampleEnv (.request 2) ⟨[("a", true)], []⟩
      (StopEnclaves sampleEnv (.request 1) ⟨[("a", true)], []⟩ sampleDocker).2).2.containers =
      (StopEnclaves sampleEnv (.request 1) ⟨[("a", true)], []⟩ sampleDocker).2.containers :=
  ⟨rfl,
   (StopEnclaves_idempotent sampleEnv sampleEnv (.request 1) (.request 2) "a" sampleDocker _
      sampleDocker_wellFormed [("a", true)] [] rfl (by decide) rfl rfl ⟨false, rfl⟩
      (fun _ _ _ => rfl)).1,
   (StopEnclaves_idempotent sampleEnv sampleEnv (.request 1) (.request 2) "a" sampleDocker _
      sampleDocker_wellFormed [("a", true)] [] rfl (by decide) rfl rfl ⟨false, rfl⟩
      (fun _ _ _ => rfl)).2.2.2⟩

/-! ## The CLI commands -/

/-- C28 (the `id` flag stands in for an absent `name`): for every pair of values `id` and
`name` of the two flags, every `CreateEnclave` request the command `enclave add` sends carries
the enclave name `id` when `id` is non-empty and `name` is empty, and `name` in every other
case; and when the other flags are read and the engine client is started, the command sends
exactly such a request, built from the flag values. -/
theorem add_run_enclave_name (env : add.Collaborators) (flags : add.ParsedFlags)
    (id name : String)
    (hid : flags.GetString add.enclaveIdFlagKey = .ok id)
    (hname : flags.GetString add.enclaveNameFlagKey = .ok name) :
    (∀ args, add.Effect.CreateEnclave args ∈ (add.run env flags).2 →
      args.EnclaveName = if id ≠ "" ∧ name = "" then id else name) ∧
    (∀ version level partitioning,
      flags.GetString add.apiContainerVersionFlagKey = .ok version →
      flags.GetBool add.isSubnetworksEnabledFlagKey = .ok partitioning →
      flags.GetString add.apiContainerLogLevelFlagKey = .ok level →
      env.NewEngineManager = none → env.StartEngineIdempotentlyWithDefaultVersion = none →
      add.Effect.CreateEnclave
        ⟨if id ≠ "" ∧ name = "" then id else name, version, level, partitioning⟩ ∈
          (add.run env flags).2) := by
  constructor
  · intro args hmem
    unfold add.run at hmem
    cases h1 : flags.GetString add.apiContainerVersionFlagKey with
    | error e => simp [h1] at hmem
    | ok version =>
    cases h2 : flags.GetBool add.isSubnetworksEnabledFlagKey with
    | error e => simp [h1, h2] at hmem
    | ok partitioning =>
    cases h3 : flags.GetString add.apiContainerLogLevelFlagKey with
    | error e => simp [h1, h2, h3] at hmem
    | ok level =>
    cases h4 : env.NewEngineManager with
    | some e => simp [h1, h2, h3, hid, hname, h4] at hmem
    | none =>
    cases h5 : env.StartEngineIdempotentlyWithDefaultVersion with
    | some e => simp [h1, h2, h3, hid, hname, h4, h5] at hmem
    | none =>
    simp only [h1, h2, h3, hid, hname, h4, h5, add.autogenerateEnclaveIdKeyword,
      add.autogenerateEnclaveNameKeyword] at hmem
    have hclose : add.Effect.CreateEnclave args ∉ add.run.deferredClose env := by
      unfold add.run.deferredClose
      cases env.closeClientFunc <;> simp
    have htrack : ∀ n, add.Effect.CreateEnclave args ∉
        (match env.TrackCreateEnclave n with
          | some _ => [add.Effect.TrackCreateEnclave n,
              add.Effect.Log "warn" "An error occurred while logging the create enclave event"]
          | none => [add.Effect.TrackCreateEnclave n]) := by
      intro n
      cases env.TrackCreateEnclave n <;> simp
    cases h6 : env.CreateEnclave ⟨if id ≠ "" ∧ name = "" then id else name, version, level,
        partitioning⟩ with
    | error e =>
      rw [h6] at hmem
      simp only [List.mem_append, List.mem_singleton, List.mem_cons, List.not_mem_nil,
        or_false, add.Effect.CreateEnclave.injEq, reduceCtorEq, false_or] at hmem
      rcases hmem with (hmem | hmem) | hmem
      · exact absurd hmem (htrack _)
      · rw [hmem]
      · exact absurd hmem hclose
    | ok n =>
      rw [h6] at hmem
      simp only [List.mem_append, List.mem_singleton, List.mem_cons, List.not_mem_nil,
        or_false, add.Effect.CreateEnclave.injEq, reduceCtorEq, false_or] at hmem
      rcases hmem with (hmem | hmem) | hmem
      · exact absurd hmem (htrack _)
      · rw [hmem]
      · exact absurd hmem hclose
  · intro version level partitioning h1 h2 h3 h4 h5
    unfold add.run
    simp only [h1, h2, h3, hid, hname, h4, h5, add.autogenerateEnclaveIdKeyword,
      add.autogenerateEnclaveNameKeyword]
    cases h6 : env.CreateEnclave ⟨if id ≠ "" ∧ name = "" then id else name, version, level,
        partitioning⟩ with
    | error e => simp
    | ok n => simp

set_option maxRecDepth 100000 in
/-- C28, witness: with `--id old` and no name the request names the enclave `old`, and with
`--id old --name new` it names it `new`. -/
theorem add_run_enclave_name_witness :
    add.Effect.CreateEnclave ⟨"old", "", "debug", false⟩ ∈
      (add.run add.sampleCollaborators (add.sampleFlags "old" "")).2 ∧
    add.Effect.CreateEnclave ⟨"new", "", "debug", false⟩ ∈
      (add.run add.sampleCollaborators (add.sampleFlags "old" "new")).2 :=
  ⟨(add_run_enclave_name add.sampleCollaborators (add.sampleFlags "old" "") "old" "" rfl
      rfl).2 "" "debug" false rfl rfl rfl rfl rfl,
   (add_run_enclave_name add.sampleCollaborators (add.sampleFlags "old" "new") "old" "new" rfl
      rfl).2 "" "debug" false rfl rfl rfl rfl rfl⟩

theorem renderTemplateStarlarkCommand_call {Data : Type}
    (jsonMarshal : Data → Except GoError String)
    (run : rendertemplate.StarlarkCall → rendertemplate.StarlarkRunResult × Option GoError)
    (dest tmpl : String) (data : Data) (name bytes : String)
    (h : jsonMarshal data = .ok bytes) :
    (rendertemplate.renderTemplateStarlarkCommand jsonMarshal run dest tmpl data name).2 =
      some ⟨if name = rendertemplate.defaultName
          then rendertemplate.starlarkTemplateWithoutArtifactName
          else rendertemplate.starlarkTemplateWithArtifactName,
        "\x7b\"file_name\": \"" ++ dest ++ "\", \"template\": \"" ++ tmpl ++
          "\", \"template_data\": " ++ bytes ++ ", \"name\": \"" ++ name ++ "\"\x7d",
        rendertemplate.doNotDryRun, rendertemplate.noParallelism⟩ := by
  unfold rendertemplate.renderTemplateStarlarkCommand
  simp only [h]
  rcases run _ with ⟨r, e⟩
  simp only
  cases r.ExecutionError with
  | some msg => rfl
  | none =>
    cases r.InterpretationError with
    | some msg => rfl
    | none =>
      simp only
      by_cases hv : r.ValidationErrors.length > 0
      · rw [if_pos hv]
      · rw [if_neg hv]

/-- C30: the parameters string of `renderTemplateStarlarkCommand` is the four arguments spliced
into a JSON text without escaping.  For every serializer, Starlark run and template data that
serializes, no function of the parameters string gives back the destination path, the
template contents and the artifact name of every call: the path `f` with a template holding
`", "template": "` and a path holding that text with the rest as template give the same string.
The script without the name argument is used exactly when the artifact name is empty. -/
theorem renderTemplateStarlarkCommand_params_ambiguous {Data : Type}
    (jsonMarshal : Data → Except GoError String)
    (run : rendertemplate.StarlarkCall → rendertemplate.StarlarkRunResult × Option GoError)
    (data : Data) (bytes : String) (h : jsonMarshal data = .ok bytes) :
    (¬ ∃ decode : String → String × String × String, ∀ dest tmpl name call,
      (rendertemplate.renderTemplateStarlarkCommand jsonMarshal run dest tmpl data name).2 =
        some call → decode call.params = (dest, tmpl, name)) ∧
    (∀ dest tmpl name, ∃ call,
      (rendertemplate.renderTemplateStarlarkCommand jsonMarshal run dest tmpl data name).2 =
        some call ∧
      call.params = "\x7b\"file_name\": \"" ++ dest ++ "\", \"template\": \"" ++ tmpl ++
          "\", \"template_data\": " ++ bytes ++ ", \"name\": \"" ++ name ++ "\"\x7d" ∧
      (call.script = rendertemplate.starlarkTemplateWithoutArtifactName ↔ name = "")) := by
  constructor
  · rintro ⟨decode, hdec⟩
    have hA := hdec "f" ("t" ++ "\", \"template\": \"" ++ "u") "n" _
      (renderTemplateStarlarkCommand_call jsonMarshal run _ _ data _ bytes h)
    have hB := hdec ("f" ++ "\", \"template\": \"" ++ "t") "u" "n" _
      (renderTemplateStarlarkCommand_call jsonMarshal run _ _ data _ bytes h)
    simp only [String.append_assoc] at hA hB
    rw [hA] at hB
    have := congrArg Prod.fst hB
    simp only at this
    revert this
    decide
  · intro dest tmpl name
    refine ⟨_, renderTemplateStarlarkCommand_call jsonMarshal run dest tmpl data name bytes h,
      rfl, ?_⟩
    simp only [rendertemplate.defaultName]
    by_cases hn : name = ""
    · simp [hn]
    · simp only [hn, if_false, iff_false]
      decide

set_option maxRecDepth 100000 in
/-- C30, witness: for the template `say "hi"` the parameters string closes the string of the
`template` field before `hi`. -/
theorem renderTemplateStarlarkCommand_params_ambiguous_witness :
    (rendertemplate.renderTemplateStarlarkCommand rendertemplate.sampleMarshal
      rendertemplate.sampleRun "out.txt" "say \"hi\"" "\x7b\x7d" "art").2 =
      some ⟨rendertemplate.starlarkTemplateWithArtifactName,
        "\x7b\"file_name\": \"out.txt\", \"template\": \"say \"hi\"\", " ++
          "\"template_data\": \x7b\x7d, \"name\": \"art\"\x7d", false, 1⟩ ∧
    ¬ ∃ decode : String → String × String × String, ∀ dest tmpl name call,
      (rendertemplate.renderTemplateStarlarkCommand rendertemplate.sampleMarshal
        rendertemplate.sampleRun dest tmpl "\x7b\x7d" name).2 = some call →
      decode call.params = (dest, tmpl, name) :=
  ⟨by decide, (renderTemplateStarlarkCommand_params_ambiguous rendertemplate.sampleMarshal
    rendertemplate.sampleRun "\x7b\x7d" "\x7b\x7d" rfl).1⟩

/-! ## The dump of one container -/

theorem GoMap.set_set {K V : Type} [DecidableEq K] (m : GoMap K V) (k : K) (v v' : V) :
    (m.set k v).set k v' = m.set k v' := by
  induction m with
  | nil => simp [GoMap.set]
  | cons p m ih =>
    obtain ⟨a, b⟩ := p
    by_cases h : a = k
    · simp [GoMap.set, h]
    · simp [GoMap.set, h, ih]

theorem GoMap.set_get?_self {K V : Type} [DecidableEq K] (m : GoMap K V) (k : K) (v : V)
    (h : m.get? k = some v) : m.set k v = m := by
  induction m with
  | nil => simp [GoMap.get?] at h
  | cons p m ih =>
    obtain ⟨a, b⟩ := p
    by_cases hk : a = k
    · simp only [GoMap.get?, hk, if_true, Option.some.injEq] at h
      simp [GoMap.set, hk, h]
    · simp only [GoMap.get?, hk, if_false] at h
      simp [GoMap.set, hk, ih h]

theorem FileSystem.write_file (fs : FileSystem) (p : Path) (c data : Bytes)
    (h : fs.get? p = some (.file c)) : fs.write p data = GoMap.set fs p (.file (c ++ data)) := by
  simp only [FileSystem.write, h]

/-- The loop of `StdCopy` with both destinations the open file `p`: whatever it returns, the
file holds what it held followed by the payloads of the frames. -/
theorem StdCopy_loop_same (p : Path) (fuel : Nat) (src : Bytes) (fs : FileSystem) (c : Bytes)
    (h : fs.get? p = some (.file c)) :
    (stdcopy.StdCopy.loop p p fuel src fs).2 =
      GoMap.set fs p (.file (c ++ demuxPayloads fuel src)) := by
  induction fuel generalizing src fs c with
  | zero =>
    simp only [stdcopy.StdCopy.loop, demuxPayloads, List.append_nil]
    exact (GoMap.set_get?_self fs p _ h).symm
  | succ fuel ih =>
    have hself : fs = GoMap.set fs p (.file (c ++ [])) := by
      rw [List.append_nil]
      exact (GoMap.set_get?_self fs p _ h).symm
    match src with
    | [] => simpa [stdcopy.StdCopy.loop, demuxPayloads] using hself
    | [_] => simpa [stdcopy.StdCopy.loop, demuxPayloads] using hself
    | [_, _] => simpa [stdcopy.StdCopy.loop, demuxPayloads] using hself
    | [_, _, _] => simpa [stdcopy.StdCopy.loop, demuxPayloads] using hself
    | [_, _, _, _] => simpa [stdcopy.StdCopy.loop, demuxPayloads] using hself
    | [_, _, _, _, _] => simpa [stdcopy.StdCopy.loop, demuxPayloads] using hself
    | [_, _, _, _, _, _] => simpa [stdcopy.StdCopy.loop, demuxPayloads] using hself
    | [_, _, _, _, _, _, _] => simpa [stdcopy.StdCopy.loop, demuxPayloads] using hself
    | fd :: _ :: _ :: _ :: b4 :: b5 :: b6 :: b7 :: rest =>
      simp only [stdcopy.StdCopy.loop, demuxPayloads]
      by_cases h1 : fd > 3
      · simp only [h1, if_true]
        exact hself
      · simp only [h1, if_false]
        by_cases h2 : rest.length < frameSize b4 b5 b6 b7
        · simp only [h2, if_true]
          exact hself
        · simp only [h2, if_false]
          by_cases h3 : fd = 3
          · simp only [h3, if_true]
            exact hself
          · simp only [h3, if_false, ite_self]
            rw [FileSystem.write_file fs p c _ h]
            rw [ih _ _ (c ++ rest.take (frameSize b4 b5 b6 b7))
              (by rw [GoMap.get?_set]; simp), GoMap.set_set, List.append_assoc]

theorem osMkdir_ok (H : HostEnv) (p : Path) (perm : Nat) (h : Host)
    (hok : (osMkdir H p perm h).1 = none) :
    h.files.get? p = none ∧ h.files.get? p.dropLast = some .dir ∧
    (osMkdir H p perm h).2 =
      { docker := h.docker, files := GoMap.set h.files p .dir,
        trace := h.trace ++ [⟨.Mkdir p perm, none⟩] } := by
  unfold osMkdir at hok ⊢
  cases hf : H.hostFails (.Mkdir p perm) with
  | some msg => simp [hf] at hok
  | none =>
    simp only [hf] at hok ⊢
    by_cases h1 : (h.files.get? p).isSome = true
    · rw [if_pos h1] at hok
      cases hok
    · rw [if_neg h1] at hok ⊢
      by_cases h2 : h.files.get? p.dropLast ≠ some .dir
      · rw [if_pos h2] at hok
        cases hok
      · rw [if_neg h2]
        refine ⟨by simpa using h1, by simpa using h2, rfl⟩

theorem osMkdir_trace (H : HostEnv) (p : Path) (perm : Nat) (h : Host) :
    ∃ r, (osMkdir H p perm h).2.trace = h.trace ++ [⟨.Mkdir p perm, r⟩] := by
  unfold osMkdir
  cases hf : H.hostFails (.Mkdir p perm) with
  | some msg => exact ⟨_, rfl⟩
  | none =>
    simp only
    by_cases h1 : (h.files.get? p).isSome = true
    · rw [if_pos h1]
      exact ⟨_, rfl⟩
    · rw [if_neg h1]
      by_cases h2 : h.files.get? p.dropLast ≠ some .dir
      · rw [if_pos h2]
        exact ⟨_, rfl⟩
      · rw [if_neg h2]
        exact ⟨_, rfl⟩

theorem ioutilWriteFile_ok (H : HostEnv) (p : Path) (data : Bytes) (perm : Nat) (h : Host)
    (hok : (ioutilWriteFile H p data perm h).1 = none) :
    (ioutilWriteFile H p data perm h).2 =
      { docker := h.docker, files := GoMap.set h.files p (.file data),
        trace := h.trace ++ [⟨.WriteFile p perm, none⟩] } := by
  unfold ioutilWriteFile at hok ⊢
  cases hf : H.hostFails (.WriteFile p perm) with
  | some msg => simp [hf] at hok
  | none =>
    simp only [hf] at hok ⊢
    by_cases h1 : h.files.get? p = some .dir
    · rw [if_pos h1] at hok
      cases hok
    · rw [if_neg h1] at hok ⊢
      by_cases h2 : h.files.get? p.dropLast ≠ some .dir
      · rw [if_pos h2] at hok
        cases hok
      · rw [if_neg h2]
        rfl

theorem ioutilWriteFile_trace (H : HostEnv) (p : Path) (data : Bytes) (perm : Nat) (h : Host) :
    ∃ evs, (ioutilWriteFile H p data perm h).2.trace = h.trace ++ evs := by
  unfold ioutilWriteFile
  cases hf : H.hostFails (.WriteFile p perm) with
  | some msg => exact ⟨_, rfl⟩
  | none =>
    simp only
    by_cases h1 : h.files.get? p = some .dir
    · rw [if_pos h1]
      exact ⟨_, rfl⟩
    · rw [if_neg h1]
      by_cases h2 : h.files.get? p.dropLast ≠ some .dir
      · rw [if_pos h2]
        exact ⟨_, rfl⟩
      · rw [if_neg h2]
        exact ⟨_, rfl⟩

theorem osCreate_ok (H : HostEnv) (p q : Path) (h : Host)
    (hok : (osCreate H p h).1 = .ok q) :
    q = p ∧ (osCreate H p h).2 =
      { docker := h.docker, files := GoMap.set h.files p (.file []),
        trace := h.trace ++ [⟨.Create p, none⟩] } := by
  unfold osCreate at hok ⊢
  cases hf : H.hostFails (.Create p) with
  | some msg => simp [hf] at hok
  | none =>
    simp only [hf] at hok ⊢
    by_cases h1 : h.files.get? p = some .dir
    · rw [if_pos h1] at hok
      cases hok
    · rw [if_neg h1] at hok ⊢
      by_cases h2 : h.files.get? p.dropLast ≠ some .dir
      · rw [if_pos h2] at hok
        cases hok
      · rw [if_neg h2] at hok ⊢
        exact ⟨(Except.ok.inj hok).symm, rfl⟩

theorem osCreate_trace (H : HostEnv) (p : Path) (h : Host) :
    ∃ evs, (osCreate H p h).2.trace = h.trace ++ evs := by
  unfold osCreate
  cases hf : H.hostFails (.Create p) with
  | some msg => exact ⟨_, rfl⟩
  | none =>
    simp only
    by_cases h1 : h.files.get? p = some .dir
    · rw [if_pos h1]
      exact ⟨_, rfl⟩
    · rw [if_neg h1]
      by_cases h2 : h.files.get? p.dropLast ≠ some .dir
      · rw [if_pos h2]
        exact ⟨_, rfl⟩
      · rw [if_neg h2]
        exact ⟨_, rfl⟩

theorem ioCopy_ok (H : HostEnv) (p : Path) (src : Bytes) (h : Host)
    (hok : (ioCopy H p src h).1 = none) :
    (ioCopy H p src h).2 =
      { docker := h.docker, files := h.files.write p src,
        trace := h.trace ++ [⟨.Copy p, none⟩] } := by
  unfold ioCopy at hok ⊢
  cases hf : H.hostFails (.Copy p) with
  | some msg => simp [hf] at hok
  | none => rfl

theorem ioCopy_trace (H : HostEnv) (p : Path) (src : Bytes) (h : Host) :
    ∃ evs, (ioCopy H p src h).2.trace = h.trace ++ evs := by
  unfold ioCopy
  cases hf : H.hostFails (.Copy p) <;> exact ⟨_, rfl⟩

theorem StdCopy_ok (H : HostEnv) (p : Path) (src : Bytes) (h : Host) (c : Bytes)
    (hc : h.files.get? p = some (.file c))
    (hok : (stdcopy.StdCopy H p p src h).1 = none) :
    (stdcopy.StdCopy H p p src h).2 =
      { docker := h.docker,
        files := GoMap.set h.files p (.file (c ++ demuxPayloads (src.length + 1) src)),
        trace := h.trace ++ [⟨.StdCopy p p, none⟩] } := by
  unfold stdcopy.StdCopy at hok ⊢
  cases hf : H.hostFails (.StdCopy p p) with
  | some msg => simp [hf] at hok
  | none =>
    simp only [hf] at hok ⊢
    have hl := StdCopy_loop_same p (src.length + 1) src h.files c hc
    rcases hr : stdcopy.StdCopy.loop p p (src.length + 1) src h.files with ⟨r, fs⟩
    rw [hr] at hl hok
    simp only at hl
    cases r with
    | some msg => simp at hok
    | none =>
      simp only [Host.emit, hl]

theorem StdCopy_trace (H : HostEnv) (p q : Path) (src : Bytes) (h : Host) :
    ∃ evs, (stdcopy.StdCopy H p q src h).2.trace = h.trace ++ evs := by
  unfold stdcopy.StdCopy
  cases hf : H.hostFails (.StdCopy p q) with
  | some msg => exact ⟨_, rfl⟩
  | none =>
    simp only
    rcases stdcopy.StdCopy.loop p q (src.length + 1) src h.files with ⟨r, fs⟩
    cases r <;> exact ⟨_, rfl⟩

theorem InspectContainer_ok (H : HostEnv) (ctx : Ctx) (id : String) (h : Host)
    (r : ContainerJSON) (hok : (DockerManager.InspectContainer H ctx id h).1 = .ok r) :
    r = H.InspectContainer id ∧ (DockerManager.InspectContainer H ctx id h).2 =
      { docker := h.docker, files := h.files,
        trace := h.trace ++ [⟨.InspectContainer ctx id, none⟩] } := by
  unfold DockerManager.InspectContainer at hok ⊢
  cases hf : H.hostFails (.InspectContainer ctx id) with
  | some msg => simp [hf] at hok
  | none =>
    simp only [hf, Except.ok.injEq] at hok ⊢
    exact ⟨hok.symm, rfl⟩

theorem InspectContainer_trace (H : HostEnv) (ctx : Ctx) (id : String) (h : Host) :
    ∃ evs, (DockerManager.InspectContainer H ctx id h).2.trace = h.trace ++ evs := by
  unfold DockerManager.InspectContainer
  cases hf : H.hostFails (.InspectContainer ctx id) <;> exact ⟨_, rfl⟩

theorem GetContainerLogs_ok (H : HostEnv) (ctx : Ctx) (id : String) (b : Bool) (h : Host)
    (r : Bytes) (hok : (DockerManager.GetContainerLogs H ctx id b h).1 = .ok r) :
    r = H.GetContainerLogs id ∧ (DockerManager.GetContainerLogs H ctx id b h).2 =
      { docker := h.docker, files := h.files,
        trace := h.trace ++ [⟨.GetContainerLogs ctx id b, none⟩] } := by
  unfold DockerManager.GetContainerLogs at hok ⊢
  cases hf : H.hostFails (.GetContainerLogs ctx id b) with
  | some msg => simp [hf] at hok
  | none =>
    simp only [hf, Except.ok.injEq] at hok ⊢
    exact ⟨hok.symm, rfl⟩

theorem GetContainerLogs_trace (H : HostEnv) (ctx : Ctx) (id : String) (b : Bool) (h : Host) :
    ∃ evs, (DockerManager.GetContainerLogs H ctx id b h).2.trace = h.trace ++ evs := by
  unfold DockerManager.GetContainerLogs
  cases hf : H.hostFails (.GetContainerLogs ctx id b) <;> exact ⟨_, rfl⟩

/-- A dump of one container that returns no error: the directory of the container was not
there, the output directory was, and the dump created the directory and the two files. -/
theorem dumpContainerInfo_ok (H : HostEnv) (ctx : Ctx) (out : Path) (name id : String)
    (h : Host) (hok : (dumpContainerInfo H ctx out name id h).1 = none) :
    h.files.get? (pathJoin out name) = none ∧ h.files.get? out = some .dir ∧
    (∃ spec, H.jsonMarshalIndent (H.InspectContainer id) containerSpecJsonSerializationPrefix
      containerSpecJsonSerializationIndent = .ok spec) ∧
    (dumpContainerInfo H ctx out name id h).2.docker = h.docker ∧
    (dumpContainerInfo H ctx out name id h).2.files =
      GoMap.setAll h.files (dumpedFiles out name (specBytes H id) (decodedLogs H id)) := by
  rcases h1 : osMkdir H (pathJoin out name) createdDirPerms h with ⟨r1, s1⟩
  have k1 := osMkdir_ok H (pathJoin out name) createdDirPerms h
  rw [h1] at k1
  simp only [dumpContainerInfo, h1] at hok ⊢
  cases r1 with
  | some e => simp at hok
  | none =>
  obtain ⟨hfresh, hparent, rfl⟩ := k1 rfl
  have hparent' : h.files.get? out = some .dir := by
    simpa [pathJoin] using hparent
  simp only at hok ⊢
  rcases h2 : DockerManager.InspectContainer H ctx id
    { docker := h.docker, files := GoMap.set h.files (pathJoin out name) .dir,
      trace := h.trace ++ [⟨.Mkdir (pathJoin out name) createdDirPerms, none⟩] } with ⟨r2, s2⟩
  have k2 := InspectContainer_ok H ctx id
    { docker := h.docker, files := GoMap.set h.files (pathJoin out name) .dir,
      trace := h.trace ++ [⟨.Mkdir (pathJoin out name) createdDirPerms, none⟩] }
  rw [h2] at k2 hok
  cases r2 with
  | error e => simp at hok
  | ok insp =>
  obtain ⟨rfl, rfl⟩ := k2 _ rfl
  simp only at hok ⊢
  cases h3 : H.jsonMarshalIndent (H.InspectContainer id) containerSpecJsonSerializationPrefix
      containerSpecJsonSerializationIndent with
  | error e =>
    rw [h3] at hok
    simp at hok
  | ok spec =>
  have hspec : specBytes H id = spec := by simp [specBytes, h3]
  rw [h3] at hok
  simp only at hok ⊢
  rcases h4 : ioutilWriteFile H (pathJoin (pathJoin out name) containerInspectResultFilename)
    spec createdFilePerms
    { docker := h.docker, files := GoMap.set h.files (pathJoin out name) .dir,
      trace := h.trace ++ [⟨.Mkdir (pathJoin out name) createdDirPerms, none⟩] ++
        [⟨.InspectContainer ctx id, none⟩] } with ⟨r4, s4⟩
  have k4 := ioutilWriteFile_ok H (pathJoin (pathJoin out name) containerInspectResultFilename)
    spec createdFilePerms
    { docker := h.docker, files := GoMap.set h.files (pathJoin out name) .dir,
      trace := h.trace ++ [⟨.Mkdir (pathJoin out name) createdDirPerms, none⟩] ++
        [⟨.InspectContainer ctx id, none⟩] }
  rw [h4] at k4 hok
  cases r4 with
  | some e => simp at hok
  | none =>
  have := k4 rfl
  simp only at this
  subst this
  simp only at hok ⊢
  rcases h5 : DockerManager.GetContainerLogs H ctx id shouldFollowContainerLogsWhenDumping
    { docker := h.docker,
      files := GoMap.set (GoMap.set h.files (pathJoin out name) .dir)
        (pathJoin (pathJoin out name) containerInspectResultFilename) (.file spec),
      trace := h.trace ++ [⟨.Mkdir (pathJoin out name) createdDirPerms, none⟩] ++
        [⟨.InspectContainer ctx id, none⟩] ++
        [⟨.WriteFile (pathJoin (pathJoin out name) containerInspectResultFilename)
          createdFilePerms, none⟩] } with ⟨r5, s5⟩
  have k5 := GetContainerLogs_ok H ctx id shouldFollowContainerLogsWhenDumping
    { docker := h.docker,
      files := GoMap.set (GoMap.set h.files (pathJoin out name) .dir)
        (pathJoin (pathJoin out name) containerInspectResultFilename) (.file spec),
      trace := h.trace ++ [⟨.Mkdir (pathJoin out name) createdDirPerms, none⟩] ++
        [⟨.InspectContainer ctx id, none⟩] ++
        [⟨.WriteFile (pathJoin (pathJoin out name) containerInspectResultFilename)
          createdFilePerms, none⟩] }
  rw [h5] at k5 hok
  cases r5 with
  | error e => simp at hok
  | ok logs =>
  obtain ⟨rfl, rfl⟩ := k5 _ rfl
  simp only at hok ⊢
  rcases h6 : osCreate H (pathJoin (pathJoin out name) containerLogsFilename)
    { docker := h.docker,
      files := GoMap.set (GoMap.set h.files (pathJoin out name) .dir)
        (pathJoin (pathJoin out name) containerInspectResultFilename) (.file spec),
      trace := h.trace ++ [⟨.Mkdir (pathJoin out name) createdDirPerms, none⟩] ++
        [⟨.InspectContainer ctx id, none⟩] ++
        [⟨.WriteFile (pathJoin (pathJoin out name) containerInspectResultFilename)
          createdFilePerms, none⟩] ++
        [⟨.GetContainerLogs ctx id shouldFollowContainerLogsWhenDumping, none⟩] } with ⟨r6, s6⟩
  have k6 := osCreate_ok H (pathJoin (pathJoin out name) containerLogsFilename)
  rw [h6] at hok
  cases r6 with
  | error e => simp at hok
  | ok fp =>
  obtain ⟨rfl, k6'⟩ := k6 fp _ (by rw [h6])
  rw [h6] at k6'
  simp only at k6'
  subst k6'
  simp only at hok ⊢
  have hfile : GoMap.get? (GoMap.set (GoMap.set (GoMap.set h.files (pathJoin out name) .dir)
      (pathJoin (pathJoin out name) containerInspectResultFilename) (.file spec))
      (pathJoin (pathJoin out name) containerLogsFilename) (.file []))
      (pathJoin (pathJoin out name) containerLogsFilename) = some (.file []) := by
    rw [GoMap.get?_set]
    simp
  refine ⟨hfresh, hparent', ⟨spec, rfl⟩, ?_, ?_⟩
  · by_cases htty : (H.InspectContainer id).Tty = true
    · simp only [htty, if_true] at hok ⊢
      rcases h7 : ioCopy H (pathJoin (pathJoin out name) containerLogsFilename)
        (H.GetContainerLogs id) _ with ⟨r7, s7⟩
      have k7 := ioCopy_ok H (pathJoin (pathJoin out name) containerLogsFilename)
        (H.GetContainerLogs id)
      rw [h7] at hok
      cases r7 with
      | some e => simp at hok
      | none =>
        have := k7 _ (by rw [h7])
        rw [h7] at this
        simp only at this
        subst this
        rfl
    · simp only [htty] at hok ⊢
      rcases h7 : stdcopy.StdCopy H (pathJoin (pathJoin out name) containerLogsFilename)
        (pathJoin (pathJoin out name) containerLogsFilename)
        (H.GetContainerLogs id) _ with ⟨r7, s7⟩
      have k7 := StdCopy_ok H (pathJoin (pathJoin out name) containerLogsFilename)
        (H.GetContainerLogs id)
      rw [h7] at hok
      cases r7 with
      | some e => simp at hok
      | none =>
        have := k7 _ [] hfile (by rw [h7])
        rw [h7] at this
        simp only at this
        subst this
        rfl
  · by_cases htty : (H.InspectContainer id).Tty = true
    · simp only [htty, if_true] at hok ⊢
      rcases h7 : ioCopy H (pathJoin (pathJoin out name) containerLogsFilename)
        (H.GetContainerLogs id) _ with ⟨r7, s7⟩
      have k7 := ioCopy_ok H (pathJoin (pathJoin out name) containerLogsFilename)
        (H.GetContainerLogs id)
      rw [h7] at hok
      cases r7 with
      | some e => simp at hok
      | none =>
        have := k7 _ (by rw [h7])
        rw [h7] at this
        simp only at this
        subst this
        simp only [FileSystem.write_file _ _ _ _ hfile, GoMap.set_set, List.nil_append, hspec,
          decodedLogs, htty, if_true]
        rfl
    · simp only [htty] at hok ⊢
      rcases h7 : stdcopy.StdCopy H (pathJoin (pathJoin out name) containerLogsFilename)
        (pathJoin (pathJoin out name) containerLogsFilename)
        (H.GetContainerLogs id) _ with ⟨r7, s7⟩
      have k7 := StdCopy_ok H (pathJoin (pathJoin out name) containerLogsFilename)
        (H.GetContainerLogs id)
      rw [h7] at hok
      cases r7 with
      | some e => simp at hok
      | none =>
        have := k7 _ [] hfile (by rw [h7])
        rw [h7] at this
        simp only at this
        subst this
        simp only [GoMap.set_set, List.nil_append, hspec, decodedLogs, htty]
        rfl

theorem trace_step {a b c e1 e2 : List HostEvent} {x : HostEvent}
    (h1 : b = a ++ x :: e1) (h2 : c = b ++ e2) : c = a ++ x :: (e1 ++ e2) := by
  rw [h2, h1]
  simp

/-- Every dump of one container starts with the creation of the directory of the container,
whatever it returns. -/
theorem dumpContainerInfo_trace (H : HostEnv) (ctx : Ctx) (out : Path) (name id : String)
    (h : Host) :
    ∃ r evs, (dumpContainerInfo H ctx out name id h).2.trace =
      h.trace ++ ⟨.Mkdir (pathJoin out name) createdDirPerms, r⟩ :: evs := by
  simp only [dumpContainerInfo]
  obtain ⟨r, t1⟩ := osMkdir_trace H (pathJoin out name) createdDirPerms h
  have t1' : (osMkdir H (pathJoin out name) createdDirPerms h).2.trace =
      h.trace ++ ⟨.Mkdir (pathJoin out name) createdDirPerms, r⟩ :: [] := t1
  refine ⟨r, ?_⟩
  rcases hm1 : osMkdir H (pathJoin out name) createdDirPerms h with ⟨r1, s1⟩
  rw [hm1] at t1'
  simp only at t1'
  cases r1 with
  | some e => exact ⟨_, t1'⟩
  | none =>
  simp only
  obtain ⟨e2, t2⟩ := InspectContainer_trace H ctx id s1
  rcases hm2 : DockerManager.InspectContainer H ctx id s1 with ⟨r2, s2⟩
  rw [hm2] at t2
  simp only at t2
  have u2 := trace_step t1' t2
  cases r2 with
  | error e => exact ⟨_, u2⟩
  | ok insp =>
  simp only
  cases H.jsonMarshalIndent insp containerSpecJsonSerializationPrefix
      containerSpecJsonSerializationIndent with
  | error e => exact ⟨_, u2⟩
  | ok spec =>
  simp only
  obtain ⟨e4, t4⟩ := ioutilWriteFile_trace H
    (pathJoin (pathJoin out name) containerInspectResultFilename) spec createdFilePerms s2
  rcases hm4 : ioutilWriteFile H (pathJoin (pathJoin out name) containerInspectResultFilename)
    spec createdFilePerms s2 with ⟨r4, s4⟩
  rw [hm4] at t4
  simp only at t4
  have u4 := trace_step u2 t4
  cases r4 with
  | some e => exact ⟨_, u4⟩
  | none =>
  simp only
  obtain ⟨e5, t5⟩ := GetContainerLogs_trace H ctx id shouldFollowContainerLogsWhenDumping s4
  rcases hm5 : DockerManager.GetContainerLogs H ctx id shouldFollowContainerLogsWhenDumping
    s4 with ⟨r5, s5⟩
  rw [hm5] at t5
  simp only at t5
  have u5 := trace_step u4 t5
  cases r5 with
  | error e => exact ⟨_, u5⟩
  | ok logs =>
  simp only
  obtain ⟨e6, t6⟩ := osCreate_trace H (pathJoin (pathJoin out name) containerLogsFilename) s5
  rcases hm6 : osCreate H (pathJoin (pathJoin out name) containerLogsFilename) s5 with
    ⟨r6, s6⟩
  rw [hm6] at t6
  simp only at t6
  have u6 := trace_step u5 t6
  cases r6 with
  | error e => exact ⟨_, u6⟩
  | ok fp =>
  simp only
  by_cases htty : insp.Tty = true
  · simp only [htty, if_true]
    obtain ⟨e7, t7⟩ := ioCopy_trace H fp logs s6
    rcases hm7 : ioCopy H fp logs s6 with ⟨r7, s7⟩
    rw [hm7] at t7
    simp only at t7
    have u7 := trace_step u6 t7
    cases r7 <;> exact ⟨_, u7⟩
  · simp only [htty]
    obtain ⟨e7, t7⟩ := StdCopy_trace H fp fp logs s6
    rcases hm7 : stdcopy.StdCopy H fp fp logs s6 with ⟨r7, s7⟩
    rw [hm7] at t7
    simp only at t7
    have u7 := trace_step u6 t7
    cases r7 <;> exact ⟨_, u7⟩

/-! ## The jobs of `DumpEnclave` -/

/-- The jobs of the pool: the channel gets the errors of the failed jobs, in order. -/
theorem runJobs_fst (H : HostEnv) (ctx : Ctx) (out : Path) (cs : List Container)
    (chan : List GoError) (h : Host) :
    (DumpEnclave.runJobs H ctx out cs chan h).1 =
      chan ++ failedJobs (jobOutcomes H ctx out cs h) := by
  induction cs generalizing chan h with
  | nil => simp [DumpEnclave.runJobs, jobOutcomes, failedJobs]
  | cons c cs ih =>
    simp only [DumpEnclave.runJobs, createDumpContainerJob, jobOutcomes]
    rcases hd : dumpContainerInfo H ctx out c.name c.id h with ⟨r, s⟩
    cases r with
    | some e =>
      simp only [ih]
      simp [failedJobs, jobError]
    | none =>
      simp only [ih]
      simp [failedJobs]

/-- The jobs of the pool: every container of the list gets its directory creation issued. -/
theorem runJobs_trace (H : HostEnv) (ctx : Ctx) (out : Path) (cs : List Container)
    (chan : List GoError) (h : Host) :
    ∃ evs, (DumpEnclave.runJobs H ctx out cs chan h).2.trace = h.trace ++ evs ∧
      ∀ c ∈ cs, ∃ r, (⟨.Mkdir (pathJoin out c.name) createdDirPerms, r⟩ : HostEvent) ∈ evs := by
  induction cs generalizing chan h with
  | nil => exact ⟨[], by simp [DumpEnclave.runJobs], by simp⟩
  | cons c cs ih =>
    simp only [DumpEnclave.runJobs, createDumpContainerJob]
    obtain ⟨r, e1, t1⟩ := dumpContainerInfo_trace H ctx out c.name c.id h
    rcases hd : dumpContainerInfo H ctx out c.name c.id h with ⟨r1, s⟩
    rw [hd] at t1
    simp only at t1
    have key : ∀ chan', ∃ evs, (DumpEnclave.runJobs H ctx out cs chan' s).2.trace =
        h.trace ++ evs ∧ ∀ c' ∈ c :: cs,
          ∃ r, (⟨.Mkdir (pathJoin out c'.name) createdDirPerms, r⟩ : HostEvent) ∈ evs := by
      intro chan'
      obtain ⟨evs, t2, hall⟩ := ih chan' s
      refine ⟨⟨.Mkdir (pathJoin out c.name) createdDirPerms, r⟩ :: (e1 ++ evs),
        trace_step t1 t2, ?_⟩
      intro c' hc'
      rcases List.mem_cons.mp hc' with rfl | hc'
      · exact ⟨r, List.mem_cons_self _ _⟩
      · obtain ⟨r', hr'⟩ := hall c' hc'
        exact ⟨r', List.mem_cons_of_mem _ (List.mem_append_right _ hr')⟩
    cases r1 with
    | some e => exact key _
    | none => exact key _

/-! ## `DumpEnclave` -/

theorem osStat_notExist_iff (H : HostEnv) (p : Path) (h : Host) :
    osIsNotExist (osStat H p h).1 = true ↔
      H.hostFails (.Stat p) = none ∧ h.files.get? p = none := by
  unfold osStat
  cases hf : H.hostFails (.Stat p) with
  | some msg => simp [osIsNotExist]
  | none =>
    cases hg : h.files.get? p with
    | some n => simp [osIsNotExist]
    | none => simp [osIsNotExist]

theorem osStat_snd (H : HostEnv) (p : Path) (h : Host) :
    ∃ r, (osStat H p h).2 =
      { docker := h.docker, files := h.files, trace := h.trace ++ [⟨.Stat p, r⟩] } := by
  unfold osStat
  cases hf : H.hostFails (.Stat p) with
  | some msg => exact ⟨_, rfl⟩
  | none =>
    cases hg : h.files.get? p with
    | some n => exact ⟨_, rfl⟩
    | none => exact ⟨_, rfl⟩

theorem GetContainersByLabels_dump (E : Env) (ctx : Ctx) (u : EnclaveUUID) (d : Docker) :
    DockerManager.GetContainersByLabels E ctx
        [(AppIDDockerLabelKey, AppIDDockerLabelValue), (EnclaveUUIDDockerLabelKey, u)]
        shouldFetchStoppedContainersWhenDumpingEnclave d =
      ((match E.fails ctx (.GetContainersByLabels (searchLabelsOf u) true) with
        | some msg => .error (.driver msg)
        | none => .ok (containersOf d u)),
       d.emit ctx (.GetContainersByLabels (searchLabelsOf u) true)
         (E.fails ctx (.GetContainersByLabels (searchLabelsOf u) true))) := by
  unfold DockerManager.GetContainersByLabels shouldFetchStoppedContainersWhenDumpingEnclave
    searchLabelsOf containersOf
  cases hf : E.fails ctx (.GetContainersByLabels
      [(AppIDDockerLabelKey, AppIDDockerLabelValue), (EnclaveUUIDDockerLabelKey, u)] true) with
  | some msg => rfl
  | none => simp only [Bool.true_or, Bool.and_true]

/-- The result and the final state of `DumpEnclave` once the containers were listed and the
output directory was created: the jobs of all the containers run, and the errors of the channel
make the one error returned. -/
theorem DumpEnclave_run (H : HostEnv) (ctx : Ctx) (u : EnclaveUUID) (out : Path) (h : Host)
    (hlist : H.driver.fails ctx (.GetContainersByLabels (searchLabelsOf u) true) = none)
    (hstat : H.hostFails (.Stat out) = none) (hnew : h.files.get? out = none)
    (hmk : H.hostFails (.Mkdir out createdDirPerms) = none)
    (hparent : h.files.get? out.dropLast = some .dir) :
    DumpEnclave H ctx u out h =
      (if ((failedJobs (jobOutcomes H ctx out (containersOf h.docker u)
            (afterOutputDir ctx u out h))).map GoError.Error).length > 0 then
          some (.driver ("The following errors occurred when trying to dump information about " ++
            "enclave '" ++ u ++ "':\n" ++ stringsJoin (DumpEnclave.indexErrStrs 0
              ((failedJobs (jobOutcomes H ctx out (containersOf h.docker u)
                (afterOutputDir ctx u out h))).map GoError.Error)) "\n\n"))
        else none,
       (DumpEnclave.runJobs H ctx out (containersOf h.docker u) []
          (afterOutputDir ctx u out h)).2) := by
  simp only [DumpEnclave, GetContainersByLabels_dump, hlist]
  have hs : osStat H out (Host.mk (h.docker.emit ctx (.GetContainersByLabels (searchLabelsOf u) true) none)
      h.files h.trace) =
      (some .notExist, (Host.mk (h.docker.emit ctx (.GetContainersByLabels (searchLabelsOf u) true) none)
        h.files (h.trace ++ [⟨.Stat out, some "no such file or directory"⟩]))) := by
    simp only [osStat, hstat, hnew]
    rfl
  simp only [hs, osIsNotExist, Bool.not_true, Bool.false_eq_true, if_false]
  have hm : osMkdir H out createdDirPerms (Host.mk (h.docker.emit ctx (.GetContainersByLabels (searchLabelsOf u) true) none)
        h.files (h.trace ++ [⟨.Stat out, some "no such file or directory"⟩])) =
      (none, afterOutputDir ctx u out h) := by
    simp only [osMkdir, hmk, hnew, hparent, Option.isSome_none, Bool.false_eq_true, if_false,
      ne_eq, not_true_eq_false]
    simp [afterOutputDir, Host.emit]
  simp only [hm]
  have hfst := runJobs_fst H ctx out (containersOf h.docker u) [] (afterOutputDir ctx u out h)
  rcases hr : DumpEnclave.runJobs H ctx out (containersOf h.docker u) []
    (afterOutputDir ctx u out h) with ⟨chan, hfin⟩
  rw [hr] at hfst
  simp only [List.nil_append] at hfst
  subst hfst
  simp only
  by_cases hl : ((failedJobs (jobOutcomes H ctx out (containersOf h.docker u)
      (afterOutputDir ctx u out h))).map GoError.Error).length > 0
  · rw [if_pos hl, if_pos hl]
  · rw [if_neg hl, if_neg hl]

/-- A run of `DumpEnclave` that returns no error listed the containers, found no output
directory and created it. -/
theorem DumpEnclave_ok_inv (H : HostEnv) (ctx : Ctx) (u : EnclaveUUID) (out : Path) (h : Host)
    (hok : (DumpEnclave H ctx u out h).1 = none) :
    H.driver.fails ctx (.GetContainersByLabels (searchLabelsOf u) true) = none ∧
    H.hostFails (.Stat out) = none ∧ h.files.get? out = none ∧
    H.hostFails (.Mkdir out createdDirPerms) = none ∧
    h.files.get? out.dropLast = some .dir := by
  simp only [DumpEnclave, GetContainersByLabels_dump] at hok
  cases hlist : H.driver.fails ctx (.GetContainersByLabels (searchLabelsOf u) true) with
  | some msg =>
    rw [hlist] at hok
    simp at hok
  | none =>
    rw [hlist] at hok
    simp only at hok
    have hiff := osStat_notExist_iff H out (Host.mk (h.docker.emit ctx (.GetContainersByLabels (searchLabelsOf u) true) none)
      h.files h.trace)
    obtain ⟨r, hsnd⟩ := osStat_snd H out (Host.mk (h.docker.emit ctx (.GetContainersByLabels (searchLabelsOf u) true) none)
      h.files h.trace)
    rcases hs : osStat H out (Host.mk (h.docker.emit ctx (.GetContainersByLabels (searchLabelsOf u) true) none)
      h.files h.trace) with ⟨e, s⟩
    rw [hs] at hok hiff hsnd
    simp only at hok hiff hsnd
    by_cases hne : osIsNotExist e = true
    · obtain ⟨hstat, hnew⟩ := hiff.mp hne
      simp only [hne, Bool.not_true, Bool.false_eq_true, if_false] at hok
      have k := osMkdir_ok H out createdDirPerms s
      rcases hm : osMkdir H out createdDirPerms s with ⟨r1, s1⟩
      rw [hm] at hok k
      cases r1 with
      | some e1 => simp at hok
      | none =>
        obtain ⟨_, hpar, _⟩ := k rfl
        rw [hsnd] at hpar
        refine ⟨rfl, hstat, hnew, ?_, hpar⟩
        cases hf : H.hostFails (.Mkdir out createdDirPerms) with
        | none => rfl
        | some msg =>
          simp [osMkdir, hf] at hm
    · simp [hne] at hok

/-! ## C23: an output path that exists -/

/-- C23: for every enclave UUID and every output path that exists on the file system,
`DumpEnclave` returns an error, leaves the file system as it was (it creates no directory and
no file), and the only call it makes to the host is the `os.Stat` of the output path: it
inspects no container and reads no container logs.  The engine only saw the container
listing that precedes the check. -/
theorem DumpEnclave_output_exists (H : HostEnv) (ctx : Ctx) (u : EnclaveUUID) (out : Path)
    (h : Host) (hex : (h.files.get? out).isSome = true) :
    (∃ e, (DumpEnclave H ctx u out h).1 = some e) ∧
    (DumpEnclave H ctx u out h).2.files = h.files ∧
    (∃ evs, (DumpEnclave H ctx u out h).2.trace = h.trace ++ evs ∧
      ∀ ev ∈ evs, ev.call = .Stat out) ∧
    (DumpEnclave H ctx u out h).2.docker =
      h.docker.emit ctx (.GetContainersByLabels (searchLabelsOf u) true)
        (H.driver.fails ctx (.GetContainersByLabels (searchLabelsOf u) true)) := by
  obtain ⟨n, hn⟩ := Option.isSome_iff_exists.mp hex
  simp only [DumpEnclave, GetContainersByLabels_dump]
  cases hlist : H.driver.fails ctx (.GetContainersByLabels (searchLabelsOf u) true) with
  | some msg =>
    exact ⟨⟨_, rfl⟩, rfl, ⟨[], by simp, by simp⟩, rfl⟩
  | none =>
    simp only
    cases hstat : H.hostFails (.Stat out) with
    | some msg =>
      simp only [osStat, hstat, osIsNotExist, Host.emit, Bool.not_false, if_true]
      exact ⟨⟨_, rfl⟩, trivial, ⟨[⟨.Stat out, some msg⟩], rfl, by simp⟩, trivial⟩
    | none =>
      simp only [osStat, hstat, hn, osIsNotExist, Host.emit, Bool.not_false, if_true]
      exact ⟨⟨_, rfl⟩, trivial, ⟨[⟨.Stat out, none⟩], rfl, by simp⟩, trivial⟩

set_option maxRecDepth 100000 in
/-- C23, witness: dumping the enclave `a` of `sampleDocker` to the existing path `/tmp` returns
the error that the directory already exists and leaves the file system as it was. -/
theorem DumpEnclave_output_exists_witness :
    (DumpEnclave sampleHostEnv (.request 1) "a" ["tmp"] sampleHost).1 =
      some (.NewError "Cannot create output directory at '/tmp'; directory already exists") ∧
    (DumpEnclave sampleHostEnv (.request 1) "a" ["tmp"] sampleHost).2.files = sampleHost.files ∧
    (∃ evs, (DumpEnclave sampleHostEnv (.request 1) "a" ["tmp"] sampleHost).2.trace =
      sampleHost.trace ++ evs ∧ ∀ ev ∈ evs, ev.call = .Stat ["tmp"]) :=
  ⟨by decide,
   (DumpEnclave_output_exists sampleHostEnv (.request 1) "a" ["tmp"] sampleHost (by decide)).2.1,
   (DumpEnclave_output_exists sampleHostEnv (.request 1) "a" ["tmp"] sampleHost
     (by decide)).2.2.1⟩

/-! ## The jobs of `DumpEnclave` -/

theorem jobOutcomes_fst (H : HostEnv) (ctx : Ctx) (out : Path) (cs : List Container)
    (h : Host) : (jobOutcomes H ctx out cs h).map Prod.fst = cs := by
  induction cs generalizing h with
  | nil => rfl
  | cons c cs ih => simp [jobOutcomes, ih]

theorem failedJobs_eq_nil_iff (outs : List (Container × Option GoError)) :
    failedJobs outs = [] ↔ ∀ o ∈ outs, o.2 = none := by
  induction outs with
  | nil => simp [failedJobs]
  | cons o outs ih =>
    obtain ⟨c, r⟩ := o
    cases r with
    | none =>
      simp only [failedJobs, List.filterMap_cons, Option.map_none', List.mem_cons,
        forall_eq_or_imp, true_and]
      exact ih
    | some e => simp [failedJobs]

theorem indexErrStrs_getElem? (k : Nat) (l : List String) (i : Nat) :
    (DumpEnclave.indexErrStrs k l)[i]? =
      (l[i]?).map (fun s => ">>>>>>>>>>>>>>>>> ERROR " ++ toString (k + i) ++
        " <<<<<<<<<<<<<<<<<\n" ++ s) := by
  induction l generalizing k i with
  | nil => simp [DumpEnclave.indexErrStrs]
  | cons s l ih =>
    cases i with
    | zero => simp [DumpEnclave.indexErrStrs]
    | succ i =>
      simp only [DumpEnclave.indexErrStrs, List.getElem?_cons_succ, ih]
      have : k + 1 + i = k + (i + 1) := by omega
      rw [this]

/-! ## C24: the aggregate error of a dump -/

/-- C24: when the containers of the enclave were listed and the output directory was created,
`DumpEnclave` runs the dump job of every container of the enclave, each one starting with the
creation of the directory of its container whatever the other jobs returned; it returns nil
if and only if the dump of every container succeeded, and otherwise one aggregate error whose
message is the heading naming the enclave followed by one entry per failed job, in order, the
entry of index `i` being the index line followed by the message of the error of the job. -/
theorem DumpEnclave_aggregate_error (H : HostEnv) (ctx : Ctx) (u : EnclaveUUID) (out : Path)
    (h : Host)
    (hlist : H.driver.fails ctx (.GetContainersByLabels (searchLabelsOf u) true) = none)
    (hstat : H.hostFails (.Stat out) = none) (hnew : h.files.get? out = none)
    (hmk : H.hostFails (.Mkdir out createdDirPerms) = none)
    (hparent : h.files.get? out.dropLast = some .dir) :
    (jobOutcomes H ctx out (containersOf h.docker u) (afterOutputDir ctx u out h)).map Prod.fst =
      containersOf h.docker u ∧
    (∃ evs, (DumpEnclave H ctx u out h).2.trace = (afterOutputDir ctx u out h).trace ++ evs ∧
      ∀ c ∈ containersOf h.docker u,
        ∃ r, (⟨.Mkdir (pathJoin out c.name) createdDirPerms, r⟩ : HostEvent) ∈ evs) ∧
    ((DumpEnclave H ctx u out h).1 = none ↔
      ∀ o ∈ jobOutcomes H ctx out (containersOf h.docker u) (afterOutputDir ctx u out h),
        o.2 = none) ∧
    ((DumpEnclave H ctx u out h).1 ≠ none →
      (DumpEnclave H ctx u out h).1 = some (.driver
        ("The following errors occurred when trying to dump information about " ++
          "enclave '" ++ u ++ "':\n" ++ stringsJoin (DumpEnclave.indexErrStrs 0
            ((failedJobs (jobOutcomes H ctx out (containersOf h.docker u)
              (afterOutputDir ctx u out h))).map GoError.Error)) "\n\n"))) ∧
    (∀ i : Nat, (DumpEnclave.indexErrStrs 0
        ((failedJobs (jobOutcomes H ctx out (containersOf h.docker u)
          (afterOutputDir ctx u out h))).map GoError.Error))[i]? =
      ((failedJobs (jobOutcomes H ctx out (containersOf h.docker u)
          (afterOutputDir ctx u out h)))[i]?).map (fun (e : GoError) =>
        ">>>>>>>>>>>>>>>>> ERROR " ++ toString i ++ " <<<<<<<<<<<<<<<<<\n" ++ e.Error)) ∧
    failedJobs (jobOutcomes H ctx out (containersOf h.docker u) (afterOutputDir ctx u out h)) =
      (jobOutcomes H ctx out (containersOf h.docker u) (afterOutputDir ctx u out h)).filterMap
        (fun o => o.2.map (fun e => GoError.Propagate e
          ("An error occurred dumping container info for container with name '" ++
            o.1.name ++ "' and ID '" ++ o.1.id ++ "'"))) := by
  have hrun := DumpEnclave_run H ctx u out h hlist hstat hnew hmk hparent
  refine ⟨jobOutcomes_fst _ _ _ _ _, ?_, ?_, ?_, ?_, rfl⟩
  · rw [hrun]
    exact runJobs_trace H ctx out (containersOf h.docker u) [] (afterOutputDir ctx u out h)
  · rw [hrun, ← failedJobs_eq_nil_iff]
    simp only [List.length_map, gt_iff_lt, List.length_pos]
    by_cases hf : failedJobs (jobOutcomes H ctx out (containersOf h.docker u)
        (afterOutputDir ctx u out h)) = []
    · simp [hf]
    · simp [hf]
  · rw [hrun]
    simp only [List.length_map, gt_iff_lt, List.length_pos]
    by_cases hf : failedJobs (jobOutcomes H ctx out (containersOf h.docker u)
        (afterOutputDir ctx u out h)) = []
    · simp [hf]
    · simp [hf]
  · intro i
    rw [indexErrStrs_getElem?]
    simp only [List.getElem?_map, Option.map_map, Nat.zero_add]
    rfl

set_option maxRecDepth 100000 in
/-- C24, witness: when only inspecting the first container `ca1` of the enclave `a` fails, the
dump of the second container `ca2` still runs and writes its files, and `DumpEnclave` returns
the aggregate error with the single entry of index 0. -/
theorem DumpEnclave_aggregate_error_witness :
    (DumpEnclave sampleInspectFailsEnv (.request 1) "a" ["tmp", "dump"] sampleHost).1 =
      some (.driver ("The following errors occurred when trying to dump information about " ++
        "enclave 'a':\n>>>>>>>>>>>>>>>>> ERROR 0 <<<<<<<<<<<<<<<<<\n" ++
        "An error occurred dumping container info for container with name 'api' and ID 'ca1'\n" ++
        "Caused by: An error occurred inspecting container with ID 'ca1'\nCaused by: gone")) ∧
    (DumpEnclave sampleInspectFailsEnv (.request 1) "a" ["tmp", "dump"] sampleHost).2.files.get?
      ["tmp", "dump", "web", "output.log"] = some (.file [111, 107, 33]) ∧
    ((DumpEnclave sampleInspectFailsEnv (.request 1) "a" ["tmp", "dump"] sampleHost).1 = none ↔
      ∀ o ∈ jobOutcomes sampleInspectFailsEnv (.request 1) ["tmp", "dump"]
        (containersOf sampleHost.docker "a") (afterOutputDir (.request 1) "a" ["tmp", "dump"]
          sampleHost), o.2 = none) :=
  ⟨by decide, by decide,
   (DumpEnclave_aggregate_error sampleInspectFailsEnv (.request 1) "a" ["tmp", "dump"]
     sampleHost rfl rfl rfl rfl rfl).2.2.1⟩

/-! ## The files of one dumped container -/

theorem get?_dumpedFiles (fs : FileSystem) (out : Path) (name : String) (spec log : Bytes)
    (q : Path) :
    (GoMap.setAll fs (dumpedFiles out name spec log)).get? q =
      if pathJoin (pathJoin out name) containerLogsFilename = q then some (.file log)
      else if pathJoin (pathJoin out name) containerInspectResultFilename = q then
        some (.file spec)
      else if pathJoin out name = q then some .dir
      else fs.get? q := by
  simp only [dumpedFiles, GoMap.setAll_cons, GoMap.setAll_nil, GoMap.get?_set]

theorem frameSize_header (n : Nat) (hn : n < 4294967296) :
    frameSize (n / 16777216 % 256) (n / 65536 % 256) (n / 256 % 256) (n % 256) = n := by
  unfold frameSize
  omega

theorem muxFrames_length (frames : List (Nat × Bytes)) :
    frames.length ≤ (muxFrames frames).length := by
  induction frames with
  | nil => simp
  | cons f frames ih =>
    obtain ⟨fd, payload⟩ := f
    simp only [muxFrames, frameHeader, List.length_append, List.length_cons, List.length_nil]
    omega

/-- Demultiplexing the stream of a list of frames of the streams 0 to 2 gives the payloads of
the frames, in order. -/
theorem demuxPayloads_muxFrames (frames : List (Nat × Bytes))
    (hf : ∀ f ∈ frames, f.1 ≤ 2 ∧ f.2.length < 4294967296) (fuel : Nat)
    (hfuel : frames.length ≤ fuel) :
    demuxPayloads fuel (muxFrames frames) = frames.flatMap Prod.snd := by
  induction frames generalizing fuel with
  | nil => cases fuel <;> simp [demuxPayloads, muxFrames]
  | cons f frames ih =>
    obtain ⟨fd, payload⟩ := f
    cases fuel with
    | zero => simp at hfuel
    | succ fuel =>
      have h1 := hf (fd, payload) (List.mem_cons_self _ _)
      have h2 : ¬ fd > 3 := by omega
      have h3 : ¬ fd = 3 := by omega
      have h4 : ¬ (payload ++ muxFrames frames).length < payload.length := by
        simp only [List.length_append]
        omega
      simp only [muxFrames, frameHeader, List.cons_append, List.nil_append, demuxPayloads,
        frameSize_header _ h1.2, List.append_assoc]
      rw [if_neg h2, if_neg h4, if_neg h3, List.take_left, List.drop_left,
        ih (fun f hm => hf f (List.mem_cons_of_mem _ hm)) fuel (by simpa using hfuel)]
      simp [List.flatMap_cons]

/-! ## C25: the log decoding rule -/

/-- C25: after a dump of one container that returns no error, the file `output.log` of the
container holds the log stream byte for byte when the inspect result has the TTY flag set;
when the flag is not set and the stream is the multiplexed stream of a list of frames of
standard output (1) and standard error (2), the file holds the payloads of all the frames, of
both streams, in the order of the stream. -/
theorem dumpContainerInfo_log_decoding (H : HostEnv) (ctx : Ctx) (out : Path)
    (name id : String) (h : Host) (hok : (dumpContainerInfo H ctx out name id h).1 = none) :
    ((H.InspectContainer id).Tty = true →
      (dumpContainerInfo H ctx out name id h).2.files.get?
        (pathJoin (pathJoin out name) containerLogsFilename) =
          some (.file (H.GetContainerLogs id))) ∧
    ((H.InspectContainer id).Tty = false →
      ∀ frames : List (Nat × Bytes), H.GetContainerLogs id = muxFrames frames →
        (∀ f ∈ frames, (f.1 = 1 ∨ f.1 = 2) ∧ f.2.length < 4294967296) →
        (dumpContainerInfo H ctx out name id h).2.files.get?
          (pathJoin (pathJoin out name) containerLogsFilename) =
            some (.file (frames.flatMap Prod.snd))) := by
  obtain ⟨_, _, _, _, hfiles⟩ := dumpContainerInfo_ok H ctx out name id h hok
  rw [hfiles, get?_dumpedFiles, if_pos rfl]
  constructor
  · intro htty
    simp [decodedLogs, htty]
  · intro htty frames hlogs hf
    simp only [decodedLogs, htty, Bool.false_eq_true, if_false, hlogs]
    rw [demuxPayloads_muxFrames frames (fun f hm => ⟨by have := (hf f hm).1; omega, (hf f hm).2⟩)
      _ (Nat.le_succ_of_le (muxFrames_length frames))]

set_option maxRecDepth 100000 in
/-- C25, witness: the dump of the container `ca2` of `sampleDocker`, without TTY and with a
log of one frame of standard output `ok` followed by one of standard error `!`, writes `ok!`
to its `output.log`. -/
theorem dumpContainerInfo_log_decoding_witness :
    (dumpContainerInfo sampleHostEnv (.request 1) ["tmp"] "web" "ca2" sampleHost).1 = none ∧
    (sampleHostEnv.InspectContainer "ca2").Tty = false ∧
    (dumpContainerInfo sampleHostEnv (.request 1) ["tmp"] "web" "ca2" sampleHost).2.files.get?
      ["tmp", "web", "output.log"] = some (.file [111, 107, 33]) :=
  ⟨by decide, by decide,
   (dumpContainerInfo_log_decoding sampleHostEnv (.request 1) ["tmp"] "web" "ca2" sampleHost
     (by decide)).2 (by decide) [(1, [111, 107]), (2, [33])] (by decide) (by decide)⟩

/-! ## The tree of a dump -/

theorem mem_keys_dumpedTree (H : HostEnv) (out : Path) (cs : List Container) (q : Path) :
    q ∈ GoMap.keys (dumpedTree H out cs) ↔
      ∃ c ∈ cs, q = pathJoin out c.name ∨
        q = pathJoin (pathJoin out c.name) containerInspectResultFilename ∨
        q = pathJoin (pathJoin out c.name) containerLogsFilename := by
  simp only [GoMap.keys, dumpedTree, dumpedFiles, List.map_flatMap, List.map_cons, List.map_nil,
    List.mem_flatMap, List.mem_cons, List.mem_singleton, List.not_mem_nil, or_false]

theorem get?_prefix_none (fs : FileSystem) (hwf : FileSystem.WellFormed fs) (out : Path)
    (hnew : fs.get? out = none) (s : List String) : fs.get? (out ++ s) = none := by
  induction s using List.reverseRecOn with
  | nil => simpa using hnew
  | append_singleton s x ih =>
    cases hq : fs.get? (out ++ (s ++ [x])) with
    | none => rfl
    | some n =>
      have hsome : (fs.get? ((out ++ s) ++ [x])).isSome := by
        rw [List.append_assoc, hq]
        rfl
      rw [hwf (out ++ s) x hsome] at ih
      cases ih

theorem get?_dumpedTree (H : HostEnv) (out : Path) (cs : List Container) (fs : FileSystem)
    (hn : (cs.map Container.name).Nodup) (c : Container) (hc : c ∈ cs) :
    (GoMap.setAll fs (dumpedTree H out cs)).get? (pathJoin out c.name) = some .dir ∧
    (GoMap.setAll fs (dumpedTree H out cs)).get?
      (pathJoin (pathJoin out c.name) containerInspectResultFilename) =
        some (.file (specBytes H c.id)) ∧
    (GoMap.setAll fs (dumpedTree H out cs)).get?
      (pathJoin (pathJoin out c.name) containerLogsFilename) =
        some (.file (decodedLogs H c.id)) := by
  induction cs generalizing fs with
  | nil => simp at hc
  | cons c0 rest ih =>
    simp only [List.map_cons, List.nodup_cons, List.mem_map, not_exists, not_and] at hn
    have htree : dumpedTree H out (c0 :: rest) =
        dumpedFiles out c0.name (specBytes H c0.id) (decodedLogs H c0.id) ++
          dumpedTree H out rest := by
      simp [dumpedTree, List.flatMap_cons]
    rw [htree, GoMap.setAll_append]
    by_cases hcr : c ∈ rest
    · exact ih _ hn.2 hcr
    · have hc0 : c = c0 := by
        rcases List.mem_cons.mp hc with h | h
        · exact h
        · exact absurd h hcr
      subst hc0
      have hnot : ∀ q, (q = pathJoin out c.name ∨
          q = pathJoin (pathJoin out c.name) containerInspectResultFilename ∨
          q = pathJoin (pathJoin out c.name) containerLogsFilename) →
          q ∉ GoMap.keys (dumpedTree H out rest) := by
        intro q hq hmem
        obtain ⟨c', hc', hq'⟩ := (mem_keys_dumpedTree H out rest q).mp hmem
        have hne := hn.1 c' hc'
        simp only [pathJoin, containerInspectResultFilename, containerLogsFilename] at hq hq'
        rcases hq with h | h | h <;> rcases hq' with h' | h' | h' <;>
          · rw [h] at h'
            simp [List.append_assoc] at h' <;> exact hne h'.symm
      refine ⟨?_, ?_, ?_⟩
      · rw [GoMap.get?_setAll_not_mem _ _ _ (hnot _ (Or.inl rfl)), get?_dumpedFiles]
        simp [pathJoin, containerInspectResultFilename, containerLogsFilename]
      · rw [GoMap.get?_setAll_not_mem _ _ _ (hnot _ (Or.inr (Or.inl rfl))), get?_dumpedFiles]
        simp [pathJoin, containerInspectResultFilename, containerLogsFilename]
      · rw [GoMap.get?_setAll_not_mem _ _ _ (hnot _ (Or.inr (Or.inr rfl))), get?_dumpedFiles]
        simp [pathJoin, containerInspectResultFilename, containerLogsFilename]

/-- When every job of the list succeeds, the names of the containers are pairwise distinct,
none of their directories existed, every inspect result was serialized, and the run leaves
the file system with the nodes of the dumps set. -/
theorem runJobs_ok (H : HostEnv) (ctx : Ctx) (out : Path) (cs : List Container)
    (chan : List GoError) (h : Host)
    (hall : ∀ o ∈ jobOutcomes H ctx out cs h, o.2 = none) :
    (cs.map Container.name).Nodup ∧
    (∀ c ∈ cs, h.files.get? (pathJoin out c.name) = none) ∧
    (∀ c ∈ cs, ∃ spec, H.jsonMarshalIndent (H.InspectContainer c.id)
      containerSpecJsonSerializationPrefix containerSpecJsonSerializationIndent = .ok spec) ∧
    (DumpEnclave.runJobs H ctx out cs chan h).2.files =
      GoMap.setAll h.files (dumpedTree H out cs) ∧
    (DumpEnclave.runJobs H ctx out cs chan h).2.docker = h.docker := by
  induction cs generalizing chan h with
  | nil => simp [DumpEnclave.runJobs, dumpedTree, GoMap.setAll_nil]
  | cons c rest ih =>
    simp only [jobOutcomes, List.mem_cons, forall_eq_or_imp] at hall
    obtain ⟨hok, hrest⟩ := hall
    obtain ⟨hnone, _, hspec, hdock, hfiles⟩ := dumpContainerInfo_ok H ctx out c.name c.id h hok
    obtain ⟨hn, hnew, hsp, hf, hd⟩ := ih chan _ hrest
    have htree : dumpedTree H out (c :: rest) =
        dumpedFiles out c.name (specBytes H c.id) (decodedLogs H c.id) ++
          dumpedTree H out rest := by
      simp [dumpedTree, List.flatMap_cons]
    have hrun : DumpEnclave.runJobs H ctx out (c :: rest) chan h =
        DumpEnclave.runJobs H ctx out rest chan (dumpContainerInfo H ctx out c.name c.id h).2 := by
      simp only [DumpEnclave.runJobs, createDumpContainerJob]
      rcases hr : dumpContainerInfo H ctx out c.name c.id h with ⟨r, s⟩
      rw [hr] at hok
      simp only at hok
      subst hok
      rfl
    have hself : (dumpContainerInfo H ctx out c.name c.id h).2.files.get?
        (pathJoin out c.name) = some .dir := by
      rw [hfiles, get?_dumpedFiles]
      simp [pathJoin, containerInspectResultFilename, containerLogsFilename]
    refine ⟨?_, ?_, ?_, ?_, ?_⟩
    · simp only [List.map_cons, List.nodup_cons, List.mem_map, not_exists, not_and]
      refine ⟨?_, hn⟩
      intro c' hc' hname
      have := hnew c' hc'
      rw [hname, hself] at this
      cases this
    · intro c' hc'
      rcases List.mem_cons.mp hc' with h1 | h1
      · rw [h1]
        exact hnone
      · have := hnew c' h1
        rw [hfiles, get?_dumpedFiles] at this
        split at this
        · cases this
        · split at this
          · cases this
          · split at this
            · cases this
            · exact this
    · intro c' hc'
      rcases List.mem_cons.mp hc' with h1 | h1
      · rw [h1]
        exact hspec
      · exact hsp c' h1
    · rw [hrun, hf, hfiles, htree, GoMap.setAll_append]
    · rw [hrun, hd, hdock]

/-- A run of `DumpEnclave` that returns no error ran every job with success. -/
theorem DumpEnclave_ok_outcomes (H : HostEnv) (ctx : Ctx) (u : EnclaveUUID) (out : Path)
    (h : Host) (hok : (DumpEnclave H ctx u out h).1 = none) :
    (∀ o ∈ jobOutcomes H ctx out (containersOf h.docker u) (afterOutputDir ctx u out h),
      o.2 = none) ∧
    (DumpEnclave H ctx u out h).2 =
      (DumpEnclave.runJobs H ctx out (containersOf h.docker u) []
        (afterOutputDir ctx u out h)).2 := by
  obtain ⟨hlist, hstat, hnew, hmk, hparent⟩ := DumpEnclave_ok_inv H ctx u out h hok
  have hrun := DumpEnclave_run H ctx u out h hlist hstat hnew hmk hparent
  rw [hrun] at hok
  refine ⟨?_, by rw [hrun]⟩
  rw [← failedJobs_eq_nil_iff]
  simp only [List.length_map, gt_iff_lt, List.length_pos] at hok
  by_cases hf : failedJobs (jobOutcomes H ctx out (containersOf h.docker u)
      (afterOutputDir ctx u out h)) = []
  · exact hf
  · simp [hf] at hok

theorem sampleHost_wellFormed : FileSystem.WellFormed sampleHost.files := by
  intro p x hs
  have hp : p = [] := by
    cases p with
    | nil => rfl
    | cons a p =>
      cases p with
      | nil => simp [sampleHost, GoMap.get?] at hs
      | cons b p => simp [sampleHost, GoMap.get?] at hs
  subst hp
  rfl

/-! ## C26: the output tree of a dump -/

/-- C26: after a `DumpEnclave` of the enclave `u` to `out` that returns no error, on a file
system that is a tree, the containers of the enclave, whatever their status, have pairwise
distinct names; `out` is a directory whose entries are exactly the names of the containers of
the enclave; the entry of every container is a directory that holds `spec.json`, with the
inspect result serialized with the empty prefix and the indent of two spaces, and
`output.log`, with the decoded logs; and nothing else lies under the directory of a
container. -/
theorem DumpEnclave_output_tree (H : HostEnv) (ctx : Ctx) (u : EnclaveUUID) (out : Path)
    (h : Host) (hwf : FileSystem.WellFormed h.files)
    (hok : (DumpEnclave H ctx u out h).1 = none) :
    (∀ c, c ∈ containersOf h.docker u ↔
      c ∈ h.docker.containers ∧ hasLabels (searchLabelsOf u) c.labels = true) ∧
    ((containersOf h.docker u).map Container.name).Nodup ∧
    (DumpEnclave H ctx u out h).2.files.get? out = some .dir ∧
    (∀ x : String, ((DumpEnclave H ctx u out h).2.files.get? (pathJoin out x)).isSome = true ↔
      ∃ c ∈ containersOf h.docker u, c.name = x) ∧
    (∀ c ∈ containersOf h.docker u,
      (DumpEnclave H ctx u out h).2.files.get? (pathJoin out c.name) = some .dir ∧
      (∃ spec, H.jsonMarshalIndent (H.InspectContainer c.id) "" "  " = .ok spec ∧
        (DumpEnclave H ctx u out h).2.files.get? (pathJoin (pathJoin out c.name) "spec.json") =
          some (.file spec)) ∧
      (DumpEnclave H ctx u out h).2.files.get? (pathJoin (pathJoin out c.name) "output.log") =
        some (.file (decodedLogs H c.id)) ∧
      ∀ (y : String) (s : List String),
        ((DumpEnclave H ctx u out h).2.files.get?
          (pathJoin (pathJoin out c.name) y ++ s)).isSome = true →
        s = [] ∧ (y = "spec.json" ∨ y = "output.log")) := by
  obtain ⟨hlist, hstat, hnew, hmk, hparent⟩ := DumpEnclave_ok_inv H ctx u out h hok
  obtain ⟨hall, hsnd⟩ := DumpEnclave_ok_outcomes H ctx u out h hok
  obtain ⟨hn, _, hsp, hf, _⟩ := runJobs_ok H ctx out (containersOf h.docker u) []
    (afterOutputDir ctx u out h) hall
  have hfiles : (DumpEnclave H ctx u out h).2.files =
      GoMap.setAll (h.files.set out .dir) (dumpedTree H out (containersOf h.docker u)) := by
    rw [hsnd, hf]
    rfl
  -- the paths under `out` that exist after the dump
  have hunder : ∀ s : List String,
      ((DumpEnclave H ctx u out h).2.files.get? (out ++ s)).isSome = true →
      s = [] ∨ ∃ c ∈ containersOf h.docker u,
        s = [c.name] ∨ s = [c.name, "spec.json"] ∨ s = [c.name, "output.log"] := by
    intro s hs
    by_cases hmem : (out ++ s) ∈ GoMap.keys (dumpedTree H out (containersOf h.docker u))
    · obtain ⟨c, hc, hq⟩ := (mem_keys_dumpedTree H out _ _).mp hmem
      right
      refine ⟨c, hc, ?_⟩
      simpa [pathJoin, containerInspectResultFilename, containerLogsFilename,
        List.append_assoc] using hq
    · rw [hfiles, GoMap.get?_setAll_not_mem _ _ _ hmem, GoMap.get?_set] at hs
      by_cases hs0 : s = []
      · exact Or.inl hs0
      · have hne : ¬ out = out ++ s := by simpa using hs0
        rw [if_neg hne, get?_prefix_none h.files hwf out hnew s] at hs
        cases hs
  refine ⟨?_, hn, ?_, ?_, ?_⟩
  · intro c
    simp [containersOf, searchLabelsOf, List.mem_filter]
  · have hnot : out ∉ GoMap.keys (dumpedTree H out (containersOf h.docker u)) := by
      intro hmem
      obtain ⟨c, _, hq⟩ := (mem_keys_dumpedTree H out _ _).mp hmem
      simp [pathJoin, List.append_assoc] at hq
    rw [hfiles, GoMap.get?_setAll_not_mem _ _ _ hnot, GoMap.get?_set, if_pos rfl]
  · intro x
    constructor
    · intro hx
      rcases hunder [x] hx with h0 | ⟨c, hc, hq⟩
      · cases h0
      · refine ⟨c, hc, ?_⟩
        have hx' : x = c.name := by simpa using hq
        exact hx'.symm
    · rintro ⟨c, hc, rfl⟩
      rw [hfiles, (get?_dumpedTree H out _ _ hn c hc).1]
      rfl
  · intro c hc
    obtain ⟨h1, h2, h3⟩ := get?_dumpedTree H out (containersOf h.docker u)
      (h.files.set out .dir) hn c hc
    obtain ⟨spec, hspec⟩ := hsp c hc
    refine ⟨by rw [hfiles, h1], ⟨spec, hspec, ?_⟩, by rw [hfiles]; exact h3, ?_⟩
    · rw [hfiles]
      have : specBytes H c.id = spec := by
        simp only [specBytes, hspec]
      rw [← this]
      exact h2
    · intro y s hs
      have hpath : pathJoin (pathJoin out c.name) y ++ s = out ++ (c.name :: y :: s) := by
        simp [pathJoin, List.append_assoc]
      rw [hpath] at hs
      rcases hunder _ hs with h0 | ⟨c', _, hq⟩
      · cases h0
      · simp at hq
        rcases hq with ⟨_, hy, hs'⟩ | ⟨_, hy, hs'⟩
        · exact ⟨hs', Or.inl hy⟩
        · exact ⟨hs', Or.inr hy⟩

set_option maxRecDepth 100000 in
/-- C26, witness: the dump of the enclave `a` of `sampleDocker`, with the running container
`api` and the exited container `web`, to `/tmp/dump` returns no error and leaves under
`/tmp/dump` the directories `api` and `web`, each with its `spec.json` and `output.log`. -/
theorem DumpEnclave_output_tree_witness :
    (DumpEnclave sampleHostEnv (.request 1) "a" ["tmp", "dump"] sampleHost).1 = none ∧
    (DumpEnclave sampleHostEnv (.request 1) "a" ["tmp", "dump"] sampleHost).2.files =
      [([], .dir), (["tmp"], .dir), (["tmp", "dump"], .dir),
       (["tmp", "dump", "api"], .dir),
       (["tmp", "dump", "api", "spec.json"],
         .file [32, 32, 105, 109, 97, 103, 101, 58, 32, 99, 97, 49]),
       (["tmp", "dump", "api", "output.log"], .file [104, 105]),
       (["tmp", "dump", "web"], .dir),
       (["tmp", "dump", "web", "spec.json"],
         .file [32, 32, 105, 109, 97, 103, 101, 58, 32, 99, 97, 50]),
       (["tmp", "dump", "web", "output.log"], .file [111, 107, 33])] ∧
    (∀ x : String,
      ((DumpEnclave sampleHostEnv (.request 1) "a" ["tmp", "dump"] sampleHost).2.files.get?
        (pathJoin ["tmp", "dump"] x)).isSome = true ↔
      ∃ c ∈ containersOf sampleHost.docker "a", c.name = x) :=
  ⟨by decide, by decide,
   (DumpEnclave_output_tree sampleHostEnv (.request 1) "a" ["tmp", "dump"] sampleHost
     sampleHost_wellFormed (by decide)).2.2.2.1⟩

end Kurtosis
